import Mathlib

/-!
# Impact&SFX / SHVirtualInstrument : shallow embedding and verified properties

Modelling conventions used throughout this development.

* `float` values are exact rationals (`ℚ`): rounding error, NaN and infinities are not modelled.
* `int32` / `uint8` values are mathematical integers / naturals; no overflow is modelled.
* `TArray<T>` / `TArrayView<T>` are `List T`; a `TMap<K, V>` is an association list whose
  keys are kept distinct by the map operations.
* Transcendental kernels (`FMath::Exp`, `Sin`, `Cos`, `Pow`) and the per-voice modal audio
  kernels are parameters collected in `FPianoKernels`; all bookkeeping (maps, counters, indices,
  queues, guards) is embedded from the source.
-/

namespace ImpactSFX

/-! ## FMath helpers -/

/-- `FMath::Clamp(X, Min, Max)`, i.e. `Max(Min(X, Max), Min)`. -/
def Clamp {α : Type} [LinearOrder α] (X MinValue MaxValue : α) : α :=
  max (min X MaxValue) MinValue

/-- `FMath::RoundToInt32(F)`, i.e. `FloorToInt32(F + 0.5f)`. -/
def RoundToInt32 (F : ℚ) : Int := ⌊F + 1 / 2⌋

/-- `static_cast<int32>(float)`: truncation toward zero when the truncated value fits `int32`.
Outside `[-2^31, 2^31)` the C++ conversion is undefined; the value taken here is the one the
x86 conversion instruction (`cvttss2si`) returns, `INT_MIN = -2^31`. -/
def CastInt32 (F : ℚ) : Int :=
  let Truncated : Int := if 0 ≤ F then ⌊F⌋ else ⌈F⌉
  if -2147483648 ≤ Truncated ∧ Truncated ≤ 2147483647 then Truncated else -2147483648

/-- `FMath::IsNearlyEqual(A, B, Tolerance)`, i.e. `Abs(A - B) <= Tolerance`. -/
def IsNearlyEqual (A B Tolerance : ℚ) : Bool := decide (|A - B| ≤ Tolerance)

/-- `Audio::ArrayClampInPlace(Buffer, Min, Max)`. -/
def ArrayClampInPlace (Buffer : List ℚ) (MinValue MaxValue : ℚ) : List ℚ :=
  Buffer.map (fun x => Clamp x MinValue MaxValue)

/-- `Audio::ArrayMultiplyByConstantInPlace(Buffer, Value)`. -/
def ArrayMultiplyByConstantInPlace (Buffer : List ℚ) (Value : ℚ) : List ℚ :=
  Buffer.map (fun x => x * Value)

/-- `Audio::ArrayAddInPlace(In, Out)`: `Out[i] += In[i]` (over the common length, the rest of
`Out` is kept). -/
def ArrayAddInPlace (In Out : List ℚ) : List ℚ :=
  List.zipWith (fun o i => o + i) Out In ++ Out.drop In.length

/-- `Audio::ArraySubtractInPlace1(Out, In)`: `Out[i] -= In[i]`. -/
def ArraySubtractInPlace1 (Out In : List ℚ) : List ℚ :=
  List.zipWith (fun o i => o - i) Out In ++ Out.drop In.length

/-- `Audio::ArrayMultiplyInPlace(In, Out)`: `Out[i] *= In[i]`. -/
def ArrayMultiplyInPlace (In Out : List ℚ) : List ℚ :=
  List.zipWith (fun o i => o * i) Out In ++ Out.drop In.length

/-- `Audio::ArrayMultiplyAddInPlace(In, Gain, Out)`: `Out[i] += In[i] * Gain`. -/
def ArrayMultiplyAddInPlace (In : List ℚ) (Gain : ℚ) (Out : List ℚ) : List ℚ :=
  List.zipWith (fun o i => o + i * Gain) Out In ++ Out.drop In.length

/-- The view `Buffer.Slice(Index, Count)` as a list (indices clamped to the buffer). -/
def Slice (Buffer : List ℚ) (Index Count : Int) : List ℚ :=
  (Buffer.drop Index.toNat).take Count.toNat

/-- Write `New` back over `Buffer` starting at `Index` (the effect of mutating through a slice
view); the length of `Buffer` is preserved. -/
def WriteSlice (Buffer : List ℚ) (Index : Int) (New : List ℚ) : List ℚ :=
  Buffer.take Index.toNat
    ++ (New.take (Buffer.length - Index.toNat))
    ++ Buffer.drop (Index.toNat + New.length)

/-! ## TMap as an association list -/

/-- `FMidiVoiceId`: the Harmonix voice identifier (an integer id). -/
abbrev FMidiVoiceId := Nat

/-- `TMap<FMidiVoiceId, V>`. -/
abbrev TMap (V : Type) := List (FMidiVoiceId × V)

namespace TMap

variable {V : Type}

/-- The keys of the map, in iteration order. -/
def Keys (M : TMap V) : List FMidiVoiceId := M.map Prod.fst

/-- `TMap::Find`. -/
def Find (M : TMap V) (K : FMidiVoiceId) : Option V :=
  (M.find? (fun e => e.1 == K)).map Prod.snd

/-- `TMap::Contains`. -/
def Contains (M : TMap V) (K : FMidiVoiceId) : Bool := M.any (fun e => e.1 == K)

/-- `TMap::Remove`. -/
def Remove (M : TMap V) (K : FMidiVoiceId) : TMap V := M.filter (fun e => e.1 != K)

/-- `Map[K] = Value` for a key already present (no effect otherwise). -/
def Assign (M : TMap V) (K : FMidiVoiceId) (Value : V) : TMap V :=
  M.map (fun e => if e.1 == K then (e.1, Value) else e)

/-- `TMap::Emplace` / `TMap::Add`: replace the value of an existing key, else append. -/
def Emplace (M : TMap V) (K : FMidiVoiceId) (Value : V) : TMap V :=
  if Contains M K then Assign M K Value else M ++ [(K, Value)]

/-- `TMap::Num`. -/
def Num (M : TMap V) : Int := (M.length : Int)

end TMap

/-- `TArray::RemoveAtSwap(Index)`: the last element is moved into the hole. -/
def RemoveAtSwap {α : Type} (A : List α) (Index : Nat) : List α :=
  if Index + 1 < A.length then
    match A.getLast? with
    | some last => (A.set Index last).dropLast
    | none => A
  else if Index + 1 = A.length then A.dropLast
  else A

/-! ## Curve asset proxy (`FRCurveExtendAssetProxy`) -/

/-- `FRCurveExtendAssetProxy`: uniformly sampled curve. -/
structure FRCurveExtendAssetProxy where
  /-- Sampled values. -/
  Data : List ℚ
  /-- First x value. -/
  MinX : ℚ
  /-- Rounded first x value. -/
  MinXInt : Int
  /-- Last x value. -/
  MaxX : ℚ
  /-- Sampling step on the x axis. -/
  Step : ℚ
deriving DecidableEq

namespace FRCurveExtendAssetProxy

/-- `GetNumValues`. -/
def GetNumValues (C : FRCurveExtendAssetProxy) : Int := (C.Data.length : Int)

/-- `IsXAxisRangeMatch(Start, End)`. -/
def IsXAxisRangeMatch (C : FRCurveExtendAssetProxy) (Start End : ℚ) : Bool :=
  IsNearlyEqual C.MinX Start (1 / 100000) && IsNearlyEqual C.MaxX End (1 / 100000)

/-- `GetValueByTimeInterp(InTime)`; reads outside `Data` yield `0`. `Index` goes through
`static_cast<int32>`, so a bin of `2^31` or more does not reach the clamp as a large value. -/
def GetValueByTimeInterp (C : FRCurveExtendAssetProxy) (InTime : ℚ) : ℚ :=
  if C.Step = 0 then C.Data.getD 0 0
  else
    let InTime1 := InTime - C.MinX
    if InTime1 ≤ 0 then C.Data.getD 0 0
    else
      let Bin := InTime1 / C.Step
      let EndIndex : Int := (C.Data.length : Int) - 1
      let Index : Int := Clamp (CastInt32 Bin) 0 EndIndex
      if Index = EndIndex then C.Data.getD Index.toNat 0
      else
        let Percent : ℚ := Bin - (Index : ℚ)
        C.Data.getD Index.toNat 0 * (1 - Percent) + C.Data.getD (Index + 1).toNat 0 * Percent

end FRCurveExtendAssetProxy

/-! ## SIMD width helper -/

/-- `AUDIO_NUM_FLOATS_PER_VECTOR_REGISTER` (engine constant). -/
def AUDIO_NUM_FLOATS_PER_VECTOR_REGISTER : Int := 4

/-- `LBSImpactSFXSynth::FitToAudioRegister`; `%` is the C++ truncated remainder. -/
def FitToAudioRegister (InNumber : Int) : Int :=
  let RemVec := Int.tmod InNumber AUDIO_NUM_FLOATS_PER_VECTOR_REGISTER
  if RemVec > 0 then InNumber + (AUDIO_NUM_FLOATS_PER_VECTOR_REGISTER - RemVec) else InNumber

/-! ## MIDI note actions and pedal state -/

/-- `EPedalState`. -/
inductive EPedalState where
  | TriggerOn
  | TriggerOff
  | NoChange
deriving DecidableEq, Repr

/-- `FMidiNoteAction`. -/
structure FMidiNoteAction where
  /-- MIDI note number (`uint8`). -/
  MidiNote : Nat
  /-- Velocity (`uint8`), `0` is a note-off. -/
  Velocity : Nat
  /-- Authored tick of the event. -/
  EventTick : Int
  /-- Tick at which the event is triggered. -/
  TriggerTick : Int
  /-- Offset in milliseconds. -/
  OffsetMs : ℚ
  /-- Offset in frames. -/
  FrameOffset : Int
  /-- Voice of the action. -/
  VoiceId : FMidiVoiceId
deriving DecidableEq

/-- `FPianoSynthParams`. -/
structure FPianoSynthParams where
  /-- Overall gain. -/
  SystemGain : ℚ
  /-- Scale applied to the MIDI velocity. -/
  VelocityScale : ℚ
  /-- Gain of the keys. -/
  KeyGain : ℚ
  /-- Gain of the hammer. -/
  HammerGain : ℚ
  /-- Dynamic range adjustment, `0` disables it. -/
  DynamicAdjust : ℚ
  /-- Gain of the soundboard. -/
  SoundboardGain : ℚ
  /-- Sympathetic resonance scale. -/
  SymResonScale : ℚ
  /-- Sustain pedal. -/
  IsSusPedalOn : Bool
  /-- Sostenuto pedal event of this call. -/
  SosPedal : EPedalState

/-! ## Piano key voices (`FPianoKeySynth`) -/

/-- The part of `UPianoKeyData` read by the bookkeeping code. -/
structure UPianoKeyData where
  /-- Number of string modes. -/
  NumModals : Int
  /-- Number of beating modes. -/
  NumBeats : Int
  /-- Whether the key has a damper. -/
  bHasDamper : Bool
deriving DecidableEq

/-- The oscillator state of a voice: the members of `FPianoKeySynth` written by `InitBuffers`
and by the synthesis kernels. -/
structure FKeyModalState where
  /-- Active stage-1 oscillator count. -/
  CurrentNumModalStage1 : Int
  /-- Active stage-2 oscillator count. -/
  CurrentNumModalStage2 : Int
  /-- Sustain pedal flag seen by the voice. -/
  bIsSusPedalOn : Bool
  /-- Sustain pedal flag at strike time. -/
  bIsInitSusPedalOn : Bool
  /-- Note-on flag seen by the voice. -/
  bIsNoteOn : Bool
  /-- Second decay stage reached. -/
  bIsSecondDecay : Bool
  /-- Hammer velocity scale computed at strike time. -/
  HammerFreqVelScale : ℚ
  /-- Sum of absolute modal amplitudes. -/
  AllFreqAmpAbs : ℚ
  /-- Amplitude-weighted mean decay. -/
  AvgFreqDecay : ℚ
  /-- Stage-1 delay line `y1`. -/
  D1Buffer1 : List ℚ
  /-- Stage-1 delay line `y2`. -/
  D2Buffer1 : List ℚ
  /-- Stage-2 delay line `y1`. -/
  D1Buffer2 : List ℚ
  /-- Stage-2 delay line `y2`. -/
  D2Buffer2 : List ℚ
deriving DecidableEq

/-- `FPianoKeySynth`: one sounding or releasing voice. -/
structure FPianoKeySynth where
  /-- MIDI note of the voice. -/
  MidiNote : Nat
  /-- Key data the voice was created from. -/
  KeyData : UPianoKeyData
  /-- Copy of `KeyData->HasDamper()`. -/
  bHasDamper : Bool
  /-- `1 / SamplingRate`. -/
  TimeStep : ℚ
  /-- Strike velocity. -/
  Velocity : ℚ
  /-- Key gain. -/
  KeyGain : ℚ
  /-- Sympathetic resonance scale. -/
  SymResonScale : ℚ
  /-- Initial delay in samples. -/
  NumInitDelay : Int
  /-- Samples rendered since the last strike. -/
  CurrentSampleIndex : Int
  /-- Oscillator state. -/
  Modal : FKeyModalState
deriving DecidableEq

/-- `FSoundBoardSynth`, reduced to the members read by the polyphony manager. -/
structure FSoundBoardSynth where
  /-- Active soundboard oscillator count. -/
  CurrentNumModals : Int
  /-- Buffers initialised. -/
  bIsInit : Bool
  /-- Soundboard delay line `y1`. -/
  OutD1Buffer : List ℚ
  /-- Soundboard delay line `y2`. -/
  OutD2Buffer : List ℚ
deriving DecidableEq

/-- `FPianoModelAssetProxy`: the read-only piano model. -/
structure FPianoModelAssetProxy where
  /-- First MIDI note of the model. -/
  StartMidiNote : Int
  /-- Number of keys of the model. -/
  NumKeys : Int
  /-- Velocity at which no velocity scaling applies. -/
  VelocityStandard : ℚ
  /-- Rescale of the sympathetic resonance. -/
  SymResonRescale : ℚ
  /-- Extra decay after note-off. -/
  NoteOffDecayDelta : ℚ
  /-- Energy threshold of the dynamic range adjustment. -/
  DynAdjustThreshold : ℚ
  /-- Lower bound factor of the dynamic range adjustment. -/
  DynAdjustFactorMin : ℚ
  /-- Per-key data. -/
  PianoKeys : List UPianoKeyData

/-- `FPianoModelAssetProxy::GetPianoKeyData`. -/
def FPianoModelAssetProxy.GetPianoKeyData (M : FPianoModelAssetProxy) (Index : Int) :
    UPianoKeyData :=
  M.PianoKeys.getD Index.toNat { NumModals := 0, NumBeats := 0, bHasDamper := false }

/-- Numerical kernels taken as parameters: transcendental functions and the per-voice,
hammer and soundboard audio rendering. -/
structure FPianoKernels where
  /-- `FMath::Exp`. -/
  Exp : ℚ → ℚ
  /-- Result of `FPianoKeySynth::InitBuffers` on the oscillator state. -/
  InitBuffers : FPianoKeySynth → FKeyModalState
  /-- Result of `FPianoKeySynth::StartSynthesizing(OutAudio, IsNoteOn, IsSusPedalOn, bFullSynth)`. -/
  StartSynthesizing : FPianoKeySynth → List ℚ → Bool → Bool → Bool → FKeyModalState × List ℚ
  /-- Result of `FPianoKeySynth::SynthesizeSecondStageAndSymReson`. -/
  SynthesizeSecondStageAndSymReson :
    FPianoKeySynth → List ℚ → List ℚ → Bool → FKeyModalState × List ℚ
  /-- Samples rendered by the hammer `FModalSynth` for a slice starting at the given index. -/
  HammerSynthesize : Int → Int → List ℚ
  /-- Result of `FSoundBoardSynth::Synthesize`. -/
  SoundboardSynthesize : FSoundBoardSynth → List ℚ → Bool → ℚ → FSoundBoardSynth × List ℚ

namespace FPianoKeySynth

/-- `FPianoKeySynth::ResetState`; `TwoDecayCosBuffer1.Num()` and `TwoDecayCosBuffer2.Num()` are
the sizes given by `SetBufferSize`, `FitToAudioRegister` of the key's mode counts. -/
def ResetState (K : FPianoKeySynth) (InVelocity : ℚ) : FPianoKeySynth :=
  { K with
    Velocity := InVelocity
    CurrentSampleIndex := 0
    Modal := { K.Modal with
      bIsSecondDecay := false
      bIsNoteOn := true
      CurrentNumModalStage1 := FitToAudioRegister K.KeyData.NumModals
      CurrentNumModalStage2 := FitToAudioRegister K.KeyData.NumBeats } }

/-- `FPianoKeySynth::InitBuffers`: the oscillator state is recomputed by the kernel. -/
def InitBuffers (Kn : FPianoKernels) (K : FPianoKeySynth) : FPianoKeySynth :=
  { K with Modal := Kn.InitBuffers K }

/-- The constructor `FPianoKeySynth::FPianoKeySynth`. -/
def New (Kn : FPianoKernels) (InMidiNote : Nat) (InKeyData : UPianoKeyData)
    (InSamplingRate InVelocity : ℚ) (IsSusPedalOn : Bool) (InSymResonScale : ℚ)
    (InInitDelay InKeyGain : ℚ) : FPianoKeySynth :=
  let N1 := FitToAudioRegister InKeyData.NumModals
  let N2 := FitToAudioRegister InKeyData.NumBeats
  let K0 : FPianoKeySynth :=
    { MidiNote := InMidiNote
      KeyData := InKeyData
      bHasDamper := InKeyData.bHasDamper
      TimeStep := 1 / InSamplingRate
      Velocity := 0
      KeyGain := InKeyGain
      SymResonScale := InSymResonScale
      NumInitDelay := max 0 ⌈InSamplingRate * InInitDelay⌉
      CurrentSampleIndex := 0
      Modal :=
        { CurrentNumModalStage1 := N1
          CurrentNumModalStage2 := N2
          bIsSusPedalOn := IsSusPedalOn
          bIsInitSusPedalOn := IsSusPedalOn
          bIsNoteOn := true
          bIsSecondDecay := false
          HammerFreqVelScale := 0
          AllFreqAmpAbs := 0
          AvgFreqDecay := 0
          D1Buffer1 := List.replicate N1.toNat 0
          D2Buffer1 := List.replicate N1.toNat 0
          D1Buffer2 := List.replicate N2.toNat 0
          D2Buffer2 := List.replicate N2.toNat 0 } }
  InitBuffers Kn (ResetState K0 InVelocity)

/-- `FPianoKeySynth::ReStrike`. -/
def ReStrike (Kn : FPianoKernels) (K : FPianoKeySynth) (InVelocity InKeyGain : ℚ)
    (IsSusPedalOn : Bool) (InSymResonScale : ℚ) : FPianoKeySynth :=
  let K1 : FPianoKeySynth :=
    { K with
      KeyGain := InKeyGain
      SymResonScale := InSymResonScale
      Modal := { K.Modal with bIsSusPedalOn := IsSusPedalOn, bIsInitSusPedalOn := IsSusPedalOn } }
  InitBuffers Kn (ResetState K1 InVelocity)

/-- `FPianoKeySynth::EstimateCurrentEnergy`. -/
def EstimateCurrentEnergy (Kn : FPianoKernels) (K : FPianoKeySynth) : ℚ :=
  K.Modal.AllFreqAmpAbs * Kn.Exp (-K.Modal.AvgFreqDecay * (K.CurrentSampleIndex : ℚ) * K.TimeStep)

/-- `FPianoKeySynth::AdjustEnergy`. -/
def AdjustEnergy (K : FPianoKeySynth) (InValue : ℚ) : FPianoKeySynth :=
  { K with Modal := { K.Modal with
      D1Buffer1 := ArrayMultiplyByConstantInPlace K.Modal.D1Buffer1 InValue
      D2Buffer1 := ArrayMultiplyByConstantInPlace K.Modal.D2Buffer1 InValue
      D1Buffer2 := ArrayMultiplyByConstantInPlace K.Modal.D1Buffer2 InValue
      D2Buffer2 := ArrayMultiplyByConstantInPlace K.Modal.D2Buffer2 InValue
      AllFreqAmpAbs := K.Modal.AllFreqAmpAbs * InValue } }

/-- `FPianoKeySynth::IsFirstStageRunning`. -/
def IsFirstStageRunning (K : FPianoKeySynth) : Bool := decide (K.Modal.CurrentNumModalStage1 > 0)

/-- `FPianoKeySynth::Synthesize`. -/
def Synthesize (Kn : FPianoKernels) (K : FPianoKeySynth) (OutAudio : List ℚ)
    (IsNoteOn IsSusPedalOn bFullSynth : Bool) : FPianoKeySynth × List ℚ :=
  if OutAudio.length = 0 then (K, OutAudio)
  else
    let r := Kn.StartSynthesizing K OutAudio IsNoteOn IsSusPedalOn bFullSynth
    ({ K with Modal := r.1, CurrentSampleIndex := K.CurrentSampleIndex + (OutAudio.length : Int) },
      r.2)

/-- `FPianoKeySynth::SynthesizeSecondStageAndSymReson`. -/
def SynthesizeSecondStageAndSymReson (Kn : FPianoKernels) (K : FPianoKeySynth)
    (OutAudio InResonAudio : List ℚ) (bNewNoteOnTrigger : Bool) : FPianoKeySynth × List ℚ :=
  let r := Kn.SynthesizeSecondStageAndSymReson K OutAudio InResonAudio bNewNoteOnTrigger
  ({ K with Modal := r.1 }, r.2)

end FPianoKeySynth

/-! ## Piano polyphony manager (`FPianoSynth`) -/

/-- `FHammerState`. -/
structure FHammerState where
  /-- Read offset into the hammer buffer. -/
  CurrentIndex : Int
  /-- Strength of the impulse. -/
  Strength : ℚ
deriving DecidableEq

/-- The constructor `FHammerState(InStrength)`. -/
def FHammerState.New (InStrength : ℚ) : FHammerState :=
  { CurrentIndex := 0, Strength := InStrength }

/-- `FPianoSynth`. -/
structure FPianoSynth where
  /-- Sampling rate. -/
  SamplingRate : ℚ
  /-- Sounding voices. -/
  NoteOnMap : TMap FPianoKeySynth
  /-- Releasing voices. -/
  NoteOffMap : TMap FPianoKeySynth
  /-- Sostenuto snapshot: `true` while the key is down, `false` once released while held. -/
  SosPedalSnapshot : TMap Bool
  /-- Pending hammer impulses. -/
  HammerQueue : List FHammerState
  /-- Number of hammer samples already rendered. -/
  CurrentHammerBufferIndex : Int
  /-- Hammer impulse response. -/
  HammerBuffer : List ℚ
  /-- Initial delay of a key, in seconds. -/
  KeyInitDelay : ℚ
  /-- Soundboard resonator. -/
  SoundboardSynth : FSoundBoardSynth
  /-- Attack envelope table. -/
  AttackCurveBuffer : List ℚ
  /-- Time of the current call, in seconds. -/
  CurrentSecond : ℚ
  /-- The piano model. -/
  PianoModel : FPianoModelAssetProxy
  /-- Optional velocity remap curve. -/
  VelocityRemapCurve : Option FRCurveExtendAssetProxy
  /-- Optional note gain curve. -/
  NoteGainCurve : Option FRCurveExtendAssetProxy
  /-- Optional hammer gain curve. -/
  HammerGainCurve : Option FRCurveExtendAssetProxy

namespace FPianoSynth

/-- `FPianoSynth::AttackCurvePreSample`. -/
def AttackCurvePreSample : List ℚ :=
  [0, 2720551 / 100000000, 5071795 / 100000000, 8245643 / 100000000, 12529889 / 100000000,
    16313016 / 100000000, 26119421 / 100000000, 40656966 / 100000000, 54881164 / 100000000,
    74081822 / 100000000, 1]

/-- `FPianoSynth::AttackCurveSamplingRate`. -/
def AttackCurveSamplingRate : ℚ := 1000

/-- `FPianoSynth::HammerReScale`. -/
def HammerReScale : ℚ := 2 / 1000

/-- The loop of `FPianoSynth::InitAttackBuffer`, with the number of remaining entries. -/
def InitAttackBufferLoop (ResampleStep : ℚ) : Nat → ℚ → List ℚ
  | 0, _ => []
  | n + 1, CurrentBin =>
    let LowIdx : Int := CastInt32 CurrentBin
    let UpIdx : Int := LowIdx + 1
    let Percent : ℚ := CurrentBin - (LowIdx : ℚ)
    (AttackCurvePreSample.getD LowIdx.toNat 0 * (1 - Percent)
        + AttackCurvePreSample.getD UpIdx.toNat 0 * Percent)
      :: InitAttackBufferLoop ResampleStep n (CurrentBin + ResampleStep)

/-- `FPianoSynth::InitAttackBuffer`. -/
def InitAttackBuffer (SamplingRate : ℚ) : List ℚ :=
  let Num : Int :=
    CastInt32 (SamplingRate / AttackCurveSamplingRate * (((AttackCurvePreSample.length : Int) - 1 : Int) : ℚ))
  InitAttackBufferLoop (AttackCurveSamplingRate / SamplingRate) Num.toNat 0

/-- The constructor `FPianoSynth::FPianoSynth`; the soundboard starts idle. -/
def New (InPianoModel : FPianoModelAssetProxy) (InSamplingRate : ℚ)
    (Soundboard : FSoundBoardSynth) (InKeyInitDelay HammerDuration : ℚ) : FPianoSynth :=
  { SamplingRate := InSamplingRate
    NoteOnMap := []
    NoteOffMap := []
    SosPedalSnapshot := []
    HammerQueue := []
    CurrentHammerBufferIndex := 0
    HammerBuffer := List.replicate (CastInt32 (HammerDuration * InSamplingRate)).toNat 0
    KeyInitDelay := InKeyInitDelay
    SoundboardSynth := { Soundboard with CurrentNumModals := 0 }
    AttackCurveBuffer := InitAttackBuffer InSamplingRate
    CurrentSecond := 0
    PianoModel := InPianoModel
    VelocityRemapCurve := none
    NoteGainCurve := none
    HammerGainCurve := none }

/-- `FPianoSynth::IsHammerSynthFinished`. -/
def IsHammerSynthFinished (S : FPianoSynth) : Bool :=
  decide (S.CurrentHammerBufferIndex ≥ (S.HammerBuffer.length : Int))

/-- `FPianoSynth::IsNotRunning`. -/
def IsNotRunning (S : FPianoSynth) : Bool :=
  IsHammerSynthFinished S
    && !(decide (S.SoundboardSynth.CurrentNumModals > 0))
    && decide (TMap.Num S.NoteOnMap = 0)
    && decide (TMap.Num S.NoteOffMap = 0)
    && decide ((S.HammerQueue.length : Int) = 0)

/-- `FPianoSynth::OffAllNotes`. -/
def OffAllNotes (S : FPianoSynth) : FPianoSynth :=
  let S1 : FPianoSynth :=
    if TMap.Num S.NoteOnMap > 0 then
      { S with
        NoteOffMap := S.NoteOnMap.foldl (fun M e => TMap.Emplace M e.1 e.2) S.NoteOffMap
        NoteOnMap := [] }
    else S
  { S1 with SosPedalSnapshot := [] }

/-- `FPianoSynth::KillAllNotes`. -/
def KillAllNotes (S : FPianoSynth) : FPianoSynth :=
  { S with NoteOnMap := [], NoteOffMap := [], SosPedalSnapshot := [], HammerQueue := [] }

/-- The filtering loop of the `NoChange` branch of `UpdateAllMapIfSosPedalChanged`
(`for(int i = 0; i < NotesOff.Num(); )`), bounded by the number of remaining iterations. -/
def SosHoldLoop : Nat → Nat → TMap Bool → List FMidiVoiceId → TMap Bool × List FMidiVoiceId
  | 0, _, Snap, NotesOff => (Snap, NotesOff)
  | fuel + 1, i, Snap, NotesOff =>
    match NotesOff.get? i with
    | none => (Snap, NotesOff)
    | some OffKey =>
      if TMap.Contains Snap OffKey then
        SosHoldLoop fuel i (TMap.Assign Snap OffKey false) (RemoveAtSwap NotesOff i)
      else SosHoldLoop fuel (i + 1) Snap NotesOff

/-- `FPianoSynth::UpdateAllMapIfSosPedalChanged`; returns the new state and the rewritten
`NotesOff` array. -/
def UpdateAllMapIfSosPedalChanged (S : FPianoSynth) (NotesOn : TMap FMidiNoteAction)
    (NotesOff : List FMidiVoiceId) (SynthParams : FPianoSynthParams) :
    FPianoSynth × List FMidiVoiceId :=
  match SynthParams.SosPedal with
  | EPedalState.TriggerOn =>
    let Snap1 := S.NoteOnMap.foldl (fun M e => TMap.Emplace M e.1 true) S.SosPedalSnapshot
    let Snap2 :=
      NotesOff.foldl (fun M k => if TMap.Contains M k then TMap.Assign M k false else M) Snap1
    let Snap3 := NotesOn.foldl (fun M e => TMap.Emplace M e.1 true) Snap2
    ({ S with SosPedalSnapshot := Snap3 }, [])
  | EPedalState.TriggerOff =>
    let NotesOff1 :=
      S.SosPedalSnapshot.foldl (fun A e => if !e.2 then A ++ [e.1] else A) NotesOff
    ({ S with SosPedalSnapshot := [] }, NotesOff1)
  | EPedalState.NoChange =>
    if TMap.Num S.SosPedalSnapshot > 0 then
      let r := SosHoldLoop NotesOff.length 0 S.SosPedalSnapshot NotesOff
      let Snap2 :=
        NotesOn.foldl (fun M e => if TMap.Contains M e.1 then TMap.Assign M e.1 true else M) r.1
      ({ S with SosPedalSnapshot := Snap2 }, r.2)
    else (S, NotesOff)

/-- One iteration of the loop of `FPianoSynth::UpdateNotesOffMap`. -/
def UpdateNoteOff (S : FPianoSynth) (NoteOff : FMidiVoiceId) : FPianoSynth :=
  match TMap.Find S.NoteOnMap NoteOff with
  | none => S
  | some Key =>
    { S with
      NoteOffMap := TMap.Emplace S.NoteOffMap NoteOff Key
      NoteOnMap := TMap.Remove S.NoteOnMap NoteOff }

/-- `FPianoSynth::UpdateNotesOffMap`. -/
def UpdateNotesOffMap (S : FPianoSynth) (NotesOff : List FMidiVoiceId) : FPianoSynth :=
  NotesOff.foldl UpdateNoteOff S

/-- `FPianoSynth::GetNoteGainValueFromCurve` for a given note gain curve. -/
def GetNoteGainValueFromCurve (NoteGainCurve : FRCurveExtendAssetProxy) (MidiNote : Nat) : ℚ :=
  Clamp (NoteGainCurve.GetValueByTimeInterp (MidiNote : ℚ)) 0 1

/-- `FPianoSynth::GetKeyHammerVelocity`. -/
def GetKeyHammerVelocity (S : FPianoSynth) (KeySynth : FPianoKeySynth) : ℚ :=
  let V0 : ℚ := KeySynth.Velocity * KeySynth.Modal.HammerFreqVelScale
  let V1 : ℚ :=
    match S.NoteGainCurve with
    | some C => V0 * GetNoteGainValueFromCurve C KeySynth.MidiNote
    | none => V0
  match S.HammerGainCurve with
  | some C => V1 * Clamp (C.GetValueByTimeInterp (KeySynth.MidiNote : ℚ)) 0 2
  | none => V1

/-- The `Velocity` local of the loop body of `UpdateNotesOnMap`. -/
def NoteOnVelocity (S : FPianoSynth) (SynthParams : FPianoSynthParams)
    (NoteAction : FMidiNoteAction) : ℚ :=
  let NoteVelocity : Nat :=
    match S.VelocityRemapCurve with
    | some C => ((CastInt32 (C.GetValueByTimeInterp (NoteAction.Velocity : ℚ))) % 256).toNat
    | none => NoteAction.Velocity
  Clamp (SynthParams.VelocityScale * (NoteVelocity : ℚ)) 0 127

/-- The `KeyGain` local of the loop body of `UpdateNotesOnMap`. -/
def NoteOnKeyGain (S : FPianoSynth) (SynthParams : FPianoSynthParams)
    (NoteAction : FMidiNoteAction) : ℚ :=
  let GlobalKeyGain : ℚ := SynthParams.KeyGain * SynthParams.SystemGain
  match S.NoteGainCurve with
  | none => GlobalKeyGain
  | some C => GlobalKeyGain * GetNoteGainValueFromCurve C NoteAction.MidiNote

/-- The `SymResonScale` local of `UpdateNotesOnMap`. -/
def NoteOnSymResonScale (S : FPianoSynth) (SynthParams : FPianoSynthParams) : ℚ :=
  SynthParams.SymResonScale * S.PianoModel.SymResonRescale

/-- The voice built by `MakeShared<FPianoKeySynth>(...)` in `UpdateNotesOnMap`. -/
def MakeKeySynth (Kn : FPianoKernels) (S : FPianoSynth) (SynthParams : FPianoSynthParams)
    (NoteAction : FMidiNoteAction) : FPianoKeySynth :=
  FPianoKeySynth.New Kn NoteAction.MidiNote
    (S.PianoModel.GetPianoKeyData ((NoteAction.MidiNote : Int) - S.PianoModel.StartMidiNote))
    S.SamplingRate (NoteOnVelocity S SynthParams NoteAction) SynthParams.IsSusPedalOn
    (NoteOnSymResonScale S SynthParams) S.KeyInitDelay (NoteOnKeyGain S SynthParams NoteAction)

/-- The voice obtained by `KeySynth->ReStrike(...)` in `UpdateNotesOnMap`. -/
def ReStrikeKeySynth (Kn : FPianoKernels) (S : FPianoSynth) (SynthParams : FPianoSynthParams)
    (NoteAction : FMidiNoteAction) (Existing : FPianoKeySynth) : FPianoKeySynth :=
  FPianoKeySynth.ReStrike Kn Existing (NoteOnVelocity S SynthParams NoteAction)
    (NoteOnKeyGain S SynthParams NoteAction) SynthParams.IsSusPedalOn
    (NoteOnSymResonScale S SynthParams)

/-- One iteration of the loop of `FPianoSynth::UpdateNotesOnMap`: the state and the running
`HammerVelocity` sum. -/
def UpdateNoteOn (Kn : FPianoKernels) (SynthParams : FPianoSynthParams)
    (Acc : FPianoSynth × ℚ) (NoteOn : FMidiVoiceId × FMidiNoteAction) : FPianoSynth × ℚ :=
  let S := Acc.1
  let NoteAction := NoteOn.2
  let KeyIndex : Int := (NoteAction.MidiNote : Int) - S.PianoModel.StartMidiNote
  if KeyIndex < 0 ∨ KeyIndex ≥ S.PianoModel.NumKeys then Acc
  else
    match TMap.Find S.NoteOffMap NoteOn.1 with
    | none =>
      match TMap.Find S.NoteOnMap NoteOn.1 with
      | none =>
        let KeySynth := MakeKeySynth Kn S SynthParams NoteAction
        ({ S with NoteOnMap := TMap.Emplace S.NoteOnMap NoteOn.1 KeySynth },
          Acc.2 + GetKeyHammerVelocity S KeySynth)
      | some Existing =>
        let KeySynth := ReStrikeKeySynth Kn S SynthParams NoteAction Existing
        ({ S with NoteOnMap := TMap.Assign S.NoteOnMap NoteOn.1 KeySynth },
          Acc.2 + GetKeyHammerVelocity S KeySynth)
    | some KeyOff =>
      let KeySynth :=
        if KeyOff.MidiNote = NoteAction.MidiNote then
          ReStrikeKeySynth Kn S SynthParams NoteAction KeyOff
        else MakeKeySynth Kn S SynthParams NoteAction
      ({ S with
          NoteOnMap := TMap.Emplace S.NoteOnMap NoteOn.1 KeySynth
          NoteOffMap := TMap.Remove S.NoteOffMap NoteOn.1 },
        Acc.2 + GetKeyHammerVelocity S KeySynth)

/-- `FPianoSynth::UpdateNotesOnMap`. -/
def UpdateNotesOnMap (Kn : FPianoKernels) (S : FPianoSynth) (NotesOn : TMap FMidiNoteAction)
    (SynthParams : FPianoSynthParams) : FPianoSynth :=
  let r := NotesOn.foldl (UpdateNoteOn Kn SynthParams) (S, 0)
  let HammerVelocity : ℚ :=
    min r.2 255 * SynthParams.HammerGain * SynthParams.SystemGain * HammerReScale
  if HammerVelocity > 0 then
    { r.1 with HammerQueue := r.1.HammerQueue ++ [FHammerState.New HammerVelocity] }
  else r.1

/-- The summed energy estimate of `AdjustDynamicRangeIfNeeded`. -/
def CurrentTotalEnergy (Kn : FPianoKernels) (S : FPianoSynth) (SynthParams : FPianoSynthParams) :
    ℚ :=
  let E0 : ℚ :=
    if SynthParams.IsSusPedalOn then
      S.NoteOffMap.foldl (fun E e => E + e.2.EstimateCurrentEnergy Kn) 0
    else 0
  S.NoteOnMap.foldl (fun E e => E + e.2.EstimateCurrentEnergy Kn) E0

/-- The `AdjustValue` local of `AdjustDynamicRangeIfNeeded`. -/
def DynAdjustValue (S : FPianoSynth) (SynthParams : FPianoSynthParams) : ℚ :=
  S.PianoModel.DynAdjustThreshold * SynthParams.DynamicAdjust

/-- The `MinCompress` local of `AdjustDynamicRangeIfNeeded`. -/
def DynMinCompress (S : FPianoSynth) (SynthParams : FPianoSynthParams) : ℚ :=
  S.PianoModel.DynAdjustFactorMin * min SynthParams.DynamicAdjust 1
    / max 1 (SynthParams.SystemGain * SynthParams.KeyGain)

/-- The `Compress` local of `AdjustDynamicRangeIfNeeded`. -/
def DynCompress (Kn : FPianoKernels) (S : FPianoSynth) (SynthParams : FPianoSynthParams) : ℚ :=
  max (DynAdjustValue S SynthParams / CurrentTotalEnergy Kn S SynthParams)
    (DynMinCompress S SynthParams)

/-- `FPianoSynth::AdjustDynamicRangeIfNeeded`. -/
def AdjustDynamicRangeIfNeeded (Kn : FPianoKernels) (S : FPianoSynth)
    (SynthParams : FPianoSynthParams) : FPianoSynth :=
  if SynthParams.DynamicAdjust ≤ 0 then S
  else if CurrentTotalEnergy Kn S SynthParams > DynAdjustValue S SynthParams then
    let Compress := DynCompress Kn S SynthParams
    { S with
      NoteOnMap :=
        S.NoteOnMap.map
          (fun e => if e.2.CurrentSampleIndex > 0 then e else (e.1, e.2.AdjustEnergy Compress))
      HammerQueue :=
        S.HammerQueue.map
          (fun H => if H.CurrentIndex = 0 then { H with Strength := H.Strength * Compress } else H) }
  else S

/-- `FPianoSynth::UpdateNotesMaps`. -/
def UpdateNotesMaps (Kn : FPianoKernels) (S : FPianoSynth) (NotesOn : TMap FMidiNoteAction)
    (NotesOff : List FMidiVoiceId) (SynthParams : FPianoSynthParams) : FPianoSynth :=
  let r := UpdateAllMapIfSosPedalChanged S NotesOn NotesOff SynthParams
  let S2 := UpdateNotesOffMap r.1 r.2
  let S3 := UpdateNotesOnMap Kn S2 NotesOn SynthParams
  AdjustDynamicRangeIfNeeded Kn S3 SynthParams

/-- The hammer queue loop of `SynthHammerIfNeeded` (`for(int i = 0; i < HammerQueue.Num(); )`),
bounded by the number of remaining iterations. -/
def SynthHammerQueueLoop (HammerBuffer : List ℚ) :
    Nat → Nat → List FHammerState → List ℚ → List FHammerState × List ℚ
  | 0, _, Queue, OutAudio => (Queue, OutAudio)
  | fuel + 1, i, Queue, OutAudio =>
    match Queue.get? i with
    | none => (Queue, OutAudio)
    | some State =>
      let NumHammerSample : Int :=
        min (OutAudio.length : Int) ((HammerBuffer.length : Int) - State.CurrentIndex)
      let OutAudio1 :=
        ArrayMultiplyAddInPlace (Slice HammerBuffer State.CurrentIndex NumHammerSample)
          State.Strength OutAudio
      let State1 : FHammerState := { State with CurrentIndex := State.CurrentIndex + NumHammerSample }
      let Queue1 := Queue.set i State1
      if State1.CurrentIndex < (HammerBuffer.length : Int) then
        SynthHammerQueueLoop HammerBuffer fuel (i + 1) Queue1 OutAudio1
      else SynthHammerQueueLoop HammerBuffer fuel i (RemoveAtSwap Queue1 i) OutAudio1

/-- `FPianoSynth::SynthHammerIfNeeded`. -/
def SynthHammerIfNeeded (Kn : FPianoKernels) (S : FPianoSynth) (OutAudio : List ℚ) :
    FPianoSynth × List ℚ :=
  let NumOutFrame : Int := (OutAudio.length : Int)
  let HammerBufferSize : Int := (S.HammerBuffer.length : Int)
  let S1 : FPianoSynth :=
    if !IsHammerSynthFinished S then
      let NumGenFrame : Int := min NumOutFrame (HammerBufferSize - S.CurrentHammerBufferIndex)
      let Rendered :=
        WriteSlice S.HammerBuffer S.CurrentHammerBufferIndex
          ((Kn.HammerSynthesize S.CurrentHammerBufferIndex NumGenFrame).take NumGenFrame.toNat)
      let Shaped :=
        if S.CurrentHammerBufferIndex < (S.AttackCurveBuffer.length : Int) then
          let NumAttackFrame : Int :=
            min ((S.AttackCurveBuffer.length : Int) - S.CurrentHammerBufferIndex) NumGenFrame
          WriteSlice Rendered S.CurrentHammerBufferIndex
            (ArrayMultiplyInPlace
              (Slice S.AttackCurveBuffer S.CurrentHammerBufferIndex NumAttackFrame)
              (Slice Rendered S.CurrentHammerBufferIndex NumAttackFrame))
        else Rendered
      { S with
        HammerBuffer := Shaped
        CurrentHammerBufferIndex := S.CurrentHammerBufferIndex + NumGenFrame }
    else S
  let r := SynthHammerQueueLoop S1.HammerBuffer S1.HammerQueue.length 0 S1.HammerQueue OutAudio
  ({ S1 with HammerQueue := r.1 }, r.2)

/-- Render every voice of a map into `OutAudio`, in iteration order. -/
def SynthVoices (Kn : FPianoKernels) (IsNoteOn IsSusPedalOn bFullSynth : Bool) :
    TMap FPianoKeySynth → List ℚ → TMap FPianoKeySynth × List ℚ
  | [], OutAudio => ([], OutAudio)
  | e :: rest, OutAudio =>
    let r := e.2.Synthesize Kn OutAudio IsNoteOn IsSusPedalOn bFullSynth
    let rr := SynthVoices Kn IsNoteOn IsSusPedalOn bFullSynth rest r.2
    ((e.1, r.1) :: rr.1, rr.2)

/-- `FPianoSynth::SynthNotesOff`. -/
def SynthNotesOff (Kn : FPianoKernels) (S : FPianoSynth) (OutAudio : List ℚ)
    (IsSusPedalOn : Bool) : FPianoSynth × List ℚ :=
  if TMap.Num S.NoteOffMap = 0 then (S, OutAudio)
  else
    let r := SynthVoices Kn false IsSusPedalOn true S.NoteOffMap OutAudio
    let ToRemoveKeys : List FMidiVoiceId :=
      (r.1.filter (fun e => !e.2.IsFirstStageRunning)).map Prod.fst
    ({ S with NoteOffMap := ToRemoveKeys.foldl TMap.Remove r.1 }, r.2)

/-- `FPianoSynth::SynthNoteOnWithSusPedalOn`. -/
def SynthNoteOnWithSusPedalOn (Kn : FPianoKernels) (S : FPianoSynth) (OutAudio : List ℚ) :
    FPianoSynth × List ℚ :=
  if TMap.Num S.NoteOnMap = 0 then (S, OutAudio)
  else
    let r := SynthVoices Kn true true true S.NoteOnMap OutAudio
    ({ S with NoteOnMap := r.1 }, r.2)

/-- The first loop of `SynthNoteOnWithSusPedalOff`: the rendered voices, the output and the
collected `(voice key, SecondStageBuffers entry)` pairs. -/
def SynthFirstStageLoop (Kn : FPianoKernels) (AttackSize NumNoteOn : Int) :
    TMap FPianoKeySynth → List ℚ → List (FMidiVoiceId × List ℚ) →
      TMap FPianoKeySynth × List ℚ × List (FMidiVoiceId × List ℚ)
  | [], OutAudio, Second => ([], OutAudio, Second)
  | e :: rest, OutAudio, Second =>
    if !e.2.bHasDamper ∨ e.2.CurrentSampleIndex < AttackSize ∨ NumNoteOn = 1
        ∨ e.2.SymResonScale < 1 / 100000 then
      let r := e.2.Synthesize Kn OutAudio true false true
      let rr := SynthFirstStageLoop Kn AttackSize NumNoteOn rest r.2 Second
      ((e.1, r.1) :: rr.1, rr.2)
    else
      let r := e.2.Synthesize Kn (List.replicate OutAudio.length 0) true false false
      let rr :=
        SynthFirstStageLoop Kn AttackSize NumNoteOn rest (ArrayAddInPlace r.2 OutAudio)
          (Second ++ [(e.1, r.2)])
      ((e.1, r.1) :: rr.1, rr.2)

/-- The second-stage loop of `SynthNoteOnWithSusPedalOff`. -/
def SynthSecondStageLoop (Kn : FPianoKernels) (bIsNewNoteOnTrigger : Bool) :
    List (FMidiVoiceId × List ℚ) → TMap FPianoKeySynth → List ℚ → TMap FPianoKeySynth × List ℚ
  | [], M, OutAudio => (M, OutAudio)
  | b :: rest, M, OutAudio =>
    match TMap.Find M b.1 with
    | none => SynthSecondStageLoop Kn bIsNewNoteOnTrigger rest M OutAudio
    | some K =>
      let r := K.SynthesizeSecondStageAndSymReson Kn OutAudio b.2 bIsNewNoteOnTrigger
      SynthSecondStageLoop Kn bIsNewNoteOnTrigger rest (TMap.Assign M b.1 r.1) r.2

/-- `FPianoSynth::SynthNoteOnWithSusPedalOff`. -/
def SynthNoteOnWithSusPedalOff (Kn : FPianoKernels) (S : FPianoSynth) (OutAudio : List ℚ)
    (bIsNewNoteOnTrigger : Bool) : FPianoSynth × List ℚ :=
  if TMap.Num S.NoteOnMap = 0 then (S, OutAudio)
  else
    let r :=
      SynthFirstStageLoop Kn (S.AttackCurveBuffer.length : Int) (TMap.Num S.NoteOnMap)
        S.NoteOnMap OutAudio []
    let Out1 := r.2.2.foldl (fun O b => ArraySubtractInPlace1 O b.2) r.2.1
    let rr := SynthSecondStageLoop Kn bIsNewNoteOnTrigger r.2.2 r.1 Out1
    ({ S with NoteOnMap := rr.1 }, rr.2)

/-- `FPianoSynth::Synthesize`: the new state and the content of `OutAudio` on return. -/
def Synthesize (Kn : FPianoKernels) (S : FPianoSynth) (OutAudio : List ℚ)
    (NotesOn : TMap FMidiNoteAction) (NotesOff : List FMidiVoiceId)
    (SynthParams : FPianoSynthParams) (InCurrentTimeMs : ℚ) : FPianoSynth × List ℚ :=
  if NotesOn.length = 0 ∧ NotesOff.length = 0 ∧ IsNotRunning S = true then (S, OutAudio)
  else
    let S0 : FPianoSynth := { S with CurrentSecond := InCurrentTimeMs / 1000 }
    let S1 := UpdateNotesMaps Kn S0 NotesOn NotesOff SynthParams
    let r2 := SynthHammerIfNeeded Kn S1 OutAudio
    let r3 := SynthNotesOff Kn r2.1 r2.2 SynthParams.IsSusPedalOn
    let bIsNewNoteOnTrigger : Bool := decide (NotesOn.length > 0)
    let r4 :=
      if SynthParams.IsSusPedalOn then SynthNoteOnWithSusPedalOn Kn r3.1 r3.2
      else SynthNoteOnWithSusPedalOff Kn r3.1 r3.2 bIsNewNoteOnTrigger
    let r5 :=
      Kn.SoundboardSynthesize r4.1.SoundboardSynth r4.2 bIsNewNoteOnTrigger
        SynthParams.SoundboardGain
    ({ r4.1 with SoundboardSynth := r5.1 }, ArrayClampInPlace r5.2 (-1) 1)

/-- `FPianoSynth::SetVelocityRemapCurve`. -/
def SetVelocityRemapCurve (S : FPianoSynth) (InCurve : Option FRCurveExtendAssetProxy) :
    FPianoSynth :=
  { S with VelocityRemapCurve := InCurve }

/-- `FPianoSynth::SetNoteGainCurve`. -/
def SetNoteGainCurve (S : FPianoSynth) (InCurve : Option FRCurveExtendAssetProxy) : FPianoSynth :=
  { S with NoteGainCurve := InCurve }

/-- `FPianoSynth::SetHammerGainCurve`. -/
def SetHammerGainCurve (S : FPianoSynth) (InCurve : Option FRCurveExtendAssetProxy) :
    FPianoSynth :=
  { S with HammerGainCurve := InCurve }

/-- States reachable from construction by the public operations of `FPianoSynth`; the state
between `UpdateNotesMaps` and the rendering steps of a `Synthesize` call is included. -/
inductive Reachable (Kn : FPianoKernels) : FPianoSynth → Prop where
  | construct (M : FPianoModelAssetProxy) (Rate : ℚ) (Sb : FSoundBoardSynth) (Delay Dur : ℚ) :
      Reachable Kn (New M Rate Sb Delay Dur)
  | synthesize (S : FPianoSynth) (OutAudio : List ℚ) (NotesOn : TMap FMidiNoteAction)
      (NotesOff : List FMidiVoiceId) (P : FPianoSynthParams) (T : ℚ) :
      Reachable Kn S → Reachable Kn (Synthesize Kn S OutAudio NotesOn NotesOff P T).1
  | updateNotesMaps (S : FPianoSynth) (NotesOn : TMap FMidiNoteAction)
      (NotesOff : List FMidiVoiceId) (P : FPianoSynthParams) :
      Reachable Kn S → Reachable Kn (UpdateNotesMaps Kn S NotesOn NotesOff P)
  | offAllNotes (S : FPianoSynth) : Reachable Kn S → Reachable Kn (OffAllNotes S)
  | killAllNotes (S : FPianoSynth) : Reachable Kn S → Reachable Kn (KillAllNotes S)
  | setVelocityRemapCurve (S : FPianoSynth) (C : Option FRCurveExtendAssetProxy) :
      Reachable Kn S → Reachable Kn (SetVelocityRemapCurve S C)
  | setNoteGainCurve (S : FPianoSynth) (C : Option FRCurveExtendAssetProxy) :
      Reachable Kn S → Reachable Kn (SetNoteGainCurve S C)
  | setHammerGainCurve (S : FPianoSynth) (C : Option FRCurveExtendAssetProxy) :
      Reachable Kn S → Reachable Kn (SetHammerGainCurve S C)

/-- No voice id is a key of both `NoteOnMap` and `NoteOffMap`. -/
def MapsDisjoint (S : FPianoSynth) : Prop :=
  ∀ v : FMidiVoiceId, ¬ (v ∈ TMap.Keys S.NoteOnMap ∧ v ∈ TMap.Keys S.NoteOffMap)

end FPianoSynth

/-! ## Sample data used to evaluate the piano model on concrete inputs -/

namespace Sample

/-- Kernels that leave oscillator state and audio untouched. -/
def Kernels : FPianoKernels :=
  { Exp := fun _ => 1
    InitBuffers := fun K => K.Modal
    StartSynthesizing := fun K Out _ _ _ => (K.Modal, Out)
    SynthesizeSecondStageAndSymReson := fun K Out _ _ => (K.Modal, Out)
    HammerSynthesize := fun _ n => List.replicate n.toNat 0
    SoundboardSynthesize := fun Sb Out _ _ => (Sb, Out) }

/-- An 88-key model starting at MIDI note 21, four modes per key. -/
def Model : FPianoModelAssetProxy :=
  { StartMidiNote := 21
    NumKeys := 88
    VelocityStandard := 100
    SymResonRescale := 1
    NoteOffDecayDelta := 0
    DynAdjustThreshold := 1
    DynAdjustFactorMin := 1 / 2
    PianoKeys := List.replicate 88 { NumModals := 4, NumBeats := 4, bHasDamper := true } }

/-- An idle soundboard. -/
def Soundboard : FSoundBoardSynth :=
  { CurrentNumModals := 0, bIsInit := false, OutD1Buffer := [], OutD2Buffer := [] }

/-- A freshly constructed synth at 1 kHz with a 10 ms hammer. -/
def Synth0 : FPianoSynth := FPianoSynth.New Model 1000 Soundboard (5 / 1000) (1 / 100)

/-- Unit gains, dynamic adjustment off, sustain pedal up, with the given sostenuto event. -/
def Params (Sos : EPedalState) : FPianoSynthParams :=
  { SystemGain := 1
    VelocityScale := 1
    KeyGain := 1
    HammerGain := 1
    DynamicAdjust := 0
    SoundboardGain := 1
    SymResonScale := 1
    IsSusPedalOn := false
    SosPedal := Sos }

/-- A note-on action for a voice. -/
def NoteOn (Voice : FMidiVoiceId) (MidiNote Velocity : Nat) : FMidiNoteAction :=
  { MidiNote := MidiNote
    Velocity := Velocity
    EventTick := 0
    TriggerTick := 0
    OffsetMs := 0
    FrameOffset := 0
    VoiceId := Voice }

/-- A silent four-frame output block. -/
def Block : List ℚ := [0, 0, 0, 0]

/-- One `Synthesize` call on a silent block, keeping the state. -/
def Step (S : FPianoSynth) (NotesOn : TMap FMidiNoteAction) (NotesOff : List FMidiVoiceId)
    (Sos : EPedalState) : FPianoSynth :=
  (FPianoSynth.Synthesize Kernels S Block NotesOn NotesOff (Params Sos) 0).1

/-- Voice 1 is struck (note 60). -/
def Held1 : FPianoSynth := Step Synth0 [(1, NoteOn 1 60 100)] [] EPedalState.NoChange

/-- The sostenuto pedal goes down while voice 1 sounds. -/
def Held2 : FPianoSynth := Step Held1 [] [] EPedalState.TriggerOn

/-- The key of voice 1 is released while the pedal holds it. -/
def Held3 : FPianoSynth := Step Held2 [] [1] EPedalState.NoChange

/-- The pedal is released right after `Held3`. -/
def Released3 : FPianoSynth := Step Held3 [] [] EPedalState.TriggerOff

/-- A second pedal-down event (a new controller value above 63) arrives while the pedal is
still held. -/
def Held4 : FPianoSynth := Step Held3 [] [] EPedalState.TriggerOn

/-- The pedal is released after `Held4`. -/
def Released4 : FPianoSynth := Step Held4 [] [] EPedalState.TriggerOff

end Sample

/-! ## Predicates and sample data for the dynamic range adjustment -/

/-- Sample-wise, the second buffer is no louder than the first. -/
def NoLouderBuffer (New Old : List ℚ) : Prop :=
  List.Forall₂ (fun n o => |n| ≤ |o|) New Old

/-- Every oscillator state sample of `New` is no louder than the one of `Old`. -/
def NoLouder (New Old : FPianoKeySynth) : Prop :=
  NoLouderBuffer New.Modal.D1Buffer1 Old.Modal.D1Buffer1
    ∧ NoLouderBuffer New.Modal.D2Buffer1 Old.Modal.D2Buffer1
    ∧ NoLouderBuffer New.Modal.D1Buffer2 Old.Modal.D1Buffer2
    ∧ NoLouderBuffer New.Modal.D2Buffer2 Old.Modal.D2Buffer2

namespace Sample

/-- The sample model with `DynAdjustFactorMin = 2` (the importer only requires it positive). -/
def LoudModel : FPianoModelAssetProxy := { Model with DynAdjustFactorMin := 2 }

/-- A new voice (sample index 0) with unit oscillator state and estimated energy 2. -/
def LoudVoice : FPianoKeySynth :=
  { MidiNote := 60
    KeyData := { NumModals := 4, NumBeats := 4, bHasDamper := true }
    bHasDamper := true
    TimeStep := 1 / 1000
    Velocity := 100
    KeyGain := 1
    SymResonScale := 1
    NumInitDelay := 5
    CurrentSampleIndex := 0
    Modal :=
      { CurrentNumModalStage1 := 4
        CurrentNumModalStage2 := 4
        bIsSusPedalOn := false
        bIsInitSusPedalOn := false
        bIsNoteOn := true
        bIsSecondDecay := false
        HammerFreqVelScale := 1
        AllFreqAmpAbs := 2
        AvgFreqDecay := 1
        D1Buffer1 := [1, 1, 1, 1]
        D2Buffer1 := [1, 1, 1, 1]
        D1Buffer2 := [1, 1, 1, 1]
        D2Buffer2 := [1, 1, 1, 1] } }

/-- A synth over `LoudModel` holding `LoudVoice` as voice 1 and one fresh hammer impulse. -/
def LoudSynth : FPianoSynth :=
  { FPianoSynth.New LoudModel 1000 Soundboard (5 / 1000) (1 / 100) with
    NoteOnMap := [(1, LoudVoice)]
    HammerQueue := [FHammerState.New 1] }

/-- The same synth over the sample model (`DynAdjustFactorMin = 1/2`). -/
def QuietSynth : FPianoSynth := { LoudSynth with PianoModel := Model }

/-- Unit gains with dynamic adjustment `1`. -/
def DynParams : FPianoSynthParams := { Params EPedalState.NoChange with DynamicAdjust := 1 }

end Sample

namespace FPianoSynth

/-- The members of `FPianoSynth` read by the note-on path besides the maps are the same in
both states. -/
def SameConfig (S T : FPianoSynth) : Prop :=
  T.PianoModel = S.PianoModel ∧ T.VelocityRemapCurve = S.VelocityRemapCurve
    ∧ T.NoteGainCurve = S.NoteGainCurve ∧ T.SamplingRate = S.SamplingRate
    ∧ T.KeyInitDelay = S.KeyInitDelay

/-- The MIDI note of an action is inside the key range of the piano model of `S`. -/
def InKeyRange (S : FPianoSynth) (NoteAction : FMidiNoteAction) : Prop :=
  0 ≤ (NoteAction.MidiNote : Int) - S.PianoModel.StartMidiNote
    ∧ (NoteAction.MidiNote : Int) - S.PianoModel.StartMidiNote < S.PianoModel.NumKeys

end FPianoSynth

namespace Sample

/-- A synth whose voice 1 (created for MIDI note 60) is releasing. -/
def ReleasingSynth : FPianoSynth := { Synth0 with NoteOffMap := [(1, LoudVoice)] }

end Sample

/-! ## Cyclic curve lookup (`FRCurveExtendAssetProxy::GetArrayByTimeCyclicInterp`) -/

/-- Checked array read `Data[Index]`: `none` when the index is outside `[0, Data.Num())`. -/
def ReadAt (Data : List ℚ) (Index : Int) : Option ℚ :=
  if 0 ≤ Index then Data.get? Index.toNat else none

namespace FRCurveExtendAssetProxy

/-- The sampling loop of `GetArrayByTimeCyclicInterp` over the remaining output samples, in
exact arithmetic (the floor is the mathematical one; `CyclicInterpLoopInt32` has the `int32`
range of `LeftIndex`); `%` is the C++ truncated remainder. The result is `none` when an
iteration takes a remainder by zero or reads outside `Data`. -/
def CyclicInterpLoop (C : FRCurveExtendAssetProxy) (NumData : Int) (BinStep : ℚ) :
    Nat → ℚ → Option (List ℚ)
  | 0, _ => some []
  | n + 1, StartBin =>
    if NumData = 0 then none
    else
      let Floor : Int := ⌊StartBin⌋
      let Percent : ℚ := StartBin - (Floor : ℚ)
      let LeftIndex : Int := Int.tmod Floor NumData
      let RightIndex : Int := Int.tmod (LeftIndex + 1) NumData
      match ReadAt C.Data LeftIndex, ReadAt C.Data RightIndex with
      | some l, some r =>
        match CyclicInterpLoop C NumData BinStep n (StartBin + BinStep) with
        | some rest => some ((l * (1 - Percent) + r * Percent) :: rest)
        | none => none
      | _, _ => none

/-- `GetArrayByTimeCyclicInterp(StartX, XStep, OutArray, NumRemoveLastSample)` for an output
view of `NumSamples` entries: the new content of `OutArray`, or `none` when the call takes a
remainder by zero or reads outside `Data`. For a curve with a single value the source fills the
output with `Data[0]` and then falls through to the sampling loop. -/
def GetArrayByTimeCyclicInterp (C : FRCurveExtendAssetProxy) (StartX XStep : ℚ)
    (NumSamples : Nat) (NumRemoveLastSample : Int) : Option (List ℚ) :=
  if C.Step ≤ 0 ∨ (C.Data.length : Int) ≤ 0 then some (List.replicate NumSamples 0)
  else
    let StartX1 : ℚ := StartX - C.MinX
    if StartX1 < 0 then some (List.replicate NumSamples 0)
    else
      let NumData : Int := (C.Data.length : Int) - NumRemoveLastSample
      CyclicInterpLoop C NumData (XStep / C.Step) NumSamples (StartX1 / C.Step)

end FRCurveExtendAssetProxy

/-! ## Two-state cyclic force generator (`FTwoStatesForceGen`) -/

/-- `EForceNoiseMergeMode`. -/
inductive EForceNoiseMergeMode where
  | None
  | Add
  | Multiply
deriving DecidableEq, Repr

/-- `FTwoStatesForceGen`; the random stream is the number of values drawn so far from a
stream determined by the seed. -/
structure FTwoStatesForceGen where
  /-- Sampling rate. -/
  SamplingRate : ℚ
  /-- Seed of the random stream. -/
  Seed : Int
  /-- Number of values drawn from the random stream. -/
  NumDrawn : Nat
  /-- Phase inside the current cycle, in samples. -/
  CurrentCycleIndex : Int
  /-- Noise scratch buffer, sized at construction. -/
  RandomBuffer : List ℚ
  /-- First-state length of the previous call. -/
  LastNumSamplesFirstState : Int
  /-- Second-state length of the previous call. -/
  LastNumSamplesSecondState : Int
deriving DecidableEq

namespace FTwoStatesForceGen

/-- The constructor; `RandSeed` is the value of `FMath::Rand()` used for a negative seed. -/
def New (InSamplingRate : ℚ) (NumSamplesPerBlock : Int) (InSeed RandSeed : Int) :
    FTwoStatesForceGen :=
  { SamplingRate := InSamplingRate
    Seed := if InSeed > -1 then InSeed else RandSeed
    NumDrawn := 0
    CurrentCycleIndex := 0
    RandomBuffer := List.replicate NumSamplesPerBlock.toNat 0
    LastNumSamplesFirstState := -1
    LastNumSamplesSecondState := -1 }

/-- `NumSamplesPerCycle` of `Generate`. -/
def NumSamplesPerCycle (SamplingRate InFreq : ℚ) : Int := RoundToInt32 (SamplingRate / InFreq)

/-- `NumSamplesFirstState` of `Generate`, from the unclamped duty cycle. -/
def NumSamplesFirstState (SamplingRate InFreq FirstStateDutyCycle : ℚ) : Int :=
  RoundToInt32 (Clamp FirstStateDutyCycle 0 1 * (NumSamplesPerCycle SamplingRate InFreq : ℚ))

/-- `NumSamplesSecondState` of `Generate`. -/
def NumSamplesSecondState (SamplingRate InFreq FirstStateDutyCycle : ℚ) : Int :=
  Clamp
    (NumSamplesPerCycle SamplingRate InFreq
      - NumSamplesFirstState SamplingRate InFreq FirstStateDutyCycle)
    0 (NumSamplesPerCycle SamplingRate InFreq)

/-- `FTwoStatesForceGen::RemapCurrentCycleIndex`; `%` is the C++ truncated remainder. Where the
source divides a float by a zero length, the quotient is `0` here. -/
def RemapCurrentCycleIndex (G : FTwoStatesForceGen)
    (NumPerCycle NumFirst NumSecond : Int) : FTwoStatesForceGen :=
  if NumFirst = G.LastNumSamplesFirstState ∧ NumSecond = G.LastNumSamplesSecondState then G
  else
    let Index : Int :=
      if G.CurrentCycleIndex < G.LastNumSamplesFirstState then
        RoundToInt32
          ((G.CurrentCycleIndex : ℚ) * (NumFirst : ℚ) / (G.LastNumSamplesFirstState : ℚ))
      else
        NumFirst + RoundToInt32
          (((G.CurrentCycleIndex - G.LastNumSamplesFirstState : Int) : ℚ) * (NumSecond : ℚ)
            / (G.LastNumSamplesSecondState : ℚ))
    { G with
      CurrentCycleIndex := Int.tmod Index NumPerCycle
      LastNumSamplesFirstState := NumFirst
      LastNumSamplesSecondState := NumSecond }

/-- `FTwoStatesForceGen::MergeNoise` on a view; `FRand Seed i` is the `i`-th value of the
random stream. -/
def MergeNoise (FRand : Int → Nat → ℚ) (G : FTwoStatesForceGen) (NoiseMode : EForceNoiseMergeMode)
    (Amp : ℚ) (OutBufferView : List ℚ) : FTwoStatesForceGen × List ℚ :=
  match NoiseMode with
  | EForceNoiseMergeMode.None => (G, OutBufferView)
  | Mode =>
    let NumGenSamples := OutBufferView.length
    let Noise : List ℚ :=
      (List.range NumGenSamples).map (fun i => (FRand G.Seed (G.NumDrawn + i) - 1 / 2) * Amp)
    let G1 : FTwoStatesForceGen :=
      { G with
        RandomBuffer := Noise ++ G.RandomBuffer.drop NumGenSamples
        NumDrawn := G.NumDrawn + NumGenSamples }
    if Mode = EForceNoiseMergeMode.Add then (G1, ArrayAddInPlace Noise OutBufferView)
    else (G1, ArrayMultiplyInPlace Noise OutBufferView)

/-- The inputs of one state of the generator. -/
structure FStateParams where
  /-- Curve of the state. -/
  Curve : FRCurveExtendAssetProxy
  /-- Frequency scale of the state. -/
  FreqScale : ℚ
  /-- Noise merge mode of the state. -/
  NoiseMode : EForceNoiseMergeMode
  /-- Noise amplitude of the state. -/
  NoiseAmp : ℚ

/-- The `while` loop of `Generate`, bounded by the number of remaining iterations. The result
is `none` when a curve lookup fails or when the iterations run out before the output is full. -/
def GenerateLoop (FRand : Int → Nat → ℚ) (First Second : FStateParams)
    (NumPerCycle NumFirst NumSecond : Int) (FirstCurveStep SecondCurveStep : ℚ) :
    Nat → FTwoStatesForceGen → Int → List ℚ → Option (FTwoStatesForceGen × List ℚ)
  | fuel, G, CurrentOutputBufferIdx, OutAudio =>
    if ¬ (CurrentOutputBufferIdx < (OutAudio.length : Int)) then some (G, OutAudio)
    else
      match fuel with
      | 0 => none
      | fuel1 + 1 =>
        let NumSamplesToGen : Int := (OutAudio.length : Int) - CurrentOutputBufferIdx
        if NumFirst > 0 ∧ G.CurrentCycleIndex < NumFirst then
          let NumGenSamples : Int := min NumSamplesToGen (NumFirst - G.CurrentCycleIndex)
          let FirstCyclePercent : ℚ :=
            (G.CurrentCycleIndex : ℚ) * First.FreqScale / (NumFirst : ℚ)
          match First.Curve.GetArrayByTimeCyclicInterp FirstCyclePercent FirstCurveStep
              (Slice OutAudio CurrentOutputBufferIdx NumGenSamples).length 1 with
          | none => none
          | some View =>
            let r := MergeNoise FRand G First.NoiseMode First.NoiseAmp View
            GenerateLoop FRand First Second NumPerCycle NumFirst NumSecond FirstCurveStep
              SecondCurveStep fuel1
              { r.1 with
                CurrentCycleIndex := Int.tmod (G.CurrentCycleIndex + NumGenSamples) NumPerCycle }
              (CurrentOutputBufferIdx + NumGenSamples)
              (WriteSlice OutAudio CurrentOutputBufferIdx r.2)
        else if NumSecond > 0 then
          let NumGenSamples : Int := min NumSamplesToGen (NumPerCycle - G.CurrentCycleIndex)
          let SecondCyclePercent : ℚ :=
            ((G.CurrentCycleIndex - NumFirst : Int) : ℚ) * Second.FreqScale / (NumSecond : ℚ)
          match Second.Curve.GetArrayByTimeCyclicInterp SecondCyclePercent SecondCurveStep
              (Slice OutAudio CurrentOutputBufferIdx NumGenSamples).length 1 with
          | none => none
          | some View =>
            let r := MergeNoise FRand G Second.NoiseMode Second.NoiseAmp View
            GenerateLoop FRand First Second NumPerCycle NumFirst NumSecond FirstCurveStep
              SecondCurveStep fuel1
              { r.1 with
                CurrentCycleIndex := Int.tmod (G.CurrentCycleIndex + NumGenSamples) NumPerCycle }
              (CurrentOutputBufferIdx + NumGenSamples)
              (WriteSlice OutAudio CurrentOutputBufferIdx r.2)
        else
          GenerateLoop FRand First Second NumPerCycle NumFirst NumSecond FirstCurveStep
            SecondCurveStep fuel1
            { G with CurrentCycleIndex := Int.tmod G.CurrentCycleIndex NumPerCycle }
            CurrentOutputBufferIdx OutAudio

/-- The validation at the start of `Generate`: `true` when the call returns without doing
anything. -/
def GenerateRejects (G : FTwoStatesForceGen) (OutAudio : List ℚ) (InAmp InFreq : ℚ)
    (InFirstCurve InSecondCurve : Option FRCurveExtendAssetProxy) : Bool :=
  if OutAudio.length = 0 ∨ InAmp = 0 ∨ InFreq ≥ G.SamplingRate ∨ InFreq < 1 / 1000 then true
  else if (OutAudio.length : Int) > (G.RandomBuffer.length : Int) then true
  else
    match InFirstCurve, InSecondCurve with
    | some C1, some C2 =>
      if C1.GetNumValues ≤ 1 ∨ C2.GetNumValues ≤ 1 then true
      else if !C1.IsXAxisRangeMatch 0 1 || !C2.IsXAxisRangeMatch 0 1 then true
      else false
    | _, _ => true

/-- `FTwoStatesForceGen::Generate`: the new state and the new content of `OutAudio`. -/
def Generate (FRand : Int → Nat → ℚ) (G : FTwoStatesForceGen) (OutAudio : List ℚ)
    (InAmp InFreq FirstStateDutyCycle : ℚ)
    (InFirstCurve : Option FRCurveExtendAssetProxy) (FirstFreqScale : ℚ)
    (FirstStateNoiseMode : EForceNoiseMergeMode) (FirstStateNoiseAmp : ℚ)
    (InSecondCurve : Option FRCurveExtendAssetProxy) (SecondFreqScale : ℚ)
    (SecondStateNoiseMode : EForceNoiseMergeMode) (SecondStateNoiseAmp : ℚ) :
    Option (FTwoStatesForceGen × List ℚ) :=
  if GenerateRejects G OutAudio InAmp InFreq InFirstCurve InSecondCurve then some (G, OutAudio)
  else
    match InFirstCurve, InSecondCurve with
    | some C1, some C2 =>
      let Duty : ℚ := Clamp FirstStateDutyCycle 0 1
      let SecondStateDutyCycle : ℚ := 1 - Duty
      let CyclePercentPerSample : ℚ := InFreq / G.SamplingRate
      let NumPerCycle := NumSamplesPerCycle G.SamplingRate InFreq
      let NumFirst := NumSamplesFirstState G.SamplingRate InFreq FirstStateDutyCycle
      let NumSecond := NumSamplesSecondState G.SamplingRate InFreq FirstStateDutyCycle
      let G1 := RemapCurrentCycleIndex G NumPerCycle NumFirst NumSecond
      let FirstCurveStep : ℚ := CyclePercentPerSample / Duty * max 0 FirstFreqScale
      let SecondCurveStep : ℚ := CyclePercentPerSample / SecondStateDutyCycle * max 0 SecondFreqScale
      match GenerateLoop FRand
          { Curve := C1, FreqScale := FirstFreqScale, NoiseMode := FirstStateNoiseMode,
            NoiseAmp := FirstStateNoiseAmp }
          { Curve := C2, FreqScale := SecondFreqScale, NoiseMode := SecondStateNoiseMode,
            NoiseAmp := SecondStateNoiseAmp }
          NumPerCycle NumFirst NumSecond FirstCurveStep SecondCurveStep OutAudio.length G1 0
          OutAudio with
      | none => none
      | some r =>
        if !IsNearlyEqual InAmp 1 (1 / 100000) then
          some (r.1, ArrayMultiplyByConstantInPlace r.2 InAmp)
        else some r
    | _, _ => some (G, OutAudio)

end FTwoStatesForceGen

namespace Sample

/-- A curve over `[0, 1]` holding the constant `Value` (two data points). -/
def ConstCurve (Value : ℚ) : FRCurveExtendAssetProxy :=
  { Data := [Value, Value], MinX := 0, MinXInt := 0, MaxX := 1, Step := 1 }

/-- A random stream that always yields `1/2` (zero noise). -/
def FRand : Int → Nat → ℚ := fun _ _ => 1 / 2

/-- A freshly constructed generator at 48 kHz with blocks of up to 1024 frames. -/
def FreshGen : FTwoStatesForceGen := FTwoStatesForceGen.New 48000 1024 0 0

/-- One `Generate` call of a fresh generator over `NumFrames` zeroed frames at 100 Hz with unit
amplitude, the first state reading the constant curve `1`, the second the constant curve `-1`,
unit frequency scales and no noise. -/
def Render (NumFrames : Nat) (DutyCycle : ℚ) : Option (FTwoStatesForceGen × List ℚ) :=
  FTwoStatesForceGen.Generate FRand FreshGen (List.replicate NumFrames 0) 1 100 DutyCycle
    (some (ConstCurve 1)) 1 EForceNoiseMergeMode.None 0
    (some (ConstCurve (-1))) 1 EForceNoiseMergeMode.None 0

end Sample

namespace Sample

/-- A constant curve whose x-range is `[1e-6, 1]`, not `[0, 1]`. -/
def OffsetCurve : FRCurveExtendAssetProxy :=
  { Data := [1, 1], MinX := 1 / 1000000, MinXInt := 0, MaxX := 1, Step := 999999 / 1000000 }

/-- A constant curve whose x-range is `[1/2, 1]`. -/
def HalfRangeCurve : FRCurveExtendAssetProxy :=
  { Data := [1, 1], MinX := 1 / 2, MinXInt := 1, MaxX := 1, Step := 1 / 2 }

end Sample

namespace Sample

/-- A triangle curve over `[0, 1]` with three data points (the last repeats the first). -/
def TriangleCurve : FRCurveExtendAssetProxy :=
  { Data := [0, 1, 0], MinX := 0, MinXInt := 0, MaxX := 1, Step := 1 / 2 }

end Sample

namespace Sample

/-- A ramp curve over `[10, 16]` with four data points. -/
def RampCurve : FRCurveExtendAssetProxy :=
  { Data := [1, 3, 2, 8], MinX := 10, MinXInt := 10, MaxX := 16, Step := 2 }

/-- The curve `[1, 2]` over `[0, 1]` with step 1. -/
def UnitRampCurve : FRCurveExtendAssetProxy :=
  { Data := [1, 2], MinX := 0, MinXInt := 0, MaxX := 1, Step := 1 }

end Sample

/-! ## Low-pass roll-off helper -/

/-- `LBSImpactSFXSynth::ConvertLowPassDbToLinear`; `Pow` stands for `FMath::Pow`. -/
def ConvertLowPassDbToLinear (Pow : ℚ → ℚ → ℚ) (InFreq CutoffFreq FallOffDb : ℚ) : ℚ :=
  if InFreq > CutoffFreq then Pow (InFreq / CutoffFreq) (FallOffDb / 20) else 1

namespace Sample

/-- A power function that is exact on integer exponents (and `1` elsewhere). -/
def Pow (Base Exponent : ℚ) : ℚ := if Exponent.den = 1 then Base ^ Exponent.num else 1

end Sample

/-! ## SIMD registers and the modal recursion kernels of `FPianoKeySynth` -/

/-- `VectorRegister4Float`: four float lanes. -/
structure VectorRegister4Float where
  /-- Lane 0. -/
  V0 : ℚ
  /-- Lane 1. -/
  V1 : ℚ
  /-- Lane 2. -/
  V2 : ℚ
  /-- Lane 3. -/
  V3 : ℚ
deriving DecidableEq

/-- `VectorZeroFloat()`. -/
def VectorZeroFloat : VectorRegister4Float := { V0 := 0, V1 := 0, V2 := 0, V3 := 0 }

/-- `VectorLoadFloat1(&x)`: the same value in every lane. -/
def VectorLoadFloat1 (x : ℚ) : VectorRegister4Float := { V0 := x, V1 := x, V2 := x, V3 := x }

/-- `VectorLoadAligned(&Buffer[j])`; lanes outside the buffer read `0`. -/
def VectorLoadAligned (Buffer : List ℚ) (j : Nat) : VectorRegister4Float :=
  { V0 := Buffer.getD j 0, V1 := Buffer.getD (j + 1) 0, V2 := Buffer.getD (j + 2) 0,
    V3 := Buffer.getD (j + 3) 0 }

/-- `VectorStore(R, &Buffer[j])`; lanes outside the buffer are dropped. -/
def VectorStore (R : VectorRegister4Float) (Buffer : List ℚ) (j : Nat) : List ℚ :=
  (((Buffer.set j R.V0).set (j + 1) R.V1).set (j + 2) R.V2).set (j + 3) R.V3

/-- `VectorAdd`. -/
def VectorAdd (A B : VectorRegister4Float) : VectorRegister4Float :=
  { V0 := A.V0 + B.V0, V1 := A.V1 + B.V1, V2 := A.V2 + B.V2, V3 := A.V3 + B.V3 }

/-- `VectorSubtract`. -/
def VectorSubtract (A B : VectorRegister4Float) : VectorRegister4Float :=
  { V0 := A.V0 - B.V0, V1 := A.V1 - B.V1, V2 := A.V2 - B.V2, V3 := A.V3 - B.V3 }

/-- `VectorMultiply`. -/
def VectorMultiply (A B : VectorRegister4Float) : VectorRegister4Float :=
  { V0 := A.V0 * B.V0, V1 := A.V1 * B.V1, V2 := A.V2 * B.V2, V3 := A.V3 * B.V3 }

/-- `VectorMultiplyAdd(A, B, C)`, i.e. `A * B + C`. -/
def VectorMultiplyAdd (A B C : VectorRegister4Float) : VectorRegister4Float :=
  VectorAdd (VectorMultiply A B) C

/-- Lane `m` (`0..3`) of a register. -/
def VectorRegister4Float.Lane (R : VectorRegister4Float) (m : Nat) : ℚ :=
  match m with
  | 0 => R.V0
  | 1 => R.V1
  | 2 => R.V2
  | _ => R.V3

/-- The horizontal sum `SumVal[0] + SumVal[1] + SumVal[2] + SumVal[3]`. -/
def VectorRegister4Float.HSum (R : VectorRegister4Float) : ℚ := R.V0 + R.V1 + R.V2 + R.V3

/-- The delay lines and the running sum register updated by the modal kernels. -/
structure FModalLanes where
  /-- Delay line `y1` (`OutL1BufferPtr`). -/
  L1 : List ℚ
  /-- Delay line `y2` (`OutL2BufferPtr`). -/
  L2 : List ℚ
  /-- `SumModalVector`. -/
  Sum : VectorRegister4Float
deriving DecidableEq

namespace FPianoKeySynth

/-- The body of the loop of `ProcessVectorModal` for the four oscillators starting at `j`. -/
def ProcessVectorModalBody (TwoRCosData R2Data : List ℚ) (j : Nat) (S : FModalLanes) :
    FModalLanes :=
  let y1 := VectorLoadAligned S.L1 j
  let y2 := VectorLoadAligned S.L2 j
  let TwoRCos := VectorMultiply (VectorLoadAligned TwoRCosData j) y1
  let R2 := VectorMultiply (VectorLoadAligned R2Data j) y2
  let L2a := VectorStore y1 S.L2 j
  let y1a := VectorSubtract TwoRCos R2
  { L1 := VectorStore y1a S.L1 j, L2 := L2a, Sum := VectorAdd S.Sum y1a }

/-- The `for(int j = 0; j < NumModals; j += 4)` loop of `ProcessVectorModal`, bounded by the
number of remaining iterations. -/
def ProcessVectorModalLoop (NumModals : Int) (TwoRCosData R2Data : List ℚ) :
    Nat → Nat → FModalLanes → FModalLanes
  | 0, _, S => S
  | fuel + 1, j, S =>
    if (j : Int) < NumModals then
      ProcessVectorModalLoop NumModals TwoRCosData R2Data fuel (j + 4)
        (ProcessVectorModalBody TwoRCosData R2Data j S)
    else S

/-- `FPianoKeySynth::ProcessVectorModal`. -/
def ProcessVectorModal (NumModals : Int) (TwoRCosData R2Data : List ℚ) (S : FModalLanes) :
    FModalLanes :=
  ProcessVectorModalLoop NumModals TwoRCosData R2Data NumModals.toNat 0 S

/-- The body of the loop of `ProcessVectorModalWithForce` for the four oscillators starting at
`j`. -/
def ProcessVectorModalWithForceBody (TwoRCosData R2Data GainFData : List ℚ)
    (ForceReg : VectorRegister4Float) (j : Nat) (S : FModalLanes) : FModalLanes :=
  let y1 := VectorLoadAligned S.L1 j
  let y2 := VectorLoadAligned S.L2 j
  let TwoRCos := VectorMultiply (VectorLoadAligned TwoRCosData j) y1
  let R2 := VectorMultiply (VectorLoadAligned R2Data j) y2
  let L2a := VectorStore y1 S.L2 j
  let y1a := VectorSubtract TwoRCos R2
  let y1b := VectorMultiplyAdd (VectorLoadAligned GainFData j) ForceReg y1a
  { L1 := VectorStore y1b S.L1 j, L2 := L2a, Sum := VectorAdd S.Sum y1b }

/-- The loop of `ProcessVectorModalWithForce`, bounded by the number of remaining iterations. -/
def ProcessVectorModalWithForceLoop (NumModals : Int) (TwoRCosData R2Data GainFData : List ℚ)
    (ForceReg : VectorRegister4Float) : Nat → Nat → FModalLanes → FModalLanes
  | 0, _, S => S
  | fuel + 1, j, S =>
    if (j : Int) < NumModals then
      ProcessVectorModalWithForceLoop NumModals TwoRCosData R2Data GainFData ForceReg fuel (j + 4)
        (ProcessVectorModalWithForceBody TwoRCosData R2Data GainFData ForceReg j S)
    else S

/-- `FPianoKeySynth::ProcessVectorModalWithForce`. -/
def ProcessVectorModalWithForce (NumModals : Int) (TwoRCosData R2Data GainFData : List ℚ)
    (ForceReg : VectorRegister4Float) (S : FModalLanes) : FModalLanes :=
  ProcessVectorModalWithForceLoop NumModals TwoRCosData R2Data GainFData ForceReg
    NumModals.toNat 0 S

end FPianoKeySynth

/-! ## The scalar modal recursion of the specification -/

/-- Scalar recursion of the specification for oscillator `j` with forcing sample `Force`:
`y0 = twoRCos·y1 − rSquare·y2 + gain·Force`. -/
def ScalarModalOutput (TwoRCosData R2Data GainFData : List ℚ) (Force : ℚ) (L1 L2 : List ℚ)
    (j : Nat) : ℚ :=
  TwoRCosData.getD j 0 * L1.getD j 0 - R2Data.getD j 0 * L2.getD j 0 + GainFData.getD j 0 * Force

/-- Scalar recursion of the specification over the first `NumModals` oscillators: the new `y1`
delay line (`y1 ← y0`), other entries unchanged. -/
def ScalarModalL1 (NumModals : Nat) (TwoRCosData R2Data GainFData : List ℚ) (Force : ℚ)
    (L1 L2 : List ℚ) : List ℚ :=
  (List.range L1.length).map
    (fun j =>
      if j < NumModals then ScalarModalOutput TwoRCosData R2Data GainFData Force L1 L2 j
      else L1.getD j 0)

/-- Scalar recursion of the specification over the first `NumModals` oscillators: the new `y2`
delay line (`y2 ← y1`), other entries unchanged. -/
def ScalarModalL2 (NumModals : Nat) (L1 L2 : List ℚ) : List ℚ :=
  (List.range L2.length).map (fun j => if j < NumModals then L1.getD j 0 else L2.getD j 0)

/-- The envelope energy `y1² − twoRCos·y1·y2 + rSquare·y2²` of one oscillator. -/
def ModalEnergy (TwoRCos R2 y1 y2 : ℚ) : ℚ := y1 ^ 2 - TwoRCos * y1 * y2 + R2 * y2 ^ 2

/-- The envelope energy of oscillator `j` of a bank. -/
def LaneEnergy (TwoRCosData R2Data : List ℚ) (S : FModalLanes) (j : Nat) : ℚ :=
  ModalEnergy (TwoRCosData.getD j 0) (R2Data.getD j 0) (S.L1.getD j 0) (S.L2.getD j 0)

/-- Coefficients `2·R·cos θ` of five oscillators (`R·cos θ` = 2/5, 0, −1/4, 1/2, 1/3). -/
def Sample.TwoRCosData : List ℚ := [4 / 5, 0, -1 / 2, 1, 2 / 3]

/-- Coefficients `R²` of five oscillators (`R` = 1/2, 1/3, 1/2, 1/2, 1/3). -/
def Sample.R2Data : List ℚ := [1 / 4, 1 / 9, 1 / 4, 1 / 4, 1 / 9]

/-- Force gains of five oscillators. -/
def Sample.GainFData : List ℚ := [1, 2, 3, 4, 5]

/-- Delay lines of five oscillators and a running sum register. -/
def Sample.ModalLanes : FModalLanes :=
  { L1 := [1, 2, 3, 4, 5], L2 := [5, 4, 3, 2, 1], Sum := { V0 := 1, V1 := 0, V2 := 0, V3 := 0 } }

/-! ## `FMidiEventParser` (SHMidiNoteAction.cpp) -/

/-- The values of the `Harmonix::Midi::Constants::EControllerID` enumerators the parser switches
on. The enumeration belongs to the engine's HarmonixMidi module and is a parameter here. -/
structure FControllerIds where
  /-- `EControllerID::Volume`. -/
  Volume : Nat
  /-- `EControllerID::Expression`. -/
  Expression : Nat
  /-- `EControllerID::Hold`. -/
  Hold : Nat
  /-- `EControllerID::Sustenuto`. -/
  Sustenuto : Nat
  /-- `EControllerID::SoftPedal`. -/
  SoftPedal : Nat
deriving DecidableEq

/-- `FMidiEventParser`. `LastCcVals[16][128]` (`int8`) is a function of channel and controller
number. -/
structure FMidiEventParser where
  /-- Note actions waiting for the next block. -/
  PendingNoteActions : List FMidiNoteAction
  /-- Lowest accepted MIDI note. -/
  MinMidiNote : Int
  /-- Highest accepted MIDI note. -/
  MaxMidiNote : Int
  /-- Playback speed. -/
  Speed : ℚ
  /-- Current quarter note. -/
  CurrentQuarterNote : ℚ
  /-- Current tempo. -/
  CurrentTempoBPM : ℚ
  /-- Volume controller value. -/
  Volume : ℚ
  /-- Expression controller value. -/
  Expression : ℚ
  /-- Sustain pedal. -/
  bIsSusPedalOn : Bool
  /-- Sostenuto pedal. -/
  SosPedalState : EPedalState
  /-- Last byte received per channel and controller number, `-1` when none. -/
  LastCcVals : Nat → Nat → Int

/-- Conversion of an `int` to `int16` (two's complement wrap). -/
def CastInt16 (x : Int) : Int := (x + 32768) % 65536 - 32768

/-- `x << k` on `int`. -/
def Int32ShiftLeft (x : Int) (k : Nat) : Int := x * 2 ^ k

namespace FMidiEventParser

/-- `MAX_FLOAT7`. -/
def MAX_FLOAT7 : ℚ := 127

/-- `MAX_FLOAT14`. -/
def MAX_FLOAT14 : ℚ := 16383

/-- `FMidiEventParser::ResetState`. -/
def ResetState (P : FMidiEventParser) : FMidiEventParser :=
  { P with
    LastCcVals := fun _ _ => -1
    PendingNoteActions := []
    Speed := 1
    CurrentQuarterNote := 0
    CurrentTempoBPM := 120
    Volume := 1
    Expression := 1
    bIsSusPedalOn := false
    SosPedalState := EPedalState.NoChange }

/-- Constructor `FMidiEventParser(InMinMidiNote, InNumKeys)`; `GMinNote` and `GMaxNote` are
engine constants. -/
def New (GMinNote GMaxNote InMinMidiNote InNumKeys : Int) : FMidiEventParser :=
  ResetState
    { PendingNoteActions := []
      MinMidiNote := max GMinNote InMinMidiNote
      MaxMidiNote := min GMaxNote (InMinMidiNote + InNumKeys - 1)
      Speed := 0
      CurrentQuarterNote := 0
      CurrentTempoBPM := 0
      Volume := 0
      Expression := 0
      bIsSusPedalOn := false
      SosPedalState := EPedalState.NoChange
      LastCcVals := fun _ _ => 0 }

/-- The assignment `LastCcVals[Channel][Id] = Value`. -/
def SetLastCcVal (P : FMidiEventParser) (Channel Id : Nat) (Value : Int) : FMidiEventParser :=
  { P with LastCcVals := fun c i => if c = Channel ∧ i = Id then Value else P.LastCcVals c i }

/-- `FMidiEventParser::GetMsbLsbIndexes`: `some (Msb, Lsb)` when it returns true. -/
def GetMsbLsbIndexes (Id : Nat) : Option (Nat × Nat) :=
  if Id < 32 then some (Id, Id + 32)
  else if Id < 64 then some (Id - 32, Id)
  else if Id = 98 ∨ Id = 100 then some (Id + 1, Id)
  else if Id = 99 ∨ Id = 101 then some (Id, Id - 1)
  else none

/-- `FMidiEventParser::Midi7BitToFloat`. -/
def Midi7BitToFloat (Level : Int) : ℚ := (Level : ℚ) / MAX_FLOAT7

/-- `FMidiEventParser::Midi14BitToFloat`. -/
def Midi14BitToFloat (Level : Int) : ℚ := (Level : ℚ) / MAX_FLOAT14

/-- `FMidiEventParser::MidiControlToBool`. -/
def MidiControlToBool (InValue : ℚ) : Bool := decide (InValue > 63)

/-- `FMidiEventParser::SetController`. -/
def SetController (Ids : FControllerIds) (P : FMidiEventParser) (InController : Nat)
    (InValue : ℚ) : FMidiEventParser :=
  if InController = Ids.Volume then { P with Volume := InValue }
  else if InController = Ids.Expression then { P with Expression := InValue }
  else if InController = Ids.Hold then { P with bIsSusPedalOn := MidiControlToBool InValue }
  else if InController = Ids.Sustenuto then
    if MidiControlToBool InValue then { P with SosPedalState := EPedalState.TriggerOn }
    else { P with SosPedalState := EPedalState.TriggerOff }
  else P

/-- `FMidiEventParser::Get7BitControllerValue`. -/
def Get7BitControllerValue (Ids : FControllerIds) (InController : Nat) (InValue : Int) : ℚ :=
  if InController = Ids.Volume ∨ InController = Ids.Expression then Midi7BitToFloat InValue
  else if InController = Ids.Hold ∨ InController = Ids.Sustenuto ∨
      InController = Ids.SoftPedal then (InValue : ℚ)
  else 0

/-- `FMidiEventParser::Get14BitControllerValue`. -/
def Get14BitControllerValue (Ids : FControllerIds) (InController : Nat) (InValue : Int) : ℚ :=
  if InController = Ids.Volume ∨ InController = Ids.Expression then Midi14BitToFloat InValue
  else if InController = Ids.Hold ∨ InController = Ids.Sustenuto ∨
      InController = Ids.SoftPedal then (InValue : ℚ)
  else 0

/-- `FMidiEventParser::Set7BitController`. -/
def Set7BitController (Ids : FControllerIds) (P : FMidiEventParser) (InController : Nat)
    (InValue : Int) (InMidiChannel : Nat) : FMidiEventParser :=
  let P1 := SetLastCcVal P InMidiChannel InController InValue
  SetController Ids P1 InController (Get7BitControllerValue Ids InController InValue)

/-- `FMidiEventParser::Set14BitController` (`InValue` is an `int16`). -/
def Set14BitController (Ids : FControllerIds) (P : FMidiEventParser) (InController : Nat)
    (InValue : Int) (InMidiChannel : Nat) : FMidiEventParser :=
  match GetMsbLsbIndexes InController with
  | some (MsbIdx, LsbIdx) =>
    let P1 := SetLastCcVal P InMidiChannel MsbIdx (Int.land (Int.shiftRight InValue 7) 127)
    let P2 := SetLastCcVal P1 InMidiChannel LsbIdx (Int.land InValue 127)
    SetController Ids P2 InController (Get14BitControllerValue Ids InController InValue)
  | none => P

/-- `FMidiEventParser::SetHighOrLowControllerByte`. -/
def SetHighOrLowControllerByte (Ids : FControllerIds) (P : FMidiEventParser)
    (InController : Nat) (InValue : Int) (InMidiChannel : Nat) : FMidiEventParser :=
  let P1 := SetLastCcVal P InMidiChannel InController InValue
  match GetMsbLsbIndexes InController with
  | some (HighByteIdx, LowByteIdx) =>
    if P1.LastCcVals InMidiChannel LowByteIdx = -1 then
      Set7BitController Ids P1 InController InValue InMidiChannel
    else if P1.LastCcVals InMidiChannel HighByteIdx ≠ -1 then
      Set14BitController Ids P1 HighByteIdx
        (CastInt16 (Int.lor (Int32ShiftLeft (P1.LastCcVals InMidiChannel HighByteIdx) 7)
          (P1.LastCcVals InMidiChannel LowByteIdx)))
        InMidiChannel
    else P1
  | none => Set7BitController Ids P1 InController InValue InMidiChannel

end FMidiEventParser

/-- A control-change message as `HandleMidiMessage` passes it to the parser. -/
structure FControlChange where
  /-- Controller number (`InData1`). -/
  Controller : Nat
  /-- Data byte (`InData2`). -/
  Value : Int
  /-- MIDI channel (`InStatus & 0xF`). -/
  Channel : Nat
deriving DecidableEq

/-- A well-formed control-change message: channel below 16, controller number and data byte
7-bit. -/
def FControlChange.Valid (E : FControlChange) : Prop :=
  E.Channel < 16 ∧ E.Controller < 128 ∧ 0 ≤ E.Value ∧ E.Value ≤ 127

namespace FMidiEventParser

/-- The parser after `ResetState` followed by the control-change messages of `Events`, in order. -/
def AfterControlChanges (Ids : FControllerIds) (P : FMidiEventParser)
    (Events : List FControlChange) : FMidiEventParser :=
  Events.foldl (fun Q E => SetHighOrLowControllerByte Ids Q E.Controller E.Value E.Channel)
    (ResetState P)

/-- The data byte of the latest message of `Events` for `Controller` on `Channel`, `-1` when
there is none. -/
def LastByte (Events : List FControlChange) (Channel Controller : Nat) : Int :=
  Events.foldl (fun acc E => if E.Channel = Channel ∧ E.Controller = Controller then E.Value
    else acc) (-1)

end FMidiEventParser

/-- The standard MIDI controller numbers of the enumerators. -/
def Sample.ControllerIds : FControllerIds :=
  { Volume := 7, Expression := 11, Hold := 64, Sustenuto := 66, SoftPedal := 67 }

/-- A parser for an 88-key piano starting at MIDI note 21. -/
def Sample.Parser : FMidiEventParser := FMidiEventParser.New 0 127 21 88

/-- A stored controller byte: the sentinel `-1` or a 7-bit value. -/
def InByteRange (x : Int) : Prop := x = -1 ∨ (0 ≤ x ∧ x ≤ 127)

/-- The controller value described by the specification when message `E` arrives after
`Events`, for the controller whose MSB number is `Msb` (and LSB number `Msb + 32`): the 7-bit
value `m/127` while no LSB byte was received on the channel, the 14-bit value
`((m << 7) | l)/16383` from the latest bytes once both were received, and the previous value
otherwise. -/
def FMidiEventParser.ReconstructedValue (Msb : Nat) (Events : List FControlChange)
    (E : FControlChange) (Previous : ℚ) : ℚ :=
  if E.Controller = Msb then
    if FMidiEventParser.LastByte Events E.Channel (Msb + 32) = -1 then (E.Value : ℚ) / 127
    else
      ((Int.lor (Int32ShiftLeft E.Value 7)
        (FMidiEventParser.LastByte Events E.Channel (Msb + 32)) : Int) : ℚ) / 16383
  else if E.Controller = Msb + 32 then
    if FMidiEventParser.LastByte Events E.Channel Msb = -1 then Previous
    else
      ((Int.lor (Int32ShiftLeft (FMidiEventParser.LastByte Events E.Channel Msb) 7)
        E.Value : Int) : ℚ) / 16383
  else Previous

/-- Volume MSB 100, then volume LSB 5, on channel 0. -/
def Sample.VolumeBytes : List FControlChange :=
  [{ Controller := 7, Value := 100, Channel := 0 }, { Controller := 39, Value := 5, Channel := 0 }]

/-- A further volume MSB 64 on channel 0. -/
def Sample.VolumeMsb : FControlChange := { Controller := 7, Value := 64, Channel := 0 }

/-! ## `FBurbleSoundGen` (Liquid/BurbleSoundGen.cpp) -/

/-- `INT_MAX`. -/
def INT_MAX : Int := 2147483647

/-- `FMath::Min3`. -/
def Min3 (A B C : Int) : Int := min (min A B) C

/-- `VectorMin`. -/
def VectorMin (A B : VectorRegister4Float) : VectorRegister4Float :=
  { V0 := min A.V0 B.V0, V1 := min A.V1 B.V1, V2 := min A.V2 B.V2, V3 := min A.V3 B.V3 }

/-- `Buffer[i]` for an `int32` index; reads outside the buffer yield `0`. -/
def BufGet (Buffer : List ℚ) (i : Int) : ℚ := if 0 ≤ i then Buffer.getD i.toNat 0 else 0

/-- `Buffer[i] = v` for an `int32` index; writes outside the buffer are dropped. -/
def BufSet (Buffer : List ℚ) (i : Int) (v : ℚ) : List ℚ :=
  if 0 ≤ i then Buffer.set i.toNat v else Buffer

/-- `Buffer.AddZeroed(Count)`; a non-positive count adds nothing. -/
def AddZeroed (Buffer : List ℚ) (Count : Int) : List ℚ := Buffer ++ List.replicate Count.toNat 0

/-- `FBurbleSoundSpawnParams` (the fields behind its getters). -/
structure FBurbleSoundSpawnParams where
  /-- Spawn rate (burbles per second). -/
  SpawnRate : ℚ
  /-- Spawn chance. -/
  SpawnChance : ℚ
  /-- Exponent of the radius distribution. -/
  RadiusDistCoef : ℚ
  /-- Smallest radius. -/
  RadiusMin : ℚ
  /-- Largest radius. -/
  RadiusMax : ℚ
  /-- Radius offset. -/
  RadiusOffset : ℚ
  /-- Pitch scale. -/
  PitchShift : ℚ
  /-- Exponent of the amplitude distribution. -/
  AmpDistCoef : ℚ
  /-- Weight of the radius in the amplitude. -/
  RadiusAmpFactor : ℚ
  /-- Amplitude offset. -/
  AmpOffset : ℚ
  /-- Gain. -/
  Gain : ℚ
  /-- Largest gain. -/
  GainMax : ℚ
  /-- Ratio between decay and chirp rate. -/
  DecayToChirpRatio : ℚ
  /-- Scale of slow decays. -/
  DecayScale : ℚ
  /-- Decay threshold. -/
  DecayThresh : ℚ
deriving DecidableEq

/-- Numeric kernels used by the burble generator: `FRand Seed i` is the `i`-th value drawn from
`FRandomStream(Seed)`, the others are the `FMath` functions, `Pi` stands for `UE_PI`. -/
structure FBurbleKernels where
  /-- `FRandomStream::FRand`. -/
  FRand : Int → Nat → ℚ
  /-- `FMath::Pow`. -/
  Pow : ℚ → ℚ → ℚ
  /-- `FMath::Sqrt`. -/
  Sqrt : ℚ → ℚ
  /-- `FMath::Exp`. -/
  Exp : ℚ → ℚ
  /-- `FMath::Cos`. -/
  Cos : ℚ → ℚ
  /-- `FMath::Sin`. -/
  Sin : ℚ → ℚ
  /-- `FMath::Loge`. -/
  Loge : ℚ → ℚ
  /-- `UE_PI`. -/
  Pi : ℚ

/-- `FBurbleSoundGen`. `NumDrawn` counts the values drawn from `RandomStream`. -/
structure FBurbleSoundGen where
  /-- Sampling rate. -/
  SamplingRate : ℚ
  /-- Maximum number of burbles (`<= 0`: no limit). -/
  MaxNumberOfBurbles : Int
  /-- Number of samples synthesized per step. -/
  NumSamplesPerGen : Int
  /-- Seed of the random stream. -/
  Seed : Int
  /-- Number of values drawn from the random stream. -/
  NumDrawn : Nat
  /-- Optional frequency/amplitude curve. -/
  FreqAmpCurve : Option FRCurveExtendAssetProxy
  /-- Capacity recorded for the parallel buffers. -/
  CurrentBufferSize : Int
  /-- Number of active burbles. -/
  CurrentNumBurbles : Int
  /-- Duration of one sample. -/
  TimeStep : ℚ
  /-- Samples since the last spawn attempt. -/
  DeltaGenerateSample : Int
  /-- Samples since the last shrink. -/
  LastShrinkDelaSample : Int
  /-- Delay line `y1`. -/
  D1Buffer : List ℚ
  /-- Delay line `y2`. -/
  D2Buffer : List ℚ
  /-- Coefficients `2·R·cos θ`. -/
  TwoRCosBuffer : List ℚ
  /-- Previous coefficients `2·R·cos θ`. -/
  TwoRCosD2Buffer : List ℚ
  /-- Upper bounds `2·R` of the coefficients. -/
  TwoRCosMaxBuffer : List ℚ
  /-- Coefficients `R²`. -/
  R2Buffer : List ℚ
  /-- Chirp coefficients. -/
  ChirpTwoRCosBuffer : List ℚ
  /-- Remaining durations. -/
  DurationBuffer : List ℚ

namespace FBurbleSoundGen

/-- The constructor; `RandSeed` is the value of `FMath::Rand()` used for a negative seed. -/
def New (InSamplingRate : ℚ) (InSeed RandSeed InMaxNumberOfBurbles : Int) : FBurbleSoundGen :=
  let Size := FitToAudioRegister 64
  { SamplingRate := InSamplingRate
    MaxNumberOfBurbles := InMaxNumberOfBurbles
    NumSamplesPerGen := CastInt32 (1 / 400 * InSamplingRate)
    Seed := if InSeed < 0 then RandSeed else InSeed
    NumDrawn := 0
    FreqAmpCurve := none
    CurrentBufferSize := Size
    CurrentNumBurbles := 0
    TimeStep := 1 / InSamplingRate
    DeltaGenerateSample := INT_MAX
    LastShrinkDelaSample := 0
    D1Buffer := List.replicate Size.toNat 0
    D2Buffer := List.replicate Size.toNat 0
    TwoRCosBuffer := List.replicate Size.toNat 0
    TwoRCosD2Buffer := List.replicate Size.toNat 0
    TwoRCosMaxBuffer := List.replicate Size.toNat 0
    R2Buffer := List.replicate Size.toNat 0
    ChirpTwoRCosBuffer := List.replicate Size.toNat 0
    DurationBuffer := List.replicate Size.toNat 0 }

/-- `FBurbleSoundGen::SetFreqAmpCurve`. -/
def SetFreqAmpCurve (G : FBurbleSoundGen) (InCurve : Option FRCurveExtendAssetProxy) :
    FBurbleSoundGen :=
  { G with FreqAmpCurve := InCurve }

/-- `FBurbleSoundGen::IsShouldShrinkBurbles`. -/
def IsShouldShrinkBurbles (G : FBurbleSoundGen) : Bool :=
  decide (G.LastShrinkDelaSample > G.NumSamplesPerGen)

/-- The `for(int i = 0; i < CurrentNumBurbles;)` loop of `ShrinkCurrentBurbles`. -/
def ShrinkLoop : Nat → Int → Int → FBurbleSoundGen → FBurbleSoundGen
  | 0, _, _, G => G
  | fuel + 1, i, SwapIdx, G =>
    if i < G.CurrentNumBurbles then
      if BufGet G.DurationBuffer i ≤ 0 then
        ShrinkLoop fuel i (SwapIdx - 1)
          { G with
            D1Buffer := BufSet (BufSet G.D1Buffer i (BufGet G.D1Buffer SwapIdx)) SwapIdx 0
            D2Buffer := BufSet (BufSet G.D2Buffer i (BufGet G.D2Buffer SwapIdx)) SwapIdx 0
            TwoRCosBuffer :=
              BufSet (BufSet G.TwoRCosBuffer i (BufGet G.TwoRCosBuffer SwapIdx)) SwapIdx 0
            R2Buffer := BufSet G.R2Buffer i (BufGet G.R2Buffer SwapIdx)
            TwoRCosD2Buffer :=
              BufSet (BufSet G.TwoRCosD2Buffer i (BufGet G.TwoRCosD2Buffer SwapIdx)) SwapIdx 0
            TwoRCosMaxBuffer :=
              BufSet (BufSet G.TwoRCosMaxBuffer i (BufGet G.TwoRCosMaxBuffer SwapIdx)) SwapIdx 0
            ChirpTwoRCosBuffer :=
              BufSet G.ChirpTwoRCosBuffer i (BufGet G.ChirpTwoRCosBuffer SwapIdx)
            DurationBuffer := BufSet G.DurationBuffer i (BufGet G.DurationBuffer SwapIdx)
            CurrentNumBurbles := G.CurrentNumBurbles - 1 }
      else ShrinkLoop fuel (i + 1) SwapIdx G
    else G

/-- `FBurbleSoundGen::ShrinkCurrentBurbles`; the loop runs at most `CurrentNumBurbles` times. -/
def ShrinkCurrentBurbles (G : FBurbleSoundGen) : FBurbleSoundGen :=
  ShrinkLoop G.CurrentNumBurbles.toNat 0 (G.CurrentNumBurbles - 1)
    { G with LastShrinkDelaSample := 0 }

/-- `FBurbleSoundGen::GetBurbleRadius`; draws the next value of the random stream. -/
def GetBurbleRadius (K : FBurbleKernels) (G : FBurbleSoundGen)
    (SpawnParams : FBurbleSoundSpawnParams) : ℚ :=
  let Rand := 1 - K.FRand G.Seed G.NumDrawn * (97 / 100)
  let Radius := SpawnParams.RadiusMin * K.Pow Rand SpawnParams.RadiusDistCoef
  min (Radius + SpawnParams.RadiusOffset) SpawnParams.RadiusMax

/-- `FBurbleSoundGen::GetBurbleFreq`. -/
def GetBurbleFreq (SpawnParams : FBurbleSoundSpawnParams) (Radius : ℚ) : ℚ :=
  Clamp (3 * SpawnParams.PitchShift / Radius) 20 20000

/-- `FBurbleSoundGen::GetBurbleAmp`; draws the next value of the random stream. -/
def GetBurbleAmp (K : FBurbleKernels) (G : FBurbleSoundGen)
    (SpawnParams : FBurbleSoundSpawnParams) (Radius Freq : ℚ) : ℚ :=
  let Rand := 1 - K.FRand G.Seed G.NumDrawn * (95 / 100)
  let RadiusAmpFactor := SpawnParams.RadiusAmpFactor
  let RadiusFactor := Radius * RadiusAmpFactor + 1 / 100 * (1 - RadiusAmpFactor)
  let Amp := SpawnParams.Gain *
    (SpawnParams.AmpOffset + RadiusFactor * K.Pow Rand SpawnParams.AmpDistCoef)
  let Amp1 :=
    match G.FreqAmpCurve with
    | some C => Amp * C.GetValueByTimeInterp Freq
    | none => Amp
  Clamp Amp1 0 SpawnParams.GainMax

/-- `FBurbleSoundGen::GetDecayRate`. -/
def GetDecayRate (K : FBurbleKernels) (Freq : ℚ) : ℚ :=
  let TotalDecay := K.Sqrt Freq * (9760646 / 10000000000) + 592092 / 10000000
  TotalDecay * K.Pi * Freq

/-- `FBurbleSoundGen::ExtendBuffers`. -/
def ExtendBuffers (G : FBurbleSoundGen) (ExtendSize : Int) : FBurbleSoundGen :=
  { G with
    CurrentBufferSize := G.CurrentBufferSize + ExtendSize
    D1Buffer := AddZeroed G.D1Buffer ExtendSize
    D2Buffer := AddZeroed G.D2Buffer ExtendSize
    TwoRCosBuffer := AddZeroed G.TwoRCosBuffer ExtendSize
    R2Buffer := AddZeroed G.R2Buffer ExtendSize
    ChirpTwoRCosBuffer := AddZeroed G.ChirpTwoRCosBuffer ExtendSize
    TwoRCosD2Buffer := AddZeroed G.TwoRCosD2Buffer ExtendSize
    TwoRCosMaxBuffer := AddZeroed G.TwoRCosMaxBuffer ExtendSize
    DurationBuffer := AddZeroed G.DurationBuffer ExtendSize }

/-- The `ExtendSize` computed by `RandGenBurble` when the pool has outgrown the buffers. -/
def ExtendSizeFor (G : FBurbleSoundGen) (SpawnParams : FBurbleSoundSpawnParams) : Int :=
  let EstMaxNumBurbles := SpawnParams.SpawnChance * SpawnParams.SpawnRate * (32 / 1000)
  let MaxExtend := max (RoundToInt32 EstMaxNumBurbles - G.CurrentBufferSize) 16
  FitToAudioRegister (min (G.MaxNumberOfBurbles - G.CurrentBufferSize) MaxExtend)

/-- `FBurbleSoundGen::RandGenBurble`; the second component is the returned flag. -/
def RandGenBurble (K : FBurbleKernels) (G : FBurbleSoundGen)
    (SpawnParams : FBurbleSoundSpawnParams) : FBurbleSoundGen × Bool :=
  let G0 := { G with DeltaGenerateSample := 0 }
  let bIsReachMax : Bool :=
    if G0.MaxNumberOfBurbles > 0 then decide (G0.CurrentNumBurbles ≥ G0.MaxNumberOfBurbles)
    else false
  if bIsReachMax then (G0, false)
  else
    let G1 := { G0 with NumDrawn := G0.NumDrawn + 1 }
    if K.FRand G0.Seed G0.NumDrawn > SpawnParams.SpawnChance then (G1, false)
    else
      let Radius := GetBurbleRadius K G1 SpawnParams
      let G2 := { G1 with NumDrawn := G1.NumDrawn + 1 }
      let Freq := GetBurbleFreq SpawnParams Radius
      let AmpAbs := GetBurbleAmp K G2 SpawnParams Radius Freq
      let G3 := { G2 with NumDrawn := G2.NumDrawn + 1 }
      if AmpAbs = 0 ∨ Radius = 0 then (G3, false)
      else
        let Decay0 := GetDecayRate K Freq
        let ChirpRate := Decay0 * SpawnParams.DecayToChirpRatio
        let Threshold := SpawnParams.DecayThresh
        let Decay :=
          if Decay0 ≥ Threshold then Decay0 else min Threshold (SpawnParams.DecayScale * Decay0)
        let Index := G3.CurrentNumBurbles
        let G4 := { G3 with CurrentNumBurbles := G3.CurrentNumBurbles + 1 }
        let G5 :=
          if G4.CurrentNumBurbles > G4.CurrentBufferSize then
            ExtendBuffers G4 (ExtendSizeFor G4 SpawnParams)
          else G4
        let R := K.Exp (-Decay * G5.TimeStep)
        let Theta := 2 * K.Pi * G5.TimeStep * Freq
        let ChirpSampling := ChirpRate * G5.TimeStep
        let FChirp := ChirpSampling * Freq
        let TwoRCos := 2 * K.Cos (FChirp * (2 * K.Pi) * G5.TimeStep)
        let Amp := if K.FRand G5.Seed G5.NumDrawn > 1 / 2 then AmpAbs else -AmpAbs
        ({ G5 with
            NumDrawn := G5.NumDrawn + 1
            R2Buffer := BufSet G5.R2Buffer Index (R * R)
            TwoRCosBuffer := BufSet G5.TwoRCosBuffer Index (2 * R * K.Cos Theta)
            TwoRCosD2Buffer :=
              BufSet G5.TwoRCosD2Buffer Index (2 * R * K.Cos (Theta * (1 - ChirpSampling)))
            TwoRCosMaxBuffer := BufSet G5.TwoRCosMaxBuffer Index (2 * R)
            ChirpTwoRCosBuffer := BufSet G5.ChirpTwoRCosBuffer Index TwoRCos
            D1Buffer := BufSet G5.D1Buffer Index (Amp * R * K.Sin Theta)
            D2Buffer := BufSet G5.D2Buffer Index 0
            DurationBuffer :=
              BufSet G5.DurationBuffer Index (K.Loge (1 / 10000 / AmpAbs) / -Decay) }, true)

/-- The body of the inner loop of `SynthesizeSamples` for the four burbles starting at `j`;
the second component is the updated `SumModalVector`. -/
def SynthesizeBody (G : FBurbleSoundGen) (SumModalVector : VectorRegister4Float) (j : Nat) :
    FBurbleSoundGen × VectorRegister4Float :=
  let y1 := VectorLoadAligned G.D1Buffer j
  let y2 := VectorLoadAligned G.D2Buffer j
  let TwoRCos := VectorLoadAligned G.TwoRCosBuffer j
  let R2 := VectorMultiply (VectorLoadAligned G.R2Buffer j) y2
  let D2a := VectorStore y1 G.D2Buffer j
  let y1a := VectorSubtract (VectorMultiply TwoRCos y1) R2
  let y1b := VectorMin (VectorLoadAligned G.TwoRCosMaxBuffer j)
    (VectorSubtract (VectorMultiply TwoRCos (VectorLoadAligned G.ChirpTwoRCosBuffer j))
      (VectorLoadAligned G.TwoRCosD2Buffer j))
  ({ G with
      D2Buffer := D2a
      D1Buffer := VectorStore y1a G.D1Buffer j
      TwoRCosD2Buffer := VectorStore TwoRCos G.TwoRCosD2Buffer j
      TwoRCosBuffer := VectorStore y1b G.TwoRCosBuffer j }, VectorAdd SumModalVector y1a)

/-- The loop `for(int j = 0; j < CurrentNumBurbles; j += 4)` inside `SynthesizeSamples`. -/
def SynthesizeInner : Nat → Nat → FBurbleSoundGen → VectorRegister4Float →
    FBurbleSoundGen × VectorRegister4Float
  | 0, _, G, S => (G, S)
  | fuel + 1, j, G, S =>
    if (j : Int) < G.CurrentNumBurbles then
      SynthesizeInner fuel (j + 4) (SynthesizeBody G S j).1 (SynthesizeBody G S j).2
    else (G, S)

/-- The loop `for(int i = StartIndex; i < EndIdx; i++)` of `SynthesizeSamples`. -/
def SynthesizeOuter : Nat → Int → Int → FBurbleSoundGen → List ℚ → FBurbleSoundGen × List ℚ
  | 0, _, _, G, OutBuffer => (G, OutBuffer)
  | fuel + 1, i, EndIdx, G, OutBuffer =>
    if i < EndIdx then
      let r := SynthesizeInner G.CurrentNumBurbles.toNat 0 G VectorZeroFloat
      SynthesizeOuter fuel (i + 1) EndIdx r.1 (BufSet OutBuffer i (BufGet OutBuffer i + r.2.HSum))
    else (G, OutBuffer)

/-- The final loop of `SynthesizeSamples`, which reduces the durations. -/
def DurationLoop (Duration : ℚ) : Nat → Nat → FBurbleSoundGen → FBurbleSoundGen
  | 0, _, G => G
  | fuel + 1, j, G =>
    if (j : Int) < G.CurrentNumBurbles then
      DurationLoop Duration fuel (j + 4)
        { G with
          DurationBuffer :=
            VectorStore
              (VectorSubtract (VectorLoadAligned G.DurationBuffer j) (VectorLoadFloat1 Duration))
              G.DurationBuffer j }
    else G

/-- `FBurbleSoundGen::SynthesizeSamples` (the unused local `MaxTwoR` is left out). -/
def SynthesizeSamples (G : FBurbleSoundGen) (OutBuffer : List ℚ) (StartIndex EndIdx : Int) :
    FBurbleSoundGen × List ℚ :=
  let r := SynthesizeOuter (EndIdx - StartIndex).toNat StartIndex EndIdx G OutBuffer
  let Duration := ((EndIdx - StartIndex : Int) : ℚ) * r.1.TimeStep
  (DurationLoop Duration r.1.CurrentNumBurbles.toNat 0 r.1, r.2)

/-- The variables of `Generate` while its loop runs. -/
structure FGenerateState where
  /-- The generator. -/
  Gen : FBurbleSoundGen
  /-- The output buffer. -/
  OutAudio : List ℚ
  /-- `CurrentOutBufferIndex`. -/
  CurrentOutBufferIndex : Int

/-- One iteration of the `while` loop of `Generate`. -/
def GenerateStep (K : FBurbleKernels) (SpawnParams : FBurbleSoundSpawnParams)
    (NumOutFrames GenStep : Int) (bCanSpawn : Bool) (S : FGenerateState) : FGenerateState :=
  let Increment :=
    if bCanSpawn then
      Min3 (GenStep - S.Gen.DeltaGenerateSample) (NumOutFrames - S.CurrentOutBufferIndex)
        S.Gen.NumSamplesPerGen
    else min (NumOutFrames - S.CurrentOutBufferIndex) S.Gen.NumSamplesPerGen
  let G1 :=
    if bCanSpawn then
      { S.Gen with DeltaGenerateSample := S.Gen.DeltaGenerateSample + Increment }
    else S.Gen
  let r :=
    if G1.CurrentNumBurbles > 0 then
      SynthesizeSamples G1 S.OutAudio S.CurrentOutBufferIndex
        (S.CurrentOutBufferIndex + Increment)
    else (G1, S.OutAudio)
  let G2 := { r.1 with LastShrinkDelaSample := r.1.LastShrinkDelaSample + Increment }
  let G3 := if IsShouldShrinkBurbles G2 then ShrinkCurrentBurbles G2 else G2
  let G4 :=
    if bCanSpawn ∧ G3.DeltaGenerateSample ≥ GenStep then (RandGenBurble K G3 SpawnParams).1
    else G3
  { Gen := G4, OutAudio := r.2, CurrentOutBufferIndex := S.CurrentOutBufferIndex + Increment }

/-- The `while(CurrentOutBufferIndex < NumOutFrames)` loop of `Generate`, cut after `fuel`
iterations. -/
def GenerateLoop (K : FBurbleKernels) (SpawnParams : FBurbleSoundSpawnParams)
    (NumOutFrames GenStep : Int) (bCanSpawn : Bool) : Nat → FGenerateState → FGenerateState
  | 0, S => S
  | fuel + 1, S =>
    if S.CurrentOutBufferIndex < NumOutFrames then
      GenerateLoop K SpawnParams NumOutFrames GenStep bCanSpawn fuel
        (GenerateStep K SpawnParams NumOutFrames GenStep bCanSpawn S)
    else S

/-- `bCanSpawn` of `Generate`. -/
def CanSpawn (SpawnParams : FBurbleSoundSpawnParams) : Bool :=
  decide (SpawnParams.SpawnRate > 0) && decide (SpawnParams.SpawnChance > 0)

/-- `GenStep` of `Generate`. -/
def GenStepFor (G : FBurbleSoundGen) (SpawnParams : FBurbleSoundSpawnParams) : Int :=
  if CanSpawn SpawnParams then
    if SpawnParams.SpawnRate ≥ 1 / 20 then CastInt32 (G.SamplingRate / SpawnParams.SpawnRate)
    else INT_MAX - 1
  else INT_MAX - 1

/-- The part of `Generate` before its loop. -/
def GenerateStart (K : FBurbleKernels) (G : FBurbleSoundGen)
    (SpawnParams : FBurbleSoundSpawnParams) : FBurbleSoundGen :=
  let G1 := if IsShouldShrinkBurbles G then ShrinkCurrentBurbles G else G
  if CanSpawn SpawnParams then
    if G1.DeltaGenerateSample > GenStepFor G1 SpawnParams then (RandGenBurble K G1 SpawnParams).1
    else G1
  else G1

/-- The state of `FBurbleSoundGen::Generate` after at most `fuel` iterations of its loop. -/
def GenerateRun (fuel : Nat) (K : FBurbleKernels) (G : FBurbleSoundGen) (OutAudio : List ℚ)
    (SpawnParams : FBurbleSoundSpawnParams) : FGenerateState :=
  GenerateLoop K SpawnParams (OutAudio.length : Int) (GenStepFor G SpawnParams)
    (CanSpawn SpawnParams) fuel
    { Gen := GenerateStart K G SpawnParams, OutAudio := OutAudio, CurrentOutBufferIndex := 0 }

/-- `FBurbleSoundGen::Generate`: `none` when the loop has not ended after `fuel` iterations. -/
def Generate (fuel : Nat) (K : FBurbleKernels) (G : FBurbleSoundGen) (OutAudio : List ℚ)
    (SpawnParams : FBurbleSoundSpawnParams) : Option (FBurbleSoundGen × List ℚ) :=
  let S := GenerateRun fuel K G OutAudio SpawnParams
  if S.CurrentOutBufferIndex < (OutAudio.length : Int) then none else some (S.Gen, S.OutAudio)

end FBurbleSoundGen

namespace FBurbleSoundGen

/-- The pool counters of two generators agree. -/
def SamePool (G G1 : FBurbleSoundGen) : Prop :=
  G1.CurrentNumBurbles = G.CurrentNumBurbles ∧ G1.MaxNumberOfBurbles = G.MaxNumberOfBurbles ∧
    G1.CurrentBufferSize = G.CurrentBufferSize ∧ G1.NumSamplesPerGen = G.NumSamplesPerGen

/-- Pool size invariant: the number of active burbles is non-negative and, when a positive
maximum is configured, at most that maximum and at most the capacity, which is a positive
multiple of 4. -/
def PoolInv (G : FBurbleSoundGen) : Prop :=
  0 ≤ G.CurrentNumBurbles ∧
    (0 < G.MaxNumberOfBurbles →
      G.CurrentNumBurbles ≤ G.MaxNumberOfBurbles ∧ G.CurrentNumBurbles ≤ G.CurrentBufferSize ∧
        0 < G.CurrentBufferSize ∧ 4 ∣ G.CurrentBufferSize)

/-- Generators reachable from the constructor by the operations `Generate` is made of:
shrinking, spawn attempts, synthesis, counter updates, and curve changes. -/
inductive Reachable (K : FBurbleKernels) (InSamplingRate : ℚ)
    (InSeed RandSeed InMaxNumberOfBurbles : Int) : FBurbleSoundGen → Prop
  | init : Reachable K InSamplingRate InSeed RandSeed InMaxNumberOfBurbles
      (New InSamplingRate InSeed RandSeed InMaxNumberOfBurbles)
  | shrink (G : FBurbleSoundGen) :
      Reachable K InSamplingRate InSeed RandSeed InMaxNumberOfBurbles G →
      Reachable K InSamplingRate InSeed RandSeed InMaxNumberOfBurbles (ShrinkCurrentBurbles G)
  | spawn (G : FBurbleSoundGen) (SpawnParams : FBurbleSoundSpawnParams) :
      Reachable K InSamplingRate InSeed RandSeed InMaxNumberOfBurbles G →
      Reachable K InSamplingRate InSeed RandSeed InMaxNumberOfBurbles
        (RandGenBurble K G SpawnParams).1
  | synth (G : FBurbleSoundGen) (OutBuffer : List ℚ) (StartIndex EndIdx : Int) :
      Reachable K InSamplingRate InSeed RandSeed InMaxNumberOfBurbles G →
      Reachable K InSamplingRate InSeed RandSeed InMaxNumberOfBurbles
        (SynthesizeSamples G OutBuffer StartIndex EndIdx).1
  | setDelta (G : FBurbleSoundGen) (d : Int) :
      Reachable K InSamplingRate InSeed RandSeed InMaxNumberOfBurbles G →
      Reachable K InSamplingRate InSeed RandSeed InMaxNumberOfBurbles
        { G with DeltaGenerateSample := d }
  | setLastShrink (G : FBurbleSoundGen) (l : Int) :
      Reachable K InSamplingRate InSeed RandSeed InMaxNumberOfBurbles G →
      Reachable K InSamplingRate InSeed RandSeed InMaxNumberOfBurbles
        { G with LastShrinkDelaSample := l }
  | setCurve (G : FBurbleSoundGen) (InCurve : Option FRCurveExtendAssetProxy) :
      Reachable K InSamplingRate InSeed RandSeed InMaxNumberOfBurbles G →
      Reachable K InSamplingRate InSeed RandSeed InMaxNumberOfBurbles
        (SetFreqAmpCurve G InCurve)

end FBurbleSoundGen

/-- Stand-in kernels for the burble generator. -/
def Sample.BurbleKernels : FBurbleKernels :=
  { FRand := fun _ _ => 1 / 2, Pow := fun _ _ => 1, Sqrt := fun x => x, Exp := fun _ => 1 / 2,
    Cos := fun _ => 1 / 2, Sin := fun _ => 1, Loge := fun _ => -1, Pi := 22 / 7 }

/-- Spawn parameters with which every spawn attempt passes the chance and amplitude checks. -/
def Sample.SpawnParams : FBurbleSoundSpawnParams :=
  { SpawnRate := 100, SpawnChance := 1, RadiusDistCoef := -1, RadiusMin := 1 / 1000,
    RadiusMax := 1 / 100, RadiusOffset := 0, PitchShift := 1, AmpDistCoef := -1,
    RadiusAmpFactor := 1 / 2, AmpOffset := 0, Gain := 1, GainMax := 1,
    DecayToChirpRatio := 1 / 10, DecayScale := 1, DecayThresh := 1 }

/-- Spawn parameters with spawn rate `0`. -/
def Sample.SilentSpawnParams : FBurbleSoundSpawnParams :=
  { Sample.SpawnParams with SpawnRate := 0 }

/-- One spawn attempt with the sample kernels and parameters. -/
def Sample.Spawn (G : FBurbleSoundGen) : FBurbleSoundGen :=
  (FBurbleSoundGen.RandGenBurble Sample.BurbleKernels G Sample.SpawnParams).1

/-- A generator at 48 kHz with seed 0 and the default `MaxNumberOfBurbles = -1`. -/
def Sample.UnlimitedGen : FBurbleSoundGen := FBurbleSoundGen.New 48000 0 0 (-1)

/-- The default generator after 64 spawns: the pool fills the initial capacity. -/
def Sample.FullGen : FBurbleSoundGen := Sample.Spawn^[64] Sample.UnlimitedGen

/-- Two's-complement wrap of an integer to the `int32` range. -/
def WrapInt32 (x : Int) : Int := (x + 2147483648) % 4294967296 - 2147483648

/-- `LBSImpactSFXSynth::FitToAudioRegister` with its addition carried out on `int32`. -/
def FitToAudioRegisterInt32 (InNumber : Int) : Int :=
  let RemVec := Int.tmod InNumber AUDIO_NUM_FLOATS_PER_VECTOR_REGISTER
  if RemVec > 0 then WrapInt32 (InNumber + (AUDIO_NUM_FLOATS_PER_VECTOR_REGISTER - RemVec))
  else InNumber

/-! ## `GetNumUsedModals` (Utils.cpp) -/

/-- `VectorAbs`. -/
def VectorAbs (A : VectorRegister4Float) : VectorRegister4Float :=
  { V0 := |A.V0|, V1 := |A.V1|, V2 := |A.V2|, V3 := |A.V3| }

/-- The `for(; j > -1; j -= 4)` loop of `GetNumUsedModals`: the value of `j` when the loop is
left, bounded by the number of remaining iterations. -/
def GetNumUsedModalsLoop (D1Buffer D2Buffer : List ℚ) (StrengthMin : ℚ) : Nat → Int → Int
  | 0, j => j
  | fuel + 1, j =>
    if j > -1 then
      let y1 := VectorLoadAligned D1Buffer j.toNat
      let y2 := VectorLoadAligned D2Buffer j.toNat
      let TotalMagVec := VectorAdd (VectorAbs y1) (VectorAbs y2)
      let SampleSum := TotalMagVec.HSum
      if SampleSum > StrengthMin then j
      else
        GetNumUsedModalsLoop D1Buffer D2Buffer StrengthMin fuel
          (j - AUDIO_NUM_FLOATS_PER_VECTOR_REGISTER)
    else j

/-- `LBSImpactSFXSynth::GetNumUsedModals`; the buffers are read-only views. -/
def GetNumUsedModals (CurrentNumModals : Int) (D1Buffer D2Buffer : List ℚ) (StrengthMin : ℚ) :
    Int :=
  max 0
    (GetNumUsedModalsLoop D1Buffer D2Buffer StrengthMin CurrentNumModals.toNat
        (CurrentNumModals - AUDIO_NUM_FLOATS_PER_VECTOR_REGISTER)
      + AUDIO_NUM_FLOATS_PER_VECTOR_REGISTER)

/-- The magnitude sum `|y1| + |y2|` over the four lanes of the group starting at `j`, as the
specification describes it. -/
def GroupMagnitude (D1Buffer D2Buffer : List ℚ) (j : Nat) : ℚ :=
  (|D1Buffer.getD j 0| + |D2Buffer.getD j 0|) + (|D1Buffer.getD (j + 1) 0| + |D2Buffer.getD (j + 1) 0|)
    + (|D1Buffer.getD (j + 2) 0| + |D2Buffer.getD (j + 2) 0|)
    + (|D1Buffer.getD (j + 3) 0| + |D2Buffer.getD (j + 3) 0|)

/-! ## Note actions of `FMidiEventParser` -/

/-- `TArray::AddUnique`. -/
def AddUnique (A : List FMidiVoiceId) (Item : FMidiVoiceId) : List FMidiVoiceId :=
  if Item ∈ A then A else A ++ [Item]

namespace FMidiEventParser

/-- `FMidiNoteAction::VelocityIgnore`. -/
def VelocityIgnore : Nat := 128

/-- `FMidiNoteAction::VelocityNoteOff`. -/
def VelocityNoteOff : Nat := 0

/-- `FMidiEventParser::NoteOn`. -/
def NoteOn (P : FMidiEventParser) (InVoiceId : FMidiVoiceId) (InMidiNoteNumber InVelocity : Nat)
    (InEventTick InCurrentTick : Int) (InOffsetMs : ℚ) : FMidiEventParser :=
  if (InMidiNoteNumber : Int) < P.MinMidiNote ∨ (InMidiNoteNumber : Int) > P.MaxMidiNote ∨
      InVelocity ≥ VelocityIgnore then P
  else
    let ExistingAction := P.PendingNoteActions.find? (fun Action => Action.VoiceId == InVoiceId)
    let PendingVelocity : Nat := (ExistingAction.map (fun Action => Action.Velocity)).getD 0
    if InVelocity > PendingVelocity ∨ InVelocity = VelocityNoteOff then
      { P with
        PendingNoteActions := P.PendingNoteActions ++
          [{ MidiNote := InMidiNoteNumber, Velocity := InVelocity, EventTick := InEventTick,
             TriggerTick := InCurrentTick, OffsetMs := InOffsetMs, FrameOffset := 0,
             VoiceId := InVoiceId }] }
    else P

/-- `FMidiEventParser::NoteOff`. -/
def NoteOff (P : FMidiEventParser) (InVoiceId : FMidiVoiceId) (InMidiNoteNumber : Nat) :
    FMidiEventParser :=
  NoteOn P InVoiceId InMidiNoteNumber VelocityNoteOff 0 0 0

/-- The inner loop `for(int i = NumPending - 1; i > CurrentNoteIndex; i--)` of
`ProcessNoteActions`, called with `i + 1`: the final value of `bIsNotCancel`. -/
def CancelScan (Pending : List FMidiNoteAction) (Action : FMidiNoteAction)
    (CurrentNoteIndex : Nat) : Nat → Bool
  | 0 => true
  | i + 1 =>
    if i > CurrentNoteIndex then
      match Pending.get? i with
      | some Other =>
        if Other.VoiceId = Action.VoiceId ∧ Other.Velocity = VelocityNoteOff then false
        else CancelScan Pending Action CurrentNoteIndex i
      | none => CancelScan Pending Action CurrentNoteIndex i
    else true

/-- The loop `for (FMidiNoteAction& Action : PendingNoteActions)` of `ProcessNoteActions` over
the remaining actions, `CurrentNoteIndex` being the index of the first of them. -/
def ProcessNoteActionsLoop (Pending : List FMidiNoteAction) :
    List FMidiNoteAction → Nat → TMap FMidiNoteAction × List FMidiVoiceId →
      TMap FMidiNoteAction × List FMidiVoiceId
  | [], _, Out => Out
  | Action :: Rest, CurrentNoteIndex, Out =>
    let Out1 : TMap FMidiNoteAction × List FMidiVoiceId :=
      if Action.Velocity > VelocityNoteOff then
        if CancelScan Pending Action CurrentNoteIndex Pending.length then
          (TMap.Emplace Out.1 Action.VoiceId Action, Out.2)
        else Out
      else (Out.1, AddUnique Out.2 Action.VoiceId)
    ProcessNoteActionsLoop Pending Rest (CurrentNoteIndex + 1) Out1

/-- `FMidiEventParser::ProcessNoteActions`: the parser, `OutNotesOn` and `OutNotesOff` on
return. -/
def ProcessNoteActions (P : FMidiEventParser) (OutNotesOn : TMap FMidiNoteAction)
    (OutNotesOff : List FMidiVoiceId) :
    FMidiEventParser × TMap FMidiNoteAction × List FMidiVoiceId :=
  if P.PendingNoteActions.length = 0 then (P, OutNotesOn, OutNotesOff)
  else
    let r := ProcessNoteActionsLoop P.PendingNoteActions P.PendingNoteActions 0 ([], [])
    ({ P with PendingNoteActions := [] }, r.1, r.2)

end FMidiEventParser

/-! ## Sub-block execution of the MetaSound nodes -/

/-- The calls made by `ExecuteSubBlocks`, in order. -/
inductive FSubBlockCall where
  | Render (StartFrame EndFrame : Int)
  | Play (Frame : Int)
  | Stop (Frame : Int)
  | Sync (Frame : Int)
deriving DecidableEq, Repr

/-- The local variables of `ExecuteSubBlocks` and the calls made so far. -/
structure FSubBlockState where
  /-- `PlayTrigIndex`. -/
  PlayTrigIndex : Nat
  /-- `StopTrigIndex`. -/
  StopTrigIndex : Nat
  /-- `SyncTrigIndex`. -/
  SyncTrigIndex : Nat
  /-- `NextPlayFrame`. -/
  NextPlayFrame : Int
  /-- `CurrAudioFrame`. -/
  CurrAudioFrame : Int
  /-- `NextAudioFrame`. -/
  NextAudioFrame : Int
  /-- Calls made so far. -/
  Calls : List FSubBlockCall
deriving DecidableEq

/-- The state at the start of `ExecuteSubBlocks`. -/
def FSubBlockState.Start : FSubBlockState :=
  { PlayTrigIndex := 0, StopTrigIndex := 0, SyncTrigIndex := 0, NextPlayFrame := 0,
    CurrAudioFrame := 0, NextAudioFrame := 0, Calls := [] }

/-- The frame of trigger `Index` of a trigger reference, or `NoTrigger` past the last one. -/
def NextTriggerFrame (Trigger : List Int) (Index : Nat) (NoTrigger : Int) : Int :=
  if Index < Trigger.length then Trigger.getD Index 0 else NoTrigger

namespace FTwoStatesForceGenOperator

/-- One iteration of the `while` loop of `FTwoStatesForceGenOperator::ExecuteSubBlocks`. -/
def ExecuteSubBlocksStep (NumFramesPerBlock : Int) (PlayTrigger StopTrigger SyncTrigger : List Int)
    (S : FSubBlockState) : FSubBlockState :=
  let NoTrigger : Int := Int32ShiftLeft NumFramesPerBlock 1
  let NextPlayFrame := NextTriggerFrame PlayTrigger S.PlayTrigIndex NoTrigger
  let NextStopFrame := NextTriggerFrame StopTrigger S.StopTrigIndex NoTrigger
  let NextSyncFrame := NextTriggerFrame SyncTrigger S.SyncTrigIndex NoTrigger
  let Next0 := Min3 NextPlayFrame NextStopFrame NextSyncFrame
  let NextAudioFrame := if Next0 = NoTrigger then NumFramesPerBlock else Next0
  let S1 : FSubBlockState :=
    if S.CurrAudioFrame ≠ NextAudioFrame then
      { S with
        Calls := S.Calls ++ [FSubBlockCall.Render S.CurrAudioFrame NextAudioFrame]
        CurrAudioFrame := NextAudioFrame }
    else S
  let S2 : FSubBlockState :=
    if S1.CurrAudioFrame = NextPlayFrame then
      { S1 with
        Calls := S1.Calls ++ [FSubBlockCall.Play S1.CurrAudioFrame]
        PlayTrigIndex := S1.PlayTrigIndex + 1 }
    else S1
  let S3 : FSubBlockState :=
    if S2.CurrAudioFrame = NextStopFrame then
      { S2 with
        Calls := S2.Calls ++ [FSubBlockCall.Stop S2.CurrAudioFrame]
        StopTrigIndex := S2.StopTrigIndex + 1 }
    else S2
  let S4 : FSubBlockState :=
    if S3.CurrAudioFrame = NextSyncFrame then
      { S3 with
        Calls := S3.Calls ++ [FSubBlockCall.Sync S3.CurrAudioFrame]
        SyncTrigIndex := S3.SyncTrigIndex + 1 }
    else S3
  { S4 with NextPlayFrame := NextPlayFrame, NextAudioFrame := NextAudioFrame }

/-- The loop `while (NextAudioFrame < LastAudioFrame)`; `none` when it has not ended after
`fuel` iterations. -/
def ExecuteSubBlocksLoop (NumFramesPerBlock : Int)
    (PlayTrigger StopTrigger SyncTrigger : List Int) : Nat → FSubBlockState → Option FSubBlockState
  | fuel, S =>
    if S.NextAudioFrame < NumFramesPerBlock - 1 then
      match fuel with
      | 0 => none
      | fuel1 + 1 =>
        ExecuteSubBlocksLoop NumFramesPerBlock PlayTrigger StopTrigger SyncTrigger fuel1
          (ExecuteSubBlocksStep NumFramesPerBlock PlayTrigger StopTrigger SyncTrigger S)
    else some S

/-- `FTwoStatesForceGenOperator::ExecuteSubBlocks`: the calls it makes, in order. -/
def ExecuteSubBlocks (fuel : Nat) (NumFramesPerBlock : Int)
    (PlayTrigger StopTrigger SyncTrigger : List Int) : Option (List FSubBlockCall) :=
  (ExecuteSubBlocksLoop NumFramesPerBlock PlayTrigger StopTrigger SyncTrigger fuel
    FSubBlockState.Start).map (fun S => S.Calls)

end FTwoStatesForceGenOperator

namespace FBurbleGenOperator

/-- One iteration of the `while` loop of `FBurbleGenOperator::ExecuteSubBlocks`. -/
def ExecuteSubBlocksStep (NumFramesPerBlock : Int) (PlayTrigger : List Int)
    (S : FSubBlockState) : FSubBlockState :=
  let NoTrigger : Int := Int32ShiftLeft NumFramesPerBlock 1
  let NextPlayFrame := NextTriggerFrame PlayTrigger S.PlayTrigIndex NoTrigger
  let NextAudioFrame := min NextPlayFrame NumFramesPerBlock
  let S1 : FSubBlockState :=
    if S.CurrAudioFrame ≠ NextAudioFrame then
      { S with
        Calls := S.Calls ++ [FSubBlockCall.Render S.CurrAudioFrame NextAudioFrame]
        CurrAudioFrame := NextAudioFrame }
    else S
  let S2 : FSubBlockState :=
    if S1.CurrAudioFrame = NextPlayFrame then
      { S1 with
        Calls := S1.Calls ++ [FSubBlockCall.Play S1.CurrAudioFrame]
        PlayTrigIndex := S1.PlayTrigIndex + 1 }
    else S1
  { S2 with NextPlayFrame := NextPlayFrame, NextAudioFrame := NextAudioFrame }

/-- The loop `while (NextPlayFrame < LastAudioFrame)`; `none` when it has not ended after
`fuel` iterations. -/
def ExecuteSubBlocksLoop (NumFramesPerBlock : Int) (PlayTrigger : List Int) :
    Nat → FSubBlockState → Option FSubBlockState
  | fuel, S =>
    if S.NextPlayFrame < NumFramesPerBlock - 1 then
      match fuel with
      | 0 => none
      | fuel1 + 1 =>
        ExecuteSubBlocksLoop NumFramesPerBlock PlayTrigger fuel1
          (ExecuteSubBlocksStep NumFramesPerBlock PlayTrigger S)
    else some S

/-- `FBurbleGenOperator::ExecuteSubBlocks`: the calls it makes, in order. -/
def ExecuteSubBlocks (fuel : Nat) (NumFramesPerBlock : Int) (PlayTrigger : List Int) :
    Option (List FSubBlockCall) :=
  (ExecuteSubBlocksLoop NumFramesPerBlock PlayTrigger fuel FSubBlockState.Start).map
    (fun S => S.Calls)

end FBurbleGenOperator

/-! ## Envelope pass of `FVehicleEngineEulerSynth::Generate` -/

/-- The members of `FVehicleEngineEulerSynth` used by the envelope pass. `EnvelopeIdxMap` is a
`TMap<int32, float>` from harmonic index to interpolation speed. -/
structure FVehicleEngineEulerSynth where
  /-- Duration of one sample. -/
  TimeStep : ℚ
  /-- Duration of the current block. -/
  FrameTime : ℚ
  /-- Harmonics whose envelope is moving, with their interpolation speed. -/
  EnvelopeIdxMap : List (Int × ℚ)
  /-- Target envelope per harmonic. -/
  TargetEnvelopBuffer : List ℚ
  /-- Current envelope per harmonic. -/
  CurrentEnvelopeBuffer : List ℚ
deriving DecidableEq

namespace FVehicleEngineEulerSynth

/-- `TMap<int32, float>::Add`: replace the value of an existing key, else append. -/
def MapAdd (M : List (Int × ℚ)) (Key : Int) (Value : ℚ) : List (Int × ℚ) :=
  if M.any (fun e => e.1 == Key) then M.map (fun e => if e.1 == Key then (Key, Value) else e)
  else M ++ [(Key, Value)]

/-- `TMap<int32, float>::Remove`. -/
def MapRemove (M : List (Int × ℚ)) (Key : Int) : List (Int × ℚ) :=
  M.filter (fun e => e.1 != Key)

/-- `FVehicleEngineEulerSynth::AddToInterpEnv`. -/
def AddToInterpEnv (S : FVehicleEngineEulerSynth) (Index : Int) (NewEnv InterpSpeed : ℚ) :
    FVehicleEngineEulerSynth :=
  { S with
    TargetEnvelopBuffer := BufSet S.TargetEnvelopBuffer Index NewEnv
    EnvelopeIdxMap := MapAdd S.EnvelopeIdxMap Index InterpSpeed }

/-- The value stored in `CurrentEnvelopeBuffer[Index]` by one iteration of the envelope loop. -/
def NextEnvelope (FrameTime TargetValue CurrentValue Speed : ℚ) : ℚ :=
  if CurrentValue > TargetValue then max TargetValue (CurrentValue - Speed * FrameTime)
  else if CurrentValue < TargetValue then min TargetValue (CurrentValue + Speed * FrameTime)
  else CurrentValue

/-- One iteration of `for(auto& MapIdx : EnvelopeIdxMap)` at the end of `Generate`: the
envelope buffer and `ToRemoveKeys`. -/
def EnvelopeStep (FrameTime : ℚ) (TargetEnvelopBuffer : List ℚ) (Acc : List ℚ × List Int)
    (MapIdx : Int × ℚ) : List ℚ × List Int :=
  let Index := MapIdx.1
  let TargetValue := BufGet TargetEnvelopBuffer Index
  let CurrentValue := BufGet Acc.1 Index
  let Current1 : List ℚ :=
    if CurrentValue > TargetValue then
      BufSet Acc.1 Index (max TargetValue (CurrentValue - MapIdx.2 * FrameTime))
    else if CurrentValue < TargetValue then
      BufSet Acc.1 Index (min TargetValue (CurrentValue + MapIdx.2 * FrameTime))
    else Acc.1
  if IsNearlyEqual (BufGet Current1 Index) TargetValue (1 / 100000) then
    (Current1, Acc.2 ++ [Index])
  else (Current1, Acc.2)

/-- The envelope pass at the end of `FVehicleEngineEulerSynth::Generate`. -/
def EnvelopePass (S : FVehicleEngineEulerSynth) : FVehicleEngineEulerSynth :=
  let r :=
    S.EnvelopeIdxMap.foldl (EnvelopeStep S.FrameTime S.TargetEnvelopBuffer)
      (S.CurrentEnvelopeBuffer, [])
  { S with
    CurrentEnvelopeBuffer := r.1
    EnvelopeIdxMap := r.2.foldl MapRemove S.EnvelopeIdxMap }

end FVehicleEngineEulerSynth

/-- A generator in the middle of a cycle of 240 + 240 samples. -/
def Sample.RunningGen : FTwoStatesForceGen :=
  { Sample.FreshGen with
    CurrentCycleIndex := 100, LastNumSamplesFirstState := 240, LastNumSamplesSecondState := 240 }

/-- A generator with a sampling rate of 100 Hz. -/
def Sample.SlowGen : FBurbleSoundGen := FBurbleSoundGen.New 100 0 0 8

/-- Spawn parameters with a spawn rate of 96000 burbles per second. -/
def Sample.FastSpawnParams : FBurbleSoundSpawnParams :=
  { Sample.SpawnParams with SpawnRate := 96000 }

/-- An engine synth with three moving envelopes: harmonic 0 rises, harmonic 1 reaches its
target within the block, harmonic 2 falls; harmonic 3 is not in the map. -/
def Sample.EngineEnvelopes : FVehicleEngineEulerSynth :=
  { TimeStep := 1 / 48000
    FrameTime := 1 / 100
    EnvelopeIdxMap := [(0, 10), (1, 1000), (2, 1)]
    TargetEnvelopBuffer := [1, 0, 0, 3]
    CurrentEnvelopeBuffer := [0, 5, 1 / 2, 7] }

/-- No pending action after position `i` is a note-off of voice `v`. -/
def FMidiEventParser.NoLaterNoteOff (Pending : List FMidiNoteAction) (i : Nat)
    (v : FMidiVoiceId) : Prop :=
  ∀ j b, i < j → Pending.get? j = some b → b.VoiceId = v →
    b.Velocity ≠ FMidiEventParser.VelocityNoteOff

/-- A parser that received: note-on voice 1, note-off voice 1, note-on voice 2, and two
note-offs of voice 3. -/
def Sample.PendingParser : FMidiEventParser :=
  FMidiEventParser.NoteOff
    (FMidiEventParser.NoteOff
      (FMidiEventParser.NoteOn
        (FMidiEventParser.NoteOff
          (FMidiEventParser.NoteOn Sample.Parser 1 60 100 0 0 0) 1 60) 2 62 80 0 0 0) 3 64) 3 64

/-- The state of burble `j`: its entries in the eight per-burble buffers (`D1`, `D2`, `TwoRCos`,
`R2`, `TwoRCosD2`, `TwoRCosMax`, `ChirpTwoRCos`, `Duration`). -/
def FBurbleSoundGen.BurbleAt (G : FBurbleSoundGen) (j : Nat) : ℚ × ℚ × ℚ × ℚ × ℚ × ℚ × ℚ × ℚ :=
  (BufGet G.D1Buffer j, BufGet G.D2Buffer j, BufGet G.TwoRCosBuffer j, BufGet G.R2Buffer j,
    BufGet G.TwoRCosD2Buffer j, BufGet G.TwoRCosMaxBuffer j, BufGet G.ChirpTwoRCosBuffer j,
    BufGet G.DurationBuffer j)

/-- Each of the eight per-burble buffers holds at least `n` entries. -/
def FBurbleSoundGen.BuffersHold (G : FBurbleSoundGen) (n : Nat) : Prop :=
  n ≤ G.D1Buffer.length ∧ n ≤ G.D2Buffer.length ∧ n ≤ G.TwoRCosBuffer.length ∧
  n ≤ G.R2Buffer.length ∧ n ≤ G.TwoRCosD2Buffer.length ∧ n ≤ G.TwoRCosMaxBuffer.length ∧
  n ≤ G.ChirpTwoRCosBuffer.length ∧ n ≤ G.DurationBuffer.length

instance (G : FBurbleSoundGen) (n : Nat) : Decidable (FBurbleSoundGen.BuffersHold G n) := by
  unfold FBurbleSoundGen.BuffersHold
  exact inferInstance

/-- The state after the body of `if(DurationBuffer[i] <= 0.f)` in `ShrinkCurrentBurbles`. -/
def FBurbleSoundGen.SwapDead (G : FBurbleSoundGen) (i SwapIdx : Int) : FBurbleSoundGen :=
  { G with
    D1Buffer := BufSet (BufSet G.D1Buffer i (BufGet G.D1Buffer SwapIdx)) SwapIdx 0
    D2Buffer := BufSet (BufSet G.D2Buffer i (BufGet G.D2Buffer SwapIdx)) SwapIdx 0
    TwoRCosBuffer :=
      BufSet (BufSet G.TwoRCosBuffer i (BufGet G.TwoRCosBuffer SwapIdx)) SwapIdx 0
    R2Buffer := BufSet G.R2Buffer i (BufGet G.R2Buffer SwapIdx)
    TwoRCosD2Buffer :=
      BufSet (BufSet G.TwoRCosD2Buffer i (BufGet G.TwoRCosD2Buffer SwapIdx)) SwapIdx 0
    TwoRCosMaxBuffer :=
      BufSet (BufSet G.TwoRCosMaxBuffer i (BufGet G.TwoRCosMaxBuffer SwapIdx)) SwapIdx 0
    ChirpTwoRCosBuffer :=
      BufSet G.ChirpTwoRCosBuffer i (BufGet G.ChirpTwoRCosBuffer SwapIdx)
    DurationBuffer := BufSet G.DurationBuffer i (BufGet G.DurationBuffer SwapIdx)
    CurrentNumBurbles := G.CurrentNumBurbles - 1 }

/-- The contribution of a burble state to the multiset of surviving burbles: itself when its
duration is positive, nothing otherwise. -/
def FBurbleSoundGen.AliveSingleton (t : ℚ × ℚ × ℚ × ℚ × ℚ × ℚ × ℚ × ℚ) :
    Multiset (ℚ × ℚ × ℚ × ℚ × ℚ × ℚ × ℚ × ℚ) :=
  if 0 < t.2.2.2.2.2.2.2 then {t} else 0

/-- A pool of four burbles, the second and the fourth of them dead. -/
def Sample.PoolWithDead : FBurbleSoundGen :=
  { FBurbleSoundGen.New 48000 0 0 8 with
    CurrentBufferSize := 4
    CurrentNumBurbles := 4
    D1Buffer := [10, 20, 30, 40]
    D2Buffer := [11, 21, 31, 41]
    TwoRCosBuffer := [1, 1, 1, 1]
    TwoRCosD2Buffer := [2, 2, 2, 2]
    TwoRCosMaxBuffer := [3, 3, 3, 3]
    R2Buffer := [4, 4, 4, 4]
    ChirpTwoRCosBuffer := [5, 5, 5, 5]
    DurationBuffer := [1, 0, 2, -1] }

/-- The range check of `TArrayView::Slice(Index, Count)` on a view of `Num` elements. -/
def SliceInRange (Num Index Count : Int) : Prop := 0 ≤ Index ∧ 0 ≤ Count ∧ Index + Count ≤ Num

instance (Num Index Count : Int) : Decidable (SliceInRange Num Index Count) := by
  unfold SliceInRange
  exact inferInstance

namespace FPianoSynth

/-- A hammer impulse after one pass of the queue loop of `SynthHammerIfNeeded` over a block of
`NumOutFrame` frames: `State.CurrentIndex += NumHammerSample`. -/
def AdvanceHammer (HammerBufferSize NumOutFrame : Int) (State : FHammerState) : FHammerState :=
  { State with
    CurrentIndex := State.CurrentIndex + min NumOutFrame (HammerBufferSize - State.CurrentIndex) }

/-- The hammer queue loop of `SynthHammerIfNeeded` with the range check of every slice it takes:
`none` when a slice of `HammerBuffer` or of `OutAudio` is out of range, or when the slice of
`HammerBuffer` reaches beyond its first `Rendered` samples. -/
def SynthHammerQueueLoopChecked (HammerBuffer : List ℚ) (Rendered : Int) :
    Nat → Nat → List FHammerState → List ℚ → Option (List FHammerState × List ℚ)
  | 0, _, Queue, OutAudio => some (Queue, OutAudio)
  | fuel + 1, i, Queue, OutAudio =>
    match Queue.get? i with
    | none => some (Queue, OutAudio)
    | some State =>
      let NumHammerSample : Int :=
        min (OutAudio.length : Int) ((HammerBuffer.length : Int) - State.CurrentIndex)
      if SliceInRange (HammerBuffer.length : Int) State.CurrentIndex NumHammerSample ∧
          SliceInRange (OutAudio.length : Int) 0 NumHammerSample ∧
          State.CurrentIndex + NumHammerSample ≤ Rendered then
        let OutAudio1 :=
          ArrayMultiplyAddInPlace (Slice HammerBuffer State.CurrentIndex NumHammerSample)
            State.Strength OutAudio
        let State1 : FHammerState :=
          { State with CurrentIndex := State.CurrentIndex + NumHammerSample }
        let Queue1 := Queue.set i State1
        if State1.CurrentIndex < (HammerBuffer.length : Int) then
          SynthHammerQueueLoopChecked HammerBuffer Rendered fuel (i + 1) Queue1 OutAudio1
        else
          SynthHammerQueueLoopChecked HammerBuffer Rendered fuel i (RemoveAtSwap Queue1 i)
            OutAudio1
      else none

/-- The first part of `SynthHammerIfNeeded`: render the next `NumOutFrame` samples of the hammer
impulse response while it is not finished. -/
def RenderHammer (Kn : FPianoKernels) (S : FPianoSynth) (NumOutFrame : Int) : FPianoSynth :=
  let HammerBufferSize : Int := (S.HammerBuffer.length : Int)
  if !IsHammerSynthFinished S then
    let NumGenFrame : Int := min NumOutFrame (HammerBufferSize - S.CurrentHammerBufferIndex)
    let Rendered :=
      WriteSlice S.HammerBuffer S.CurrentHammerBufferIndex
        ((Kn.HammerSynthesize S.CurrentHammerBufferIndex NumGenFrame).take NumGenFrame.toNat)
    let Shaped :=
      if S.CurrentHammerBufferIndex < (S.AttackCurveBuffer.length : Int) then
        let NumAttackFrame : Int :=
          min ((S.AttackCurveBuffer.length : Int) - S.CurrentHammerBufferIndex) NumGenFrame
        WriteSlice Rendered S.CurrentHammerBufferIndex
          (ArrayMultiplyInPlace
            (Slice S.AttackCurveBuffer S.CurrentHammerBufferIndex NumAttackFrame)
            (Slice Rendered S.CurrentHammerBufferIndex NumAttackFrame))
      else Rendered
    { S with
      HammerBuffer := Shaped
      CurrentHammerBufferIndex := S.CurrentHammerBufferIndex + NumGenFrame }
  else S

/-- The range checks of the slices taken by the first part of `SynthHammerIfNeeded`. -/
def RenderHammerInRange (S : FPianoSynth) (NumOutFrame : Int) : Prop :=
  let HammerBufferSize : Int := (S.HammerBuffer.length : Int)
  let NumGenFrame : Int := min NumOutFrame (HammerBufferSize - S.CurrentHammerBufferIndex)
  let NumAttackFrame : Int :=
    min ((S.AttackCurveBuffer.length : Int) - S.CurrentHammerBufferIndex) NumGenFrame
  IsHammerSynthFinished S = false →
    SliceInRange HammerBufferSize S.CurrentHammerBufferIndex NumGenFrame ∧
    (S.CurrentHammerBufferIndex < (S.AttackCurveBuffer.length : Int) →
      SliceInRange (S.AttackCurveBuffer.length : Int) S.CurrentHammerBufferIndex NumAttackFrame ∧
      SliceInRange HammerBufferSize S.CurrentHammerBufferIndex NumAttackFrame)

instance (S : FPianoSynth) (NumOutFrame : Int) : Decidable (RenderHammerInRange S NumOutFrame) := by
  unfold RenderHammerInRange
  exact inferInstance

/-- `FPianoSynth::SynthHammerIfNeeded` with the range check of every slice it takes from
`HammerBuffer`, `AttackCurveBuffer` and `OutAudio`, the queue reading only samples of the hammer
buffer that are already rendered: `none` when a check fails. -/
def SynthHammerIfNeededChecked (Kn : FPianoKernels) (S : FPianoSynth) (OutAudio : List ℚ) :
    Option (FPianoSynth × List ℚ) :=
  if RenderHammerInRange S (OutAudio.length : Int) then
    let S1 := RenderHammer Kn S (OutAudio.length : Int)
    match SynthHammerQueueLoopChecked S1.HammerBuffer S1.CurrentHammerBufferIndex
        S1.HammerQueue.length 0 S1.HammerQueue OutAudio with
    | some r => some ({ S1 with HammerQueue := r.1 }, r.2)
    | none => none
  else none

/-- The hammer bookkeeping is consistent: the rendered length lies inside the hammer buffer and
every queued impulse has read no further than the rendered part. -/
def HammerInv (S : FPianoSynth) : Prop :=
  0 ≤ S.CurrentHammerBufferIndex ∧ S.CurrentHammerBufferIndex ≤ (S.HammerBuffer.length : Int) ∧
  ∀ H ∈ S.HammerQueue, 0 ≤ H.CurrentIndex ∧ H.CurrentIndex ≤ S.CurrentHammerBufferIndex

end FPianoSynth

/-- The hammer members (`HammerQueue`, `CurrentHammerBufferIndex`, `HammerBuffer`) of `T` are
those of `S`. -/
def FPianoSynth.HammerSame (S T : FPianoSynth) : Prop :=
  T.HammerQueue = S.HammerQueue ∧ T.CurrentHammerBufferIndex = S.CurrentHammerBufferIndex ∧
    T.HammerBuffer = S.HammerBuffer

/-- The sample kernels with a hammer velocity scale of 1 for every voice. -/
def Sample.HammerKernels : FPianoKernels :=
  { Sample.Kernels with InitBuffers := fun K => { K.Modal with HammerFreqVelScale := 1 } }

/-- Voice 1 is struck and one block of four frames is rendered: one hammer impulse is queued. -/
def Sample.Struck : FPianoSynth :=
  (FPianoSynth.Synthesize Sample.HammerKernels Sample.Synth0 Sample.Block
    [(1, Sample.NoteOn 1 60 100)] [] (Sample.Params EPedalState.NoChange) 0).1

/-- A second block rendered after `Sample.Struck`. -/
def Sample.Struck2 : FPianoSynth :=
  (FPianoSynth.Synthesize Sample.HammerKernels Sample.Struck Sample.Block [] []
    (Sample.Params EPedalState.NoChange) 0).1

/-- The sample synth with a threshold of `-4` and `DynAdjustFactorMin = -3`. -/
def Sample.NegativeThresholdSynth : FPianoSynth :=
  { Sample.LoudSynth with
    PianoModel := { Sample.Model with DynAdjustThreshold := -4, DynAdjustFactorMin := -3 } }

namespace FRCurveExtendAssetProxy

end FRCurveExtendAssetProxy

end ImpactSFX

/-! # Theorems -/

namespace ImpactSFX

/-! ## TMap lemmas -/

namespace TMap

variable {V : Type}

theorem keys_assign (M : TMap V) (K : FMidiVoiceId) (v : V) :
    Keys (Assign M K v) = Keys M := by
  unfold Keys Assign
  rw [List.map_map]
  apply List.map_congr_left
  intro e _
  simp only [Function.comp]
  split <;> rfl

theorem contains_iff (M : TMap V) (K : FMidiVoiceId) :
    Contains M K = true ↔ K ∈ Keys M := by
  simp [Contains, Keys]

theorem mem_keys_emplace (M : TMap V) (K x : FMidiVoiceId) (v : V) :
    x ∈ Keys (Emplace M K v) ↔ x = K ∨ x ∈ Keys M := by
  unfold Emplace
  split
  · rename_i h
    rw [keys_assign]
    rw [contains_iff] at h
    constructor
    · intro hx; exact Or.inr hx
    · rintro (rfl | hx)
      · exact h
      · exact hx
  · simp [Keys]
    tauto

theorem mem_keys_remove (M : TMap V) (K x : FMidiVoiceId) :
    x ∈ Keys (Remove M K) ↔ x ∈ Keys M ∧ x ≠ K := by
  unfold Remove Keys
  simp only [List.mem_map, List.mem_filter, bne_iff_ne, ne_eq]
  constructor
  · rintro ⟨e, ⟨he, hne⟩, rfl⟩; exact ⟨⟨e, he, rfl⟩, hne⟩
  · rintro ⟨⟨e, he, rfl⟩, hne⟩; exact ⟨e, ⟨he, hne⟩, rfl⟩

theorem find_eq_none_iff (M : TMap V) (K : FMidiVoiceId) :
    Find M K = none ↔ K ∉ Keys M := by
  simp only [Find, Keys, Option.map_eq_none', List.find?_eq_none, beq_iff_eq, List.mem_map,
    not_exists, not_and]

theorem mem_keys_of_find (M : TMap V) (K : FMidiVoiceId) (v : V) (h : Find M K = some v) :
    K ∈ Keys M := by
  by_contra hn
  rw [← find_eq_none_iff] at hn
  rw [hn] at h
  cases h

end TMap

/-! ## Key sets of the piano maps -/

namespace FPianoSynth

theorem keys_synthVoices (Kn : FPianoKernels) (a b c : Bool) (M : TMap FPianoKeySynth)
    (Out : List ℚ) : TMap.Keys (SynthVoices Kn a b c M Out).1 = TMap.Keys M := by
  induction M generalizing Out with
  | nil => rfl
  | cons e rest ih =>
    simp only [SynthVoices, TMap.Keys, List.map_cons]
    exact congrArg _ (ih _)

theorem keys_foldl_remove_subset {V : Type} (Ks : List FMidiVoiceId) (M : TMap V)
    (x : FMidiVoiceId) (h : x ∈ TMap.Keys (Ks.foldl TMap.Remove M)) : x ∈ TMap.Keys M := by
  induction Ks generalizing M with
  | nil => exact h
  | cons k rest ih =>
    have h1 := ih (TMap.Remove M k) h
    exact ((TMap.mem_keys_remove M k x).1 h1).1

theorem keys_synthFirstStageLoop (Kn : FPianoKernels) (A N : Int) (M : TMap FPianoKeySynth)
    (Out : List ℚ) (Sec : List (FMidiVoiceId × List ℚ)) :
    TMap.Keys (SynthFirstStageLoop Kn A N M Out Sec).1 = TMap.Keys M := by
  induction M generalizing Out Sec with
  | nil => rfl
  | cons e rest ih =>
    unfold SynthFirstStageLoop
    split
    · simp only [TMap.Keys, List.map_cons]
      exact congrArg _ (ih _ _)
    · simp only [TMap.Keys, List.map_cons]
      exact congrArg _ (ih _ _)

theorem keys_synthSecondStageLoop (Kn : FPianoKernels) (b : Bool)
    (Sec : List (FMidiVoiceId × List ℚ)) (M : TMap FPianoKeySynth) (Out : List ℚ) :
    TMap.Keys (SynthSecondStageLoop Kn b Sec M Out).1 = TMap.Keys M := by
  induction Sec generalizing M Out with
  | nil => rfl
  | cons s rest ih =>
    unfold SynthSecondStageLoop
    split
    · exact ih _ _
    · rw [ih, TMap.keys_assign]

theorem mapsDisjoint_of_keys (S T : FPianoSynth)
    (hOn : ∀ x, x ∈ TMap.Keys T.NoteOnMap → x ∈ TMap.Keys S.NoteOnMap)
    (hOff : ∀ x, x ∈ TMap.Keys T.NoteOffMap → x ∈ TMap.Keys S.NoteOffMap)
    (h : MapsDisjoint S) : MapsDisjoint T :=
  fun v hv => h v ⟨hOn v hv.1, hOff v hv.2⟩

theorem mapsDisjoint_updateNoteOff (S : FPianoSynth) (k : FMidiVoiceId) (h : MapsDisjoint S) :
    MapsDisjoint (UpdateNoteOff S k) := by
  unfold UpdateNoteOff
  split
  · exact h
  · intro v hv
    obtain ⟨h1, h2⟩ := hv
    simp only at h1 h2
    rw [TMap.mem_keys_remove] at h1
    rw [TMap.mem_keys_emplace] at h2
    rcases h2 with h2 | h2
    · exact h1.2 h2
    · exact h v ⟨h1.1, h2⟩

theorem mapsDisjoint_updateNotesOffMap (NotesOff : List FMidiVoiceId) (S : FPianoSynth)
    (h : MapsDisjoint S) : MapsDisjoint (UpdateNotesOffMap S NotesOff) := by
  unfold UpdateNotesOffMap
  induction NotesOff generalizing S with
  | nil => exact h
  | cons k rest ih => exact ih _ (mapsDisjoint_updateNoteOff S k h)

theorem mapsDisjoint_updateNoteOn (Kn : FPianoKernels) (P : FPianoSynthParams)
    (Acc : FPianoSynth × ℚ) (e : FMidiVoiceId × FMidiNoteAction) (h : MapsDisjoint Acc.1) :
    MapsDisjoint (UpdateNoteOn Kn P Acc e).1 := by
  unfold UpdateNoteOn
  simp only
  split
  · exact h
  · split
    · rename_i hoff
      split
      · intro v hv
        obtain ⟨h1, h2⟩ := hv
        simp only at h1 h2
        rw [TMap.mem_keys_emplace] at h1
        rcases h1 with h1 | h1
        · subst h1
          exact (TMap.find_eq_none_iff _ _).1 hoff h2
        · exact h v ⟨h1, h2⟩
      · intro v hv
        obtain ⟨h1, h2⟩ := hv
        simp only at h1 h2
        rw [TMap.keys_assign] at h1
        exact h v ⟨h1, h2⟩
    · intro v hv
      obtain ⟨h1, h2⟩ := hv
      simp only at h1 h2
      rw [TMap.mem_keys_remove] at h2
      rw [TMap.mem_keys_emplace] at h1
      rcases h1 with h1 | h1
      · exact h2.2 h1
      · exact h v ⟨h1, h2.1⟩

theorem mapsDisjoint_foldl_updateNoteOn (Kn : FPianoKernels) (P : FPianoSynthParams)
    (NotesOn : TMap FMidiNoteAction) (Acc : FPianoSynth × ℚ) (h : MapsDisjoint Acc.1) :
    MapsDisjoint (NotesOn.foldl (UpdateNoteOn Kn P) Acc).1 := by
  induction NotesOn generalizing Acc with
  | nil => exact h
  | cons e rest ih => exact ih _ (mapsDisjoint_updateNoteOn Kn P Acc e h)

theorem mapsDisjoint_updateNotesOnMap (Kn : FPianoKernels) (S : FPianoSynth)
    (NotesOn : TMap FMidiNoteAction) (P : FPianoSynthParams) (h : MapsDisjoint S) :
    MapsDisjoint (UpdateNotesOnMap Kn S NotesOn P) := by
  unfold UpdateNotesOnMap
  have h1 := mapsDisjoint_foldl_updateNoteOn Kn P NotesOn (S, 0) h
  simp only
  split
  · exact fun v hv => h1 v hv
  · exact h1

theorem noteMaps_updateAllMapIfSosPedalChanged (S : FPianoSynth) (NotesOn : TMap FMidiNoteAction)
    (NotesOff : List FMidiVoiceId) (P : FPianoSynthParams) :
    (UpdateAllMapIfSosPedalChanged S NotesOn NotesOff P).1.NoteOnMap = S.NoteOnMap ∧
      (UpdateAllMapIfSosPedalChanged S NotesOn NotesOff P).1.NoteOffMap = S.NoteOffMap := by
  unfold UpdateAllMapIfSosPedalChanged
  cases P.SosPedal
  · exact ⟨rfl, rfl⟩
  · exact ⟨rfl, rfl⟩
  · simp only
    split
    · exact ⟨rfl, rfl⟩
    · exact ⟨rfl, rfl⟩

theorem mapsDisjoint_adjustDynamicRangeIfNeeded (Kn : FPianoKernels) (S : FPianoSynth)
    (P : FPianoSynthParams) (h : MapsDisjoint S) :
    MapsDisjoint (AdjustDynamicRangeIfNeeded Kn S P) := by
  unfold AdjustDynamicRangeIfNeeded
  split
  · exact h
  · split
    · refine mapsDisjoint_of_keys S _ ?_ (fun x hx => hx) h
      intro x hx
      simp only [TMap.Keys, List.map_map, List.mem_map, Function.comp] at hx ⊢
      obtain ⟨e, he, rfl⟩ := hx
      refine ⟨e, he, ?_⟩
      split <;> rfl
    · exact h

theorem mapsDisjoint_updateNotesMaps (Kn : FPianoKernels) (S : FPianoSynth)
    (NotesOn : TMap FMidiNoteAction) (NotesOff : List FMidiVoiceId) (P : FPianoSynthParams)
    (h : MapsDisjoint S) : MapsDisjoint (UpdateNotesMaps Kn S NotesOn NotesOff P) := by
  unfold UpdateNotesMaps
  apply mapsDisjoint_adjustDynamicRangeIfNeeded
  apply mapsDisjoint_updateNotesOnMap
  apply mapsDisjoint_updateNotesOffMap
  obtain ⟨h1, h2⟩ := noteMaps_updateAllMapIfSosPedalChanged S NotesOn NotesOff P
  intro v hv
  rw [h1, h2] at hv
  exact h v hv

theorem mapsDisjoint_offAllNotes (S : FPianoSynth) (h : MapsDisjoint S) :
    MapsDisjoint (OffAllNotes S) := by
  unfold OffAllNotes
  simp only
  split
  · intro v hv
    simp [TMap.Keys] at hv
  · exact fun v hv => h v hv

theorem mapsDisjoint_killAllNotes (S : FPianoSynth) : MapsDisjoint (KillAllNotes S) := by
  intro v hv
  simp [KillAllNotes, TMap.Keys] at hv

theorem noteMaps_synthHammerIfNeeded (Kn : FPianoKernels) (S : FPianoSynth) (Out : List ℚ) :
    (SynthHammerIfNeeded Kn S Out).1.NoteOnMap = S.NoteOnMap ∧
      (SynthHammerIfNeeded Kn S Out).1.NoteOffMap = S.NoteOffMap := by
  unfold SynthHammerIfNeeded
  simp only
  split <;> exact ⟨rfl, rfl⟩

theorem mapsDisjoint_synthNotesOff (Kn : FPianoKernels) (S : FPianoSynth) (Out : List ℚ)
    (b : Bool) (h : MapsDisjoint S) : MapsDisjoint (SynthNotesOff Kn S Out b).1 := by
  unfold SynthNotesOff
  split
  · exact h
  · refine mapsDisjoint_of_keys S _ (fun x hx => hx) ?_ h
    intro x hx
    have h1 := keys_foldl_remove_subset _ _ x hx
    rw [keys_synthVoices] at h1
    exact h1

theorem mapsDisjoint_synthNoteOnWithSusPedalOn (Kn : FPianoKernels) (S : FPianoSynth)
    (Out : List ℚ) (h : MapsDisjoint S) : MapsDisjoint (SynthNoteOnWithSusPedalOn Kn S Out).1 := by
  unfold SynthNoteOnWithSusPedalOn
  split
  · exact h
  · refine mapsDisjoint_of_keys S _ ?_ (fun x hx => hx) h
    intro x hx
    simp only at hx
    rw [keys_synthVoices] at hx
    exact hx

theorem mapsDisjoint_synthNoteOnWithSusPedalOff (Kn : FPianoKernels) (S : FPianoSynth)
    (Out : List ℚ) (b : Bool) (h : MapsDisjoint S) :
    MapsDisjoint (SynthNoteOnWithSusPedalOff Kn S Out b).1 := by
  unfold SynthNoteOnWithSusPedalOff
  split
  · exact h
  · refine mapsDisjoint_of_keys S _ ?_ (fun x hx => hx) h
    intro x hx
    simp only at hx
    rw [keys_synthSecondStageLoop, keys_synthFirstStageLoop] at hx
    exact hx

theorem mapsDisjoint_synthesize (Kn : FPianoKernels) (S : FPianoSynth) (Out : List ℚ)
    (NotesOn : TMap FMidiNoteAction) (NotesOff : List FMidiVoiceId) (P : FPianoSynthParams)
    (T : ℚ) (h : MapsDisjoint S) : MapsDisjoint (Synthesize Kn S Out NotesOn NotesOff P T).1 := by
  unfold Synthesize
  split
  · exact h
  · have h0 : MapsDisjoint { S with CurrentSecond := T / 1000 } := fun v hv => h v hv
    have h1 := mapsDisjoint_updateNotesMaps Kn _ NotesOn NotesOff P h0
    have h2 : MapsDisjoint (SynthHammerIfNeeded Kn
        (UpdateNotesMaps Kn { S with CurrentSecond := T / 1000 } NotesOn NotesOff P) Out).1 := by
      obtain ⟨e1, e2⟩ := noteMaps_synthHammerIfNeeded Kn
        (UpdateNotesMaps Kn { S with CurrentSecond := T / 1000 } NotesOn NotesOff P) Out
      intro v hv
      rw [e1, e2] at hv
      exact h1 v hv
    have h3 := mapsDisjoint_synthNotesOff Kn _ (SynthHammerIfNeeded Kn
        (UpdateNotesMaps Kn { S with CurrentSecond := T / 1000 } NotesOn NotesOff P) Out).2
        P.IsSusPedalOn h2
    simp only
    split
    · exact fun v hv => mapsDisjoint_synthNoteOnWithSusPedalOn Kn _ _ h3 v hv
    · exact fun v hv => mapsDisjoint_synthNoteOnWithSusPedalOff Kn _ _ _ h3 v hv

/-! ## C1 -/

/-- C1: in every state of `FPianoSynth` reachable from construction by `Synthesize`
(including the point right after `UpdateNotesMaps`), `OffAllNotes`, `KillAllNotes` and the curve
setters, with arbitrary note-on maps, note-off lists and pedal states, no voice id is a key of
both `NoteOnMap` and `NoteOffMap`. -/
theorem C1_noteMaps_disjoint (Kn : FPianoKernels) (S : FPianoSynth) (h : Reachable Kn S) :
    MapsDisjoint S := by
  induction h with
  | construct M Rate Sb Delay Dur =>
    intro v hv
    simp [New, TMap.Keys] at hv
  | synthesize S Out NotesOn NotesOff P T _ ih => exact mapsDisjoint_synthesize Kn S Out _ _ P T ih
  | updateNotesMaps S NotesOn NotesOff P _ ih => exact mapsDisjoint_updateNotesMaps Kn S _ _ P ih
  | offAllNotes S _ ih => exact mapsDisjoint_offAllNotes S ih
  | killAllNotes S _ _ => exact mapsDisjoint_killAllNotes S
  | setVelocityRemapCurve S C _ ih => exact fun v hv => ih v hv
  | setNoteGainCurve S C _ ih => exact fun v hv => ih v hv
  | setHammerGainCurve S C _ ih => exact fun v hv => ih v hv

end FPianoSynth

namespace FPianoSynth

/-- Witness for C1: after striking voice 1, holding it with the sostenuto pedal, releasing the
key and releasing the pedal, the reachable state has disjoint note maps. -/
theorem C1_noteMaps_disjoint_witness :
    Reachable Sample.Kernels Sample.Released3 ∧ MapsDisjoint Sample.Released3 :=
  have h : Reachable Sample.Kernels Sample.Released3 :=
    Reachable.synthesize _ _ _ _ _ _
      (Reachable.synthesize _ _ _ _ _ _
        (Reachable.synthesize _ _ _ _ _ _
          (Reachable.synthesize _ _ _ _ _ _ (Reachable.construct _ _ _ _ _))))
  ⟨h, C1_noteMaps_disjoint Sample.Kernels Sample.Released3 h⟩

/-! ## C2 -/

/-- C2 (evaluation at the failing input): voice 1 sounds when the sostenuto pedal goes down
and its key is released while the pedal holds it. Releasing the pedal right away delivers the
deferred note-off (`Released3`: voice 1 is in `NoteOffMap` only). If a second pedal-down event
arrives before the release, the deferred note-off is lost: after the pedal release
(`Released4`) voice 1 is still in `NoteOnMap` and not in `NoteOffMap`. -/
theorem C2_deferred_noteOff_lost_on_retrigger :
    (1 ∈ TMap.Keys Sample.Held2.NoteOnMap ∧ TMap.Find Sample.Held2.SosPedalSnapshot 1 = some true)
      ∧ (1 ∈ TMap.Keys Sample.Held3.NoteOnMap
          ∧ TMap.Find Sample.Held3.SosPedalSnapshot 1 = some false)
      ∧ (1 ∉ TMap.Keys Sample.Released3.NoteOnMap ∧ 1 ∈ TMap.Keys Sample.Released3.NoteOffMap)
      ∧ (1 ∈ TMap.Keys Sample.Held4.NoteOnMap
          ∧ TMap.Find Sample.Held4.SosPedalSnapshot 1 = some true)
      ∧ (1 ∈ TMap.Keys Sample.Released4.NoteOnMap ∧ 1 ∉ TMap.Keys Sample.Released4.NoteOffMap) := by
  decide!

end FPianoSynth

/-! ## C3 -/

theorem clamp_mem_Icc (x : ℚ) : -1 ≤ Clamp x (-1) 1 ∧ Clamp x (-1) 1 ≤ 1 := by
  unfold Clamp
  constructor
  · exact le_max_right _ _
  · exact max_le (min_le_right _ _) (by norm_num)

namespace FPianoSynth

/-- C3: for every `FPianoSynth::Synthesize` call that does not return early (a note event is
present or the synth is still running), every sample of `OutAudio` on return lies in the
closed interval `[-1, 1]`. -/
theorem C3_synthesize_output_in_unit_range (Kn : FPianoKernels) (S : FPianoSynth)
    (OutAudio : List ℚ) (NotesOn : TMap FMidiNoteAction) (NotesOff : List FMidiVoiceId)
    (P : FPianoSynthParams) (T : ℚ)
    (hRun : ¬ (NotesOn.length = 0 ∧ NotesOff.length = 0 ∧ IsNotRunning S = true)) :
    ∀ x ∈ (Synthesize Kn S OutAudio NotesOn NotesOff P T).2, -1 ≤ x ∧ x ≤ 1 := by
  intro x hx
  unfold Synthesize at hx
  rw [if_neg hRun] at hx
  simp only [ArrayClampInPlace, List.mem_map] at hx
  obtain ⟨y, _, rfl⟩ := hx
  exact clamp_mem_Icc y

/-- Witness for C3: a call with one note-on on a block holding out-of-range samples. -/
theorem C3_synthesize_output_in_unit_range_witness :
    ¬ (([(1, Sample.NoteOn 1 60 100)] : TMap FMidiNoteAction).length = 0
        ∧ ([] : List FMidiVoiceId).length = 0 ∧ IsNotRunning Sample.Synth0 = true)
      ∧ ∀ x ∈ (Synthesize Sample.Kernels Sample.Synth0 [5, -7, 1 / 2, 0]
          [(1, Sample.NoteOn 1 60 100)] [] (Sample.Params EPedalState.NoChange) 0).2,
        -1 ≤ x ∧ x ≤ 1 :=
  ⟨by simp, C3_synthesize_output_in_unit_range Sample.Kernels Sample.Synth0 [5, -7, 1 / 2, 0]
    [(1, Sample.NoteOn 1 60 100)] [] (Sample.Params EPedalState.NoChange) 0 (by simp)⟩

end FPianoSynth

/-! ## C4 -/

namespace FPianoSynth

theorem dynMinCompress_le_one (S : FPianoSynth) (P : FPianoSynthParams)
    (hDA : 0 < P.DynamicAdjust) (hMin : S.PianoModel.DynAdjustFactorMin ≤ 1) :
    DynMinCompress S P ≤ 1 := by
  unfold DynMinCompress
  have hden : (1 : ℚ) ≤ max 1 (P.SystemGain * P.KeyGain) := le_max_left _ _
  have hden0 : (0 : ℚ) < max 1 (P.SystemGain * P.KeyGain) := lt_of_lt_of_le one_pos hden
  rw [div_le_one hden0]
  have hm0 : (0 : ℚ) < min P.DynamicAdjust 1 := lt_min hDA one_pos
  have hm1 : min P.DynamicAdjust 1 ≤ (1 : ℚ) := min_le_right _ _
  have h1 : S.PianoModel.DynAdjustFactorMin * min P.DynamicAdjust 1 ≤ 1 := by
    calc S.PianoModel.DynAdjustFactorMin * min P.DynamicAdjust 1
        ≤ 1 * min P.DynamicAdjust 1 := mul_le_mul_of_nonneg_right hMin (le_of_lt hm0)
      _ ≤ 1 := by rw [one_mul]; exact hm1
  exact le_trans h1 hden

theorem dynMinCompress_pos (S : FPianoSynth) (P : FPianoSynthParams)
    (hDA : 0 < P.DynamicAdjust) (hMin : 0 < S.PianoModel.DynAdjustFactorMin) :
    0 < DynMinCompress S P := by
  unfold DynMinCompress
  have hden0 : (0 : ℚ) < max 1 (P.SystemGain * P.KeyGain) :=
    lt_of_lt_of_le one_pos (le_max_left _ _)
  exact div_pos (mul_pos hMin (lt_min hDA one_pos)) hden0

theorem dynCompress_bounds (Kn : FPianoKernels) (S : FPianoSynth) (P : FPianoSynthParams)
    (hDA : 0 < P.DynamicAdjust) (hThr : 0 ≤ S.PianoModel.DynAdjustThreshold)
    (hMin : S.PianoModel.DynAdjustFactorMin ≤ 1)
    (hE : CurrentTotalEnergy Kn S P > DynAdjustValue S P) :
    0 ≤ DynCompress Kn S P ∧ DynCompress Kn S P ≤ 1 ∧
      ((0 < S.PianoModel.DynAdjustThreshold ∨ 0 < S.PianoModel.DynAdjustFactorMin) →
        0 < DynCompress Kn S P) := by
  have hAV : 0 ≤ DynAdjustValue S P := by
    unfold DynAdjustValue
    exact mul_nonneg hThr (le_of_lt hDA)
  have hE0 : 0 < CurrentTotalEnergy Kn S P := lt_of_le_of_lt hAV hE
  have hr0 : 0 ≤ DynAdjustValue S P / CurrentTotalEnergy Kn S P :=
    div_nonneg hAV (le_of_lt hE0)
  have hr1 : DynAdjustValue S P / CurrentTotalEnergy Kn S P ≤ 1 := by
    rw [div_le_one hE0]
    exact le_of_lt hE
  unfold DynCompress
  refine ⟨le_trans hr0 (le_max_left _ _), max_le hr1 (dynMinCompress_le_one S P hDA hMin), ?_⟩
  rintro (hpos | hpos)
  · have hAV1 : 0 < DynAdjustValue S P := by
      unfold DynAdjustValue
      exact mul_pos hpos hDA
    exact lt_of_lt_of_le (div_pos hAV1 hE0) (le_max_left _ _)
  · exact lt_of_lt_of_le (dynMinCompress_pos S P hDA hpos) (le_max_right _ _)

theorem noLouderBuffer_scale (c : ℚ) (h0 : 0 ≤ c) (h1 : c ≤ 1) (B : List ℚ) :
    NoLouderBuffer (ArrayMultiplyByConstantInPlace B c) B := by
  unfold NoLouderBuffer ArrayMultiplyByConstantInPlace
  induction B with
  | nil => exact List.Forall₂.nil
  | cons x rest ih =>
    refine List.Forall₂.cons ?_ ih
    rw [abs_mul, abs_of_nonneg h0]
    exact mul_le_of_le_one_right (abs_nonneg x) h1

theorem noLouderBuffer_refl (B : List ℚ) : NoLouderBuffer B B := by
  unfold NoLouderBuffer
  induction B with
  | nil => exact List.Forall₂.nil
  | cons x rest ih => exact List.Forall₂.cons (le_refl _) ih

theorem noLouder_adjustEnergy (c : ℚ) (h0 : 0 ≤ c) (h1 : c ≤ 1) (K : FPianoKeySynth) :
    NoLouder (K.AdjustEnergy c) K :=
  ⟨noLouderBuffer_scale c h0 h1 _, noLouderBuffer_scale c h0 h1 _,
    noLouderBuffer_scale c h0 h1 _, noLouderBuffer_scale c h0 h1 _⟩

theorem noLouder_refl (K : FPianoKeySynth) : NoLouder K K :=
  ⟨noLouderBuffer_refl _, noLouderBuffer_refl _, noLouderBuffer_refl _, noLouderBuffer_refl _⟩

/-- C4 (counterexample): with `DynAdjustFactorMin = 2`, `DynamicAdjust = 1`, unit gains and a
summed energy of `2` above the threshold value `1`, the applied factor is `2 > 1`, and
`AdjustDynamicRangeIfNeeded` doubles the oscillator state of the new voice and the strength of
the fresh hammer impulse. -/
theorem C4_compress_can_exceed_one :
    0 < Sample.DynParams.DynamicAdjust
      ∧ CurrentTotalEnergy Sample.Kernels Sample.LoudSynth Sample.DynParams
          > DynAdjustValue Sample.LoudSynth Sample.DynParams
      ∧ DynCompress Sample.Kernels Sample.LoudSynth Sample.DynParams = 2
      ∧ (TMap.Find Sample.LoudSynth.NoteOnMap 1).map (fun K => K.Modal.D1Buffer1)
          = some [1, 1, 1, 1]
      ∧ (TMap.Find (AdjustDynamicRangeIfNeeded Sample.Kernels Sample.LoudSynth
            Sample.DynParams).NoteOnMap 1).map (fun K => K.Modal.D1Buffer1) = some [2, 2, 2, 2]
      ∧ (AdjustDynamicRangeIfNeeded Sample.Kernels Sample.LoudSynth
            Sample.DynParams).HammerQueue.map (fun H => H.Strength) = [2] := by
  decide!

/-- C4 (amended): for every `DynamicAdjust > 0`, a non-negative `DynAdjustThreshold` and
`DynAdjustFactorMin ≤ 1`, whenever the summed estimated energy exceeds
`DynAdjustThreshold * DynamicAdjust`, the factor satisfies `MinCompress ≤ Compress ≤ 1` and
`0 ≤ Compress`, it is positive when `DynAdjustThreshold` or `DynAdjustFactorMin` is positive,
and after `AdjustDynamicRangeIfNeeded` every voice of `NoteOnMap` keeps its key with no
oscillator state sample louder than before, and no hammer strength is louder than before. -/
theorem C4_compress_bounded_when_factorMin_le_one (Kn : FPianoKernels) (S : FPianoSynth)
    (P : FPianoSynthParams) (hDA : 0 < P.DynamicAdjust)
    (hThr : 0 ≤ S.PianoModel.DynAdjustThreshold)
    (hMin : S.PianoModel.DynAdjustFactorMin ≤ 1)
    (hE : CurrentTotalEnergy Kn S P > DynAdjustValue S P) :
    DynMinCompress S P ≤ DynCompress Kn S P
      ∧ DynCompress Kn S P ≤ 1
      ∧ 0 ≤ DynCompress Kn S P
      ∧ ((0 < S.PianoModel.DynAdjustThreshold ∨ 0 < S.PianoModel.DynAdjustFactorMin) →
          0 < DynCompress Kn S P)
      ∧ List.Forall₂ (fun n o => n.1 = o.1 ∧ NoLouder n.2 o.2)
          (AdjustDynamicRangeIfNeeded Kn S P).NoteOnMap S.NoteOnMap
      ∧ List.Forall₂ (fun n o => |n.Strength| ≤ |o.Strength|)
          (AdjustDynamicRangeIfNeeded Kn S P).HammerQueue S.HammerQueue := by
  obtain ⟨hc0, hc1, hcpos⟩ := dynCompress_bounds Kn S P hDA hThr hMin hE
  refine ⟨le_max_right _ _, hc1, hc0, hcpos, ?_, ?_⟩
  · unfold AdjustDynamicRangeIfNeeded
    rw [if_neg (not_le.2 hDA), if_pos hE]
    simp only
    generalize S.NoteOnMap = M
    induction M with
    | nil => exact List.Forall₂.nil
    | cons e rest ih =>
      rw [List.map_cons]
      refine List.Forall₂.cons ?_ ih
      split
      · exact ⟨rfl, noLouder_refl _⟩
      · exact ⟨rfl, noLouder_adjustEnergy _ hc0 hc1 _⟩
  · unfold AdjustDynamicRangeIfNeeded
    rw [if_neg (not_le.2 hDA), if_pos hE]
    simp only
    generalize S.HammerQueue = Q
    induction Q with
    | nil => exact List.Forall₂.nil
    | cons H rest ih =>
      rw [List.map_cons]
      refine List.Forall₂.cons ?_ ih
      split
      · simp only
        rw [abs_mul, abs_of_nonneg hc0]
        exact mul_le_of_le_one_right (abs_nonneg _) hc1
      · exact le_refl _

/-- Witness for C4 (amended): the sample synth with `DynAdjustFactorMin = 1/2`, threshold `1`,
energy `2` above the threshold value `1`: the factor is `1/2`. -/
theorem C4_compress_bounded_when_factorMin_le_one_witness :
    (0 < Sample.DynParams.DynamicAdjust
        ∧ 0 ≤ Sample.QuietSynth.PianoModel.DynAdjustThreshold
        ∧ Sample.QuietSynth.PianoModel.DynAdjustFactorMin ≤ 1
        ∧ CurrentTotalEnergy Sample.Kernels Sample.QuietSynth Sample.DynParams
            > DynAdjustValue Sample.QuietSynth Sample.DynParams)
      ∧ DynCompress Sample.Kernels Sample.QuietSynth Sample.DynParams = 1 / 2
      ∧ (DynMinCompress Sample.QuietSynth Sample.DynParams
            ≤ DynCompress Sample.Kernels Sample.QuietSynth Sample.DynParams
          ∧ DynCompress Sample.Kernels Sample.QuietSynth Sample.DynParams ≤ 1
          ∧ 0 ≤ DynCompress Sample.Kernels Sample.QuietSynth Sample.DynParams
          ∧ ((0 < Sample.QuietSynth.PianoModel.DynAdjustThreshold
                ∨ 0 < Sample.QuietSynth.PianoModel.DynAdjustFactorMin) →
              0 < DynCompress Sample.Kernels Sample.QuietSynth Sample.DynParams)
          ∧ List.Forall₂ (fun n o => n.1 = o.1 ∧ NoLouder n.2 o.2)
              (AdjustDynamicRangeIfNeeded Sample.Kernels Sample.QuietSynth
                Sample.DynParams).NoteOnMap Sample.QuietSynth.NoteOnMap
          ∧ List.Forall₂ (fun n o => |n.Strength| ≤ |o.Strength|)
              (AdjustDynamicRangeIfNeeded Sample.Kernels Sample.QuietSynth
                Sample.DynParams).HammerQueue Sample.QuietSynth.HammerQueue) :=
  ⟨by decide!, by decide!,
    C4_compress_bounded_when_factorMin_le_one Sample.Kernels Sample.QuietSynth Sample.DynParams
      (by decide!) (by decide!) (by decide!) (by decide!)⟩

end FPianoSynth

/-! ## Lookup lemmas for TMap -/

namespace TMap

variable {V : Type}

theorem find_cons (e : FMidiVoiceId × V) (M : TMap V) (v : FMidiVoiceId) :
    Find (e :: M) v = if e.1 = v then some e.2 else Find M v := by
  unfold Find
  rw [List.find?_cons]
  by_cases h : e.1 = v
  · simp [h]
  · have hb : (e.1 == v) = false := by simp [h]
    simp [hb, h]

theorem find_assign_ne (M : TMap V) (k v : FMidiVoiceId) (x : V) (h : k ≠ v) :
    Find (Assign M k x) v = Find M v := by
  induction M with
  | nil => rfl
  | cons e rest ih =>
    have hcons : Assign (e :: rest) k x
        = (if e.1 == k then (e.1, x) else e) :: Assign rest k x := rfl
    rw [hcons, find_cons, find_cons, ih]
    by_cases hk : e.1 = k
    · have hv : ¬ e.1 = v := fun hv => h (hk.symm.trans hv)
      simp [hk, h]
    · simp [hk]

theorem find_assign_self (M : TMap V) (k : FMidiVoiceId) (x y : V) (h : Find M k = some y) :
    Find (Assign M k x) k = some x := by
  induction M with
  | nil => cases h
  | cons e rest ih =>
    have hcons : Assign (e :: rest) k x
        = (if e.1 == k then (e.1, x) else e) :: Assign rest k x := rfl
    rw [hcons, find_cons]
    rw [find_cons] at h
    by_cases hk : e.1 = k
    · simp [hk]
    · simp only [hk, if_false] at h
      simp [hk, ih h]

theorem find_append_single (M : TMap V) (k v : FMidiVoiceId) (x : V) :
    Find (M ++ [(k, x)]) v = match Find M v with
      | some y => some y
      | none => if k = v then some x else none := by
  induction M with
  | nil =>
    show Find [(k, x)] v = _
    rw [find_cons]
    rfl
  | cons e rest ih =>
    rw [List.cons_append, find_cons, find_cons, ih]
    by_cases hk : e.1 = v
    · simp [hk]
    · simp [hk]

theorem find_emplace_ne (M : TMap V) (k v : FMidiVoiceId) (x : V) (h : k ≠ v) :
    Find (Emplace M k x) v = Find M v := by
  unfold Emplace
  split
  · exact find_assign_ne M k v x h
  · rw [find_append_single]
    cases Find M v with
    | none => simp [h]
    | some y => rfl

theorem find_emplace_self (M : TMap V) (k : FMidiVoiceId) (x : V) :
    Find (Emplace M k x) k = some x := by
  unfold Emplace
  split
  · rename_i hc
    rw [contains_iff] at hc
    cases hf : Find M k with
    | none => exact absurd hc ((find_eq_none_iff M k).1 hf)
    | some y => exact find_assign_self M k x y hf
  · rename_i hc
    have hn : Find M k = none := by
      rw [find_eq_none_iff, ← contains_iff]
      exact hc
    rw [find_append_single, hn]
    simp

theorem find_remove_ne (M : TMap V) (k v : FMidiVoiceId) (h : k ≠ v) :
    Find (Remove M k) v = Find M v := by
  induction M with
  | nil => rfl
  | cons e rest ih =>
    unfold Remove at ih ⊢
    rw [List.filter_cons]
    by_cases hk : e.1 = k
    · have hv : ¬ e.1 = v := fun hv => h (hk.symm.trans hv)
      simp only [hk, bne_self_eq_false, Bool.false_eq_true, if_false]
      rw [find_cons, if_neg hv]
      exact ih
    · have hb : (e.1 != k) = true := by simp [hk]
      rw [if_pos hb, find_cons, find_cons, ih]

theorem find_remove_self (M : TMap V) (k : FMidiVoiceId) : Find (Remove M k) k = none := by
  rw [find_eq_none_iff, mem_keys_remove]
  exact fun h => h.2 rfl

theorem mem_keys_iff_find (M : TMap V) (k : FMidiVoiceId) :
    k ∈ Keys M ↔ ∃ y, Find M k = some y := by
  constructor
  · intro h
    cases hf : Find M k with
    | none => exact absurd h ((find_eq_none_iff M k).1 hf)
    | some y => exact ⟨y, rfl⟩
  · rintro ⟨y, hy⟩
    exact mem_keys_of_find M k y hy

end TMap

/-! ## C5 -/

namespace FPianoSynth

theorem sameConfig_refl (S : FPianoSynth) : SameConfig S S := ⟨rfl, rfl, rfl, rfl, rfl⟩

theorem sameConfig_trans {S T U : FPianoSynth} (h1 : SameConfig S T) (h2 : SameConfig T U) :
    SameConfig S U :=
  ⟨h2.1.trans h1.1, h2.2.1.trans h1.2.1, h2.2.2.1.trans h1.2.2.1, h2.2.2.2.1.trans h1.2.2.2.1,
    h2.2.2.2.2.trans h1.2.2.2.2⟩

theorem makeKeySynth_congr (Kn : FPianoKernels) (P : FPianoSynthParams) (a : FMidiNoteAction)
    {S T : FPianoSynth} (h : SameConfig S T) : MakeKeySynth Kn T P a = MakeKeySynth Kn S P a := by
  obtain ⟨h1, h2, h3, h4, h5⟩ := h
  simp only [MakeKeySynth, NoteOnVelocity, NoteOnKeyGain, NoteOnSymResonScale, h1, h2, h3, h4, h5]

theorem reStrikeKeySynth_congr (Kn : FPianoKernels) (P : FPianoSynthParams)
    (a : FMidiNoteAction) (K : FPianoKeySynth) {S T : FPianoSynth} (h : SameConfig S T) :
    ReStrikeKeySynth Kn T P a K = ReStrikeKeySynth Kn S P a K := by
  obtain ⟨h1, h2, h3, h4, h5⟩ := h
  simp only [ReStrikeKeySynth, NoteOnVelocity, NoteOnKeyGain, NoteOnSymResonScale, h1, h2, h3]

theorem sameConfig_updateNoteOn (Kn : FPianoKernels) (P : FPianoSynthParams)
    (Acc : FPianoSynth × ℚ) (e : FMidiVoiceId × FMidiNoteAction) :
    SameConfig Acc.1 (UpdateNoteOn Kn P Acc e).1 := by
  unfold UpdateNoteOn
  simp only
  split
  · exact sameConfig_refl _
  · split
    · split <;> exact ⟨rfl, rfl, rfl, rfl, rfl⟩
    · exact ⟨rfl, rfl, rfl, rfl, rfl⟩

theorem find_updateNoteOn_ne (Kn : FPianoKernels) (P : FPianoSynthParams)
    (Acc : FPianoSynth × ℚ) (e : FMidiVoiceId × FMidiNoteAction) (v : FMidiVoiceId)
    (h : e.1 ≠ v) :
    TMap.Find (UpdateNoteOn Kn P Acc e).1.NoteOnMap v = TMap.Find Acc.1.NoteOnMap v
      ∧ TMap.Find (UpdateNoteOn Kn P Acc e).1.NoteOffMap v = TMap.Find Acc.1.NoteOffMap v := by
  unfold UpdateNoteOn
  simp only
  split
  · exact ⟨rfl, rfl⟩
  · split
    · split
      · exact ⟨TMap.find_emplace_ne _ _ _ _ h, rfl⟩
      · exact ⟨TMap.find_assign_ne _ _ _ _ h, rfl⟩
    · exact ⟨TMap.find_emplace_ne _ _ _ _ h, TMap.find_remove_ne _ _ _ h⟩

theorem foldl_updateNoteOn_frame (Kn : FPianoKernels) (P : FPianoSynthParams)
    (L : TMap FMidiNoteAction) (Acc : FPianoSynth × ℚ) (v : FMidiVoiceId)
    (h : v ∉ TMap.Keys L) :
    TMap.Find (L.foldl (UpdateNoteOn Kn P) Acc).1.NoteOnMap v = TMap.Find Acc.1.NoteOnMap v
      ∧ TMap.Find (L.foldl (UpdateNoteOn Kn P) Acc).1.NoteOffMap v = TMap.Find Acc.1.NoteOffMap v
      ∧ SameConfig Acc.1 (L.foldl (UpdateNoteOn Kn P) Acc).1 := by
  induction L generalizing Acc with
  | nil => exact ⟨rfl, rfl, sameConfig_refl _⟩
  | cons e rest ih =>
    have hne : e.1 ≠ v := by
      intro he
      apply h
      simp [TMap.Keys, ← he]
    have hrest : v ∉ TMap.Keys rest := by
      intro hr
      apply h
      simp only [TMap.Keys, List.map_cons, List.mem_cons]
      exact Or.inr hr
    obtain ⟨i1, i2, i3⟩ := ih (UpdateNoteOn Kn P Acc e) hrest
    obtain ⟨f1, f2⟩ := find_updateNoteOn_ne Kn P Acc e v hne
    rw [List.foldl_cons]
    exact ⟨i1.trans f1, i2.trans f2, sameConfig_trans (sameConfig_updateNoteOn Kn P Acc e) i3⟩

theorem find_updateNoteOn_self (Kn : FPianoKernels) (P : FPianoSynthParams)
    (Acc : FPianoSynth × ℚ) (v : FMidiVoiceId) (a : FMidiNoteAction)
    (hRange : InKeyRange Acc.1 a) :
    TMap.Find (UpdateNoteOn Kn P Acc (v, a)).1.NoteOffMap v = none
      ∧ match TMap.Find Acc.1.NoteOffMap v with
        | some K =>
          TMap.Find (UpdateNoteOn Kn P Acc (v, a)).1.NoteOnMap v
            = some (if K.MidiNote = a.MidiNote then ReStrikeKeySynth Kn Acc.1 P a K
                else MakeKeySynth Kn Acc.1 P a)
        | none =>
          match TMap.Find Acc.1.NoteOnMap v with
          | some K =>
            TMap.Find (UpdateNoteOn Kn P Acc (v, a)).1.NoteOnMap v
              = some (ReStrikeKeySynth Kn Acc.1 P a K)
          | none =>
            TMap.Find (UpdateNoteOn Kn P Acc (v, a)).1.NoteOnMap v
              = some (MakeKeySynth Kn Acc.1 P a) := by
  have hr : ¬ ((a.MidiNote : Int) - Acc.1.PianoModel.StartMidiNote < 0
      ∨ (a.MidiNote : Int) - Acc.1.PianoModel.StartMidiNote ≥ Acc.1.PianoModel.NumKeys) := by
    rintro (h | h)
    · exact absurd hRange.1 (not_le.2 h)
    · exact absurd hRange.2 (not_lt.2 h)
  unfold UpdateNoteOn
  simp only [if_neg hr]
  cases hoff : TMap.Find Acc.1.NoteOffMap v with
  | some K =>
    simp only
    exact ⟨TMap.find_remove_self _ _, TMap.find_emplace_self _ _ _⟩
  | none =>
    cases hon : TMap.Find Acc.1.NoteOnMap v with
    | some K =>
      simp only
      exact ⟨hoff, TMap.find_assign_self _ _ _ K hon⟩
    | none =>
      simp only
      exact ⟨hoff, TMap.find_emplace_self _ _ _⟩

theorem noteMaps_updateNotesOnMap (Kn : FPianoKernels) (S : FPianoSynth)
    (NotesOn : TMap FMidiNoteAction) (P : FPianoSynthParams) :
    (UpdateNotesOnMap Kn S NotesOn P).NoteOnMap
        = (NotesOn.foldl (UpdateNoteOn Kn P) (S, 0)).1.NoteOnMap
      ∧ (UpdateNotesOnMap Kn S NotesOn P).NoteOffMap
        = (NotesOn.foldl (UpdateNoteOn Kn P) (S, 0)).1.NoteOffMap := by
  unfold UpdateNotesOnMap
  simp only
  split <;> exact ⟨rfl, rfl⟩

/-- C5 (counterexample): voice 1 is a key of `NoteOffMap` with a synth created for MIDI note 60
and a note-on for voice 1 arrives with the in-range MIDI note 62 (transpose changed while
playing). `UpdateNotesOnMap` does not restrike the existing synth: the voice stored in
`NoteOnMap` is a newly constructed `FPianoKeySynth` for note 62. -/
theorem C5_noteOn_with_other_midi_note_creates_new_synth :
    1 ∈ TMap.Keys Sample.ReleasingSynth.NoteOffMap
      ∧ InKeyRange Sample.ReleasingSynth (Sample.NoteOn 1 62 100)
      ∧ TMap.Find (UpdateNotesOnMap Sample.Kernels Sample.ReleasingSynth
            [(1, Sample.NoteOn 1 62 100)] (Sample.Params EPedalState.NoChange)).NoteOnMap 1
          = some (MakeKeySynth Sample.Kernels Sample.ReleasingSynth
              (Sample.Params EPedalState.NoChange) (Sample.NoteOn 1 62 100))
      ∧ TMap.Find (UpdateNotesOnMap Sample.Kernels Sample.ReleasingSynth
            [(1, Sample.NoteOn 1 62 100)] (Sample.Params EPedalState.NoChange)).NoteOnMap 1
          ≠ some (ReStrikeKeySynth Sample.Kernels Sample.ReleasingSynth
              (Sample.Params EPedalState.NoChange) (Sample.NoteOn 1 62 100) Sample.LoudVoice) := by
  refine ⟨by decide!, ?_, by decide!, by decide!⟩
  unfold InKeyRange
  decide!

/-- C5 (amended): for every note-on `(v, a)` of the note-on map whose MIDI note is inside the
key range and whose voice id is already a key of `NoteOnMap` or of `NoteOffMap`, afterwards
`v` is a key of `NoteOnMap` only, and the stored voice is the existing synth after `ReStrike`
when `v` was in `NoteOnMap` (and not in `NoteOffMap`) or was in `NoteOffMap` with the same MIDI
note as the action; when `v` was in `NoteOffMap` with a different MIDI note, the stored voice is
a newly constructed synth. -/
theorem C5_noteOn_existing_voice (Kn : FPianoKernels) (S : FPianoSynth)
    (NotesOn : TMap FMidiNoteAction) (P : FPianoSynthParams) (v : FMidiVoiceId)
    (a : FMidiNoteAction) (hNodup : (TMap.Keys NotesOn).Nodup) (hMem : (v, a) ∈ NotesOn)
    (hRange : InKeyRange S a)
    (hKey : v ∈ TMap.Keys S.NoteOnMap ∨ v ∈ TMap.Keys S.NoteOffMap) :
    (v ∈ TMap.Keys (UpdateNotesOnMap Kn S NotesOn P).NoteOnMap
        ∧ v ∉ TMap.Keys (UpdateNotesOnMap Kn S NotesOn P).NoteOffMap)
      ∧ match TMap.Find S.NoteOffMap v with
        | some K =>
          TMap.Find (UpdateNotesOnMap Kn S NotesOn P).NoteOnMap v
            = some (if K.MidiNote = a.MidiNote then ReStrikeKeySynth Kn S P a K
                else MakeKeySynth Kn S P a)
        | none =>
          ∃ K, TMap.Find S.NoteOnMap v = some K
            ∧ TMap.Find (UpdateNotesOnMap Kn S NotesOn P).NoteOnMap v
              = some (ReStrikeKeySynth Kn S P a K) := by
  obtain ⟨L1, L2, hL⟩ := List.append_of_mem hMem
  subst hL
  have hk : TMap.Keys (L1 ++ (v, a) :: L2) = TMap.Keys L1 ++ v :: TMap.Keys L2 := by
    simp [TMap.Keys]
  rw [hk] at hNodup
  have hv1 : v ∉ TMap.Keys L1 := by
    intro h1
    have := (List.nodup_append.1 hNodup).2.2
    exact this h1 (List.mem_cons_self _ _)
  have hv2 : v ∉ TMap.Keys L2 := by
    have := (List.nodup_append.1 hNodup).2.1
    exact (List.nodup_cons.1 this).1
  obtain ⟨eOn, eOff⟩ := noteMaps_updateNotesOnMap Kn S (L1 ++ (v, a) :: L2) P
  rw [eOn, eOff, List.foldl_append, List.foldl_cons]
  obtain ⟨a1, a2, a3⟩ := foldl_updateNoteOn_frame Kn P L1 (S, 0) v hv1
  obtain ⟨c1, c2, _⟩ := foldl_updateNoteOn_frame Kn P L2
    (UpdateNoteOn Kn P (L1.foldl (UpdateNoteOn Kn P) (S, 0)) (v, a)) v hv2
  have hRange1 : InKeyRange (L1.foldl (UpdateNoteOn Kn P) (S, 0)).1 a := by
    unfold InKeyRange
    rw [a3.1]
    exact hRange
  obtain ⟨b1, b2⟩ := find_updateNoteOn_self Kn P (L1.foldl (UpdateNoteOn Kn P) (S, 0)) v a hRange1
  rw [a1, a2, makeKeySynth_congr Kn P a a3] at b2
  have hOffNone : v ∉ TMap.Keys
      (L2.foldl (UpdateNoteOn Kn P)
        (UpdateNoteOn Kn P (L1.foldl (UpdateNoteOn Kn P) (S, 0)) (v, a))).1.NoteOffMap := by
    rw [← TMap.find_eq_none_iff, c2]
    exact b1
  rw [TMap.mem_keys_iff_find, c1]
  simp only at a1 a2 b2
  cases hoff : TMap.Find S.NoteOffMap v with
  | some K =>
    rw [hoff] at b2
    simp only at b2 ⊢
    rw [reStrikeKeySynth_congr Kn P a K a3] at b2
    exact ⟨⟨⟨_, b2⟩, hOffNone⟩, b2⟩
  | none =>
    rw [hoff] at b2
    have hon : v ∈ TMap.Keys S.NoteOnMap := by
      rcases hKey with h | h
      · exact h
      · exact absurd h ((TMap.find_eq_none_iff _ _).1 hoff)
    obtain ⟨K, hK⟩ := (TMap.mem_keys_iff_find _ _).1 hon
    rw [hK] at b2
    simp only at b2 ⊢
    rw [reStrikeKeySynth_congr Kn P a K a3] at b2
    exact ⟨⟨⟨_, b2⟩, hOffNone⟩, K, hK, b2⟩

end FPianoSynth

namespace FPianoSynth

/-- Witness for C5 (amended): the releasing voice 1 (MIDI note 60) receives a note-on with the
same MIDI note. -/
theorem C5_noteOn_existing_voice_witness :
    ((TMap.Keys ([(1, Sample.NoteOn 1 60 100)] : TMap FMidiNoteAction)).Nodup
        ∧ (1, Sample.NoteOn 1 60 100) ∈ ([(1, Sample.NoteOn 1 60 100)] : TMap FMidiNoteAction)
        ∧ InKeyRange Sample.ReleasingSynth (Sample.NoteOn 1 60 100)
        ∧ (1 ∈ TMap.Keys Sample.ReleasingSynth.NoteOnMap
            ∨ 1 ∈ TMap.Keys Sample.ReleasingSynth.NoteOffMap))
      ∧ ((1 ∈ TMap.Keys (UpdateNotesOnMap Sample.Kernels Sample.ReleasingSynth
              [(1, Sample.NoteOn 1 60 100)] (Sample.Params EPedalState.NoChange)).NoteOnMap
          ∧ 1 ∉ TMap.Keys (UpdateNotesOnMap Sample.Kernels Sample.ReleasingSynth
              [(1, Sample.NoteOn 1 60 100)] (Sample.Params EPedalState.NoChange)).NoteOffMap)
        ∧ match TMap.Find Sample.ReleasingSynth.NoteOffMap 1 with
          | some K =>
            TMap.Find (UpdateNotesOnMap Sample.Kernels Sample.ReleasingSynth
                [(1, Sample.NoteOn 1 60 100)] (Sample.Params EPedalState.NoChange)).NoteOnMap 1
              = some (if K.MidiNote = (Sample.NoteOn 1 60 100).MidiNote then
                  ReStrikeKeySynth Sample.Kernels Sample.ReleasingSynth
                    (Sample.Params EPedalState.NoChange) (Sample.NoteOn 1 60 100) K
                else MakeKeySynth Sample.Kernels Sample.ReleasingSynth
                    (Sample.Params EPedalState.NoChange) (Sample.NoteOn 1 60 100))
          | none =>
            ∃ K, TMap.Find Sample.ReleasingSynth.NoteOnMap 1 = some K
              ∧ TMap.Find (UpdateNotesOnMap Sample.Kernels Sample.ReleasingSynth
                  [(1, Sample.NoteOn 1 60 100)] (Sample.Params EPedalState.NoChange)).NoteOnMap 1
                = some (ReStrikeKeySynth Sample.Kernels Sample.ReleasingSynth
                    (Sample.Params EPedalState.NoChange) (Sample.NoteOn 1 60 100) K)) :=
  have h1 : (TMap.Keys ([(1, Sample.NoteOn 1 60 100)] : TMap FMidiNoteAction)).Nodup := by
    decide
  have h2 : (1, Sample.NoteOn 1 60 100)
      ∈ ([(1, Sample.NoteOn 1 60 100)] : TMap FMidiNoteAction) := List.mem_singleton.2 rfl
  have h3 : InKeyRange Sample.ReleasingSynth (Sample.NoteOn 1 60 100) := by
    unfold InKeyRange
    decide!
  have h4 : 1 ∈ TMap.Keys Sample.ReleasingSynth.NoteOnMap
      ∨ 1 ∈ TMap.Keys Sample.ReleasingSynth.NoteOffMap := Or.inr (by decide!)
  ⟨⟨h1, h2, h3, h4⟩,
    C5_noteOn_existing_voice Sample.Kernels Sample.ReleasingSynth [(1, Sample.NoteOn 1 60 100)]
      (Sample.Params EPedalState.NoChange) 1 (Sample.NoteOn 1 60 100) h1 h2 h3 h4⟩

end FPianoSynth

/-! ## C6 -/

namespace FTwoStatesForceGen

theorem clamp_unit_bounds (d : ℚ) : 0 ≤ Clamp d 0 1 ∧ Clamp d 0 1 ≤ 1 := by
  unfold Clamp
  exact ⟨le_max_right _ _, max_le (min_le_right _ _) zero_le_one⟩

theorem numSamplesPerCycle_pos (SR InFreq : ℚ) (hLo : 1 / 1000 ≤ InFreq) (hHi : InFreq < SR) :
    1 ≤ NumSamplesPerCycle SR InFreq := by
  unfold NumSamplesPerCycle RoundToInt32
  have hf : (0 : ℚ) < InFreq := lt_of_lt_of_le (by norm_num) hLo
  have h1 : (1 : ℚ) < SR / InFreq := by
    rw [lt_div_iff₀ hf, one_mul]
    exact hHi
  rw [Int.le_floor]
  push_cast
  linarith

theorem numSamplesFirstState_bounds (SR InFreq Duty : ℚ) (hLo : 1 / 1000 ≤ InFreq)
    (hHi : InFreq < SR) :
    0 ≤ NumSamplesFirstState SR InFreq Duty
      ∧ NumSamplesFirstState SR InFreq Duty ≤ NumSamplesPerCycle SR InFreq := by
  have hN := numSamplesPerCycle_pos SR InFreq hLo hHi
  have hNq : (1 : ℚ) ≤ (NumSamplesPerCycle SR InFreq : ℚ) := by exact_mod_cast hN
  obtain ⟨hd0, hd1⟩ := clamp_unit_bounds Duty
  unfold NumSamplesFirstState RoundToInt32
  constructor
  · rw [Int.le_floor]
    push_cast
    have := mul_nonneg hd0 (le_trans zero_le_one hNq)
    linarith
  · rw [Int.floor_le_iff]
    have : Clamp Duty 0 1 * (NumSamplesPerCycle SR InFreq : ℚ)
        ≤ 1 * (NumSamplesPerCycle SR InFreq : ℚ) :=
      mul_le_mul_of_nonneg_right hd1 (le_trans zero_le_one hNq)
    linarith

/-- C6: for every duty cycle (clamped to `[0,1]` by `Generate`) and every frequency accepted by
`Generate` (`1e-3 <= freq < sampleRate`), the state lengths satisfy
`NumSamplesFirstState >= 0`, `NumSamplesSecondState >= 0` and
`NumSamplesFirstState + NumSamplesSecondState == NumSamplesPerCycle == round(sampleRate/freq)`. -/
theorem C6_state_lengths_partition_cycle (SR InFreq Duty : ℚ) (hLo : 1 / 1000 ≤ InFreq)
    (hHi : InFreq < SR) :
    0 ≤ NumSamplesFirstState SR InFreq Duty
      ∧ 0 ≤ NumSamplesSecondState SR InFreq Duty
      ∧ NumSamplesFirstState SR InFreq Duty + NumSamplesSecondState SR InFreq Duty
          = NumSamplesPerCycle SR InFreq
      ∧ NumSamplesPerCycle SR InFreq = RoundToInt32 (SR / InFreq) := by
  obtain ⟨h0, h1⟩ := numSamplesFirstState_bounds SR InFreq Duty hLo hHi
  have hsec : NumSamplesSecondState SR InFreq Duty
      = NumSamplesPerCycle SR InFreq - NumSamplesFirstState SR InFreq Duty := by
    unfold NumSamplesSecondState Clamp
    rw [min_eq_left (by linarith), max_eq_left (by linarith)]
  refine ⟨h0, ?_, ?_, rfl⟩
  · rw [hsec]; linarith
  · rw [hsec]; ring

/-- Witness for C6: 48 kHz, 100 Hz, duty cycle 1/3. -/
theorem C6_state_lengths_partition_cycle_witness :
    ((1 : ℚ) / 1000 ≤ 100 ∧ (100 : ℚ) < 48000)
      ∧ (0 ≤ NumSamplesFirstState 48000 100 (1 / 3)
        ∧ 0 ≤ NumSamplesSecondState 48000 100 (1 / 3)
        ∧ NumSamplesFirstState 48000 100 (1 / 3) + NumSamplesSecondState 48000 100 (1 / 3)
            = NumSamplesPerCycle 48000 100
        ∧ NumSamplesPerCycle 48000 100 = RoundToInt32 (48000 / 100)) :=
  ⟨by norm_num, C6_state_lengths_partition_cycle 48000 100 (1 / 3) (by norm_num) (by norm_num)⟩

end FTwoStatesForceGen

/-! ## C7 -/

namespace FTwoStatesForceGen

/-- C7 (evaluation at the failing input): a fresh generator at 48 kHz renders one full cycle
of 480 frames at 100 Hz, the first state reading a curve that is constantly `1` and the second
a curve that is constantly `-1`. With duty cycle `1/2` the cycle is 240 first-state samples
followed by 240 second-state samples. With duty cycle `3/4` the state lengths are 360 and 120,
but the cycle rendered is 120 first-state samples, 120 second-state samples and 240 first-state
samples: the first call remaps the phase from the initial lengths `-1` to index 240. With duty
cycle `1/4` (lengths 120 and 360) the phase becomes `-240` and the cycle is 360 zero samples
followed by 120 second-state samples. -/
theorem C7_fresh_generator_first_cycle :
    (Sample.Render 480 (1 / 2)).map Prod.snd
        = some (List.replicate 240 1 ++ List.replicate 240 (-1))
      ∧ NumSamplesFirstState 48000 100 (3 / 4) = 360
      ∧ NumSamplesSecondState 48000 100 (3 / 4) = 120
      ∧ (RemapCurrentCycleIndex Sample.FreshGen 480 360 120).CurrentCycleIndex = 240
      ∧ (Sample.Render 480 (3 / 4)).map Prod.snd
        = some (List.replicate 120 1 ++ List.replicate 120 (-1) ++ List.replicate 240 1)
      ∧ NumSamplesFirstState 48000 100 (1 / 4) = 120
      ∧ NumSamplesSecondState 48000 100 (1 / 4) = 360
      ∧ (RemapCurrentCycleIndex Sample.FreshGen 480 120 360).CurrentCycleIndex = -240
      ∧ (Sample.Render 480 (1 / 4)).map Prod.snd
        = some (List.replicate 360 0 ++ List.replicate 120 (-1)) := by
  decide!

end FTwoStatesForceGen

/-! ## C8 -/

namespace FTwoStatesForceGen

theorem generateRejects_eq_false (G : FTwoStatesForceGen) (OutAudio : List ℚ) (InAmp InFreq : ℚ)
    (C1 C2 : Option FRCurveExtendAssetProxy)
    (h : GenerateRejects G OutAudio InAmp InFreq C1 C2 = false) :
    ¬ (OutAudio.length = 0 ∨ InAmp = 0 ∨ InFreq ≥ G.SamplingRate ∨ InFreq < 1 / 1000)
      ∧ ¬ ((OutAudio.length : Int) > (G.RandomBuffer.length : Int))
      ∧ ∃ c1 c2, C1 = some c1 ∧ C2 = some c2
          ∧ ¬ (c1.GetNumValues ≤ 1 ∨ c2.GetNumValues ≤ 1)
          ∧ c1.IsXAxisRangeMatch 0 1 = true ∧ c2.IsXAxisRangeMatch 0 1 = true := by
  unfold GenerateRejects at h
  split at h
  · cases h
  · rename_i h1
    split at h
    · cases h
    · rename_i h2
      split at h
      · rename_i c1 c2
        split at h
        · cases h
        · rename_i h3
          split at h
          · cases h
          · rename_i h4
            simp only [Bool.or_eq_true, Bool.not_eq_true', not_or, Bool.not_eq_false] at h4
            exact ⟨h1, h2, c1, c2, rfl, rfl, h3, h4.1, h4.2⟩
      · cases h

theorem isXAxisRangeMatch_unit_iff (c : FRCurveExtendAssetProxy) :
    c.IsXAxisRangeMatch 0 1 = true ↔ |c.MinX - 0| ≤ 1 / 100000 ∧ |c.MaxX - 1| ≤ 1 / 100000 := by
  simp [FRCurveExtendAssetProxy.IsXAxisRangeMatch, IsNearlyEqual]

/-- C8 (counterexample): both curves have at least two values and the first curve has the
x-range `[1e-6, 1]`, which is not `[0, 1]`; the call passes `IsXAxisRangeMatch(0, 1)` (tolerance
`1e-5`) and `Generate` is not a no-op: it records the state lengths 240 / 240 and advances the
cycle index. -/
theorem C8_generate_runs_on_nearly_unit_range :
    Sample.OffsetCurve.MinX ≠ 0
      ∧ Sample.OffsetCurve.IsXAxisRangeMatch 0 1 = true
      ∧ (Generate Sample.FRand Sample.FreshGen [0, 0, 0, 0] 1 100 (1 / 2)
            (some Sample.OffsetCurve) 1 EForceNoiseMergeMode.None 0
            (some (Sample.ConstCurve (-1))) 1 EForceNoiseMergeMode.None 0).map
          (fun r => (r.1.CurrentCycleIndex, r.1.LastNumSamplesFirstState,
            r.1.LastNumSamplesSecondState)) = some (4, 240, 240)
      ∧ (Sample.FreshGen.CurrentCycleIndex, Sample.FreshGen.LastNumSamplesFirstState,
          Sample.FreshGen.LastNumSamplesSecondState) = (0, -1, -1) := by
  decide!

/-- C8 (amended): `Generate` returns the generator state and `OutAudio` unchanged whenever the
output has zero frames, `InAmp == 0`, `InFreq >= SamplingRate`, `InFreq < 1e-3`, the frame
count exceeds the size of the noise buffer allocated at construction, either curve is null or
has at most one value, or either curve fails `IsXAxisRangeMatch(0, 1)`, i.e. its first x value
is farther than `1e-5` from `0` or its last x value is farther than `1e-5` from `1`. -/
theorem C8_generate_noop_when_rejected (FRand : Int → Nat → ℚ) (G : FTwoStatesForceGen)
    (OutAudio : List ℚ) (InAmp InFreq Duty : ℚ) (C1 : Option FRCurveExtendAssetProxy)
    (Scale1 : ℚ) (Mode1 : EForceNoiseMergeMode) (Amp1 : ℚ)
    (C2 : Option FRCurveExtendAssetProxy) (Scale2 : ℚ) (Mode2 : EForceNoiseMergeMode)
    (Amp2 : ℚ)
    (h : OutAudio.length = 0 ∨ InAmp = 0 ∨ InFreq ≥ G.SamplingRate ∨ InFreq < 1 / 1000
      ∨ (OutAudio.length : Int) > (G.RandomBuffer.length : Int)
      ∨ C1 = none ∨ C2 = none
      ∨ (∃ c, C1 = some c ∧ c.GetNumValues ≤ 1) ∨ (∃ c, C2 = some c ∧ c.GetNumValues ≤ 1)
      ∨ (∃ c, C1 = some c ∧ (|c.MinX - 0| > 1 / 100000 ∨ |c.MaxX - 1| > 1 / 100000))
      ∨ (∃ c, C2 = some c ∧ (|c.MinX - 0| > 1 / 100000 ∨ |c.MaxX - 1| > 1 / 100000))) :
    Generate FRand G OutAudio InAmp InFreq Duty C1 Scale1 Mode1 Amp1 C2 Scale2 Mode2 Amp2
      = some (G, OutAudio) := by
  have hrej : GenerateRejects G OutAudio InAmp InFreq C1 C2 = true := by
    cases hr : GenerateRejects G OutAudio InAmp InFreq C1 C2 with
    | true => rfl
    | false =>
      exfalso
      obtain ⟨h1, h2, c1, c2, e1, e2, h3, h4, h5⟩ :=
        generateRejects_eq_false G OutAudio InAmp InFreq C1 C2 hr
      rw [isXAxisRangeMatch_unit_iff] at h4 h5
      rcases h with h | h | h | h | h | h | h | h | h | h | h
      · exact h1 (Or.inl h)
      · exact h1 (Or.inr (Or.inl h))
      · exact h1 (Or.inr (Or.inr (Or.inl h)))
      · exact h1 (Or.inr (Or.inr (Or.inr h)))
      · exact h2 h
      · rw [e1] at h; cases h
      · rw [e2] at h; cases h
      · obtain ⟨c, hc, hn⟩ := h
        rw [e1] at hc
        cases hc
        exact h3 (Or.inl hn)
      · obtain ⟨c, hc, hn⟩ := h
        rw [e2] at hc
        cases hc
        exact h3 (Or.inr hn)
      · obtain ⟨c, hc, hn⟩ := h
        rw [e1] at hc
        cases hc
        rcases hn with hn | hn
        · exact absurd h4.1 (not_le.2 hn)
        · exact absurd h4.2 (not_le.2 hn)
      · obtain ⟨c, hc, hn⟩ := h
        rw [e2] at hc
        cases hc
        rcases hn with hn | hn
        · exact absurd h5.1 (not_le.2 hn)
        · exact absurd h5.2 (not_le.2 hn)
  unfold Generate
  rw [if_pos hrej]

/-- Witness for C8 (amended): the second curve spans `[1/2, 1]`. -/
theorem C8_generate_noop_when_rejected_witness :
    (∃ c, some Sample.HalfRangeCurve = some c
        ∧ (|c.MinX - 0| > 1 / 100000 ∨ |c.MaxX - 1| > 1 / 100000))
      ∧ Generate Sample.FRand Sample.FreshGen [0, 0, 0, 0] 1 100 (1 / 2)
          (some (Sample.ConstCurve 1)) 1 EForceNoiseMergeMode.None 0
          (some Sample.HalfRangeCurve) 1 EForceNoiseMergeMode.None 0
        = some (Sample.FreshGen, [0, 0, 0, 0]) :=
  have h : ∃ c, some Sample.HalfRangeCurve = some c
      ∧ (|c.MinX - 0| > 1 / 100000 ∨ |c.MaxX - 1| > 1 / 100000) :=
    ⟨Sample.HalfRangeCurve, rfl, Or.inl (by decide!)⟩
  ⟨h, C8_generate_noop_when_rejected Sample.FRand Sample.FreshGen [0, 0, 0, 0] 1 100 (1 / 2)
    (some (Sample.ConstCurve 1)) 1 EForceNoiseMergeMode.None 0
    (some Sample.HalfRangeCurve) 1 EForceNoiseMergeMode.None 0
    (Or.inr (Or.inr (Or.inr (Or.inr (Or.inr (Or.inr (Or.inr (Or.inr (Or.inr (Or.inr h))))))))))⟩

end FTwoStatesForceGen

/-! ## C9 and C10 -/

theorem readAt_of_lt (Data : List ℚ) (i : Int) (h0 : 0 ≤ i) (h1 : i < (Data.length : Int)) :
    ReadAt Data i = some (Data.getD i.toNat 0) := by
  unfold ReadAt
  rw [if_pos h0]
  have hlt : i.toNat < Data.length := by omega
  rw [List.getD_eq_getElem?_getD, List.get?_eq_getElem?, List.getElem?_eq_getElem hlt]
  rfl

theorem tmod_bounds (a m : Int) (ha : 0 ≤ a) (hm : 1 ≤ m) :
    0 ≤ Int.tmod a m ∧ Int.tmod a m < m := by
  rw [Int.tmod_eq_emod ha (by omega)]
  exact ⟨Int.emod_nonneg a (by omega), Int.emod_lt_of_pos a (by omega)⟩

namespace FRCurveExtendAssetProxy

theorem cyclicInterpLoop_on_grid (C : FRCurveExtendAssetProxy) (hN : 2 ≤ C.Data.length)
    (n k : Nat) :
    CyclicInterpLoop C ((C.Data.length : Int) - 1) 1 n (k : ℚ)
      = some ((List.range n).map (fun i => C.Data.getD ((k + i) % (C.Data.length - 1)) 0)) := by
  induction n generalizing k with
  | zero => rfl
  | succ n ih =>
    have hfloor : ⌊(k : ℚ)⌋ = (k : Int) := by
      have : (k : ℚ) = ((k : Int) : ℚ) := by push_cast; rfl
      rw [this, Int.floor_intCast]
    have hm : (1 : Int) ≤ (C.Data.length : Int) - 1 := by omega
    obtain ⟨l0, l1⟩ := tmod_bounds (k : Int) ((C.Data.length : Int) - 1) (by omega) hm
    obtain ⟨r0, r1⟩ := tmod_bounds (Int.tmod (k : Int) ((C.Data.length : Int) - 1) + 1)
      ((C.Data.length : Int) - 1) (by omega) hm
    have hleft : (Int.tmod (k : Int) ((C.Data.length : Int) - 1)).toNat
        = k % (C.Data.length - 1) := by
      rw [Int.tmod_eq_emod (by omega) (by omega)]
      have : ((C.Data.length : Int) - 1) = ((C.Data.length - 1 : Nat) : Int) := by omega
      rw [this, ← Int.natCast_mod]
      exact Int.toNat_natCast _
    have hnext : (k : ℚ) + 1 = ((k + 1 : Nat) : ℚ) := by push_cast; rfl
    unfold CyclicInterpLoop
    rw [if_neg (by omega)]
    simp only
    rw [hfloor, readAt_of_lt C.Data _ l0 (by omega), readAt_of_lt C.Data _ r0 (by omega), hnext,
      ih (k + 1), hleft, List.range_succ_eq_map]
    simp only [List.map_cons, List.map_map, Int.cast_natCast, sub_self, mul_zero, add_zero,
      sub_zero, mul_one, Nat.add_zero]
    congr 2
    apply List.map_congr_left
    intro i _
    simp only [Function.comp, Nat.succ_eq_add_one]
    congr 2
    omega

/-- C10: `GetArrayByTimeCyclicInterp` reproduces the stored samples when sampled on the curve's
own grid: for every curve with `N >= 2` data values, `Step > 0` and `NumRemoveLastSample = 1`,
calling it with `StartX = MinX` and `XStep = Step` yields `OutArray[i] = Data[i mod (N-1)]` for
every output index `i`. -/
theorem C10_cyclic_lookup_on_grid (C : FRCurveExtendAssetProxy) (NumSamples : Nat)
    (hN : 2 ≤ C.Data.length) (hStep : 0 < C.Step) :
    C.GetArrayByTimeCyclicInterp C.MinX C.Step NumSamples 1
      = some ((List.range NumSamples).map
          (fun i => C.Data.getD (i % (C.Data.length - 1)) 0)) := by
  have hg : ¬ (C.Step ≤ 0 ∨ (C.Data.length : Int) ≤ 0) := by
    rintro (h | h)
    · exact absurd hStep (not_lt.2 h)
    · omega
  unfold GetArrayByTimeCyclicInterp
  rw [if_neg hg]
  simp only
  rw [if_neg (by simp), sub_self, zero_div, div_self (ne_of_gt hStep)]
  have h := cyclicInterpLoop_on_grid C hN NumSamples 0
  simp only [Nat.cast_zero, Nat.zero_add] at h
  exact h

end FRCurveExtendAssetProxy

namespace FRCurveExtendAssetProxy

/-- Witness for C10: the triangle curve sampled on its own grid over five samples. -/
theorem C10_cyclic_lookup_on_grid_witness :
    (2 ≤ Sample.TriangleCurve.Data.length ∧ 0 < Sample.TriangleCurve.Step)
      ∧ Sample.TriangleCurve.GetArrayByTimeCyclicInterp Sample.TriangleCurve.MinX
          Sample.TriangleCurve.Step 5 1
        = some ((List.range 5).map
            (fun i => Sample.TriangleCurve.Data.getD (i % (Sample.TriangleCurve.Data.length - 1)) 0)) :=
  ⟨by decide!, C10_cyclic_lookup_on_grid Sample.TriangleCurve 5 (by decide!) (by decide!)⟩

end FRCurveExtendAssetProxy

/-! ## C11 -/

namespace FRCurveExtendAssetProxy

theorem castInt32_of_nonneg (x : ℚ) (hx : 0 ≤ x) (hfit : ⌊x⌋ ≤ 2147483647) :
    CastInt32 x = ⌊x⌋ := by
  have h0 : (0 : Int) ≤ ⌊x⌋ := Int.floor_nonneg.2 hx
  unfold CastInt32
  simp only [if_pos hx]
  rw [if_pos ⟨by omega, hfit⟩]

theorem getValueByTimeInterp_below (C : FRCurveExtendAssetProxy) (x : ℚ) (hx : x ≤ C.MinX) :
    C.GetValueByTimeInterp x = C.Data.getD 0 0 := by
  unfold GetValueByTimeInterp
  split
  · rfl
  · simp only
    rw [if_pos (sub_nonpos.2 hx)]

theorem getValueByTimeInterp_above (C : FRCurveExtendAssetProxy) (x : ℚ)
    (hN : 1 ≤ C.Data.length) (hStep : 0 < C.Step)
    (hx : C.MinX + ((C.Data.length : ℚ) - 1) * C.Step ≤ x)
    (hfit : (x - C.MinX) / C.Step < 2147483648 ∨ C.Data.length = 1) :
    C.GetValueByTimeInterp x = C.Data.getD (C.Data.length - 1) 0 := by
  by_cases hlow : x ≤ C.MinX
  · have hzero : ((C.Data.length : ℚ) - 1) * C.Step ≤ 0 := by linarith
    have hlen : (C.Data.length : ℚ) - 1 ≤ 0 := by
      by_contra hpos
      exact absurd (mul_pos (not_le.1 hpos) hStep) (not_lt.2 hzero)
    have hlen1 : C.Data.length = 1 := by
      have h1 : (C.Data.length : ℚ) ≤ 1 := by linarith
      have h2 : C.Data.length ≤ 1 := by exact_mod_cast h1
      omega
    rw [getValueByTimeInterp_below C x hlow, hlen1]
  · have hpos : 0 < x - C.MinX := sub_pos.2 (not_le.1 hlow)
    have hbin : ((C.Data.length : ℚ) - 1) ≤ (x - C.MinX) / C.Step := by
      rw [le_div_iff₀ hStep]
      linarith
    have hbin0 : 0 ≤ (x - C.MinX) / C.Step := le_of_lt (div_pos hpos hStep)
    have hfloor : (C.Data.length : Int) - 1 ≤ ⌊(x - C.MinX) / C.Step⌋ := by
      rw [Int.le_floor]
      push_cast
      exact hbin
    have hidx : Clamp (CastInt32 ((x - C.MinX) / C.Step)) 0 ((C.Data.length : Int) - 1)
        = (C.Data.length : Int) - 1 := by
      rcases hfit with hfit | hone
      · have hfl : ⌊(x - C.MinX) / C.Step⌋ < 2147483648 := by
          rw [Int.floor_lt]
          exact_mod_cast hfit
        rw [castInt32_of_nonneg _ hbin0 (by omega)]
        unfold Clamp
        rw [min_eq_right hfloor, max_eq_left (by omega)]
      · rw [hone]
        unfold Clamp
        exact max_eq_right (min_le_right _ _)
    unfold GetValueByTimeInterp
    rw [if_neg (ne_of_gt hStep)]
    simp only
    rw [if_neg (not_le.2 hpos), hidx, if_pos rfl]
    congr 1
    omega

theorem getValueByTimeInterp_inside (C : FRCurveExtendAssetProxy) (x : ℚ) (hStep : 0 < C.Step)
    (hLen : (C.Data.length : Int) ≤ 2147483647)
    (hlo : C.MinX < x) (hhi : x < C.MinX + ((C.Data.length : ℚ) - 1) * C.Step) :
    C.GetValueByTimeInterp x
      = C.Data.getD ⌊(x - C.MinX) / C.Step⌋.toNat 0
          * (1 - ((x - C.MinX) / C.Step - (⌊(x - C.MinX) / C.Step⌋ : ℚ)))
        + C.Data.getD (⌊(x - C.MinX) / C.Step⌋.toNat + 1) 0
          * ((x - C.MinX) / C.Step - (⌊(x - C.MinX) / C.Step⌋ : ℚ)) := by
  have hpos : 0 < x - C.MinX := sub_pos.2 hlo
  have hbin0 : 0 ≤ (x - C.MinX) / C.Step := le_of_lt (div_pos hpos hStep)
  have hbin : (x - C.MinX) / C.Step < ((C.Data.length : ℚ) - 1) := by
    rw [div_lt_iff₀ hStep]
    linarith
  have hfl0 : (0 : Int) ≤ ⌊(x - C.MinX) / C.Step⌋ := Int.floor_nonneg.2 hbin0
  have hfl1 : ⌊(x - C.MinX) / C.Step⌋ < (C.Data.length : Int) - 1 := by
    rw [Int.floor_lt]
    push_cast
    exact hbin
  have hidx : Clamp (CastInt32 ((x - C.MinX) / C.Step)) 0 ((C.Data.length : Int) - 1)
      = ⌊(x - C.MinX) / C.Step⌋ := by
    rw [castInt32_of_nonneg _ hbin0 (by omega)]
    unfold Clamp
    rw [min_eq_left (le_of_lt hfl1), max_eq_left hfl0]
  have hnext : (⌊(x - C.MinX) / C.Step⌋ + 1).toNat = ⌊(x - C.MinX) / C.Step⌋.toNat + 1 := by
    omega
  unfold GetValueByTimeInterp
  rw [if_neg (ne_of_gt hStep)]
  simp only
  rw [if_neg (not_le.2 hpos), hidx, if_neg (ne_of_lt hfl1), hnext]

theorem getValueByTimeInterp_grid (C : FRCurveExtendAssetProxy) (k : Nat)
    (hStep : 0 < C.Step) (hLen : (C.Data.length : Int) ≤ 2147483647) (hk : k < C.Data.length) :
    C.GetValueByTimeInterp (C.MinX + (k : ℚ) * C.Step) = C.Data.getD k 0 := by
  by_cases h0 : k = 0
  · subst h0
    rw [getValueByTimeInterp_below C _ (by simp)]
  · have hbin : (C.MinX + (k : ℚ) * C.Step - C.MinX) / C.Step = ((k : Int) : ℚ) := by
      push_cast
      field_simp
    by_cases hlast : k = C.Data.length - 1
    · have hcast : (k : ℚ) = (C.Data.length : ℚ) - 1 := by
        rw [hlast, Nat.cast_sub (by omega)]
        simp
      have hfit : (C.MinX + (k : ℚ) * C.Step - C.MinX) / C.Step < 2147483648 := by
        rw [hbin]
        have hk2 : (k : Int) < 2147483648 := by omega
        exact_mod_cast hk2
      rw [getValueByTimeInterp_above C _ (by omega) hStep (by rw [hcast]) (Or.inl hfit), ← hlast]
    · have hkpos : (0 : ℚ) < (k : ℚ) := by
        exact_mod_cast Nat.pos_of_ne_zero h0
      have hklt : (k : ℚ) < (C.Data.length : ℚ) - 1 := by
        have : k + 1 < C.Data.length := by omega
        have h2 : ((k + 1 : Nat) : ℚ) < (C.Data.length : ℚ) := by exact_mod_cast this
        push_cast at h2
        linarith
      rw [getValueByTimeInterp_inside C _ hStep hLen (by linarith [mul_pos hkpos hStep])
        (by linarith [mul_lt_mul_of_pos_right hklt hStep]), hbin, Int.floor_intCast]
      simp

/-- C11 (counterexample): on the curve `[1, 2]` over `[0, 1]` with step 1, the input
`x = 3000000000` lies above the end of the curve, its bin `3000000000` does not fit `int32`,
`static_cast<int32>` yields `INT_MIN`, the clamp gives index 0, and `GetValueByTimeInterp`
returns the extrapolation `1·(1 - 3000000000) + 2·3000000000 = 3000000001` instead of the last
value `2`. -/
theorem C11_large_input_is_not_clamped :
    1 ≤ Sample.UnitRampCurve.Data.length
      ∧ 0 < Sample.UnitRampCurve.Step
      ∧ Sample.UnitRampCurve.MinX
          + ((Sample.UnitRampCurve.Data.length : ℚ) - 1) * Sample.UnitRampCurve.Step
          ≤ 3000000000
      ∧ CastInt32 ((3000000000 - Sample.UnitRampCurve.MinX) / Sample.UnitRampCurve.Step)
          = -2147483648
      ∧ Sample.UnitRampCurve.GetValueByTimeInterp 3000000000 = 3000000001
      ∧ Sample.UnitRampCurve.Data.getD (Sample.UnitRampCurve.Data.length - 1) 0 = 2
      ∧ Sample.UnitRampCurve.GetValueByTimeInterp 3000000000
          ≠ Sample.UnitRampCurve.Data.getD (Sample.UnitRampCurve.Data.length - 1) 0 := by
  decide!

/-- C11 (amended): for every curve with `N >= 1` data values (`N` an `int32`) and `Step > 0`,
`GetValueByTimeInterp(x)` returns `Data[0]` for every `x <= MinX`, returns `Data[N-1]` for
every `x >= MinX + (N-1)·Step` whose bin `(x-MinX)/Step` is below `2^31` (or when `N = 1`), and
for `x` in between returns `Data[i]·(1-p) + Data[i+1]·p` where `i = floor((x-MinX)/Step)` and
`p = (x-MinX)/Step - i`; it returns `Data[k]` at `x = MinX + k·Step` for every `k < N`. -/
theorem C11_getValueByTimeInterp_spec (C : FRCurveExtendAssetProxy) (x : ℚ)
    (hN : 1 ≤ C.Data.length) (hLen : (C.Data.length : Int) ≤ 2147483647) (hStep : 0 < C.Step) :
    (x ≤ C.MinX → C.GetValueByTimeInterp x = C.Data.getD 0 0)
      ∧ (C.MinX + ((C.Data.length : ℚ) - 1) * C.Step ≤ x →
          ((x - C.MinX) / C.Step < 2147483648 ∨ C.Data.length = 1) →
          C.GetValueByTimeInterp x = C.Data.getD (C.Data.length - 1) 0)
      ∧ (C.MinX < x → x < C.MinX + ((C.Data.length : ℚ) - 1) * C.Step →
          C.GetValueByTimeInterp x
            = C.Data.getD ⌊(x - C.MinX) / C.Step⌋.toNat 0
                * (1 - ((x - C.MinX) / C.Step - (⌊(x - C.MinX) / C.Step⌋ : ℚ)))
              + C.Data.getD (⌊(x - C.MinX) / C.Step⌋.toNat + 1) 0
                * ((x - C.MinX) / C.Step - (⌊(x - C.MinX) / C.Step⌋ : ℚ)))
      ∧ ∀ k : Nat, k < C.Data.length →
          C.GetValueByTimeInterp (C.MinX + (k : ℚ) * C.Step) = C.Data.getD k 0 :=
  ⟨getValueByTimeInterp_below C x, getValueByTimeInterp_above C x hN hStep,
    getValueByTimeInterp_inside C x hStep hLen,
    fun k hk => getValueByTimeInterp_grid C k hStep hLen hk⟩

/-- Witness for C11: the ramp curve `[1, 3, 2, 8]` over `[10, 16]` read at `x = 13` (inside,
value `5/2`) and at `x = 20` (above the end, value `8`). -/
theorem C11_getValueByTimeInterp_spec_witness :
    (1 ≤ Sample.RampCurve.Data.length ∧ (Sample.RampCurve.Data.length : Int) ≤ 2147483647
        ∧ 0 < Sample.RampCurve.Step)
      ∧ (Sample.RampCurve.MinX < 13
        ∧ 13 < Sample.RampCurve.MinX
              + ((Sample.RampCurve.Data.length : ℚ) - 1) * Sample.RampCurve.Step)
      ∧ Sample.RampCurve.GetValueByTimeInterp 13 = 5 / 2
      ∧ (Sample.RampCurve.MinX
            + ((Sample.RampCurve.Data.length : ℚ) - 1) * Sample.RampCurve.Step ≤ 20
        ∧ (20 - Sample.RampCurve.MinX) / Sample.RampCurve.Step < 2147483648)
      ∧ Sample.RampCurve.GetValueByTimeInterp 20 = 8 :=
  ⟨⟨by decide!, by decide!, by decide!⟩, ⟨by decide!, by decide!⟩,
    ((C11_getValueByTimeInterp_spec Sample.RampCurve 13 (by decide!) (by decide!)
      (by decide!)).2.2.1 (by decide!) (by decide!)).trans (by decide!),
    ⟨by decide!, by decide!⟩,
    ((C11_getValueByTimeInterp_spec Sample.RampCurve 20 (by decide!) (by decide!)
      (by decide!)).2.1 (by decide!) (Or.inl (by decide!))).trans (by decide!)⟩

end FRCurveExtendAssetProxy

/-! ## C18 -/

theorem fitToAudioRegister_least_multiple (n : Int) (hn : 0 ≤ n) :
    4 ∣ FitToAudioRegister n
      ∧ n ≤ FitToAudioRegister n
      ∧ FitToAudioRegister n < n + 4
      ∧ (∀ m : Int, 4 ∣ m → n ≤ m → FitToAudioRegister n ≤ m)
      ∧ FitToAudioRegister (FitToAudioRegister n) = FitToAudioRegister n := by
  have hgen : ∀ k : Int, 0 ≤ k →
      FitToAudioRegister k = if k % 4 > 0 then k + (4 - k % 4) else k := by
    intro k hk
    unfold FitToAudioRegister AUDIO_NUM_FLOATS_PER_VECTOR_REGISTER
    simp only [Int.tmod_eq_emod hk (by norm_num : (0 : Int) ≤ 4)]
  have hF := hgen n hn
  have hdiv : 4 ∣ FitToAudioRegister n := by
    rw [hF]
    split <;> omega
  have hge : n ≤ FitToAudioRegister n := by
    rw [hF]
    split <;> omega
  have hidem : FitToAudioRegister (FitToAudioRegister n) = FitToAudioRegister n := by
    rw [hgen (FitToAudioRegister n) (le_trans hn hge), if_neg (by omega)]
  refine ⟨hdiv, hge, ?_, ?_, hidem⟩
  · rw [hF]
    split <;> omega
  · intro m hm hnm
    rw [hF]
    split <;> omega

theorem fitToAudioRegisterInt32_eq (n : Int) (hn : 0 ≤ n) (hmax : n ≤ 2147483644) :
    FitToAudioRegisterInt32 n = FitToAudioRegister n := by
  unfold FitToAudioRegisterInt32 FitToAudioRegister AUDIO_NUM_FLOATS_PER_VECTOR_REGISTER WrapInt32
  simp only [Int.tmod_eq_emod hn (by norm_num : (0 : Int) ≤ 4)]
  split <;> omega

/-- C18 (counterexample): `n = 2147483645` is a non-negative `int32`, but no `int32` multiple
of 4 is `>= n`; the addition `n + 3` leaves the `int32` range and wraps to `-2147483648`. -/
theorem C18_no_int32_multiple_above_int_max_minus_two :
    (0 : Int) ≤ 2147483645 ∧ (2147483645 : Int) ≤ 2147483647
      ∧ (∀ m : Int, m ≤ 2147483647 → 4 ∣ m → ¬ (2147483645 ≤ m))
      ∧ FitToAudioRegister 2147483645 = 2147483648
      ∧ FitToAudioRegisterInt32 2147483645 = -2147483648 := by
  refine ⟨by decide, by decide, ?_, by decide, by decide⟩
  intro m h1 h2 h3
  omega

/-- C18 (amended): for every `int32` `n` with `0 <= n <= INT_MAX - 3`,
`FitToAudioRegister(n)` is computed without overflow and is the least multiple of the SIMD
width 4 that is `>= n`; hence `n <= FitToAudioRegister(n) < n + 4` and the function is
idempotent. -/
theorem C18_fitToAudioRegister_least_multiple (n : Int) (hn : 0 ≤ n) (hmax : n ≤ 2147483644) :
    FitToAudioRegisterInt32 n = FitToAudioRegister n
      ∧ FitToAudioRegisterInt32 n ≤ 2147483644
      ∧ 4 ∣ FitToAudioRegisterInt32 n
      ∧ n ≤ FitToAudioRegisterInt32 n
      ∧ FitToAudioRegisterInt32 n < n + 4
      ∧ (∀ m : Int, 4 ∣ m → n ≤ m → FitToAudioRegisterInt32 n ≤ m)
      ∧ FitToAudioRegisterInt32 (FitToAudioRegisterInt32 n) = FitToAudioRegisterInt32 n := by
  have he := fitToAudioRegisterInt32_eq n hn hmax
  obtain ⟨h1, h2, h3, h4, h5⟩ := fitToAudioRegister_least_multiple n hn
  have hle : FitToAudioRegister n ≤ 2147483644 := h4 2147483644 (by decide) hmax
  rw [he]
  refine ⟨rfl, hle, h1, h2, h3, h4, ?_⟩
  rw [fitToAudioRegisterInt32_eq _ (le_trans hn h2) hle]
  exact h5

/-- Witness for C18 (amended): `FitToAudioRegister(65) = 68`. -/
theorem C18_fitToAudioRegister_least_multiple_witness :
    ((0 : Int) ≤ 65 ∧ (65 : Int) ≤ 2147483644)
      ∧ (FitToAudioRegisterInt32 65 = FitToAudioRegister 65
        ∧ FitToAudioRegisterInt32 65 ≤ 2147483644
        ∧ 4 ∣ FitToAudioRegisterInt32 65
        ∧ 65 ≤ FitToAudioRegisterInt32 65
        ∧ FitToAudioRegisterInt32 65 < 65 + 4
        ∧ (∀ m : Int, 4 ∣ m → 65 ≤ m → FitToAudioRegisterInt32 65 ≤ m)
        ∧ FitToAudioRegisterInt32 (FitToAudioRegisterInt32 65) = FitToAudioRegisterInt32 65) :=
  ⟨⟨by decide, by decide⟩, C18_fitToAudioRegister_least_multiple 65 (by decide) (by decide)⟩

/-! ## C20 -/

/-- C20 (counterexample): with `freq = 2000`, `cutoff = 1000` and `falloffDb = 20` the function
returns `(freq/cutoff)^(20/20) = 2`, whereas `(freq/cutoff)^(-falloffDb/20) = 1/2`. -/
theorem C20_exponent_is_not_negated :
    ConvertLowPassDbToLinear Sample.Pow 2000 1000 20 = 2
      ∧ Sample.Pow (2000 / 1000) (-20 / 20) = 1 / 2
      ∧ ConvertLowPassDbToLinear Sample.Pow 2000 1000 20 ≠ Sample.Pow (2000 / 1000) (-20 / 20) := by
  decide!

/-- C20 (amended): `ConvertLowPassDbToLinear(freq, cutoff, falloffDb)` returns exactly `1`
whenever `freq <= cutoff`, and returns `(freq/cutoff)^(falloffDb/20)` whenever
`freq > cutoff`. -/
theorem C20_convertLowPassDbToLinear_spec (Pow : ℚ → ℚ → ℚ) (InFreq CutoffFreq FallOffDb : ℚ) :
    (InFreq ≤ CutoffFreq → ConvertLowPassDbToLinear Pow InFreq CutoffFreq FallOffDb = 1)
      ∧ (InFreq > CutoffFreq →
          ConvertLowPassDbToLinear Pow InFreq CutoffFreq FallOffDb
            = Pow (InFreq / CutoffFreq) (FallOffDb / 20)) := by
  unfold ConvertLowPassDbToLinear
  constructor
  · intro h
    rw [if_neg (not_lt.2 h)]
  · intro h
    rw [if_pos h]

/-- Witness for C20 (amended): a falloff of `-20` dB one octave above the cutoff halves the
amplitude. -/
theorem C20_convertLowPassDbToLinear_spec_witness :
    (2000 : ℚ) > 1000 ∧ ConvertLowPassDbToLinear Sample.Pow 2000 1000 (-20) = 1 / 2 :=
  ⟨by norm_num,
    ((C20_convertLowPassDbToLinear_spec Sample.Pow 2000 1000 (-20)).2 (by norm_num)).trans
      (by decide!)⟩

/-! ## SIMD modal kernels -/

theorem getD_set_eq (L : List ℚ) (i k : Nat) (x : ℚ) :
    (L.set i x).getD k 0 = if i = k ∧ i < L.length then x else L.getD k 0 := by
  by_cases h : i = k
  · subst h
    by_cases hl : i < L.length
    · simp [List.getD_eq_getElem?_getD, List.getElem?_set, hl]
    · have hn : L[i]? = none := List.getElem?_eq_none (not_lt.mp hl)
      simp [List.getD_eq_getElem?_getD, List.getElem?_set, hl, hn]
  · simp [List.getD_eq_getElem?_getD, List.getElem?_set, h]

theorem vectorStore_length (R : VectorRegister4Float) (Buffer : List ℚ) (j : Nat) :
    (VectorStore R Buffer j).length = Buffer.length := by
  simp [VectorStore]

theorem vectorStore_getD (R : VectorRegister4Float) (Buffer : List ℚ) (j k : Nat)
    (h : j + 4 ≤ Buffer.length) :
    (VectorStore R Buffer j).getD k 0 =
      if k = j then R.V0 else if k = j + 1 then R.V1 else if k = j + 2 then R.V2
      else if k = j + 3 then R.V3 else Buffer.getD k 0 := by
  unfold VectorStore
  simp only [getD_set_eq, List.length_set]
  split_ifs <;> first | rfl | omega

namespace FPianoKeySynth

theorem withForceBody_L1_length (A B G : List ℚ) (F : VectorRegister4Float) (j : Nat)
    (S : FModalLanes) :
    (ProcessVectorModalWithForceBody A B G F j S).L1.length = S.L1.length := by
  simp [ProcessVectorModalWithForceBody, vectorStore_length]

theorem withForceBody_L2_length (A B G : List ℚ) (F : VectorRegister4Float) (j : Nat)
    (S : FModalLanes) :
    (ProcessVectorModalWithForceBody A B G F j S).L2.length = S.L2.length := by
  simp [ProcessVectorModalWithForceBody, vectorStore_length]

theorem withForceBody_L1_getD (A B G : List ℚ) (Force : ℚ) (j k : Nat) (S : FModalLanes)
    (h : j + 4 ≤ S.L1.length) :
    (ProcessVectorModalWithForceBody A B G (VectorLoadFloat1 Force) j S).L1.getD k 0 =
      if j ≤ k ∧ k < j + 4 then ScalarModalOutput A B G Force S.L1 S.L2 k
      else S.L1.getD k 0 := by
  simp only [ProcessVectorModalWithForceBody, vectorStore_getD _ _ _ _ h]
  by_cases h0 : k = j
  · subst h0
    simp [ScalarModalOutput, VectorLoadAligned, VectorMultiplyAdd, VectorAdd, VectorMultiply,
      VectorSubtract, VectorLoadFloat1]
    ring
  by_cases h1 : k = j + 1
  · subst h1
    simp [ScalarModalOutput, VectorLoadAligned, VectorMultiplyAdd, VectorAdd, VectorMultiply,
      VectorSubtract, VectorLoadFloat1]
    ring
  by_cases h2 : k = j + 2
  · subst h2
    simp [ScalarModalOutput, VectorLoadAligned, VectorMultiplyAdd, VectorAdd, VectorMultiply,
      VectorSubtract, VectorLoadFloat1]
    ring
  by_cases h3 : k = j + 3
  · subst h3
    simp [ScalarModalOutput, VectorLoadAligned, VectorMultiplyAdd, VectorAdd, VectorMultiply,
      VectorSubtract, VectorLoadFloat1]
    ring
  rw [if_neg h0, if_neg h1, if_neg h2, if_neg h3, if_neg (by omega)]

theorem withForceBody_L2_getD (A B G : List ℚ) (F : VectorRegister4Float) (j k : Nat)
    (S : FModalLanes) (h : j + 4 ≤ S.L2.length) :
    (ProcessVectorModalWithForceBody A B G F j S).L2.getD k 0 =
      if j ≤ k ∧ k < j + 4 then S.L1.getD k 0 else S.L2.getD k 0 := by
  simp only [ProcessVectorModalWithForceBody, vectorStore_getD _ _ _ _ h]
  by_cases h0 : k = j
  · subst h0; simp [VectorLoadAligned]
  by_cases h1 : k = j + 1
  · subst h1; simp [VectorLoadAligned]
  by_cases h2 : k = j + 2
  · subst h2; simp [VectorLoadAligned]
  by_cases h3 : k = j + 3
  · subst h3; simp [VectorLoadAligned]
  rw [if_neg h0, if_neg h1, if_neg h2, if_neg h3, if_neg (by omega)]

theorem withForceBody_Sum_lane (A B G : List ℚ) (Force : ℚ) (j m : Nat) (S : FModalLanes)
    (hm : m < 4) :
    (ProcessVectorModalWithForceBody A B G (VectorLoadFloat1 Force) j S).Sum.Lane m =
      S.Sum.Lane m + ScalarModalOutput A B G Force S.L1 S.L2 (j + m) := by
  have hcases : m = 0 ∨ m = 1 ∨ m = 2 ∨ m = 3 := by omega
  rcases hcases with h | h | h | h <;> subst h <;>
    simp [ProcessVectorModalWithForceBody, ScalarModalOutput, VectorLoadAligned,
      VectorMultiplyAdd, VectorAdd, VectorMultiply, VectorSubtract, VectorLoadFloat1,
      VectorRegister4Float.Lane] <;> ring

end FPianoKeySynth

theorem list_ext_getD (L M : List ℚ) (hl : L.length = M.length)
    (h : ∀ k, L.getD k 0 = M.getD k 0) : L = M := by
  apply List.ext_getElem hl
  intro n h1 h2
  have hn := h n
  simpa [List.getD_eq_getElem?_getD, List.getElem?_eq_getElem h1,
    List.getElem?_eq_getElem h2] using hn

theorem getD_map_range (n k : Nat) (f : Nat → ℚ) :
    ((List.range n).map f).getD k 0 = if k < n then f k else 0 := by
  by_cases h : k < n
  · simp [List.getD_eq_getElem?_getD, h]
  · have hn : (List.range n)[k]? = none :=
      List.getElem?_eq_none (by rw [List.length_range]; omega)
    simp [List.getD_eq_getElem?_getD, h, hn]

theorem getD_of_length_le (L : List ℚ) (k : Nat) (h : L.length ≤ k) : L.getD k 0 = 0 := by
  simp [List.getD_eq_getElem?_getD, List.getElem?_eq_none h]

theorem sum_range_four_mul (f : Nat → ℚ) (g : Nat) :
    ∑ j in Finset.range (4 * g), f j =
      ∑ q in Finset.range g, f (4 * q) + ∑ q in Finset.range g, f (4 * q + 1) +
        ∑ q in Finset.range g, f (4 * q + 2) + ∑ q in Finset.range g, f (4 * q + 3) := by
  induction g with
  | zero => simp
  | succ g ih =>
    have e : 4 * (g + 1) = 4 * g + 1 + 1 + 1 + 1 := by ring
    rw [e, Finset.sum_range_succ, Finset.sum_range_succ, Finset.sum_range_succ,
      Finset.sum_range_succ, ih, Finset.sum_range_succ, Finset.sum_range_succ,
      Finset.sum_range_succ, Finset.sum_range_succ]
    have e1 : 4 * g + 1 + 1 = 4 * g + 2 := by ring
    have e2 : 4 * g + 1 + 1 + 1 = 4 * g + 3 := by ring
    rw [e2, e1]
    ring

namespace FPianoKeySynth

theorem scalarModalOutput_congr (A B G : List ℚ) (Force : ℚ) (L1 L2 M1 M2 : List ℚ) (k : Nat)
    (h1 : M1.getD k 0 = L1.getD k 0) (h2 : M2.getD k 0 = L2.getD k 0) :
    ScalarModalOutput A B G Force M1 M2 k = ScalarModalOutput A B G Force L1 L2 k := by
  simp only [ScalarModalOutput, h1, h2]

theorem withForceLoop_spec (g : Nat) (A B G : List ℚ) (Force : ℚ) :
    ∀ (fuel c : Nat) (S : FModalLanes), c ≤ g → g - c ≤ fuel →
      4 * g ≤ S.L1.length → 4 * g ≤ S.L2.length →
      (ProcessVectorModalWithForceLoop ((4 * g : Nat) : Int) A B G (VectorLoadFloat1 Force)
          fuel (4 * c) S).L1.length = S.L1.length ∧
      (ProcessVectorModalWithForceLoop ((4 * g : Nat) : Int) A B G (VectorLoadFloat1 Force)
          fuel (4 * c) S).L2.length = S.L2.length ∧
      (∀ k, (ProcessVectorModalWithForceLoop ((4 * g : Nat) : Int) A B G (VectorLoadFloat1 Force)
          fuel (4 * c) S).L1.getD k 0 =
        if 4 * c ≤ k ∧ k < 4 * g then ScalarModalOutput A B G Force S.L1 S.L2 k
        else S.L1.getD k 0) ∧
      (∀ k, (ProcessVectorModalWithForceLoop ((4 * g : Nat) : Int) A B G (VectorLoadFloat1 Force)
          fuel (4 * c) S).L2.getD k 0 =
        if 4 * c ≤ k ∧ k < 4 * g then S.L1.getD k 0 else S.L2.getD k 0) ∧
      (∀ m, m < 4 →
        (ProcessVectorModalWithForceLoop ((4 * g : Nat) : Int) A B G (VectorLoadFloat1 Force)
          fuel (4 * c) S).Sum.Lane m =
        S.Sum.Lane m +
          ∑ q in Finset.Ico c g, ScalarModalOutput A B G Force S.L1 S.L2 (4 * q + m)) := by
  intro fuel
  induction fuel with
  | zero =>
    intro c S hc hf _ _
    have hcg : c = g := by omega
    subst hcg
    rw [ProcessVectorModalWithForceLoop]
    refine ⟨rfl, rfl, ?_, ?_, ?_⟩
    · intro k; rw [if_neg (by omega)]
    · intro k; rw [if_neg (by omega)]
    · intro m _; simp
  | succ fuel ih =>
    intro c S hc hf h1 h2
    by_cases hlt : c < g
    · have hcond : ((4 * c : Nat) : Int) < ((4 * g : Nat) : Int) := by
        exact_mod_cast (by omega : 4 * c < 4 * g)
      have e : 4 * c + 4 = 4 * (c + 1) := by ring
      rw [ProcessVectorModalWithForceLoop, if_pos hcond, e]
      have hb1 := withForceBody_L1_length A B G (VectorLoadFloat1 Force) (4 * c) S
      have hb2 := withForceBody_L2_length A B G (VectorLoadFloat1 Force) (4 * c) S
      have hg1 := fun k => withForceBody_L1_getD A B G Force (4 * c) k S (by omega)
      have hg2 := fun k =>
        withForceBody_L2_getD A B G (VectorLoadFloat1 Force) (4 * c) k S (by omega)
      obtain ⟨i1, i2, i3, i4, i5⟩ :=
        ih (c + 1) (ProcessVectorModalWithForceBody A B G (VectorLoadFloat1 Force) (4 * c) S)
          (by omega) (by omega) (by omega) (by omega)
      have hfar : ∀ k, 4 * (c + 1) ≤ k →
          ScalarModalOutput A B G Force
            (ProcessVectorModalWithForceBody A B G (VectorLoadFloat1 Force) (4 * c) S).L1
            (ProcessVectorModalWithForceBody A B G (VectorLoadFloat1 Force) (4 * c) S).L2 k =
          ScalarModalOutput A B G Force S.L1 S.L2 k := by
        intro k hk
        apply scalarModalOutput_congr
        · rw [hg1 k, if_neg (by omega)]
        · rw [hg2 k, if_neg (by omega)]
      refine ⟨i1.trans hb1, i2.trans hb2, ?_, ?_, ?_⟩
      · intro k
        rw [i3 k]
        by_cases hk : 4 * (c + 1) ≤ k ∧ k < 4 * g
        · rw [if_pos hk, if_pos (by omega), hfar k hk.1]
        · rw [if_neg hk, hg1 k]
          by_cases hk2 : 4 * c ≤ k ∧ k < 4 * c + 4
          · rw [if_pos hk2, if_pos (by omega)]
          · rw [if_neg hk2, if_neg (by omega)]
      · intro k
        rw [i4 k]
        by_cases hk : 4 * (c + 1) ≤ k ∧ k < 4 * g
        · rw [if_pos hk, if_pos (by omega), hg1 k, if_neg (by omega)]
        · rw [if_neg hk, hg2 k]
          by_cases hk2 : 4 * c ≤ k ∧ k < 4 * c + 4
          · rw [if_pos hk2, if_pos (by omega)]
          · rw [if_neg hk2, if_neg (by omega)]
      · intro m hm
        rw [i5 m hm, withForceBody_Sum_lane A B G Force (4 * c) m S hm,
          Finset.sum_eq_sum_Ico_succ_bot hlt, add_assoc]
        congr 2
        apply Finset.sum_congr rfl
        intro q hq
        rw [Finset.mem_Ico] at hq
        exact hfar (4 * q + m) (by omega)
    · have hcg : c = g := by omega
      subst hcg
      rw [ProcessVectorModalWithForceLoop, if_neg (lt_irrefl _)]
      refine ⟨rfl, rfl, ?_, ?_, ?_⟩
      · intro k; rw [if_neg (by omega)]
      · intro k; rw [if_neg (by omega)]
      · intro m _; simp

theorem body_eq_withForceBody (A B : List ℚ) (F : VectorRegister4Float) (j : Nat)
    (S : FModalLanes) :
    ProcessVectorModalBody A B j S = ProcessVectorModalWithForceBody A B [] F j S := by
  simp [ProcessVectorModalBody, ProcessVectorModalWithForceBody, VectorMultiplyAdd, VectorAdd,
    VectorMultiply, VectorLoadAligned]

theorem loop_eq_withForceLoop (N : Int) (A B : List ℚ) (F : VectorRegister4Float) :
    ∀ (fuel j : Nat) (S : FModalLanes),
      ProcessVectorModalLoop N A B fuel j S = ProcessVectorModalWithForceLoop N A B [] F fuel j S := by
  intro fuel
  induction fuel with
  | zero => intro j S; rfl
  | succ fuel ih =>
    intro j S
    rw [ProcessVectorModalLoop, ProcessVectorModalWithForceLoop, ih,
      body_eq_withForceBody A B F j S]

theorem processVectorModalWithForce_spec (g : Nat) (A B G : List ℚ) (Force : ℚ)
    (S : FModalLanes) (h1 : 4 * g ≤ S.L1.length) (h2 : 4 * g ≤ S.L2.length) :
    (ProcessVectorModalWithForce ((4 * g : Nat) : Int) A B G (VectorLoadFloat1 Force) S).L1 =
        ScalarModalL1 (4 * g) A B G Force S.L1 S.L2 ∧
    (ProcessVectorModalWithForce ((4 * g : Nat) : Int) A B G (VectorLoadFloat1 Force) S).L2 =
        ScalarModalL2 (4 * g) S.L1 S.L2 ∧
    (∀ m, m < 4 →
      (ProcessVectorModalWithForce ((4 * g : Nat) : Int) A B G (VectorLoadFloat1 Force) S).Sum.Lane
          m =
        S.Sum.Lane m +
          ∑ q in Finset.range g, ScalarModalOutput A B G Force S.L1 S.L2 (4 * q + m)) := by
  have hspec := withForceLoop_spec g A B G Force (4 * g) 0 S (Nat.zero_le _) (by omega) h1 h2
  simp only [Nat.mul_zero] at hspec
  obtain ⟨i1, i2, i3, i4, i5⟩ := hspec
  have hN : (((4 * g : Nat) : Int)).toNat = 4 * g := Int.toNat_natCast _
  unfold ProcessVectorModalWithForce
  rw [hN]
  refine ⟨?_, ?_, ?_⟩
  · apply list_ext_getD
    · rw [ScalarModalL1, List.length_map, List.length_range]
      exact i1
    · intro k
      rw [i3 k, ScalarModalL1, getD_map_range]
      by_cases hk : k < S.L1.length
      · rw [if_pos hk]
        by_cases hk2 : k < 4 * g
        · rw [if_pos ⟨Nat.zero_le _, hk2⟩, if_pos hk2]
        · rw [if_neg (by omega), if_neg hk2]
      · rw [if_neg hk, if_neg (by omega), getD_of_length_le _ _ (by omega)]
  · apply list_ext_getD
    · rw [ScalarModalL2, List.length_map, List.length_range]
      exact i2
    · intro k
      rw [i4 k, ScalarModalL2, getD_map_range]
      by_cases hk : k < S.L2.length
      · rw [if_pos hk]
        by_cases hk2 : k < 4 * g
        · rw [if_pos ⟨Nat.zero_le _, hk2⟩, if_pos hk2]
        · rw [if_neg (by omega), if_neg hk2]
      · rw [if_neg hk, if_neg (by omega), getD_of_length_le _ _ (by omega)]
  · intro m hm
    rw [i5 m hm, Finset.range_eq_Ico]

theorem hSum_eq_lanes (R : VectorRegister4Float) :
    R.HSum = R.Lane 0 + R.Lane 1 + R.Lane 2 + R.Lane 3 := rfl

end FPianoKeySynth

namespace FPianoKeySynth

theorem processVectorModal_spec (g : Nat) (A B : List ℚ) (S : FModalLanes)
    (h1 : 4 * g ≤ S.L1.length) (h2 : 4 * g ≤ S.L2.length) :
    (ProcessVectorModal ((4 * g : Nat) : Int) A B S).L1 =
        ScalarModalL1 (4 * g) A B [] 0 S.L1 S.L2 ∧
    (ProcessVectorModal ((4 * g : Nat) : Int) A B S).L2 = ScalarModalL2 (4 * g) S.L1 S.L2 ∧
    (∀ m, m < 4 →
      (ProcessVectorModal ((4 * g : Nat) : Int) A B S).Sum.Lane m =
        S.Sum.Lane m + ∑ q in Finset.range g, ScalarModalOutput A B [] 0 S.L1 S.L2 (4 * q + m)) := by
  have h := processVectorModalWithForce_spec g A B [] 0 S h1 h2
  have e : ProcessVectorModal ((4 * g : Nat) : Int) A B S =
      ProcessVectorModalWithForce ((4 * g : Nat) : Int) A B [] (VectorLoadFloat1 0) S := by
    unfold ProcessVectorModal ProcessVectorModalWithForce
    exact loop_eq_withForceLoop _ A B (VectorLoadFloat1 0) _ 0 S
  rw [e]
  exact h

theorem hSum_after (f : Nat → ℚ) (g : Nat) (R R0 : VectorRegister4Float)
    (h : ∀ m, m < 4 → R.Lane m = R0.Lane m + ∑ q in Finset.range g, f (4 * q + m)) :
    R.HSum = R0.HSum + ∑ j in Finset.range (4 * g), f j := by
  rw [hSum_eq_lanes, hSum_eq_lanes, h 0 (by norm_num), h 1 (by norm_num), h 2 (by norm_num),
    h 3 (by norm_num), sum_range_four_mul]
  simp only [Nat.add_zero]
  ring

/-- C16: For a bank of `NumModals = 4·g` oscillators inside the buffers, one call of
`ProcessVectorModal` produces exactly the delay lines of the scalar recursion
(`new D1[j] = TwoRCos[j]·D1[j] − R2[j]·D2[j]`, `new D2[j] = old D1[j]` for `j < NumModals`,
every other entry unchanged) and adds the sum of the new `D1[j]` to the lanes of the sum
register; `ProcessVectorModalWithForce` does the same with the extra term `GainF[j]·force`. -/
theorem C16_vector_kernels_refine_scalar_recursion (g : Nat) (A B G : List ℚ) (Force : ℚ)
    (S : FModalLanes) (_hA : 4 * g ≤ A.length) (_hB : 4 * g ≤ B.length)
    (_hG : 4 * g ≤ G.length) (h1 : 4 * g ≤ S.L1.length) (h2 : 4 * g ≤ S.L2.length) :
    ((ProcessVectorModal ((4 * g : Nat) : Int) A B S).L1 =
        ScalarModalL1 (4 * g) A B [] 0 S.L1 S.L2 ∧
      (ProcessVectorModal ((4 * g : Nat) : Int) A B S).L2 = ScalarModalL2 (4 * g) S.L1 S.L2 ∧
      (ProcessVectorModal ((4 * g : Nat) : Int) A B S).Sum.HSum =
        S.Sum.HSum +
          ∑ j in Finset.range (4 * g),
            (A.getD j 0 * S.L1.getD j 0 - B.getD j 0 * S.L2.getD j 0)) ∧
    ((ProcessVectorModalWithForce ((4 * g : Nat) : Int) A B G (VectorLoadFloat1 Force) S).L1 =
        ScalarModalL1 (4 * g) A B G Force S.L1 S.L2 ∧
      (ProcessVectorModalWithForce ((4 * g : Nat) : Int) A B G (VectorLoadFloat1 Force) S).L2 =
        ScalarModalL2 (4 * g) S.L1 S.L2 ∧
      (ProcessVectorModalWithForce ((4 * g : Nat) : Int) A B G (VectorLoadFloat1 Force) S).Sum.HSum =
        S.Sum.HSum +
          ∑ j in Finset.range (4 * g),
            (A.getD j 0 * S.L1.getD j 0 - B.getD j 0 * S.L2.getD j 0 + G.getD j 0 * Force)) := by
  obtain ⟨p1, p2, p3⟩ := processVectorModal_spec g A B S h1 h2
  obtain ⟨q1, q2, q3⟩ := processVectorModalWithForce_spec g A B G Force S h1 h2
  refine ⟨⟨p1, p2, ?_⟩, ⟨q1, q2, ?_⟩⟩
  · rw [hSum_after (ScalarModalOutput A B [] 0 S.L1 S.L2) g _ _ p3]
    congr 1
    apply Finset.sum_congr rfl
    intro j _
    simp [ScalarModalOutput]
  · rw [hSum_after (ScalarModalOutput A B G Force S.L1 S.L2) g _ _ q3]
    rfl

/-- Witness for C16: a bank of four oscillators inside buffers of length five. -/
theorem C16_vector_kernels_refine_scalar_recursion_witness :
    (ProcessVectorModal 4 Sample.TwoRCosData Sample.R2Data Sample.ModalLanes).L1 =
        [-9 / 20, -4 / 9, -9 / 4, 7 / 2, 5] ∧
      (ProcessVectorModal 4 Sample.TwoRCosData Sample.R2Data Sample.ModalLanes).L2 =
        [1, 2, 3, 4, 1] ∧
      (ProcessVectorModalWithForce 4 Sample.TwoRCosData Sample.R2Data Sample.GainFData
          (VectorLoadFloat1 2) Sample.ModalLanes).L1 =
        [31 / 20, 32 / 9, 15 / 4, 23 / 2, 5] := by
  obtain ⟨⟨p1, p2, _⟩, ⟨q1, _, _⟩⟩ :=
    C16_vector_kernels_refine_scalar_recursion 1 Sample.TwoRCosData Sample.R2Data
      Sample.GainFData 2 Sample.ModalLanes (by decide) (by decide) (by decide) (by decide)
      (by decide)
  refine ⟨p1.trans (by decide!), p2.trans (by decide!), q1.trans (by decide!)⟩

end FPianoKeySynth

theorem exists_linear_mul_pow_lt (R a b ε : ℚ) (h0 : 0 ≤ R) (h1 : R < 1) (hε : 0 < ε) :
    ∃ N : Nat, ∀ n : Nat, N ≤ n → (a + n * b) * R ^ n < ε := by
  have hR0 : (0 : ℝ) ≤ (R : ℝ) := by exact_mod_cast h0
  have hR1 : (R : ℝ) < 1 := by exact_mod_cast h1
  have t1 : Filter.Tendsto (fun n : ℕ => (R : ℝ) ^ n) Filter.atTop (nhds 0) :=
    tendsto_pow_atTop_nhds_zero_of_lt_one hR0 hR1
  have t2 : Filter.Tendsto (fun n : ℕ => (n : ℝ) * (R : ℝ) ^ n) Filter.atTop (nhds 0) :=
    tendsto_self_mul_const_pow_of_lt_one hR0 hR1
  have t3 : Filter.Tendsto (fun n : ℕ => (a : ℝ) * (R : ℝ) ^ n + (b : ℝ) * ((n : ℝ) * (R : ℝ) ^ n))
      Filter.atTop (nhds 0) := by
    have := (t1.const_mul (a : ℝ)).add (t2.const_mul (b : ℝ))
    simpa using this
  have hεR : (0 : ℝ) < (ε : ℝ) := by exact_mod_cast hε
  have hev := (tendsto_order.1 t3).2 (ε : ℝ) hεR
  obtain ⟨N, hN⟩ := Filter.eventually_atTop.1 hev
  refine ⟨N, fun n hn => ?_⟩
  have h := hN n hn
  have e : ((a + n * b) * R ^ n : ℚ) = a * R ^ n + b * (n * R ^ n) := by ring
  rw [e]
  exact_mod_cast h

theorem modalEnergy_step (a b y1 y2 : ℚ) :
    ModalEnergy a b (a * y1 - b * y2) y1 = b * ModalEnergy a b y1 y2 := by
  unfold ModalEnergy
  ring

theorem modalEnergy_eq_squares (R c y1 y2 : ℚ) :
    ModalEnergy (2 * R * c) (R ^ 2) y1 y2 = (y1 - R * c * y2) ^ 2 + R ^ 2 * (1 - c ^ 2) * y2 ^ 2 := by
  unfold ModalEnergy
  ring

theorem modalEnergy_nonneg (R c y1 y2 : ℚ) (hc : |c| ≤ 1) :
    0 ≤ ModalEnergy (2 * R * c) (R ^ 2) y1 y2 := by
  rw [modalEnergy_eq_squares]
  have hc2 : c ^ 2 ≤ 1 := by
    have := abs_le.mp hc
    nlinarith [this.1, this.2]
  have h1 : 0 ≤ R ^ 2 * (1 - c ^ 2) * y2 ^ 2 :=
    mul_nonneg (mul_nonneg (sq_nonneg R) (by linarith)) (sq_nonneg y2)
  linarith [sq_nonneg (y1 - R * c * y2)]

namespace FPianoKeySynth

theorem processVectorModal_lane (g : Nat) (A B : List ℚ) (S : FModalLanes) (j : Nat)
    (h1 : 4 * g ≤ S.L1.length) (h2 : 4 * g ≤ S.L2.length) (hj : j < 4 * g) :
    (ProcessVectorModal ((4 * g : Nat) : Int) A B S).L1.getD j 0 =
        A.getD j 0 * S.L1.getD j 0 - B.getD j 0 * S.L2.getD j 0 ∧
    (ProcessVectorModal ((4 * g : Nat) : Int) A B S).L2.getD j 0 = S.L1.getD j 0 ∧
    (ProcessVectorModal ((4 * g : Nat) : Int) A B S).L1.length = S.L1.length ∧
    (ProcessVectorModal ((4 * g : Nat) : Int) A B S).L2.length = S.L2.length := by
  obtain ⟨p1, p2, _⟩ := processVectorModal_spec g A B S h1 h2
  rw [p1, p2]
  refine ⟨?_, ?_, ?_, ?_⟩
  · rw [ScalarModalL1, getD_map_range, if_pos (by omega), if_pos hj]
    simp [ScalarModalOutput]
  · rw [ScalarModalL2, getD_map_range, if_pos (by omega), if_pos hj]
  · simp [ScalarModalL1]
  · simp [ScalarModalL2]

theorem processVectorModal_iterate_length (g : Nat) (A B : List ℚ) (S : FModalLanes)
    (h1 : 4 * g ≤ S.L1.length) (h2 : 4 * g ≤ S.L2.length) (n : Nat) :
    ((ProcessVectorModal ((4 * g : Nat) : Int) A B)^[n] S).L1.length = S.L1.length ∧
    ((ProcessVectorModal ((4 * g : Nat) : Int) A B)^[n] S).L2.length = S.L2.length := by
  induction n with
  | zero => exact ⟨rfl, rfl⟩
  | succ n ih =>
    rw [Function.iterate_succ_apply']
    obtain ⟨p1, p2, _⟩ := processVectorModal_spec g A B _ (by omega : 4 * g ≤ _)
      (by omega : 4 * g ≤ ((ProcessVectorModal ((4 * g : Nat) : Int) A B)^[n] S).L2.length)
    rw [p1, p2]
    refine ⟨?_, ?_⟩
    · simp only [ScalarModalL1, List.length_map, List.length_range]; exact ih.1
    · simp only [ScalarModalL2, List.length_map, List.length_range]; exact ih.2

theorem processVectorModal_iterate_lane (g : Nat) (A B : List ℚ) (S : FModalLanes) (j : Nat)
    (h1 : 4 * g ≤ S.L1.length) (h2 : 4 * g ≤ S.L2.length) (hj : j < 4 * g) (n : Nat) :
    ((ProcessVectorModal ((4 * g : Nat) : Int) A B)^[n + 1] S).L1.getD j 0 =
        A.getD j 0 * ((ProcessVectorModal ((4 * g : Nat) : Int) A B)^[n] S).L1.getD j 0 -
          B.getD j 0 * ((ProcessVectorModal ((4 * g : Nat) : Int) A B)^[n] S).L2.getD j 0 ∧
    ((ProcessVectorModal ((4 * g : Nat) : Int) A B)^[n + 1] S).L2.getD j 0 =
        ((ProcessVectorModal ((4 * g : Nat) : Int) A B)^[n] S).L1.getD j 0 := by
  have hl := processVectorModal_iterate_length g A B S h1 h2 n
  rw [Function.iterate_succ_apply']
  obtain ⟨p1, p2, _, _⟩ := processVectorModal_lane g A B
    ((ProcessVectorModal ((4 * g : Nat) : Int) A B)^[n] S) j (by omega) (by omega) hj
  exact ⟨p1, p2⟩

theorem laneEnergy_iterate (g : Nat) (A B : List ℚ) (S : FModalLanes) (j : Nat)
    (h1 : 4 * g ≤ S.L1.length) (h2 : 4 * g ≤ S.L2.length) (hj : j < 4 * g) (n : Nat) :
    LaneEnergy A B ((ProcessVectorModal ((4 * g : Nat) : Int) A B)^[n] S) j =
      (B.getD j 0) ^ n * LaneEnergy A B S j := by
  induction n with
  | zero => simp
  | succ n ih =>
    obtain ⟨p1, p2⟩ := processVectorModal_iterate_lane g A B S j h1 h2 hj n
    have e : LaneEnergy A B ((ProcessVectorModal ((4 * g : Nat) : Int) A B)^[n + 1] S) j =
        B.getD j 0 * LaneEnergy A B ((ProcessVectorModal ((4 * g : Nat) : Int) A B)^[n] S) j := by
      unfold LaneEnergy
      rw [p1, p2, modalEnergy_step]
    rw [e, ih]
    ring

end FPianoKeySynth

namespace FPianoKeySynth

theorem processVectorModal_iterate_bound (g : Nat) (A B : List ℚ) (S : FModalLanes) (j : Nat)
    (R c : ℚ) (h1 : 4 * g ≤ S.L1.length) (h2 : 4 * g ≤ S.L2.length) (hj : j < 4 * g)
    (hR0 : 0 < R) (hc : |c| ≤ 1) (hA : A.getD j 0 = 2 * R * c) (hB : B.getD j 0 = R ^ 2)
    (n : Nat) :
    |((ProcessVectorModal ((4 * g : Nat) : Int) A B)^[n] S).L1.getD j 0| ≤
      (|S.L1.getD j 0| + n * (LaneEnergy A B S j + 1)) * R ^ n := by
  have hE0 : 0 ≤ LaneEnergy A B S j := by
    unfold LaneEnergy
    rw [hA, hB]
    exact modalEnergy_nonneg R c _ _ hc
  induction n with
  | zero => simp
  | succ n ih =>
    obtain ⟨p1, p2⟩ := processVectorModal_iterate_lane g A B S j h1 h2 hj n
    have hE := laneEnergy_iterate g A B S j h1 h2 hj (n + 1)
    rw [hB] at hE
    have hsq : LaneEnergy A B ((ProcessVectorModal ((4 * g : Nat) : Int) A B)^[n + 1] S) j =
        (((ProcessVectorModal ((4 * g : Nat) : Int) A B)^[n + 1] S).L1.getD j 0 -
          R * c * ((ProcessVectorModal ((4 * g : Nat) : Int) A B)^[n + 1] S).L2.getD j 0) ^ 2 +
        R ^ 2 * (1 - c ^ 2) *
          (((ProcessVectorModal ((4 * g : Nat) : Int) A B)^[n + 1] S).L2.getD j 0) ^ 2 := by
      unfold LaneEnergy
      rw [hA, hB]
      exact modalEnergy_eq_squares R c _ _
    have hc2 : c ^ 2 ≤ 1 := by
      have := abs_le.mp hc
      nlinarith [this.1, this.2]
    have hrest : 0 ≤ R ^ 2 * (1 - c ^ 2) *
        (((ProcessVectorModal ((4 * g : Nat) : Int) A B)^[n + 1] S).L2.getD j 0) ^ 2 :=
      mul_nonneg (mul_nonneg (sq_nonneg R) (by linarith)) (sq_nonneg _)
    have hRn : 0 ≤ R ^ (n + 1) := pow_nonneg hR0.le _
    have hd2 : (((ProcessVectorModal ((4 * g : Nat) : Int) A B)^[n + 1] S).L1.getD j 0 -
          R * c * ((ProcessVectorModal ((4 * g : Nat) : Int) A B)^[n + 1] S).L2.getD j 0) ^ 2 ≤
        ((LaneEnergy A B S j + 1) * R ^ (n + 1)) ^ 2 := by
      have hle : (R ^ 2) ^ (n + 1) * LaneEnergy A B S j ≤
          ((LaneEnergy A B S j + 1) * R ^ (n + 1)) ^ 2 := by
        have e1 : ((LaneEnergy A B S j + 1) * R ^ (n + 1)) ^ 2 =
            (R ^ 2) ^ (n + 1) * (LaneEnergy A B S j + 1) ^ 2 := by ring
        rw [e1]
        apply mul_le_mul_of_nonneg_left _ (pow_nonneg (sq_nonneg R) _)
        nlinarith [hE0]
      linarith
    have hd : |((ProcessVectorModal ((4 * g : Nat) : Int) A B)^[n + 1] S).L1.getD j 0 -
          R * c * ((ProcessVectorModal ((4 * g : Nat) : Int) A B)^[n + 1] S).L2.getD j 0| ≤
        (LaneEnergy A B S j + 1) * R ^ (n + 1) :=
      abs_le_of_sq_le_sq hd2 (mul_nonneg (by linarith) hRn)
    have hRc : |R * c * ((ProcessVectorModal ((4 * g : Nat) : Int) A B)^[n] S).L1.getD j 0| ≤
        R * |((ProcessVectorModal ((4 * g : Nat) : Int) A B)^[n] S).L1.getD j 0| := by
      rw [abs_mul, abs_mul, abs_of_pos hR0]
      have := mul_le_mul_of_nonneg_left hc hR0.le
      nlinarith [abs_nonneg (((ProcessVectorModal ((4 * g : Nat) : Int) A B)^[n] S).L1.getD j 0)]
    have hsplit : ((ProcessVectorModal ((4 * g : Nat) : Int) A B)^[n + 1] S).L1.getD j 0 =
        (((ProcessVectorModal ((4 * g : Nat) : Int) A B)^[n + 1] S).L1.getD j 0 -
          R * c * ((ProcessVectorModal ((4 * g : Nat) : Int) A B)^[n + 1] S).L2.getD j 0) +
        R * c * ((ProcessVectorModal ((4 * g : Nat) : Int) A B)^[n] S).L1.getD j 0 := by
      rw [p2]; ring
    have htri := abs_add
      (((ProcessVectorModal ((4 * g : Nat) : Int) A B)^[n + 1] S).L1.getD j 0 -
          R * c * ((ProcessVectorModal ((4 * g : Nat) : Int) A B)^[n + 1] S).L2.getD j 0)
      (R * c * ((ProcessVectorModal ((4 * g : Nat) : Int) A B)^[n] S).L1.getD j 0)
    rw [← hsplit] at htri
    have hih := mul_le_mul_of_nonneg_left ih hR0.le
    have e2 : (|S.L1.getD j 0| + ((n + 1 : Nat) : ℚ) * (LaneEnergy A B S j + 1)) * R ^ (n + 1) =
        (LaneEnergy A B S j + 1) * R ^ (n + 1) +
          R * ((|S.L1.getD j 0| + (n : ℚ) * (LaneEnergy A B S j + 1)) * R ^ n) := by
      push_cast
      ring
    rw [e2]
    linarith

/-- C17: For an oscillator `j` of a bank with coefficients `TwoRCos[j] = 2·R·c` and
`R2[j] = R²`, `0 < R < 1`, `|c| ≤ 1`, repeated calls of the force-free kernel
`ProcessVectorModal` keep the envelope energy `y1² − TwoRCos·y1·y2 + R2·y2²` non-negative,
multiply it by exactly `R²` at every step (so it never increases), and the energy and both
state values tend to zero. -/
theorem C17_modal_energy_decays (g : Nat) (A B : List ℚ) (S : FModalLanes) (j : Nat) (R c : ℚ)
    (h1 : 4 * g ≤ S.L1.length) (h2 : 4 * g ≤ S.L2.length) (hj : j < 4 * g)
    (hR0 : 0 < R) (hR1 : R < 1) (hc : |c| ≤ 1)
    (hA : A.getD j 0 = 2 * R * c) (hB : B.getD j 0 = R ^ 2) :
    (∀ n : Nat, 0 ≤ LaneEnergy A B ((ProcessVectorModal ((4 * g : Nat) : Int) A B)^[n] S) j) ∧
    (∀ n : Nat, LaneEnergy A B ((ProcessVectorModal ((4 * g : Nat) : Int) A B)^[n + 1] S) j =
      R ^ 2 * LaneEnergy A B ((ProcessVectorModal ((4 * g : Nat) : Int) A B)^[n] S) j) ∧
    (∀ n : Nat, LaneEnergy A B ((ProcessVectorModal ((4 * g : Nat) : Int) A B)^[n + 1] S) j ≤
      LaneEnergy A B ((ProcessVectorModal ((4 * g : Nat) : Int) A B)^[n] S) j) ∧
    (∀ ε : ℚ, 0 < ε → ∃ N : Nat, ∀ n : Nat, N ≤ n →
      LaneEnergy A B ((ProcessVectorModal ((4 * g : Nat) : Int) A B)^[n] S) j < ε ∧
      |((ProcessVectorModal ((4 * g : Nat) : Int) A B)^[n] S).L1.getD j 0| < ε ∧
      |((ProcessVectorModal ((4 * g : Nat) : Int) A B)^[n] S).L2.getD j 0| < ε) := by
  have hnn : ∀ n : Nat,
      0 ≤ LaneEnergy A B ((ProcessVectorModal ((4 * g : Nat) : Int) A B)^[n] S) j := by
    intro n
    unfold LaneEnergy
    rw [hA, hB]
    exact modalEnergy_nonneg R c _ _ hc
  have hstep : ∀ n : Nat,
      LaneEnergy A B ((ProcessVectorModal ((4 * g : Nat) : Int) A B)^[n + 1] S) j =
        R ^ 2 * LaneEnergy A B ((ProcessVectorModal ((4 * g : Nat) : Int) A B)^[n] S) j := by
    intro n
    rw [laneEnergy_iterate g A B S j h1 h2 hj (n + 1), laneEnergy_iterate g A B S j h1 h2 hj n,
      hB]
    ring
  have hR2 : R ^ 2 < 1 := by nlinarith
  refine ⟨hnn, hstep, ?_, ?_⟩
  · intro n
    rw [hstep n]
    nlinarith [hnn n, sq_nonneg R]
  · intro ε hε
    obtain ⟨N1, hN1⟩ := exists_linear_mul_pow_lt (R ^ 2) (LaneEnergy A B S j) 0 ε
      (sq_nonneg R) hR2 hε
    obtain ⟨N2, hN2⟩ := exists_linear_mul_pow_lt R |S.L1.getD j 0| (LaneEnergy A B S j + 1) ε
      hR0.le hR1 hε
    refine ⟨max N1 N2 + 1, fun n hn => ⟨?_, ?_, ?_⟩⟩
    · have h := hN1 n (by omega)
      rw [laneEnergy_iterate g A B S j h1 h2 hj n, hB]
      simp only [mul_zero, add_zero] at h
      linarith
    · exact lt_of_le_of_lt
        (processVectorModal_iterate_bound g A B S j R c h1 h2 hj hR0 hc hA hB n)
        (hN2 n (by omega))
    · obtain ⟨m, rfl⟩ : ∃ m, n = m + 1 := ⟨n - 1, by omega⟩
      rw [(processVectorModal_iterate_lane g A B S j h1 h2 hj m).2]
      exact lt_of_le_of_lt
        (processVectorModal_iterate_bound g A B S j R c h1 h2 hj hR0 hc hA hB m)
        (hN2 m (by omega))

/-- Witness for C17: oscillator 0 of the sample bank (`R = 1/2`, `cos θ = 4/5`). -/
theorem C17_modal_energy_decays_witness :
    (Sample.TwoRCosData.getD 0 0 = 2 * (1 / 2) * (4 / 5) ∧
      Sample.R2Data.getD 0 0 = (1 / 2 : ℚ) ^ 2) ∧
    ((∀ n : Nat, 0 ≤ LaneEnergy Sample.TwoRCosData Sample.R2Data
        ((ProcessVectorModal ((4 * 1 : Nat) : Int) Sample.TwoRCosData Sample.R2Data)^[n]
          Sample.ModalLanes) 0) ∧
    (∀ n : Nat, LaneEnergy Sample.TwoRCosData Sample.R2Data
        ((ProcessVectorModal ((4 * 1 : Nat) : Int) Sample.TwoRCosData Sample.R2Data)^[n + 1]
          Sample.ModalLanes) 0 =
      (1 / 2 : ℚ) ^ 2 * LaneEnergy Sample.TwoRCosData Sample.R2Data
        ((ProcessVectorModal ((4 * 1 : Nat) : Int) Sample.TwoRCosData Sample.R2Data)^[n]
          Sample.ModalLanes) 0) ∧
    (∀ n : Nat, LaneEnergy Sample.TwoRCosData Sample.R2Data
        ((ProcessVectorModal ((4 * 1 : Nat) : Int) Sample.TwoRCosData Sample.R2Data)^[n + 1]
          Sample.ModalLanes) 0 ≤
      LaneEnergy Sample.TwoRCosData Sample.R2Data
        ((ProcessVectorModal ((4 * 1 : Nat) : Int) Sample.TwoRCosData Sample.R2Data)^[n]
          Sample.ModalLanes) 0) ∧
    (∀ ε : ℚ, 0 < ε → ∃ N : Nat, ∀ n : Nat, N ≤ n →
      LaneEnergy Sample.TwoRCosData Sample.R2Data
        ((ProcessVectorModal ((4 * 1 : Nat) : Int) Sample.TwoRCosData Sample.R2Data)^[n]
          Sample.ModalLanes) 0 < ε ∧
      |((ProcessVectorModal ((4 * 1 : Nat) : Int) Sample.TwoRCosData Sample.R2Data)^[n]
          Sample.ModalLanes).L1.getD 0 0| < ε ∧
      |((ProcessVectorModal ((4 * 1 : Nat) : Int) Sample.TwoRCosData Sample.R2Data)^[n]
          Sample.ModalLanes).L2.getD 0 0| < ε)) :=
  ⟨⟨by decide!, by decide!⟩,
    C17_modal_energy_decays 1 Sample.TwoRCosData Sample.R2Data Sample.ModalLanes 0 (1 / 2)
      (4 / 5) (by decide) (by decide) (by decide) (by norm_num) (by norm_num)
      (by rw [abs_le]; constructor <;> norm_num) (by decide!) (by decide!)⟩

end FPianoKeySynth

/-! ## MIDI controller reconstruction -/

theorem midi14_bits (m l : Int) (hm0 : 0 ≤ m) (hm : m ≤ 127) (hl0 : 0 ≤ l) (hl : l ≤ 127) :
    Int.lor (Int32ShiftLeft m 7) l = m * 128 + l ∧
    CastInt16 (m * 128 + l) = m * 128 + l ∧
    Int.land (Int.shiftRight (m * 128 + l) 7) 127 = m ∧
    Int.land (m * 128 + l) 127 = l := by
  lift m to ℕ using hm0
  lift l to ℕ using hl0
  have hm1 : m ≤ 127 := by exact_mod_cast hm
  have hl1 : l ≤ 127 := by exact_mod_cast hl
  have e0 : ((m : Int) * 128 + (l : Int)) = ((2 ^ 7 * m + l : Nat) : Int) := by
    push_cast; ring
  have e1 : Int32ShiftLeft (m : Int) 7 = ((2 ^ 7 * m : Nat) : Int) := by
    unfold Int32ShiftLeft; push_cast; ring
  refine ⟨?_, ?_, ?_, ?_⟩
  · rw [e1, e0]
    show ((2 ^ 7 * m ||| l : Nat) : Int) = _
    rw [← Nat.mul_add_lt_is_or (by omega) m]
  · unfold CastInt16
    omega
  · rw [e0]
    show ((((2 ^ 7 * m + l) >>> 7) &&& (2 ^ 7 - 1) : Nat) : Int) = _
    rw [Nat.and_pow_two_sub_one_eq_mod, Nat.shiftRight_eq_div_pow]
    norm_cast
    omega
  · rw [e0]
    show (((2 ^ 7 * m + l) &&& (2 ^ 7 - 1) : Nat) : Int) = _
    rw [Nat.and_pow_two_sub_one_eq_mod]
    norm_cast
    omega

namespace FMidiEventParser

theorem setController_lastCcVals (Ids : FControllerIds) (P : FMidiEventParser) (c : Nat)
    (v : ℚ) : (SetController Ids P c v).LastCcVals = P.LastCcVals := by
  unfold SetController
  split_ifs <;> rfl

theorem setController_volume (Ids : FControllerIds) (P : FMidiEventParser) (c : Nat) (v : ℚ) :
    (SetController Ids P c v).Volume = if c = Ids.Volume then v else P.Volume := by
  unfold SetController
  split_ifs <;> rfl

theorem setController_expression (Ids : FControllerIds) (P : FMidiEventParser) (c : Nat)
    (v : ℚ) (hne : Ids.Volume ≠ Ids.Expression) :
    (SetController Ids P c v).Expression = if c = Ids.Expression then v else P.Expression := by
  unfold SetController
  by_cases h1 : c = Ids.Volume
  · have h2 : c ≠ Ids.Expression := fun h => hne (h1.symm.trans h)
    rw [if_pos h1, if_neg h2]
  · rw [if_neg h1]
    split_ifs <;> rfl

theorem getMsbLsbIndexes_some (Id H L : Nat) (h : GetMsbLsbIndexes Id = some (H, L)) :
    GetMsbLsbIndexes H = some (H, L) ∧ H ≠ L ∧ (Id = H ∨ Id = L) ∧
      (∀ M, M < 32 → (H = M ↔ (Id = M ∨ Id = M + 32)) ∧ (H = M → L = M + 32)) := by
  unfold GetMsbLsbIndexes at h
  split_ifs at h with h1 h2 h3 h4 <;> simp only [Option.some.injEq, Prod.mk.injEq] at h <;>
    obtain ⟨rfl, rfl⟩ := h
  · refine ⟨by simp [GetMsbLsbIndexes, h1], by omega, Or.inl rfl, fun M hM => ⟨by omega, by omega⟩⟩
  · refine ⟨?_, by omega, Or.inr rfl, fun M hM => ⟨by omega, by omega⟩⟩
    have h5 : Id - 32 < 32 := by omega
    have h6 : Id - 32 + 32 = Id := by omega
    simp [GetMsbLsbIndexes, h5, h6]
  · refine ⟨?_, by omega, Or.inr rfl, fun M hM => ⟨by omega, by omega⟩⟩
    rcases h3 with rfl | rfl <;> decide
  · refine ⟨?_, by omega, Or.inl rfl, fun M hM => ⟨by omega, by omega⟩⟩
    rcases h4 with rfl | rfl <;> decide

theorem set7BitController_lastCcVals (Ids : FControllerIds) (P : FMidiEventParser) (c : Nat)
    (v : Int) (ch : Nat) :
    (Set7BitController Ids P c v ch).LastCcVals = (SetLastCcVal P ch c v).LastCcVals := by
  unfold Set7BitController
  exact setController_lastCcVals _ _ _ _

theorem set14BitController_lastCcVals (Ids : FControllerIds) (P : FMidiEventParser)
    (H L ch : Nat) (hHL : GetMsbLsbIndexes H = some (H, L))
    (hm0 : 0 ≤ P.LastCcVals ch H) (hm : P.LastCcVals ch H ≤ 127)
    (hl0 : 0 ≤ P.LastCcVals ch L) (hl : P.LastCcVals ch L ≤ 127) :
    (Set14BitController Ids P H
        (CastInt16 (Int.lor (Int32ShiftLeft (P.LastCcVals ch H) 7) (P.LastCcVals ch L)))
        ch).LastCcVals = P.LastCcVals := by
  obtain ⟨b1, b2, b3, b4⟩ := midi14_bits _ _ hm0 hm hl0 hl
  unfold Set14BitController
  rw [hHL]
  simp only [setController_lastCcVals, SetLastCcVal, b1, b2, b3, b4]
  funext c i
  by_cases hL : c = ch ∧ i = L
  · rw [if_pos hL, hL.1, hL.2]
  · rw [if_neg hL]
    by_cases hH : c = ch ∧ i = H
    · rw [if_pos hH, hH.1, hH.2]
    · rw [if_neg hH]

end FMidiEventParser

namespace FMidiEventParser

theorem getMsbLsbIndexes_none (Id : Nat) (h : GetMsbLsbIndexes Id = none) : 64 ≤ Id := by
  unfold GetMsbLsbIndexes at h
  split_ifs at h with h1 h2 h3 h4
  omega

theorem setLastCcVal_inByteRange (P : FMidiEventParser) (ch id : Nat) (v : Int)
    (hv : InByteRange v) (hP : ∀ c i, InByteRange (P.LastCcVals c i)) :
    ∀ c i, InByteRange ((SetLastCcVal P ch id v).LastCcVals c i) := by
  intro c i
  simp only [SetLastCcVal]
  split_ifs
  · exact hv
  · exact hP c i

theorem setHighOrLow_lastCcVals (Ids : FControllerIds) (P : FMidiEventParser)
    (E : FControlChange) (hE : E.Valid) (hP : ∀ c i, InByteRange (P.LastCcVals c i)) :
    (SetHighOrLowControllerByte Ids P E.Controller E.Value E.Channel).LastCcVals =
      (SetLastCcVal P E.Channel E.Controller E.Value).LastCcVals := by
  have hv : InByteRange E.Value := Or.inr ⟨hE.2.2.1, hE.2.2.2⟩
  have hP1 := setLastCcVal_inByteRange P E.Channel E.Controller E.Value hv hP
  have hidem : (SetLastCcVal (SetLastCcVal P E.Channel E.Controller E.Value) E.Channel
      E.Controller E.Value).LastCcVals =
      (SetLastCcVal P E.Channel E.Controller E.Value).LastCcVals := by
    funext c i
    simp only [SetLastCcVal]
    split_ifs <;> rfl
  unfold SetHighOrLowControllerByte
  cases hG : GetMsbLsbIndexes E.Controller with
  | none =>
    simp only
    rw [set7BitController_lastCcVals, hidem]
  | some HL =>
    obtain ⟨H, L⟩ := HL
    obtain ⟨g1, _, _, _⟩ := getMsbLsbIndexes_some _ _ _ hG
    simp only
    by_cases hL : (SetLastCcVal P E.Channel E.Controller E.Value).LastCcVals E.Channel L = -1
    · rw [if_pos hL, set7BitController_lastCcVals, hidem]
    · rw [if_neg hL]
      by_cases hH : (SetLastCcVal P E.Channel E.Controller E.Value).LastCcVals E.Channel H ≠ -1
      · rw [if_pos hH]
        have rL := (hP1 E.Channel L).resolve_left hL
        have rH := (hP1 E.Channel H).resolve_left hH
        exact set14BitController_lastCcVals Ids _ H L E.Channel g1 rH.1 rH.2 rL.1 rL.2
      · rw [if_neg hH]

theorem setHighOrLow_field (Ids : FControllerIds) (g : FMidiEventParser → ℚ) (M : Nat)
    (hM : M < 32)
    (hg1 : ∀ (P : FMidiEventParser) (ch i : Nat) (v : Int), g (SetLastCcVal P ch i v) = g P)
    (hg2 : ∀ (P : FMidiEventParser) (c : Nat) (v : ℚ),
      g (SetController Ids P c v) = if c = M then v else g P)
    (h7 : ∀ v, Get7BitControllerValue Ids M v = Midi7BitToFloat v)
    (h14 : ∀ v, Get14BitControllerValue Ids M v = Midi14BitToFloat v)
    (P : FMidiEventParser) (E : FControlChange) (hE : E.Valid)
    (hP : ∀ c i, InByteRange (P.LastCcVals c i)) :
    g (SetHighOrLowControllerByte Ids P E.Controller E.Value E.Channel) =
      if E.Controller = M then
        if P.LastCcVals E.Channel (M + 32) = -1 then (E.Value : ℚ) / 127
        else
          ((Int.lor (Int32ShiftLeft E.Value 7) (P.LastCcVals E.Channel (M + 32)) : Int) : ℚ) /
            16383
      else if E.Controller = M + 32 then
        if P.LastCcVals E.Channel M = -1 then g P
        else
          ((Int.lor (Int32ShiftLeft (P.LastCcVals E.Channel M) 7) E.Value : Int) : ℚ) / 16383
      else g P := by
  have hv0 := hE.2.2.1
  have hv1 := hE.2.2.2
  have hvne : E.Value ≠ -1 := by omega
  have hsame : (SetLastCcVal P E.Channel E.Controller E.Value).LastCcVals E.Channel
      E.Controller = E.Value := by
    simp [SetLastCcVal]
  have hother : ∀ i, i ≠ E.Controller →
      (SetLastCcVal P E.Channel E.Controller E.Value).LastCcVals E.Channel i =
        P.LastCcVals E.Channel i := by
    intro i hi
    simp [SetLastCcVal, hi]
  unfold SetHighOrLowControllerByte
  cases hG : GetMsbLsbIndexes E.Controller with
  | none =>
    have h64 := getMsbLsbIndexes_none _ hG
    simp only
    rw [if_neg (by omega), if_neg (by omega)]
    unfold Set7BitController
    rw [hg2, if_neg (by omega), hg1, hg1]
  | some HL =>
    obtain ⟨H, L⟩ := HL
    obtain ⟨g1, g2, g3, g4⟩ := getMsbLsbIndexes_some _ _ _ hG
    obtain ⟨g5, g6⟩ := g4 M hM
    simp only
    by_cases hc1 : E.Controller = M
    · have hHM : H = M := g5.mpr (Or.inl hc1)
      have hLM : L = M + 32 := g6 hHM
      subst hHM
      subst hLM
      have hL1 : (SetLastCcVal P E.Channel E.Controller E.Value).LastCcVals E.Channel (H + 32) =
          P.LastCcVals E.Channel (H + 32) := hother (H + 32) (by omega)
      have hH1 : (SetLastCcVal P E.Channel E.Controller E.Value).LastCcVals E.Channel H =
          E.Value := by
        rw [← hc1]; exact hsame
      rw [if_pos hc1, hL1, hH1]
      by_cases hl : P.LastCcVals E.Channel (H + 32) = -1
      · rw [if_pos hl, if_pos hl]
        unfold Set7BitController
        rw [hg2, if_pos hc1, hc1, h7]
        rfl
      · rw [if_neg hl, if_pos hvne, if_neg hl]
        have rL := (hP E.Channel (H + 32)).resolve_left hl
        obtain ⟨b1, b2, _, _⟩ := midi14_bits E.Value (P.LastCcVals E.Channel (H + 32)) hv0 hv1
          rL.1 rL.2
        unfold Set14BitController
        rw [g1]
        simp only
        rw [hg2, if_pos rfl, h14, b1, b2]
        rfl
    · rw [if_neg hc1]
      by_cases hc2 : E.Controller = M + 32
      · have hHM : H = M := g5.mpr (Or.inr hc2)
        have hLM : L = M + 32 := g6 hHM
        subst hHM
        subst hLM
        have hL1 : (SetLastCcVal P E.Channel E.Controller E.Value).LastCcVals E.Channel
            (H + 32) = E.Value := by
          rw [← hc2]; exact hsame
        have hH1 : (SetLastCcVal P E.Channel E.Controller E.Value).LastCcVals E.Channel H =
            P.LastCcVals E.Channel H := hother H (by omega)
        rw [if_pos hc2, hL1, hH1, if_neg hvne]
        by_cases hm : P.LastCcVals E.Channel H = -1
        · rw [if_neg (not_not.mpr hm), if_pos hm, hg1]
        · rw [if_pos hm, if_neg hm]
          have rH := (hP E.Channel H).resolve_left hm
          obtain ⟨b1, b2, _, _⟩ := midi14_bits (P.LastCcVals E.Channel H) E.Value rH.1 rH.2
            hv0 hv1
          unfold Set14BitController
          rw [g1]
          simp only
          rw [hg2, if_pos rfl, h14, b1, b2]
          rfl
      · rw [if_neg hc2]
        have hHne : H ≠ M := fun h => (g5.mp h).elim hc1 hc2
        split_ifs
        · unfold Set7BitController
          rw [hg2, if_neg hc1, hg1, hg1]
        · unfold Set14BitController
          rw [g1]
          simp only
          rw [hg2, if_neg hHne, hg1, hg1, hg1]
        · rw [hg1]

theorem afterControlChanges_append (Ids : FControllerIds) (P0 : FMidiEventParser)
    (es : List FControlChange) (E : FControlChange) :
    AfterControlChanges Ids P0 (es ++ [E]) =
      SetHighOrLowControllerByte Ids (AfterControlChanges Ids P0 es) E.Controller E.Value
        E.Channel := by
  simp [AfterControlChanges, List.foldl_append]

theorem lastByte_append (es : List FControlChange) (E : FControlChange) (c i : Nat) :
    LastByte (es ++ [E]) c i =
      if E.Channel = c ∧ E.Controller = i then E.Value else LastByte es c i := by
  simp [LastByte, List.foldl_append]

theorem afterControlChanges_lastCcVals (Ids : FControllerIds) (P0 : FMidiEventParser)
    (es : List FControlChange) (hes : ∀ e ∈ es, e.Valid) :
    (∀ c i, (AfterControlChanges Ids P0 es).LastCcVals c i = LastByte es c i) ∧
    (∀ c i, InByteRange ((AfterControlChanges Ids P0 es).LastCcVals c i)) := by
  induction es using List.reverseRecOn with
  | nil =>
    refine ⟨fun c i => rfl, fun c i => Or.inl rfl⟩
  | append_singleton es E ih =>
    have hE : E.Valid := hes E (by simp)
    obtain ⟨i1, i2⟩ := ih (fun e he => hes e (by simp [he]))
    have hstep := setHighOrLow_lastCcVals Ids (AfterControlChanges Ids P0 es) E hE i2
    rw [afterControlChanges_append, hstep]
    refine ⟨fun c i => ?_, ?_⟩
    · rw [lastByte_append, ← i1 c i]
      simp only [SetLastCcVal]
      by_cases h : c = E.Channel ∧ i = E.Controller
      · rw [if_pos h, if_pos ⟨h.1.symm, h.2.symm⟩]
      · rw [if_neg h, if_neg (fun h2 => h ⟨h2.1.symm, h2.2.symm⟩)]
    · exact setLastCcVal_inByteRange _ _ _ _ (Or.inr ⟨hE.2.2.1, hE.2.2.2⟩) i2

theorem reconstructedValue_bounds (M : Nat) (es : List FControlChange) (E : FControlChange)
    (Previous : ℚ) (hE : E.Valid) (hes : ∀ c i, InByteRange (LastByte es c i))
    (hp : 0 ≤ Previous ∧ Previous ≤ 1) :
    0 ≤ ReconstructedValue M es E Previous ∧ ReconstructedValue M es E Previous ≤ 1 := by
  have hv0 := hE.2.2.1
  have hv1 := hE.2.2.2
  have h7 : (0 : ℚ) ≤ (E.Value : ℚ) / 127 ∧ (E.Value : ℚ) / 127 ≤ 1 := by
    have a0 : (0 : ℚ) ≤ (E.Value : ℚ) := by exact_mod_cast hv0
    have a1 : (E.Value : ℚ) ≤ 127 := by exact_mod_cast hv1
    constructor
    · positivity
    · rw [div_le_one (by norm_num)]; exact a1
  have h14 : ∀ m l : Int, 0 ≤ m → m ≤ 127 → 0 ≤ l → l ≤ 127 →
      (0 : ℚ) ≤ ((Int.lor (Int32ShiftLeft m 7) l : Int) : ℚ) / 16383 ∧
        ((Int.lor (Int32ShiftLeft m 7) l : Int) : ℚ) / 16383 ≤ 1 := by
    intro m l hm0 hm1 hl0 hl1
    obtain ⟨b1, _, _, _⟩ := midi14_bits m l hm0 hm1 hl0 hl1
    rw [b1]
    have a0 : (0 : ℚ) ≤ ((m * 128 + l : Int) : ℚ) := by
      exact_mod_cast (by nlinarith : (0 : Int) ≤ m * 128 + l)
    have a1 : ((m * 128 + l : Int) : ℚ) ≤ 16383 := by
      exact_mod_cast (by nlinarith : m * 128 + l ≤ (16383 : Int))
    constructor
    · positivity
    · rw [div_le_one (by norm_num)]; exact a1
  unfold ReconstructedValue
  split_ifs with c1 c2 c3 c4
  · exact h7
  · have r := (hes E.Channel (M + 32)).resolve_left c2
    exact h14 _ _ hv0 hv1 r.1 r.2
  · exact hp
  · have r := (hes E.Channel M).resolve_left c4
    exact h14 _ _ r.1 r.2 hv0 hv1
  · exact hp

theorem afterControlChanges_values (Ids : FControllerIds) (P0 : FMidiEventParser)
    (es : List FControlChange) (E : FControlChange) (hV : Ids.Volume < 32)
    (hX : Ids.Expression < 32) (hne : Ids.Volume ≠ Ids.Expression) (hes : ∀ e ∈ es, e.Valid)
    (hE : E.Valid) :
    (AfterControlChanges Ids P0 (es ++ [E])).Volume =
        ReconstructedValue Ids.Volume es E (AfterControlChanges Ids P0 es).Volume ∧
    (AfterControlChanges Ids P0 (es ++ [E])).Expression =
        ReconstructedValue Ids.Expression es E (AfterControlChanges Ids P0 es).Expression := by
  obtain ⟨i1, i2⟩ := afterControlChanges_lastCcVals Ids P0 es hes
  rw [afterControlChanges_append]
  constructor
  · rw [setHighOrLow_field Ids (fun P => P.Volume) Ids.Volume hV (fun _ _ _ _ => rfl)
      (fun P c v => setController_volume Ids P c v)
      (fun v => by simp [Get7BitControllerValue])
      (fun v => by simp [Get14BitControllerValue]) _ E hE i2]
    simp only [ReconstructedValue, i1]
  · rw [setHighOrLow_field Ids (fun P => P.Expression) Ids.Expression hX (fun _ _ _ _ => rfl)
      (fun P c v => setController_expression Ids P c v hne)
      (fun v => by simp [Get7BitControllerValue])
      (fun v => by simp [Get14BitControllerValue]) _ E hE i2]
    simp only [ReconstructedValue, i1]

theorem afterControlChanges_bounds (Ids : FControllerIds) (P0 : FMidiEventParser)
    (es : List FControlChange) (hV : Ids.Volume < 32)
    (hX : Ids.Expression < 32) (hne : Ids.Volume ≠ Ids.Expression) (hes : ∀ e ∈ es, e.Valid) :
    (0 ≤ (AfterControlChanges Ids P0 es).Volume ∧ (AfterControlChanges Ids P0 es).Volume ≤ 1) ∧
    (0 ≤ (AfterControlChanges Ids P0 es).Expression ∧
      (AfterControlChanges Ids P0 es).Expression ≤ 1) := by
  induction es using List.reverseRecOn with
  | nil =>
    simp [AfterControlChanges, ResetState]
  | append_singleton es E ih =>
    have hE : E.Valid := hes E (by simp)
    have hes1 : ∀ e ∈ es, e.Valid := fun e he => hes e (by simp [he])
    obtain ⟨j1, j2⟩ := ih hes1
    obtain ⟨i1, i2⟩ := afterControlChanges_lastCcVals Ids P0 es hes1
    obtain ⟨v1, v2⟩ := afterControlChanges_values Ids P0 es E hV hX hne hes1 hE
    have hr : ∀ c i, InByteRange (LastByte es c i) := fun c i => by rw [← i1 c i]; exact i2 c i
    rw [v1, v2]
    exact ⟨reconstructedValue_bounds _ es E _ hE hr j1,
      reconstructedValue_bounds _ es E _ hE hr j2⟩

end FMidiEventParser

namespace FMidiEventParser

/-- C19: After `ResetState` and any sequence of well-formed control-change messages, the
next message sets Volume (and Expression) to the reconstructed value: `m/127` for an MSB byte
`m` while no LSB byte was received on that channel, `((m << 7) | l)/16383` from the latest MSB
and LSB bytes of that channel once both were received, and leaves it unchanged otherwise; both
values always lie in `[0, 1]`. -/
theorem C19_controller_msb_lsb_reconstruction (Ids : FControllerIds) (P0 : FMidiEventParser)
    (es : List FControlChange) (E : FControlChange) (hV : Ids.Volume < 32)
    (hX : Ids.Expression < 32) (hne : Ids.Volume ≠ Ids.Expression) (hes : ∀ e ∈ es, e.Valid)
    (hE : E.Valid) :
    (AfterControlChanges Ids P0 (es ++ [E])).Volume =
        ReconstructedValue Ids.Volume es E (AfterControlChanges Ids P0 es).Volume ∧
    (AfterControlChanges Ids P0 (es ++ [E])).Expression =
        ReconstructedValue Ids.Expression es E (AfterControlChanges Ids P0 es).Expression ∧
    (∀ c i, (AfterControlChanges Ids P0 es).LastCcVals c i = LastByte es c i) ∧
    (AfterControlChanges Ids P0 []).Volume = 1 ∧
    (AfterControlChanges Ids P0 []).Expression = 1 ∧
    (0 ≤ (AfterControlChanges Ids P0 (es ++ [E])).Volume ∧
      (AfterControlChanges Ids P0 (es ++ [E])).Volume ≤ 1) ∧
    (0 ≤ (AfterControlChanges Ids P0 (es ++ [E])).Expression ∧
      (AfterControlChanges Ids P0 (es ++ [E])).Expression ≤ 1) := by
  obtain ⟨v1, v2⟩ := afterControlChanges_values Ids P0 es E hV hX hne hes hE
  have hall : ∀ e ∈ es ++ [E], e.Valid := by
    intro e he
    rcases List.mem_append.mp he with h | h
    · exact hes e h
    · rw [List.mem_singleton] at h
      rw [h]; exact hE
  obtain ⟨b1, b2⟩ := afterControlChanges_bounds Ids P0 (es ++ [E]) hV hX hne hall
  exact ⟨v1, v2, (afterControlChanges_lastCcVals Ids P0 es hes).1, rfl, rfl, b1, b2⟩

/-- Witness for C19: volume MSB 100, LSB 5, then MSB 64 on channel 0 with the standard
controller numbers gives `(64·128 + 5)/16383`. -/
theorem C19_controller_msb_lsb_reconstruction_witness :
    (Sample.ControllerIds.Volume < 32 ∧ Sample.ControllerIds.Expression < 32 ∧
      Sample.VolumeMsb.Valid) ∧
    (AfterControlChanges Sample.ControllerIds Sample.Parser
      (Sample.VolumeBytes ++ [Sample.VolumeMsb])).Volume = 8197 / 16383 ∧
    (AfterControlChanges Sample.ControllerIds Sample.Parser Sample.VolumeBytes).Volume =
      12805 / 16383 := by
  have hE : Sample.VolumeMsb.Valid := by
    unfold FControlChange.Valid; decide
  have hes : ∀ e ∈ Sample.VolumeBytes, e.Valid := by
    intro e he
    simp only [Sample.VolumeBytes, List.mem_cons, List.mem_singleton, List.not_mem_nil,
      or_false] at he
    rcases he with rfl | rfl <;> (unfold FControlChange.Valid; decide)
  have h := C19_controller_msb_lsb_reconstruction Sample.ControllerIds Sample.Parser
    Sample.VolumeBytes Sample.VolumeMsb (by decide) (by decide) (by decide) hes hE
  refine ⟨⟨by decide, by decide, hE⟩, h.1.trans ?_, by decide!⟩
  decide!

end FMidiEventParser

/-! ## Burble generator -/

namespace FBurbleSoundGen

end FBurbleSoundGen

theorem fitToAudioRegister_of_pos (n : Int) (hn : 1 ≤ n) :
    n ≤ FitToAudioRegister n ∧ 4 ∣ FitToAudioRegister n := by
  have h0 : (0 : Int) ≤ n := by omega
  unfold FitToAudioRegister AUDIO_NUM_FLOATS_PER_VECTOR_REGISTER
  simp only [Int.tmod_eq_emod h0 (by norm_num : (0 : Int) ≤ 4)]
  split_ifs <;> constructor <;> omega

namespace FBurbleSoundGen

theorem samePool_refl (G : FBurbleSoundGen) : SamePool G G := ⟨rfl, rfl, rfl, rfl⟩

theorem samePool_trans (G G1 G2 : FBurbleSoundGen) (h1 : SamePool G G1) (h2 : SamePool G1 G2) :
    SamePool G G2 :=
  ⟨h2.1.trans h1.1, h2.2.1.trans h1.2.1, h2.2.2.1.trans h1.2.2.1, h2.2.2.2.trans h1.2.2.2⟩

theorem poolInv_of_samePool (G G1 : FBurbleSoundGen) (h : SamePool G G1) (hG : PoolInv G) :
    PoolInv G1 := by
  unfold PoolInv at *
  rw [h.1, h.2.1, h.2.2.1]
  exact hG

theorem shrinkLoop_pool : ∀ (fuel : Nat) (i SwapIdx : Int) (G : FBurbleSoundGen),
    0 ≤ i → 0 ≤ G.CurrentNumBurbles →
    0 ≤ (ShrinkLoop fuel i SwapIdx G).CurrentNumBurbles ∧
    (ShrinkLoop fuel i SwapIdx G).CurrentNumBurbles ≤ G.CurrentNumBurbles ∧
    (ShrinkLoop fuel i SwapIdx G).MaxNumberOfBurbles = G.MaxNumberOfBurbles ∧
    (ShrinkLoop fuel i SwapIdx G).CurrentBufferSize = G.CurrentBufferSize ∧
    (ShrinkLoop fuel i SwapIdx G).NumSamplesPerGen = G.NumSamplesPerGen := by
  intro fuel
  induction fuel with
  | zero =>
    intro i SwapIdx G _ h
    exact ⟨h, le_refl _, rfl, rfl, rfl⟩
  | succ fuel ih =>
    intro i SwapIdx G hi h
    rw [ShrinkLoop]
    split_ifs with h1 h2
    · obtain ⟨a, b, c, d, e⟩ := ih i (SwapIdx - 1)
        { G with
          D1Buffer := BufSet (BufSet G.D1Buffer i (BufGet G.D1Buffer SwapIdx)) SwapIdx 0
          D2Buffer := BufSet (BufSet G.D2Buffer i (BufGet G.D2Buffer SwapIdx)) SwapIdx 0
          TwoRCosBuffer :=
            BufSet (BufSet G.TwoRCosBuffer i (BufGet G.TwoRCosBuffer SwapIdx)) SwapIdx 0
          R2Buffer := BufSet G.R2Buffer i (BufGet G.R2Buffer SwapIdx)
          TwoRCosD2Buffer :=
            BufSet (BufSet G.TwoRCosD2Buffer i (BufGet G.TwoRCosD2Buffer SwapIdx)) SwapIdx 0
          TwoRCosMaxBuffer :=
            BufSet (BufSet G.TwoRCosMaxBuffer i (BufGet G.TwoRCosMaxBuffer SwapIdx)) SwapIdx 0
          ChirpTwoRCosBuffer :=
            BufSet G.ChirpTwoRCosBuffer i (BufGet G.ChirpTwoRCosBuffer SwapIdx)
          DurationBuffer := BufSet G.DurationBuffer i (BufGet G.DurationBuffer SwapIdx)
          CurrentNumBurbles := G.CurrentNumBurbles - 1 } hi
        (by show 0 ≤ G.CurrentNumBurbles - 1; omega)
      refine ⟨a, ?_, c, d, e⟩
      have b1 : (_ : Int) ≤ G.CurrentNumBurbles - 1 := b
      omega
    · exact ih (i + 1) SwapIdx G (by omega) h
    · exact ⟨h, le_refl _, rfl, rfl, rfl⟩

theorem shrinkCurrentBurbles_pool (G : FBurbleSoundGen) (h : 0 ≤ G.CurrentNumBurbles) :
    0 ≤ (ShrinkCurrentBurbles G).CurrentNumBurbles ∧
    (ShrinkCurrentBurbles G).CurrentNumBurbles ≤ G.CurrentNumBurbles ∧
    (ShrinkCurrentBurbles G).MaxNumberOfBurbles = G.MaxNumberOfBurbles ∧
    (ShrinkCurrentBurbles G).CurrentBufferSize = G.CurrentBufferSize ∧
    (ShrinkCurrentBurbles G).NumSamplesPerGen = G.NumSamplesPerGen := by
  unfold ShrinkCurrentBurbles
  exact shrinkLoop_pool _ 0 _ { G with LastShrinkDelaSample := 0 } (le_refl _) h

theorem shrinkCurrentBurbles_poolInv (G : FBurbleSoundGen) (h : PoolInv G) :
    PoolInv (ShrinkCurrentBurbles G) := by
  obtain ⟨a, b, c, d, _⟩ := shrinkCurrentBurbles_pool G h.1
  unfold PoolInv at *
  rw [c, d]
  refine ⟨a, fun hM => ?_⟩
  obtain ⟨h1, h2, h3, h4⟩ := h.2 hM
  exact ⟨by omega, by omega, h3, h4⟩

theorem synthesizeInner_samePool : ∀ (fuel j : Nat) (G : FBurbleSoundGen)
    (S : VectorRegister4Float), SamePool G (SynthesizeInner fuel j G S).1 := by
  intro fuel
  induction fuel with
  | zero => intro j G S; exact samePool_refl G
  | succ fuel ih =>
    intro j G S
    rw [SynthesizeInner]
    split_ifs
    · exact samePool_trans G (SynthesizeBody G S j).1 _ ⟨rfl, rfl, rfl, rfl⟩ (ih _ _ _)
    · exact samePool_refl G

theorem synthesizeOuter_samePool : ∀ (fuel : Nat) (i EndIdx : Int) (G : FBurbleSoundGen)
    (Out : List ℚ), SamePool G (SynthesizeOuter fuel i EndIdx G Out).1 := by
  intro fuel
  induction fuel with
  | zero => intro i EndIdx G Out; exact samePool_refl G
  | succ fuel ih =>
    intro i EndIdx G Out
    rw [SynthesizeOuter]
    split_ifs
    · exact samePool_trans G _ _ (synthesizeInner_samePool _ 0 G VectorZeroFloat) (ih _ _ _ _)
    · exact samePool_refl G

theorem durationLoop_samePool (D : ℚ) : ∀ (fuel j : Nat) (G : FBurbleSoundGen),
    SamePool G (DurationLoop D fuel j G) := by
  intro fuel
  induction fuel with
  | zero => intro j G; exact samePool_refl G
  | succ fuel ih =>
    intro j G
    rw [DurationLoop]
    split_ifs
    · exact samePool_trans G _ _ ⟨rfl, rfl, rfl, rfl⟩ (ih _ _)
    · exact samePool_refl G

theorem synthesizeSamples_samePool (G : FBurbleSoundGen) (Out : List ℚ) (a b : Int) :
    SamePool G (SynthesizeSamples G Out a b).1 := by
  unfold SynthesizeSamples
  exact samePool_trans G _ _ (synthesizeOuter_samePool _ a b G Out) (durationLoop_samePool _ _ _ _)

theorem randGenBurble_at_cap (K : FBurbleKernels) (G : FBurbleSoundGen)
    (SpawnParams : FBurbleSoundSpawnParams) (hM : 0 < G.MaxNumberOfBurbles)
    (h : G.MaxNumberOfBurbles ≤ G.CurrentNumBurbles) :
    RandGenBurble K G SpawnParams = ({ G with DeltaGenerateSample := 0 }, false) := by
  unfold RandGenBurble
  simp [hM, h]

end FBurbleSoundGen

theorem tmod_four_nonpos (n : Int) (hn : n ≤ 0) : Int.tmod n 4 ≤ 0 := by
  rcases n with k | k
  · have hk : k = 0 := by
      have : (k : Int) ≤ 0 := hn
      omega
    subst hk
    simp
  · show -(((k + 1) % 4 : Nat) : Int) ≤ 0
    omega

theorem fitToAudioRegister_of_nonpos (n : Int) (hn : n ≤ 0) : FitToAudioRegister n = n := by
  unfold FitToAudioRegister AUDIO_NUM_FLOATS_PER_VECTOR_REGISTER
  have h : ¬ Int.tmod n 4 > 0 := by
    have := tmod_four_nonpos n hn
    omega
  simp only [h, if_false]

namespace FBurbleSoundGen

theorem randGenBurble_cases (K : FBurbleKernels) (G : FBurbleSoundGen)
    (SpawnParams : FBurbleSoundSpawnParams) :
    (RandGenBurble K G SpawnParams).1.MaxNumberOfBurbles = G.MaxNumberOfBurbles ∧
    (RandGenBurble K G SpawnParams).1.NumSamplesPerGen = G.NumSamplesPerGen ∧
    (((RandGenBurble K G SpawnParams).2 = false ∧
      (RandGenBurble K G SpawnParams).1.CurrentNumBurbles = G.CurrentNumBurbles ∧
      (RandGenBurble K G SpawnParams).1.CurrentBufferSize = G.CurrentBufferSize) ∨
    ((RandGenBurble K G SpawnParams).2 = true ∧
      ¬ (0 < G.MaxNumberOfBurbles ∧ G.MaxNumberOfBurbles ≤ G.CurrentNumBurbles) ∧
      (RandGenBurble K G SpawnParams).1.CurrentNumBurbles = G.CurrentNumBurbles + 1 ∧
      ((G.CurrentNumBurbles + 1 ≤ G.CurrentBufferSize ∧
          (RandGenBurble K G SpawnParams).1.CurrentBufferSize = G.CurrentBufferSize) ∨
        (G.CurrentNumBurbles + 1 > G.CurrentBufferSize ∧
          ∃ e : Int, 16 ≤ e ∧
            (RandGenBurble K G SpawnParams).1.CurrentBufferSize =
              G.CurrentBufferSize +
                FitToAudioRegister (min (G.MaxNumberOfBurbles - G.CurrentBufferSize) e))))) := by
  unfold RandGenBurble
  simp only
  split_ifs with c1 c2 c3 c4 c5 c6 c7 c8 c9
  all_goals first
    | exact ⟨rfl, rfl, Or.inl ⟨rfl, rfl, rfl⟩⟩
    | exact ⟨rfl, rfl, Or.inr ⟨rfl, fun hc => c2 (by simpa using hc.2), rfl,
        Or.inr ⟨by assumption, _, le_max_right _ _, rfl⟩⟩⟩
    | exact ⟨rfl, rfl, Or.inr ⟨rfl, fun hc => c2 (by simpa using hc.2), rfl,
        Or.inl ⟨by omega, rfl⟩⟩⟩
    | exact ⟨rfl, rfl, Or.inr ⟨rfl, fun hc => c1 hc.1, rfl,
        Or.inr ⟨by assumption, _, le_max_right _ _, rfl⟩⟩⟩
    | exact ⟨rfl, rfl, Or.inr ⟨rfl, fun hc => c1 hc.1, rfl,
        Or.inl ⟨by omega, rfl⟩⟩⟩

theorem randGenBurble_pool (K : FBurbleKernels) (G : FBurbleSoundGen)
    (SpawnParams : FBurbleSoundSpawnParams) (h : PoolInv G) :
    PoolInv (RandGenBurble K G SpawnParams).1 := by
  obtain ⟨hM, _, hc⟩ := randGenBurble_cases K G SpawnParams
  unfold PoolInv at *
  rw [hM]
  rcases hc with ⟨_, h1, h2⟩ | ⟨_, hcap, h1, h2⟩
  · rw [h1, h2]
    exact h
  · rw [h1]
    refine ⟨by omega, fun hMax => ?_⟩
    obtain ⟨a1, a2, a3, a4⟩ := h.2 hMax
    have hlt : G.CurrentNumBurbles < G.MaxNumberOfBurbles := by
      by_contra hn
      exact hcap ⟨hMax, by omega⟩
    rcases h2 with ⟨b1, b2⟩ | ⟨b1, e, he, b2⟩
    · rw [b2]
      exact ⟨by omega, b1, a3, a4⟩
    · rw [b2]
      have hmin : 1 ≤ min (G.MaxNumberOfBurbles - G.CurrentBufferSize) e := by
        apply le_min <;> omega
      obtain ⟨f1, f2⟩ := fitToAudioRegister_of_pos _ hmin
      exact ⟨by omega, by omega, by omega, Dvd.dvd.add a4 f2⟩

theorem new_poolInv (InSamplingRate : ℚ) (InSeed RandSeed InMax : Int) :
    PoolInv (New InSamplingRate InSeed RandSeed InMax) := by
  unfold PoolInv New
  simp only
  refine ⟨le_refl _, fun _ => ⟨?_, by decide, by decide, by decide⟩⟩
  omega

theorem reachable_poolInv (K : FBurbleKernels) (InSamplingRate : ℚ)
    (InSeed RandSeed InMax : Int) (G : FBurbleSoundGen)
    (h : Reachable K InSamplingRate InSeed RandSeed InMax G) :
    PoolInv G ∧ G.MaxNumberOfBurbles = InMax := by
  induction h with
  | init => exact ⟨new_poolInv _ _ _ _, rfl⟩
  | shrink G _ ih =>
    exact ⟨shrinkCurrentBurbles_poolInv G ih.1,
      (shrinkCurrentBurbles_pool G ih.1.1).2.2.1.trans ih.2⟩
  | spawn G SpawnParams _ ih =>
    exact ⟨randGenBurble_pool K G SpawnParams ih.1,
      (randGenBurble_cases K G SpawnParams).1.trans ih.2⟩
  | synth G OutBuffer StartIndex EndIdx _ ih =>
    have hs := synthesizeSamples_samePool G OutBuffer StartIndex EndIdx
    exact ⟨poolInv_of_samePool _ _ hs ih.1, hs.2.1.trans ih.2⟩
  | setDelta G d _ ih => exact ih
  | setLastShrink G l _ ih => exact ih
  | setCurve G C _ ih => exact ih

theorem reachable_ite (K : FBurbleKernels) (InSamplingRate : ℚ)
    (InSeed RandSeed InMax : Int) (c : Prop) [Decidable c] (A B : FBurbleSoundGen)
    (hA : Reachable K InSamplingRate InSeed RandSeed InMax A)
    (hB : Reachable K InSamplingRate InSeed RandSeed InMax B) :
    Reachable K InSamplingRate InSeed RandSeed InMax (if c then A else B) := by
  split_ifs
  · exact hA
  · exact hB

theorem reachable_synth_ite (K : FBurbleKernels) (InSamplingRate : ℚ)
    (InSeed RandSeed InMax : Int) (c : Prop) [Decidable c] (G : FBurbleSoundGen) (Out : List ℚ)
    (a b : Int) (h : Reachable K InSamplingRate InSeed RandSeed InMax G) :
    Reachable K InSamplingRate InSeed RandSeed InMax
      (if c then SynthesizeSamples G Out a b else (G, Out)).1 := by
  split_ifs
  · exact Reachable.synth _ _ _ _ h
  · exact h

theorem generateStep_reachable (K : FBurbleKernels) (InSamplingRate : ℚ)
    (InSeed RandSeed InMax : Int) (SpawnParams : FBurbleSoundSpawnParams)
    (NumOutFrames GenStep : Int) (bCanSpawn : Bool) (S : FGenerateState)
    (h : Reachable K InSamplingRate InSeed RandSeed InMax S.Gen) :
    Reachable K InSamplingRate InSeed RandSeed InMax
      (GenerateStep K SpawnParams NumOutFrames GenStep bCanSpawn S).Gen := by
  unfold GenerateStep
  refine reachable_ite K _ _ _ _ _ _ _ (Reachable.spawn _ _ ?_) ?_ <;>
    refine reachable_ite K _ _ _ _ _ _ _ (Reachable.shrink _ ?_) ?_ <;>
    refine Reachable.setLastShrink _ _ ?_ <;>
    refine reachable_synth_ite K _ _ _ _ _ _ _ _ _ ?_ <;>
    exact reachable_ite K _ _ _ _ _ _ _ (Reachable.setDelta _ _ h) h

theorem generateLoop_reachable (K : FBurbleKernels) (InSamplingRate : ℚ)
    (InSeed RandSeed InMax : Int) (SpawnParams : FBurbleSoundSpawnParams)
    (NumOutFrames GenStep : Int) (bCanSpawn : Bool) :
    ∀ (fuel : Nat) (S : FGenerateState),
      Reachable K InSamplingRate InSeed RandSeed InMax S.Gen →
      Reachable K InSamplingRate InSeed RandSeed InMax
        (GenerateLoop K SpawnParams NumOutFrames GenStep bCanSpawn fuel S).Gen := by
  intro fuel
  induction fuel with
  | zero => intro S h; exact h
  | succ fuel ih =>
    intro S h
    rw [GenerateLoop]
    split_ifs
    · exact ih _ (generateStep_reachable K _ _ _ _ SpawnParams _ _ _ S h)
    · exact h

theorem generateStart_reachable (K : FBurbleKernels) (InSamplingRate : ℚ)
    (InSeed RandSeed InMax : Int) (SpawnParams : FBurbleSoundSpawnParams) (G : FBurbleSoundGen)
    (h : Reachable K InSamplingRate InSeed RandSeed InMax G) :
    Reachable K InSamplingRate InSeed RandSeed InMax (GenerateStart K G SpawnParams) := by
  have h1 : Reachable K InSamplingRate InSeed RandSeed InMax
      (if IsShouldShrinkBurbles G then ShrinkCurrentBurbles G else G) :=
    reachable_ite K _ _ _ _ _ _ _ (Reachable.shrink _ h) h
  unfold GenerateStart
  exact reachable_ite K _ _ _ _ _ _ _
    (reachable_ite K _ _ _ _ _ _ _ (Reachable.spawn _ _ h1) h1) h1

theorem generateRun_reachable (K : FBurbleKernels) (InSamplingRate : ℚ)
    (InSeed RandSeed InMax : Int) (SpawnParams : FBurbleSoundSpawnParams) (G : FBurbleSoundGen)
    (OutAudio : List ℚ) (fuel : Nat)
    (h : Reachable K InSamplingRate InSeed RandSeed InMax G) :
    Reachable K InSamplingRate InSeed RandSeed InMax
      (GenerateRun fuel K G OutAudio SpawnParams).Gen := by
  unfold GenerateRun
  exact generateLoop_reachable K _ _ _ _ SpawnParams _ _ _ fuel _
    (generateStart_reachable K _ _ _ _ SpawnParams G h)

theorem randGenBurble_unlimited_growth (K : FBurbleKernels) (G : FBurbleSoundGen)
    (SpawnParams : FBurbleSoundSpawnParams) (hMax : G.MaxNumberOfBurbles ≤ 0)
    (hB : 0 ≤ G.CurrentBufferSize) (hfull : G.CurrentNumBurbles + 1 > G.CurrentBufferSize)
    (hok : (RandGenBurble K G SpawnParams).2 = true) :
    (RandGenBurble K G SpawnParams).1.CurrentBufferSize = G.MaxNumberOfBurbles ∧
    (RandGenBurble K G SpawnParams).1.CurrentNumBurbles = G.CurrentNumBurbles + 1 := by
  obtain ⟨_, _, hc⟩ := randGenBurble_cases K G SpawnParams
  rcases hc with ⟨h0, _, _⟩ | ⟨_, _, h1, h2⟩
  · rw [h0] at hok; exact absurd hok (by decide)
  · rcases h2 with ⟨b1, _⟩ | ⟨_, e, he, b2⟩
    · omega
    · have hmin : min (G.MaxNumberOfBurbles - G.CurrentBufferSize) e =
          G.MaxNumberOfBurbles - G.CurrentBufferSize := min_eq_left (by omega)
      rw [hmin, fitToAudioRegister_of_nonpos _ (by omega)] at b2
      exact ⟨by omega, h1⟩

theorem shrinkCurrentBurbles_of_empty (G : FBurbleSoundGen) (h : G.CurrentNumBurbles = 0) :
    ShrinkCurrentBurbles G = { G with LastShrinkDelaSample := 0 } := by
  unfold ShrinkCurrentBurbles
  rw [h]
  rfl

theorem shrink_ite_of_empty (G : FBurbleSoundGen) (c : Bool) (h : G.CurrentNumBurbles = 0) :
    (if c then ShrinkCurrentBurbles G else G).CurrentNumBurbles = 0 ∧
    (if c then ShrinkCurrentBurbles G else G).NumSamplesPerGen = G.NumSamplesPerGen := by
  split_ifs
  · rw [shrinkCurrentBurbles_of_empty _ h]; exact ⟨h, rfl⟩
  · exact ⟨h, rfl⟩

theorem generateStep_silent (K : FBurbleKernels) (SpawnParams : FBurbleSoundSpawnParams)
    (NumOutFrames GenStep : Int) (S : FGenerateState) (h : S.Gen.CurrentNumBurbles = 0) :
    (GenerateStep K SpawnParams NumOutFrames GenStep false S).OutAudio = S.OutAudio ∧
    (GenerateStep K SpawnParams NumOutFrames GenStep false S).Gen.CurrentNumBurbles = 0 ∧
    (GenerateStep K SpawnParams NumOutFrames GenStep false S).Gen.NumSamplesPerGen =
      S.Gen.NumSamplesPerGen ∧
    (GenerateStep K SpawnParams NumOutFrames GenStep false S).CurrentOutBufferIndex =
      S.CurrentOutBufferIndex + min (NumOutFrames - S.CurrentOutBufferIndex)
        S.Gen.NumSamplesPerGen := by
  have hn : ¬ S.Gen.CurrentNumBurbles > 0 := by omega
  unfold GenerateStep
  simp only [Bool.false_eq_true, if_false, false_and, hn]
  refine ⟨trivial, ?_, ?_, trivial⟩
  · exact (shrink_ite_of_empty
      { S.Gen with
        LastShrinkDelaSample := S.Gen.LastShrinkDelaSample +
          min (NumOutFrames - S.CurrentOutBufferIndex) S.Gen.NumSamplesPerGen } _ h).1
  · exact (shrink_ite_of_empty
      { S.Gen with
        LastShrinkDelaSample := S.Gen.LastShrinkDelaSample +
          min (NumOutFrames - S.CurrentOutBufferIndex) S.Gen.NumSamplesPerGen } _ h).2

/-- C12 (refuted as stated): One `Generate` call over one frame on a fresh generator with
`MaxNumberOfBurbles = 8` spawns a single burble: the active count is 1, not a multiple of 4. -/
theorem C12_count_is_not_a_multiple_of_four :
    (Generate 1 Sample.BurbleKernels (New 48000 0 0 8) [0] Sample.SpawnParams).map
        (fun r => r.1.CurrentNumBurbles) = some 1 ∧
      ¬ (4 : Int) ∣ 1 := by
  decide!

/-- C12 (amended): In every reachable generator, and at every point of every later
`Generate` call, the active burble count is non-negative; when a positive maximum is
configured it is at most the capacity `CurrentBufferSize`, and it is the capacity that is a
positive multiple of 4. -/
theorem C12_count_nonneg_and_capacity_multiple_of_four (K : FBurbleKernels)
    (InSamplingRate : ℚ) (InSeed RandSeed InMax : Int) (G : FBurbleSoundGen)
    (hG : Reachable K InSamplingRate InSeed RandSeed InMax G) (fuel : Nat) (OutAudio : List ℚ)
    (SpawnParams : FBurbleSoundSpawnParams) :
    0 ≤ G.CurrentNumBurbles ∧
    0 ≤ (GenerateRun fuel K G OutAudio SpawnParams).Gen.CurrentNumBurbles ∧
    (0 < InMax →
      (GenerateRun fuel K G OutAudio SpawnParams).Gen.CurrentNumBurbles ≤
        (GenerateRun fuel K G OutAudio SpawnParams).Gen.CurrentBufferSize ∧
      0 < (GenerateRun fuel K G OutAudio SpawnParams).Gen.CurrentBufferSize ∧
      4 ∣ (GenerateRun fuel K G OutAudio SpawnParams).Gen.CurrentBufferSize) := by
  obtain ⟨p1, _⟩ := reachable_poolInv K _ _ _ _ G hG
  obtain ⟨q1, q2⟩ := reachable_poolInv K _ _ _ _ _
    (generateRun_reachable K _ _ _ _ SpawnParams G OutAudio fuel hG)
  refine ⟨p1.1, q1.1, fun hMax => ?_⟩
  obtain ⟨_, a2, a3, a4⟩ := q1.2 (by rw [q2]; exact hMax)
  exact ⟨a2, a3, a4⟩

/-- Witness for the amended C12: a fresh generator with `MaxNumberOfBurbles = 8`. -/
theorem C12_count_nonneg_and_capacity_multiple_of_four_witness :
    0 ≤ (New 48000 0 0 8).CurrentNumBurbles ∧
    0 ≤ (GenerateRun 1 Sample.BurbleKernels (New 48000 0 0 8) [0]
      Sample.SpawnParams).Gen.CurrentNumBurbles ∧
    ((0 : Int) < 8 →
      (GenerateRun 1 Sample.BurbleKernels (New 48000 0 0 8) [0]
          Sample.SpawnParams).Gen.CurrentNumBurbles ≤
        (GenerateRun 1 Sample.BurbleKernels (New 48000 0 0 8) [0]
          Sample.SpawnParams).Gen.CurrentBufferSize ∧
      0 < (GenerateRun 1 Sample.BurbleKernels (New 48000 0 0 8) [0]
          Sample.SpawnParams).Gen.CurrentBufferSize ∧
      4 ∣ (GenerateRun 1 Sample.BurbleKernels (New 48000 0 0 8) [0]
          Sample.SpawnParams).Gen.CurrentBufferSize) :=
  C12_count_nonneg_and_capacity_multiple_of_four Sample.BurbleKernels 48000 0 0 8
    (New 48000 0 0 8) Reachable.init 1 [0] Sample.SpawnParams

/-- C13: For a generator constructed with `MaxNumberOfBurbles > 0`, in every reachable
state the active count lies in `[0, MaxNumberOfBurbles]`, and so it does after a spawn attempt,
after a shrink and at every point of a `Generate` call; once the maximum is reached
`RandGenBurble` returns false and changes nothing but `DeltaGenerateSample`. -/
theorem C13_count_capped_by_maximum (K : FBurbleKernels) (InSamplingRate : ℚ)
    (InSeed RandSeed InMax : Int) (hMax : 0 < InMax) (G : FBurbleSoundGen)
    (hG : Reachable K InSamplingRate InSeed RandSeed InMax G) (fuel : Nat) (OutAudio : List ℚ)
    (SpawnParams : FBurbleSoundSpawnParams) :
    (0 ≤ G.CurrentNumBurbles ∧ G.CurrentNumBurbles ≤ InMax) ∧
    (0 ≤ (RandGenBurble K G SpawnParams).1.CurrentNumBurbles ∧
      (RandGenBurble K G SpawnParams).1.CurrentNumBurbles ≤ InMax) ∧
    (0 ≤ (ShrinkCurrentBurbles G).CurrentNumBurbles ∧
      (ShrinkCurrentBurbles G).CurrentNumBurbles ≤ InMax) ∧
    (0 ≤ (GenerateRun fuel K G OutAudio SpawnParams).Gen.CurrentNumBurbles ∧
      (GenerateRun fuel K G OutAudio SpawnParams).Gen.CurrentNumBurbles ≤ InMax) ∧
    (InMax ≤ G.CurrentNumBurbles →
      RandGenBurble K G SpawnParams = ({ G with DeltaGenerateSample := 0 }, false)) := by
  have key : ∀ G1 : FBurbleSoundGen, Reachable K InSamplingRate InSeed RandSeed InMax G1 →
      0 ≤ G1.CurrentNumBurbles ∧ G1.CurrentNumBurbles ≤ InMax := by
    intro G1 h1
    obtain ⟨p1, p2⟩ := reachable_poolInv K _ _ _ _ G1 h1
    refine ⟨p1.1, ?_⟩
    have := (p1.2 (by rw [p2]; exact hMax)).1
    rw [p2] at this
    exact this
  refine ⟨key G hG, key _ (Reachable.spawn G SpawnParams hG), key _ (Reachable.shrink G hG),
    key _ (generateRun_reachable K _ _ _ _ SpawnParams G OutAudio fuel hG), fun hcap => ?_⟩
  obtain ⟨_, p2⟩ := reachable_poolInv K _ _ _ _ G hG
  exact randGenBurble_at_cap K G SpawnParams (by rw [p2]; exact hMax) (by rw [p2]; exact hcap)

/-- Witness for C13: with `MaxNumberOfBurbles = 1`, after one spawn the pool is full and the
next spawn attempt is refused. -/
theorem C13_count_capped_by_maximum_witness :
    (Sample.Spawn (New 48000 0 0 1)).CurrentNumBurbles = 1 ∧
    RandGenBurble Sample.BurbleKernels (Sample.Spawn (New 48000 0 0 1)) Sample.SpawnParams =
      ({ Sample.Spawn (New 48000 0 0 1) with DeltaGenerateSample := 0 }, false) :=
  ⟨by decide!,
    (C13_count_capped_by_maximum Sample.BurbleKernels 48000 0 0 1 (by decide)
      (Sample.Spawn (New 48000 0 0 1)) (Reachable.spawn _ _ Reachable.init) 1 [0]
      Sample.SpawnParams).2.2.2.2 (by decide!)⟩

/-- C14 (defect): With the default `MaxNumberOfBurbles = -1`, the 65th successful spawn
finds the pool at its capacity of 64; the extension size is `FitToAudioRegister(min(-1 - 64,
16)) = -65`, so afterwards `CurrentBufferSize = -1` while 65 burbles are active and the
buffers still hold 64 entries: index 64 is out of range. -/
theorem C14_unlimited_pool_gets_negative_capacity :
    Sample.FullGen.MaxNumberOfBurbles = -1 ∧
    Sample.FullGen.CurrentNumBurbles = 64 ∧
    Sample.FullGen.CurrentBufferSize = 64 ∧
    ExtendSizeFor { Sample.FullGen with CurrentNumBurbles := 65 } Sample.SpawnParams = -65 ∧
    (RandGenBurble Sample.BurbleKernels Sample.FullGen Sample.SpawnParams).2 = true ∧
    (RandGenBurble Sample.BurbleKernels Sample.FullGen Sample.SpawnParams).1.CurrentBufferSize
      = -1 ∧
    (RandGenBurble Sample.BurbleKernels Sample.FullGen Sample.SpawnParams).1.CurrentNumBurbles
      = 65 ∧
    (RandGenBurble Sample.BurbleKernels Sample.FullGen Sample.SpawnParams).1.D1Buffer.length
      = 64 := by
  decide!

end FBurbleSoundGen

namespace FTwoStatesForceGen

/-- C21 (evaluation at the failing input): a fresh generator at 48 kHz asked for 100 Hz with
duty cycle `1/4` has a cycle of 480 samples with state lengths 120 and 360; the first
`RemapCurrentCycleIndex` sets `CurrentCycleIndex` to `-240`, and after a `Generate` call over
100 frames it is `-140`: both are below 0. -/
theorem C21_cycle_index_negative_after_first_call :
    NumSamplesPerCycle 48000 100 = 480
      ∧ (RemapCurrentCycleIndex Sample.FreshGen 480 120 360).CurrentCycleIndex = -240
      ∧ (Sample.Render 100 (1 / 4)).map (fun r => r.1.CurrentCycleIndex) = some (-140)
      ∧ ¬ ((0 : Int) ≤ -240) ∧ ¬ ((0 : Int) ≤ -140) := by
  decide!

theorem remap_of_changed (G : FTwoStatesForceGen) (NumPerCycle NumFirst NumSecond : Int)
    (h : ¬ (NumFirst = G.LastNumSamplesFirstState ∧ NumSecond = G.LastNumSamplesSecondState)) :
    RemapCurrentCycleIndex G NumPerCycle NumFirst NumSecond =
      { G with
        CurrentCycleIndex :=
          Int.tmod
            (if G.CurrentCycleIndex < G.LastNumSamplesFirstState then
              RoundToInt32
                ((G.CurrentCycleIndex : ℚ) * (NumFirst : ℚ) / (G.LastNumSamplesFirstState : ℚ))
            else
              NumFirst + RoundToInt32
                (((G.CurrentCycleIndex - G.LastNumSamplesFirstState : Int) : ℚ) * (NumSecond : ℚ)
                  / (G.LastNumSamplesSecondState : ℚ)))
            NumPerCycle
        LastNumSamplesFirstState := NumFirst
        LastNumSamplesSecondState := NumSecond } := by
  unfold RemapCurrentCycleIndex
  rw [if_neg h]

theorem roundToInt32_nonneg (x : ℚ) (h : 0 ≤ x) : 0 ≤ RoundToInt32 x := by
  unfold RoundToInt32
  exact Int.floor_nonneg.2 (by linarith)

/-- C22: when the state lengths change (old lengths positive), `RemapCurrentCycleIndex` maps an
index `c < oldFirst` to `round(c·newFirst/oldFirst) mod newCycle` and an index `c >= oldFirst`
to `(newFirst + round((c - oldFirst)·newSecond/oldSecond)) mod newCycle`, and remembers the new
lengths; for a non-negative index and non-negative new lengths the result lies in
`[0, newCycle)`; when neither length changed the generator is left untouched. -/
theorem C22_remap_is_proportional (G : FTwoStatesForceGen) (NumPerCycle NumFirst NumSecond : Int)
    (hF : 0 < G.LastNumSamplesFirstState) (hS : 0 < G.LastNumSamplesSecondState) :
    (¬ (NumFirst = G.LastNumSamplesFirstState ∧ NumSecond = G.LastNumSamplesSecondState) →
      (G.CurrentCycleIndex < G.LastNumSamplesFirstState →
        (RemapCurrentCycleIndex G NumPerCycle NumFirst NumSecond).CurrentCycleIndex =
          Int.tmod
            (RoundToInt32
              ((G.CurrentCycleIndex : ℚ) * (NumFirst : ℚ) / (G.LastNumSamplesFirstState : ℚ)))
            NumPerCycle) ∧
      (G.LastNumSamplesFirstState ≤ G.CurrentCycleIndex →
        (RemapCurrentCycleIndex G NumPerCycle NumFirst NumSecond).CurrentCycleIndex =
          Int.tmod
            (NumFirst + RoundToInt32
              (((G.CurrentCycleIndex - G.LastNumSamplesFirstState : Int) : ℚ) * (NumSecond : ℚ)
                / (G.LastNumSamplesSecondState : ℚ)))
            NumPerCycle) ∧
      (RemapCurrentCycleIndex G NumPerCycle NumFirst NumSecond).LastNumSamplesFirstState =
        NumFirst ∧
      (RemapCurrentCycleIndex G NumPerCycle NumFirst NumSecond).LastNumSamplesSecondState =
        NumSecond ∧
      (0 ≤ G.CurrentCycleIndex → 0 ≤ NumFirst → 0 ≤ NumSecond → 0 < NumPerCycle →
        0 ≤ (RemapCurrentCycleIndex G NumPerCycle NumFirst NumSecond).CurrentCycleIndex ∧
        (RemapCurrentCycleIndex G NumPerCycle NumFirst NumSecond).CurrentCycleIndex <
          NumPerCycle)) ∧
    (NumFirst = G.LastNumSamplesFirstState ∧ NumSecond = G.LastNumSamplesSecondState →
      RemapCurrentCycleIndex G NumPerCycle NumFirst NumSecond = G) := by
  constructor
  · intro hchg
    rw [remap_of_changed G NumPerCycle NumFirst NumSecond hchg]
    refine ⟨fun h => ?_, fun h => ?_, rfl, rfl, fun hc hnf hns hcy => ?_⟩
    · show Int.tmod _ _ = _
      rw [if_pos h]
    · show Int.tmod _ _ = _
      rw [if_neg (not_lt.mpr h)]
    · show 0 ≤ Int.tmod _ _ ∧ Int.tmod _ _ < NumPerCycle
      apply tmod_bounds _ _ _ (by omega)
      have hFq : (0 : ℚ) < (G.LastNumSamplesFirstState : ℚ) := by exact_mod_cast hF
      have hSq : (0 : ℚ) < (G.LastNumSamplesSecondState : ℚ) := by exact_mod_cast hS
      have hcq : (0 : ℚ) ≤ (G.CurrentCycleIndex : ℚ) := by exact_mod_cast hc
      have hnfq : (0 : ℚ) ≤ (NumFirst : ℚ) := by exact_mod_cast hnf
      have hnsq : (0 : ℚ) ≤ (NumSecond : ℚ) := by exact_mod_cast hns
      split_ifs with h
      · exact roundToInt32_nonneg _ (div_nonneg (mul_nonneg hcq hnfq) hFq.le)
      · have hd : (0 : ℚ) ≤ ((G.CurrentCycleIndex - G.LastNumSamplesFirstState : Int) : ℚ) := by
          exact_mod_cast (by omega : (0 : Int) ≤ G.CurrentCycleIndex - G.LastNumSamplesFirstState)
        have := roundToInt32_nonneg _ (div_nonneg (mul_nonneg hd hnsq) hSq.le)
        omega
  · intro h
    unfold RemapCurrentCycleIndex
    rw [if_pos h]

end FTwoStatesForceGen

namespace FBurbleSoundGen

/-- The spawn timer and the step size of two generators agree. -/
theorem shrinkLoop_delta : ∀ (fuel : Nat) (i SwapIdx : Int) (G : FBurbleSoundGen),
    (ShrinkLoop fuel i SwapIdx G).DeltaGenerateSample = G.DeltaGenerateSample := by
  intro fuel
  induction fuel with
  | zero => intro i SwapIdx G; rfl
  | succ fuel ih =>
    intro i SwapIdx G
    rw [ShrinkLoop]
    split_ifs
    · rw [ih]
    · rw [ih]
    · rfl

theorem shrinkCurrentBurbles_delta (G : FBurbleSoundGen) :
    (ShrinkCurrentBurbles G).DeltaGenerateSample = G.DeltaGenerateSample := by
  unfold ShrinkCurrentBurbles
  rw [shrinkLoop_delta]

theorem synthesizeInner_delta : ∀ (fuel j : Nat) (G : FBurbleSoundGen)
    (S : VectorRegister4Float),
    (SynthesizeInner fuel j G S).1.DeltaGenerateSample = G.DeltaGenerateSample := by
  intro fuel
  induction fuel with
  | zero => intro j G S; rfl
  | succ fuel ih =>
    intro j G S
    rw [SynthesizeInner]
    split_ifs
    · rw [ih]; rfl
    · rfl

theorem synthesizeOuter_delta : ∀ (fuel : Nat) (i EndIdx : Int) (G : FBurbleSoundGen)
    (Out : List ℚ),
    (SynthesizeOuter fuel i EndIdx G Out).1.DeltaGenerateSample = G.DeltaGenerateSample := by
  intro fuel
  induction fuel with
  | zero => intro i EndIdx G Out; rfl
  | succ fuel ih =>
    intro i EndIdx G Out
    rw [SynthesizeOuter]
    split_ifs
    · simp only
      rw [ih, synthesizeInner_delta]
    · rfl

theorem durationLoop_delta (D : ℚ) : ∀ (fuel j : Nat) (G : FBurbleSoundGen),
    (DurationLoop D fuel j G).DeltaGenerateSample = G.DeltaGenerateSample := by
  intro fuel
  induction fuel with
  | zero => intro j G; rfl
  | succ fuel ih =>
    intro j G
    rw [DurationLoop]
    split_ifs
    · rw [ih]
    · rfl

theorem synthesizeSamples_delta (G : FBurbleSoundGen) (Out : List ℚ) (a b : Int) :
    (SynthesizeSamples G Out a b).1.DeltaGenerateSample = G.DeltaGenerateSample := by
  unfold SynthesizeSamples
  simp only
  rw [durationLoop_delta, synthesizeOuter_delta]

theorem randGenBurble_delta (K : FBurbleKernels) (G : FBurbleSoundGen)
    (SpawnParams : FBurbleSoundSpawnParams) :
    (RandGenBurble K G SpawnParams).1.DeltaGenerateSample = 0 := by
  unfold RandGenBurble
  simp only
  split_ifs <;> rfl

theorem shrinkLoop_numSamplesPerGen : ∀ (fuel : Nat) (i SwapIdx : Int) (G : FBurbleSoundGen),
    (ShrinkLoop fuel i SwapIdx G).NumSamplesPerGen = G.NumSamplesPerGen := by
  intro fuel
  induction fuel with
  | zero => intro i SwapIdx G; rfl
  | succ fuel ih =>
    intro i SwapIdx G
    rw [ShrinkLoop]
    split_ifs
    · rw [ih]
    · rw [ih]
    · rfl

theorem shrinkCurrentBurbles_numSamplesPerGen (G : FBurbleSoundGen) :
    (ShrinkCurrentBurbles G).NumSamplesPerGen = G.NumSamplesPerGen := by
  unfold ShrinkCurrentBurbles
  rw [shrinkLoop_numSamplesPerGen]

theorem generateStep_stuck (K : FBurbleKernels) (SpawnParams : FBurbleSoundSpawnParams)
    (NumOutFrames : Int) (S : FGenerateState) (hD : S.Gen.DeltaGenerateSample = 0)
    (hi : S.CurrentOutBufferIndex < NumOutFrames) (hN : 0 ≤ S.Gen.NumSamplesPerGen) :
    (GenerateStep K SpawnParams NumOutFrames 0 true S).CurrentOutBufferIndex =
        S.CurrentOutBufferIndex ∧
    (GenerateStep K SpawnParams NumOutFrames 0 true S).Gen.DeltaGenerateSample = 0 ∧
    (GenerateStep K SpawnParams NumOutFrames 0 true S).Gen.NumSamplesPerGen =
      S.Gen.NumSamplesPerGen := by
  have hInc : Min3 (0 - S.Gen.DeltaGenerateSample) (NumOutFrames - S.CurrentOutBufferIndex)
      S.Gen.NumSamplesPerGen = 0 := by
    unfold Min3
    rw [hD]
    omega
  have hsyn : ∀ (c : Prop) [Decidable c] (G : FBurbleSoundGen) (Out : List ℚ) (a b : Int),
      (if c then SynthesizeSamples G Out a b else (G, Out)).1.DeltaGenerateSample =
          G.DeltaGenerateSample ∧
        (if c then SynthesizeSamples G Out a b else (G, Out)).1.NumSamplesPerGen =
          G.NumSamplesPerGen := by
    intro c _ G Out a b
    split_ifs
    · exact ⟨synthesizeSamples_delta G Out a b, (synthesizeSamples_samePool G Out a b).2.2.2⟩
    · exact ⟨rfl, rfl⟩
  have hshr : ∀ (c : Prop) [Decidable c] (G : FBurbleSoundGen),
      (if c then ShrinkCurrentBurbles G else G).DeltaGenerateSample = G.DeltaGenerateSample ∧
        (if c then ShrinkCurrentBurbles G else G).NumSamplesPerGen = G.NumSamplesPerGen := by
    intro c _ G
    split_ifs
    · exact ⟨shrinkCurrentBurbles_delta G, shrinkCurrentBurbles_numSamplesPerGen G⟩
    · exact ⟨rfl, rfl⟩
  have hspn : ∀ (c : Prop) [Decidable c] (G : FBurbleSoundGen), G.DeltaGenerateSample = 0 →
      (if c then (RandGenBurble K G SpawnParams).1 else G).DeltaGenerateSample = 0 ∧
        (if c then (RandGenBurble K G SpawnParams).1 else G).NumSamplesPerGen =
          G.NumSamplesPerGen := by
    intro c _ G hG
    split_ifs
    · exact ⟨randGenBurble_delta K G SpawnParams, (randGenBurble_cases K G SpawnParams).2.1⟩
    · exact ⟨hG, rfl⟩
  unfold GenerateStep
  simp only [↓reduceIte, hInc, add_zero]
  refine ⟨trivial, ?_, ?_⟩
  · refine (hspn _ _ ?_).1
    rw [(hshr _ _).1]
    show (ite _ _ _ : FBurbleSoundGen × List ℚ).1.DeltaGenerateSample = 0
    rw [(hsyn _ _ _ _ _).1]
    exact hD
  · rw [(hspn _ _ ?_).2, (hshr _ _).2]
    · show (ite _ _ _ : FBurbleSoundGen × List ℚ).1.NumSamplesPerGen = _
      rw [(hsyn _ _ _ _ _).2]
    · rw [(hshr _ _).1]
      show (ite _ _ _ : FBurbleSoundGen × List ℚ).1.DeltaGenerateSample = 0
      rw [(hsyn _ _ _ _ _).1]
      exact hD

theorem generateLoop_stuck (K : FBurbleKernels) (SpawnParams : FBurbleSoundSpawnParams)
    (NumOutFrames : Int) :
    ∀ (fuel : Nat) (S : FGenerateState), S.Gen.DeltaGenerateSample = 0 →
      S.CurrentOutBufferIndex < NumOutFrames → 0 ≤ S.Gen.NumSamplesPerGen →
      (GenerateLoop K SpawnParams NumOutFrames 0 true fuel S).CurrentOutBufferIndex =
        S.CurrentOutBufferIndex := by
  intro fuel
  induction fuel with
  | zero => intro S _ _ _; rfl
  | succ fuel ih =>
    intro S hD hi hN
    obtain ⟨s1, s2, s3⟩ := generateStep_stuck K SpawnParams NumOutFrames S hD hi hN
    rw [GenerateLoop, if_pos hi, ih _ s2 (by rw [s1]; exact hi) (by rw [s3]; exact hN), s1]

theorem generateLoop_silent_stuck (K : FBurbleKernels) (SpawnParams : FBurbleSoundSpawnParams)
    (NumOutFrames GenStep : Int) :
    ∀ (fuel : Nat) (S : FGenerateState), S.Gen.CurrentNumBurbles = 0 →
      S.Gen.NumSamplesPerGen = 0 → S.CurrentOutBufferIndex < NumOutFrames →
      (GenerateLoop K SpawnParams NumOutFrames GenStep false fuel S).CurrentOutBufferIndex =
        S.CurrentOutBufferIndex := by
  intro fuel
  induction fuel with
  | zero => intro S _ _ _; rfl
  | succ fuel ih =>
    intro S hc hN hi
    obtain ⟨_, s2, s3, s4⟩ := generateStep_silent K SpawnParams NumOutFrames GenStep S hc
    have hidx : (GenerateStep K SpawnParams NumOutFrames GenStep false S).CurrentOutBufferIndex =
        S.CurrentOutBufferIndex := by
      rw [s4, hN]
      have : min (NumOutFrames - S.CurrentOutBufferIndex) 0 = 0 := min_eq_right (by omega)
      omega
    rw [GenerateLoop, if_pos hi, ih _ s2 (by rw [s3]; exact hN) (by rw [hidx]; exact hi), hidx]

/-- C28 (evaluation at the failing inputs): `Generate` does not return for one output frame
(a) at a sampling rate of 100 Hz, where `NumSamplesPerGen = (int32)(0.0025·100) = 0`, and (b) at
48 kHz with a spawn rate of 96000, where `GenStep = (int32)(48000/96000) = 0`: in both cases
the loop increment is 0 and `CurrentOutBufferIndex` stays 0 after any number of iterations. -/
theorem C28_generate_does_not_terminate :
    Sample.SlowGen.NumSamplesPerGen = 0
      ∧ (∀ fuel,
          (GenerateRun fuel Sample.BurbleKernels Sample.SlowGen [0]
            Sample.SilentSpawnParams).CurrentOutBufferIndex = 0)
      ∧ (∀ fuel,
          Generate fuel Sample.BurbleKernels Sample.SlowGen [0] Sample.SilentSpawnParams = none)
      ∧ GenStepFor (New 48000 0 0 8) Sample.FastSpawnParams = 0
      ∧ (∀ fuel,
          (GenerateRun fuel Sample.BurbleKernels (New 48000 0 0 8) [0]
            Sample.FastSpawnParams).CurrentOutBufferIndex = 0)
      ∧ (∀ fuel,
          Generate fuel Sample.BurbleKernels (New 48000 0 0 8) [0] Sample.FastSpawnParams
            = none) := by
  have hslow : ∀ fuel,
      (GenerateRun fuel Sample.BurbleKernels Sample.SlowGen [0]
        Sample.SilentSpawnParams).CurrentOutBufferIndex = 0 := by
    intro fuel
    have hcan : CanSpawn Sample.SilentSpawnParams = false := by decide!
    unfold GenerateRun
    rw [hcan]
    rw [generateLoop_silent_stuck Sample.BurbleKernels Sample.SilentSpawnParams _ _ fuel _
      (by decide!) (by decide!) (by decide)]
  have hfast : ∀ fuel,
      (GenerateRun fuel Sample.BurbleKernels (New 48000 0 0 8) [0]
        Sample.FastSpawnParams).CurrentOutBufferIndex = 0 := by
    intro fuel
    have hstep : GenStepFor (New 48000 0 0 8) Sample.FastSpawnParams = 0 := by decide!
    have hcan : CanSpawn Sample.FastSpawnParams = true := by decide!
    unfold GenerateRun
    rw [hstep, hcan]
    rw [generateLoop_stuck Sample.BurbleKernels Sample.FastSpawnParams _ fuel _ (by decide!)
      (by decide) (by decide!)]
  refine ⟨by decide!, hslow, fun fuel => ?_, by decide!, hfast, fun fuel => ?_⟩
  · unfold Generate
    simp only
    rw [hslow fuel]
    rfl
  · unfold Generate
    simp only
    rw [hfast fuel]
    rfl

end FBurbleSoundGen

namespace FTwoStatesForceGen

/-- Witness for C22: a generator at index 100 of a 240 + 240 cycle, remapped to a cycle of
120 + 360 samples, moves to index 50. -/
theorem C22_remap_is_proportional_witness :
    (0 < Sample.RunningGen.LastNumSamplesFirstState ∧
      0 < Sample.RunningGen.LastNumSamplesSecondState) ∧
    (RemapCurrentCycleIndex Sample.RunningGen 480 120 360).CurrentCycleIndex = 50 :=
  ⟨by decide,
    (((C22_remap_is_proportional Sample.RunningGen 480 120 360 (by decide) (by decide)).1
      (by decide)).1 (by decide)).trans (by decide!)⟩

end FTwoStatesForceGen

namespace FRCurveExtendAssetProxy

end FRCurveExtendAssetProxy

/-- C26 (evaluation at the failing inputs): with a block of 4 frames and a play trigger on the
last frame 3, both nodes render `[0, 3)`, apply the trigger and leave the loop, so frame 3 is
never rendered; with a block of a single frame nothing is rendered and a trigger on frame 0 is
never applied. With a trigger before the last frame the block is split as expected. -/
theorem C26_last_frame_is_skipped :
    FTwoStatesForceGenOperator.ExecuteSubBlocks 8 4 [3] [] [] =
        some [FSubBlockCall.Render 0 3, FSubBlockCall.Play 3]
      ∧ FTwoStatesForceGenOperator.ExecuteSubBlocks 8 4 [] [3] [3] =
        some [FSubBlockCall.Render 0 3, FSubBlockCall.Stop 3, FSubBlockCall.Sync 3]
      ∧ FBurbleGenOperator.ExecuteSubBlocks 8 4 [3] =
        some [FSubBlockCall.Render 0 3, FSubBlockCall.Play 3]
      ∧ FTwoStatesForceGenOperator.ExecuteSubBlocks 8 1 [] [] [] = some []
      ∧ FTwoStatesForceGenOperator.ExecuteSubBlocks 8 1 [0] [] [] = some []
      ∧ FBurbleGenOperator.ExecuteSubBlocks 8 1 [] = some []
      ∧ FBurbleGenOperator.ExecuteSubBlocks 8 1 [0] = some []
      ∧ FTwoStatesForceGenOperator.ExecuteSubBlocks 8 8 [2] [2, 5] [5] =
        some [FSubBlockCall.Render 0 2, FSubBlockCall.Play 2, FSubBlockCall.Stop 2,
          FSubBlockCall.Render 2 5, FSubBlockCall.Stop 5, FSubBlockCall.Sync 5,
          FSubBlockCall.Render 5 8]
      ∧ FBurbleGenOperator.ExecuteSubBlocks 8 8 [0, 2] =
        some [FSubBlockCall.Play 0, FSubBlockCall.Render 0 2, FSubBlockCall.Play 2,
          FSubBlockCall.Render 2 8] := by
  decide

theorem groupSum_eq_groupMagnitude (D1 D2 : List ℚ) (j : Nat) :
    (VectorAdd (VectorAbs (VectorLoadAligned D1 j)) (VectorAbs (VectorLoadAligned D2 j))).HSum =
      GroupMagnitude D1 D2 j := rfl

theorem getNumUsedModalsLoop_spec (D1 D2 : List ℚ) (StrengthMin : ℚ) :
    ∀ (c fuel : Nat), c ≤ fuel →
      ∃ q : Nat, q ≤ c ∧
        GetNumUsedModalsLoop D1 D2 StrengthMin fuel ((4 * c : Nat) - 4 : Int) =
          ((4 * q : Nat) : Int) - 4 ∧
        (∀ p, q ≤ p → p < c → GroupMagnitude D1 D2 (4 * p) ≤ StrengthMin) ∧
        (0 < q → StrengthMin < GroupMagnitude D1 D2 (4 * (q - 1))) := by
  intro c
  induction c with
  | zero =>
    intro fuel _
    refine ⟨0, le_refl _, ?_, fun p h1 h2 => absurd h2 (by omega), fun h => absurd h (by omega)⟩
    cases fuel with
    | zero => rfl
    | succ f =>
      rw [GetNumUsedModalsLoop, if_neg (by norm_num)]
  | succ c ih =>
    intro fuel hf
    obtain ⟨f, rfl⟩ : ∃ f, fuel = f + 1 := ⟨fuel - 1, by omega⟩
    have hj : (((4 * (c + 1) : Nat) : Int) - 4) = ((4 * c : Nat) : Int) := by push_cast; ring
    rw [GetNumUsedModalsLoop, hj, if_pos (by omega)]
    simp only [Int.toNat_ofNat, groupSum_eq_groupMagnitude]
    by_cases hgt : GroupMagnitude D1 D2 (4 * c) > StrengthMin
    · rw [if_pos hgt]
      refine ⟨c + 1, le_refl _, ?_, fun p h1 h2 => absurd h2 (by omega), fun _ => ?_⟩
      · push_cast; ring
      · simpa using hgt
    · rw [if_neg hgt]
      obtain ⟨q, hq, e, h1, h2⟩ := ih f (by omega)
      refine ⟨q, by omega, ?_, fun p hp1 hp2 => ?_, h2⟩
      · have : ((4 * c : Nat) : Int) - AUDIO_NUM_FLOATS_PER_VECTOR_REGISTER =
            ((4 * c : Nat) : Int) - 4 := rfl
        rw [this, e]
      · by_cases hpc : p < c
        · exact h1 p hp1 hpc
        · have : p = c := by omega
          rw [this]
          exact not_lt.mp hgt

/-- C23: for `CurrentNumModals = 4·g` within the buffers, `GetNumUsedModals` returns `k = 4·q`
with `q <= g` such that every group at index `>= k` (below `CurrentNumModals`) has magnitude
sum `|y1| + |y2|` at most `StrengthMin`, and, when `k > 0`, the group at index `k - 4` exceeds
`StrengthMin`; in particular it returns 0 when no group exceeds the threshold. -/
theorem C23_getNumUsedModals_spec (g : Nat) (D1 D2 : List ℚ) (StrengthMin : ℚ)
    (_h1 : 4 * g ≤ D1.length) (_h2 : 4 * g ≤ D2.length) :
    ∃ q : Nat, q ≤ g ∧
      GetNumUsedModals ((4 * g : Nat) : Int) D1 D2 StrengthMin = ((4 * q : Nat) : Int) ∧
      0 ≤ GetNumUsedModals ((4 * g : Nat) : Int) D1 D2 StrengthMin ∧
      GetNumUsedModals ((4 * g : Nat) : Int) D1 D2 StrengthMin ≤ ((4 * g : Nat) : Int) ∧
      (∀ p, q ≤ p → p < g → GroupMagnitude D1 D2 (4 * p) ≤ StrengthMin) ∧
      (0 < q → StrengthMin < GroupMagnitude D1 D2 (4 * (q - 1))) ∧
      ((∀ p, p < g → GroupMagnitude D1 D2 (4 * p) ≤ StrengthMin) → q = 0) := by
  obtain ⟨q, hq, e, a1, a2⟩ := getNumUsedModalsLoop_spec D1 D2 StrengthMin g (4 * g) (by omega)
  have hk : GetNumUsedModals ((4 * g : Nat) : Int) D1 D2 StrengthMin = ((4 * q : Nat) : Int) := by
    unfold GetNumUsedModals
    rw [Int.toNat_ofNat]
    have : ((4 * g : Nat) : Int) - AUDIO_NUM_FLOATS_PER_VECTOR_REGISTER =
        ((4 * g : Nat) : Int) - 4 := rfl
    rw [this, e]
    have h4 : AUDIO_NUM_FLOATS_PER_VECTOR_REGISTER = 4 := rfl
    rw [h4]
    omega
  refine ⟨q, hq, hk, ?_, ?_, a1, a2, fun hall => ?_⟩
  · rw [hk]; omega
  · rw [hk]; omega
  · by_contra hne
    have hpos : 0 < q := Nat.pos_of_ne_zero hne
    have := a2 hpos
    have := hall (q - 1) (by omega)
    linarith

theorem C23_getNumUsedModals_spec_witness :
    (4 * 2 ≤ ([3, 0, 0, 0, 1, 0, 0, 0] : List ℚ).length ∧
      4 * 2 ≤ ([0, 0, 0, 0, 0, 0, 0, 0] : List ℚ).length) ∧
    ∃ q : Nat, q ≤ 2 ∧
      GetNumUsedModals ((4 * 2 : Nat) : Int) [3, 0, 0, 0, 1, 0, 0, 0]
        [0, 0, 0, 0, 0, 0, 0, 0] 2 = ((4 * q : Nat) : Int) ∧
      0 ≤ GetNumUsedModals ((4 * 2 : Nat) : Int) [3, 0, 0, 0, 1, 0, 0, 0]
        [0, 0, 0, 0, 0, 0, 0, 0] 2 ∧
      GetNumUsedModals ((4 * 2 : Nat) : Int) [3, 0, 0, 0, 1, 0, 0, 0]
        [0, 0, 0, 0, 0, 0, 0, 0] 2 ≤ ((4 * 2 : Nat) : Int) ∧
      (∀ p, q ≤ p → p < 2 →
        GroupMagnitude [3, 0, 0, 0, 1, 0, 0, 0] [0, 0, 0, 0, 0, 0, 0, 0] (4 * p) ≤ 2) ∧
      (0 < q →
        2 < GroupMagnitude [3, 0, 0, 0, 1, 0, 0, 0] [0, 0, 0, 0, 0, 0, 0, 0] (4 * (q - 1))) ∧
      ((∀ p, p < 2 →
        GroupMagnitude [3, 0, 0, 0, 1, 0, 0, 0] [0, 0, 0, 0, 0, 0, 0, 0] (4 * p) ≤ 2) → q = 0) :=
  ⟨by decide, C23_getNumUsedModals_spec 2 [3, 0, 0, 0, 1, 0, 0, 0] [0, 0, 0, 0, 0, 0, 0, 0] 2
    (by decide) (by decide)⟩

theorem bufSet_length (B : List ℚ) (k : Int) (v : ℚ) : (BufSet B k v).length = B.length := by
  unfold BufSet
  split_ifs <;> simp

theorem bufGet_bufSet_same (B : List ℚ) (k : Int) (v : ℚ) (h0 : 0 ≤ k)
    (h1 : k < (B.length : Int)) : BufGet (BufSet B k v) k = v := by
  unfold BufGet BufSet
  rw [if_pos h0, if_pos h0, getD_set_eq, if_pos ⟨rfl, by omega⟩]

theorem bufGet_bufSet_ne (B : List ℚ) (k j : Int) (v : ℚ) (h : j ≠ k) :
    BufGet (BufSet B k v) j = BufGet B j := by
  unfold BufGet BufSet
  by_cases hj : 0 ≤ j
  · by_cases hk : 0 ≤ k
    · simp only [if_pos hj, if_pos hk]
      rw [getD_set_eq, if_neg (by omega)]
    · simp only [if_neg hk]
  · simp only [if_neg hj]

namespace FVehicleEngineEulerSynth

theorem envelopeStep_spec (FT : ℚ) (T : List ℚ) (Acc : List ℚ × List Int) (e : Int × ℚ)
    (h0 : 0 ≤ e.1) (h1 : e.1 < (Acc.1.length : Int)) :
    (EnvelopeStep FT T Acc e).1.length = Acc.1.length ∧
    BufGet (EnvelopeStep FT T Acc e).1 e.1 =
      NextEnvelope FT (BufGet T e.1) (BufGet Acc.1 e.1) e.2 ∧
    (∀ j, j ≠ e.1 → BufGet (EnvelopeStep FT T Acc e).1 j = BufGet Acc.1 j) ∧
    (EnvelopeStep FT T Acc e).2 = Acc.2 ++
      (if IsNearlyEqual (NextEnvelope FT (BufGet T e.1) (BufGet Acc.1 e.1) e.2) (BufGet T e.1)
        (1 / 100000) then [e.1] else []) := by
  unfold EnvelopeStep NextEnvelope
  by_cases hgt : BufGet Acc.1 e.1 > BufGet T e.1
  · simp only [if_pos hgt, bufGet_bufSet_same _ _ _ h0 h1]
    refine ⟨?_, ?_, ?_, ?_⟩ <;> split_ifs <;>
      simp [bufSet_length, bufGet_bufSet_same _ _ _ h0 h1] <;>
      intro j hj <;> exact bufGet_bufSet_ne _ _ _ _ hj
  · by_cases hlt : BufGet Acc.1 e.1 < BufGet T e.1
    · simp only [if_neg hgt, if_pos hlt, bufGet_bufSet_same _ _ _ h0 h1]
      refine ⟨?_, ?_, ?_, ?_⟩ <;> split_ifs <;>
        simp [bufSet_length, bufGet_bufSet_same _ _ _ h0 h1] <;>
        intro j hj <;> exact bufGet_bufSet_ne _ _ _ _ hj
    · simp only [if_neg hgt, if_neg hlt]
      refine ⟨?_, ?_, ?_, ?_⟩ <;> split_ifs <;> simp

theorem envelopeFold_spec (FT : ℚ) (T : List ℚ) :
    ∀ (L : List (Int × ℚ)) (Acc : List ℚ × List Int), (L.map Prod.fst).Nodup →
      (∀ e ∈ L, 0 ≤ e.1 ∧ e.1 < (Acc.1.length : Int)) →
      (L.foldl (EnvelopeStep FT T) Acc).1.length = Acc.1.length ∧
      (∀ e ∈ L, BufGet (L.foldl (EnvelopeStep FT T) Acc).1 e.1 =
        NextEnvelope FT (BufGet T e.1) (BufGet Acc.1 e.1) e.2) ∧
      (∀ j, j ∉ L.map Prod.fst → BufGet (L.foldl (EnvelopeStep FT T) Acc).1 j = BufGet Acc.1 j) ∧
      (∀ k, k ∈ (L.foldl (EnvelopeStep FT T) Acc).2 ↔ k ∈ Acc.2 ∨ ∃ e ∈ L, e.1 = k ∧
        IsNearlyEqual (NextEnvelope FT (BufGet T e.1) (BufGet Acc.1 e.1) e.2) (BufGet T e.1)
          (1 / 100000) = true) := by
  intro L
  induction L with
  | nil =>
    intro Acc _ _
    simp
  | cons e L ih =>
    intro Acc hnd hr
    have hnd2 : e.1 ∉ L.map Prod.fst ∧ (L.map Prod.fst).Nodup := by
      simpa [List.nodup_cons] using hnd
    obtain ⟨s1, s2, s3, s4⟩ :=
      envelopeStep_spec FT T Acc e (hr e (List.mem_cons_self _ _)).1
        (hr e (List.mem_cons_self _ _)).2
    have hr2 : ∀ x ∈ L, 0 ≤ x.1 ∧ x.1 < ((EnvelopeStep FT T Acc e).1.length : Int) := by
      intro x hx
      rw [s1]
      exact hr x (List.mem_cons_of_mem _ hx)
    obtain ⟨i1, i2, i3, i4⟩ := ih (EnvelopeStep FT T Acc e) hnd2.2 hr2
    have hne : ∀ x ∈ L, x.1 ≠ e.1 := by
      intro x hx he
      exact hnd2.1 (he ▸ List.mem_map_of_mem Prod.fst hx)
    rw [List.foldl_cons]
    refine ⟨i1.trans s1, ?_, ?_, ?_⟩
    · intro x hx
      rcases List.mem_cons.mp hx with rfl | hx
      · rw [i3 _ hnd2.1, s2]
      · rw [i2 x hx, s3 _ (hne x hx)]
    · intro j hj
      have hj2 : j ≠ e.1 ∧ j ∉ L.map Prod.fst := by
        simpa [not_or] using hj
      rw [i3 j hj2.2, s3 j hj2.1]
    · intro k
      rw [i4 k, s4]
      constructor
      · rintro (h | ⟨x, hx, rfl, hn⟩)
        · rcases List.mem_append.mp h with h | h
          · exact Or.inl h
          · split_ifs at h with hc
            · have : k = e.1 := by simpa using h
              exact Or.inr ⟨e, List.mem_cons_self _ _, this.symm, hc⟩
            · simp at h
        · rw [s3 _ (hne x hx)] at hn
          exact Or.inr ⟨x, List.mem_cons_of_mem _ hx, rfl, hn⟩
      · rintro (h | ⟨x, hx, rfl, hn⟩)
        · exact Or.inl (List.mem_append_left _ h)
        · rcases List.mem_cons.mp hx with rfl | hx
          · left
            rw [if_pos hn]
            simp
          · right
            refine ⟨x, hx, rfl, ?_⟩
            rw [s3 _ (hne x hx)]
            exact hn

theorem mem_foldl_mapRemove (Keys : List Int) :
    ∀ (M : List (Int × ℚ)) (e : Int × ℚ),
      e ∈ Keys.foldl MapRemove M ↔ e ∈ M ∧ e.1 ∉ Keys := by
  induction Keys with
  | nil => intro M e; simp
  | cons k Keys ih =>
    intro M e
    rw [List.foldl_cons, ih]
    simp only [MapRemove, List.mem_filter, List.mem_cons, not_or, bne_iff_ne, ne_eq]
    tauto

theorem nextEnvelope_bounds (FT Target Current Speed : ℚ) (hFT : 0 ≤ FT) (hS : 0 ≤ Speed) :
    min Current Target ≤ NextEnvelope FT Target Current Speed ∧
    NextEnvelope FT Target Current Speed ≤ max Current Target ∧
    |NextEnvelope FT Target Current Speed - Current| ≤ Speed * FT ∧
    |NextEnvelope FT Target Current Speed - Target| ≤ |Current - Target| ∧
    (Current ≤ Target → Current ≤ NextEnvelope FT Target Current Speed ∧
      NextEnvelope FT Target Current Speed ≤ Target) ∧
    (Target ≤ Current → Target ≤ NextEnvelope FT Target Current Speed ∧
      NextEnvelope FT Target Current Speed ≤ Current) := by
  have hp : 0 ≤ Speed * FT := mul_nonneg hS hFT
  unfold NextEnvelope
  by_cases hgt : Current > Target
  · rw [if_pos hgt]
    rcases max_cases Target (Current - Speed * FT) with ⟨e, h⟩ | ⟨e, h⟩ <;> rw [e] <;>
      refine ⟨?_, ?_, ?_, ?_, ?_, ?_⟩ <;>
      first
      | (rw [abs_le]; constructor <;> linarith)
      | (rw [abs_of_nonneg (by linarith), abs_of_nonneg (by linarith)]; linarith)
      | (intro hc; constructor <;> linarith)
      | (simp only [min_le_iff, le_max_iff]; first | (left; linarith) | (right; linarith))
  · by_cases hlt : Current < Target
    · rw [if_neg hgt, if_pos hlt]
      rcases min_cases Target (Current + Speed * FT) with ⟨e, h⟩ | ⟨e, h⟩ <;> rw [e] <;>
        refine ⟨?_, ?_, ?_, ?_, ?_, ?_⟩ <;>
        first
        | (rw [abs_le]; constructor <;> linarith)
        | (rw [abs_of_nonpos (by linarith), abs_of_nonpos (by linarith)]; linarith)
          | (intro hc; constructor <;> linarith)
        | (simp only [min_le_iff, le_max_iff]; first | (left; linarith) | (right; linarith))
    · rw [if_neg hgt, if_neg hlt]
      have : Current = Target := le_antisymm (not_lt.mp hgt) (not_lt.mp hlt)
      subst this
      simp [hp]

/-- C27: in the envelope pass at the end of `FVehicleEngineEulerSynth::Generate` (map keys
distinct and inside both buffers, block duration non-negative), for every map entry with a
non-negative speed the new current envelope lies between the old value and the target, differs
from the old value by at most `speed * FrameTime` and is no further from the target than before;
an entry stays in the map exactly when its new value is not within `1e-5` of the target, no
entry is added, envelopes of indices outside the map and all targets are unchanged. -/
theorem C27_envelope_pass_moves_toward_target (S : FVehicleEngineEulerSynth)
    (hKeys : (S.EnvelopeIdxMap.map Prod.fst).Nodup)
    (hRange : ∀ e ∈ S.EnvelopeIdxMap, 0 ≤ e.1 ∧ e.1 < (S.CurrentEnvelopeBuffer.length : Int) ∧
      e.1 < (S.TargetEnvelopBuffer.length : Int))
    (hFrameTime : 0 ≤ S.FrameTime) :
    (∀ e ∈ S.EnvelopeIdxMap, 0 ≤ e.2 →
      min (BufGet S.CurrentEnvelopeBuffer e.1) (BufGet S.TargetEnvelopBuffer e.1) ≤
        BufGet (EnvelopePass S).CurrentEnvelopeBuffer e.1 ∧
      BufGet (EnvelopePass S).CurrentEnvelopeBuffer e.1 ≤
        max (BufGet S.CurrentEnvelopeBuffer e.1) (BufGet S.TargetEnvelopBuffer e.1) ∧
      |BufGet (EnvelopePass S).CurrentEnvelopeBuffer e.1 - BufGet S.CurrentEnvelopeBuffer e.1| ≤
        e.2 * S.FrameTime ∧
      |BufGet (EnvelopePass S).CurrentEnvelopeBuffer e.1 - BufGet S.TargetEnvelopBuffer e.1| ≤
        |BufGet S.CurrentEnvelopeBuffer e.1 - BufGet S.TargetEnvelopBuffer e.1|) ∧
    (∀ e ∈ S.EnvelopeIdxMap,
      (e.1 ∉ (EnvelopePass S).EnvelopeIdxMap.map Prod.fst ↔
        |BufGet (EnvelopePass S).CurrentEnvelopeBuffer e.1 - BufGet S.TargetEnvelopBuffer e.1| ≤
          1 / 100000) ∧
      (e ∈ (EnvelopePass S).EnvelopeIdxMap ↔
        ¬ |BufGet (EnvelopePass S).CurrentEnvelopeBuffer e.1 - BufGet S.TargetEnvelopBuffer e.1| ≤
          1 / 100000)) ∧
    (∀ e ∈ (EnvelopePass S).EnvelopeIdxMap, e ∈ S.EnvelopeIdxMap) ∧
    (∀ j, j ∉ S.EnvelopeIdxMap.map Prod.fst →
      BufGet (EnvelopePass S).CurrentEnvelopeBuffer j = BufGet S.CurrentEnvelopeBuffer j) ∧
    (EnvelopePass S).CurrentEnvelopeBuffer.length = S.CurrentEnvelopeBuffer.length ∧
    (EnvelopePass S).TargetEnvelopBuffer = S.TargetEnvelopBuffer := by
  obtain ⟨f1, f2, f3, f4⟩ :=
    envelopeFold_spec S.FrameTime S.TargetEnvelopBuffer S.EnvelopeIdxMap
      (S.CurrentEnvelopeBuffer, []) hKeys (fun e he => ⟨(hRange e he).1, (hRange e he).2.1⟩)
  have hinj := List.inj_on_of_nodup_map hKeys
  have hrem : ∀ e ∈ S.EnvelopeIdxMap,
      (e.1 ∈ (S.EnvelopeIdxMap.foldl (EnvelopeStep S.FrameTime S.TargetEnvelopBuffer)
        (S.CurrentEnvelopeBuffer, [])).2 ↔
      |BufGet (EnvelopePass S).CurrentEnvelopeBuffer e.1 - BufGet S.TargetEnvelopBuffer e.1| ≤
        1 / 100000) := by
    intro e he
    have hv : BufGet (EnvelopePass S).CurrentEnvelopeBuffer e.1 =
        NextEnvelope S.FrameTime (BufGet S.TargetEnvelopBuffer e.1)
          (BufGet S.CurrentEnvelopeBuffer e.1) e.2 := f2 e he
    rw [f4, hv]
    constructor
    · rintro (h | ⟨x, hx, hxe, hn⟩)
      · simp at h
      · have : x = e := hinj hx he hxe
        subst this
        simpa [IsNearlyEqual] using hn
    · intro h
      exact Or.inr ⟨e, he, rfl, by simpa [IsNearlyEqual] using h⟩
  have hmem : ∀ e, e ∈ (EnvelopePass S).EnvelopeIdxMap ↔ e ∈ S.EnvelopeIdxMap ∧
      e.1 ∉ (S.EnvelopeIdxMap.foldl (EnvelopeStep S.FrameTime S.TargetEnvelopBuffer)
        (S.CurrentEnvelopeBuffer, [])).2 := fun e => mem_foldl_mapRemove _ _ e
  refine ⟨?_, ?_, ?_, f3, f1, rfl⟩
  · intro e he hs
    have hv : BufGet (EnvelopePass S).CurrentEnvelopeBuffer e.1 =
        NextEnvelope S.FrameTime (BufGet S.TargetEnvelopBuffer e.1)
          (BufGet S.CurrentEnvelopeBuffer e.1) e.2 := f2 e he
    rw [hv]
    obtain ⟨b1, b2, b3, b4, _, _⟩ :=
      nextEnvelope_bounds S.FrameTime (BufGet S.TargetEnvelopBuffer e.1)
        (BufGet S.CurrentEnvelopeBuffer e.1) e.2 hFrameTime hs
    exact ⟨b1, b2, b3, b4⟩
  · intro e he
    have hr := hrem e he
    constructor
    · rw [← hr]
      constructor
      · intro hn
        by_contra hc
        exact hn (List.mem_map_of_mem Prod.fst ((hmem e).mpr ⟨he, hc⟩))
      · intro hin hk
        obtain ⟨x, hx, hxe⟩ := List.mem_map.mp hk
        have hx2 := (hmem x).mp hx
        exact hx2.2 (hxe ▸ hin)
    · rw [hmem, ← hr]
      exact ⟨fun h => h.2, fun h => ⟨he, h⟩⟩
  · intro e he
    exact ((hmem e).mp he).1

theorem C27_envelope_pass_moves_toward_target_witness :
    ((Sample.EngineEnvelopes.EnvelopeIdxMap.map Prod.fst).Nodup ∧
      (∀ e ∈ Sample.EngineEnvelopes.EnvelopeIdxMap, 0 ≤ e.1 ∧
        e.1 < (Sample.EngineEnvelopes.CurrentEnvelopeBuffer.length : Int) ∧
        e.1 < (Sample.EngineEnvelopes.TargetEnvelopBuffer.length : Int)) ∧
      0 ≤ Sample.EngineEnvelopes.FrameTime) ∧
    (EnvelopePass Sample.EngineEnvelopes).CurrentEnvelopeBuffer = [1 / 10, 0, 49 / 100, 7] ∧
    (EnvelopePass Sample.EngineEnvelopes).EnvelopeIdxMap = [(0, 10), (2, 1)] ∧
    (∀ j, j ∉ Sample.EngineEnvelopes.EnvelopeIdxMap.map Prod.fst →
      BufGet (EnvelopePass Sample.EngineEnvelopes).CurrentEnvelopeBuffer j =
        BufGet Sample.EngineEnvelopes.CurrentEnvelopeBuffer j) :=
  ⟨⟨by decide, by decide, by decide!⟩, by decide!, by decide!,
    (C27_envelope_pass_moves_toward_target Sample.EngineEnvelopes (by decide) (by decide)
      (by decide!)).2.2.2.1⟩

end FVehicleEngineEulerSynth

theorem mem_addUnique (A : List FMidiVoiceId) (x v : FMidiVoiceId) :
    v ∈ AddUnique A x ↔ v ∈ A ∨ v = x := by
  unfold AddUnique
  split_ifs with h
  · constructor
    · exact Or.inl
    · rintro (h1 | rfl)
      · exact h1
      · exact h
  · simp

theorem nodup_addUnique (A : List FMidiVoiceId) (x : FMidiVoiceId) (h : A.Nodup) :
    (AddUnique A x).Nodup := by
  unfold AddUnique
  split_ifs with hx
  · exact h
  · rw [List.nodup_append]
    refine ⟨h, List.nodup_singleton _, ?_⟩
    intro a ha hb
    rw [List.mem_singleton] at hb
    exact hx (hb ▸ ha)

namespace FMidiEventParser

theorem cancelScan_iff (Pending : List FMidiNoteAction) (A : FMidiNoteAction) (idx : Nat) :
    ∀ n, CancelScan Pending A idx n = true ↔
      ∀ j b, idx < j → j < n → Pending.get? j = some b → b.VoiceId = A.VoiceId →
        b.Velocity ≠ VelocityNoteOff := by
  intro n
  induction n with
  | zero =>
    simp [CancelScan]
  | succ n ih =>
    rw [CancelScan]
    by_cases hn : n > idx
    · rw [if_pos hn]
      cases hg : Pending.get? n with
      | none =>
        simp only []
        rw [ih]
        constructor
        · intro h j b h1 h2 h3 h4
          by_cases hj : j < n
          · exact h j b h1 hj h3 h4
          · have : j = n := by omega
            subst this
            rw [hg] at h3
            cases h3
        · intro h j b h1 h2 h3 h4
          exact h j b h1 (by omega) h3 h4
      | some Other =>
        simp only []
        by_cases hc : Other.VoiceId = A.VoiceId ∧ Other.Velocity = VelocityNoteOff
        · rw [if_pos hc]
          constructor
          · intro h
            cases h
          · intro h
            exact absurd hc.2 (h n Other hn (by omega) hg hc.1)
        · rw [if_neg hc, ih]
          constructor
          · intro h j b h1 h2 h3 h4
            by_cases hj : j < n
            · exact h j b h1 hj h3 h4
            · have : j = n := by omega
              subst this
              rw [hg] at h3
              cases h3
              exact fun hv => hc ⟨h4, hv⟩
          · intro h j b h1 h2 h3 h4
            exact h j b h1 (by omega) h3 h4
    · rw [if_neg hn]
      constructor
      · intro _ j b h1 h2 _ _
        omega
      · intro _
        rfl

theorem cancelScan_length_iff (Pending : List FMidiNoteAction) (A : FMidiNoteAction)
    (idx : Nat) :
    CancelScan Pending A idx Pending.length = true ↔ NoLaterNoteOff Pending idx A.VoiceId := by
  rw [cancelScan_iff]
  unfold NoLaterNoteOff
  constructor
  · intro h j b h1 h3 h4
    have hj : j < Pending.length := by
      by_contra hc
      rw [List.get?_eq_none.mpr (not_lt.mp hc)] at h3
      cases h3
    exact h j b h1 hj h3 h4
  · intro h j b h1 _ h3 h4
    exact h j b h1 h3 h4

theorem processNoteActionsLoop_spec (Pending : List FMidiNoteAction) :
    ∀ (Rest : List FMidiNoteAction) (idx : Nat) (Out : TMap FMidiNoteAction × List FMidiVoiceId),
      Pending.drop idx = Rest →
      (∀ v, v ∈ TMap.Keys (ProcessNoteActionsLoop Pending Rest idx Out).1 ↔
        v ∈ TMap.Keys Out.1 ∨ ∃ i a, idx ≤ i ∧ Pending.get? i = some a ∧ a.VoiceId = v ∧
          a.Velocity > VelocityNoteOff ∧ NoLaterNoteOff Pending i v) ∧
      (∀ v, v ∈ (ProcessNoteActionsLoop Pending Rest idx Out).2 ↔
        v ∈ Out.2 ∨ ∃ i a, idx ≤ i ∧ Pending.get? i = some a ∧ a.VoiceId = v ∧
          a.Velocity = VelocityNoteOff) ∧
      (Out.2.Nodup → (ProcessNoteActionsLoop Pending Rest idx Out).2.Nodup) := by
  intro Rest
  induction Rest with
  | nil =>
    intro idx Out hd
    have hlen : Pending.length ≤ idx := List.drop_eq_nil_iff.mp hd
    have hnone : ∀ i, idx ≤ i → Pending.get? i = none := fun i hi =>
      List.get?_eq_none.mpr (by omega)
    refine ⟨fun v => ?_, fun v => ?_, fun h => h⟩
    · rw [ProcessNoteActionsLoop]
      constructor
      · exact Or.inl
      · rintro (h | ⟨i, a, hi, hg, _⟩)
        · exact h
        · rw [hnone i hi] at hg
          cases hg
    · rw [ProcessNoteActionsLoop]
      constructor
      · exact Or.inl
      · rintro (h | ⟨i, a, hi, hg, _⟩)
        · exact h
        · rw [hnone i hi] at hg
          cases hg
  | cons A Rest ih =>
    intro idx Out hd
    have hlt : idx < Pending.length := by
      by_contra hc
      rw [List.drop_eq_nil_iff.mpr (not_lt.mp hc)] at hd
      cases hd
    have hget : Pending.get? idx = some A := by
      have h1 := List.drop_eq_getElem_cons hlt
      rw [hd] at h1
      rw [List.get?_eq_getElem?, List.getElem?_eq_getElem hlt]
      injection h1 with h2 _
      rw [h2]
    have hd2 : Pending.drop (idx + 1) = Rest := by
      have h1 := List.drop_eq_getElem_cons hlt
      rw [hd] at h1
      injection h1 with _ h3
      exact h3.symm
    rw [ProcessNoteActionsLoop]
    by_cases hv : A.Velocity > VelocityNoteOff
    · have hv0 : A.Velocity ≠ VelocityNoteOff := Nat.ne_of_gt hv
      by_cases hc : CancelScan Pending A idx Pending.length = true
      · simp only [if_pos hv, if_pos hc]
        obtain ⟨i1, i2, i3⟩ := ih (idx + 1) (TMap.Emplace Out.1 A.VoiceId A, Out.2) hd2
        refine ⟨fun v => ?_, fun v => ?_, fun h => i3 h⟩
        · rw [i1 v, TMap.mem_keys_emplace]
          constructor
          · rintro ((rfl | h) | ⟨i, a, hi, r⟩)
            · exact Or.inr ⟨idx, A, le_refl _, hget, rfl, hv,
                (cancelScan_length_iff _ _ _).mp hc⟩
            · exact Or.inl h
            · exact Or.inr ⟨i, a, by omega, r⟩
          · rintro (h | ⟨i, a, hi, hg, r⟩)
            · exact Or.inl (Or.inr h)
            · by_cases hii : i = idx
              · subst hii
                rw [hget] at hg
                cases hg
                exact Or.inl (Or.inl r.1.symm)
              · exact Or.inr ⟨i, a, by omega, hg, r⟩
        · rw [i2 v]
          constructor
          · rintro (h | ⟨i, a, hi, r⟩)
            · exact Or.inl h
            · exact Or.inr ⟨i, a, by omega, r⟩
          · rintro (h | ⟨i, a, hi, hg, r⟩)
            · exact Or.inl h
            · by_cases hii : i = idx
              · subst hii
                rw [hget] at hg
                cases hg
                exact absurd r.2 hv0
              · exact Or.inr ⟨i, a, by omega, hg, r⟩
      · simp only [if_pos hv, if_neg hc]
        obtain ⟨i1, i2, i3⟩ := ih (idx + 1) Out hd2
        refine ⟨fun v => ?_, fun v => ?_, fun h => i3 h⟩
        · rw [i1 v]
          constructor
          · rintro (h | ⟨i, a, hi, r⟩)
            · exact Or.inl h
            · exact Or.inr ⟨i, a, by omega, r⟩
          · rintro (h | ⟨i, a, hi, hg, r⟩)
            · exact Or.inl h
            · by_cases hii : i = idx
              · subst hii
                rw [hget] at hg
                cases hg
                exact absurd ((cancelScan_length_iff _ _ _).mpr (r.1 ▸ r.2.2)) hc
              · exact Or.inr ⟨i, a, by omega, hg, r⟩
        · rw [i2 v]
          constructor
          · rintro (h | ⟨i, a, hi, r⟩)
            · exact Or.inl h
            · exact Or.inr ⟨i, a, by omega, r⟩
          · rintro (h | ⟨i, a, hi, hg, r⟩)
            · exact Or.inl h
            · by_cases hii : i = idx
              · subst hii
                rw [hget] at hg
                cases hg
                exact absurd r.2 hv0
              · exact Or.inr ⟨i, a, by omega, hg, r⟩
    · simp only [if_neg hv]
      have hv0 : A.Velocity = VelocityNoteOff := by
        have : VelocityNoteOff = 0 := rfl
        omega
      obtain ⟨i1, i2, i3⟩ := ih (idx + 1) (Out.1, AddUnique Out.2 A.VoiceId) hd2
      refine ⟨fun v => ?_, fun v => ?_, fun h => i3 (nodup_addUnique _ _ h)⟩
      · rw [i1 v]
        constructor
        · rintro (h | ⟨i, a, hi, r⟩)
          · exact Or.inl h
          · exact Or.inr ⟨i, a, by omega, r⟩
        · rintro (h | ⟨i, a, hi, hg, r⟩)
          · exact Or.inl h
          · by_cases hii : i = idx
            · subst hii
              rw [hget] at hg
              cases hg
              exact absurd r.2.1 hv
            · exact Or.inr ⟨i, a, by omega, hg, r⟩
      · rw [i2 v, mem_addUnique]
        constructor
        · rintro ((h | rfl) | ⟨i, a, hi, r⟩)
          · exact Or.inl h
          · exact Or.inr ⟨idx, A, le_refl _, hget, rfl, hv0⟩
          · exact Or.inr ⟨i, a, by omega, r⟩
        · rintro (h | ⟨i, a, hi, hg, r⟩)
          · exact Or.inl (Or.inl h)
          · by_cases hii : i = idx
            · subst hii
              rw [hget] at hg
              cases hg
              exact Or.inl (Or.inr r.1.symm)
            · exact Or.inr ⟨i, a, by omega, hg, r⟩

/-- C25: for a non-empty pending list, after `ProcessNoteActions` a voice is a key of
`OutNotesOn` exactly when some pending action of the voice has velocity above 0 and no later
pending action of the voice is a note-off; `OutNotesOff` holds a voice exactly once when some
pending action of the voice is a note-off and not at all otherwise; the pending list is
empty. -/
theorem C25_processNoteActions_spec (P : FMidiEventParser) (OutNotesOn : TMap FMidiNoteAction)
    (OutNotesOff : List FMidiVoiceId) (hPending : P.PendingNoteActions ≠ []) :
    (∀ v, v ∈ TMap.Keys (ProcessNoteActions P OutNotesOn OutNotesOff).2.1 ↔
      ∃ i a, P.PendingNoteActions.get? i = some a ∧ a.VoiceId = v ∧
        a.Velocity > VelocityNoteOff ∧ NoLaterNoteOff P.PendingNoteActions i v) ∧
    (∀ v, (ProcessNoteActions P OutNotesOn OutNotesOff).2.2.count v = 1 ↔
      ∃ a ∈ P.PendingNoteActions, a.VoiceId = v ∧ a.Velocity = VelocityNoteOff) ∧
    (∀ v, (ProcessNoteActions P OutNotesOn OutNotesOff).2.2.count v = 0 ↔
      ¬ ∃ a ∈ P.PendingNoteActions, a.VoiceId = v ∧ a.Velocity = VelocityNoteOff) ∧
    (ProcessNoteActions P OutNotesOn OutNotesOff).1.PendingNoteActions = [] := by
  have hlen : ¬ P.PendingNoteActions.length = 0 := by
    intro h
    exact hPending (List.length_eq_zero.mp h)
  obtain ⟨l1, l2, l3⟩ :=
    processNoteActionsLoop_spec P.PendingNoteActions P.PendingNoteActions 0 ([], []) rfl
  have hnd := l3 List.nodup_nil
  have hmem : ∀ v, v ∈ (ProcessNoteActions P OutNotesOn OutNotesOff).2.2 ↔
      ∃ a ∈ P.PendingNoteActions, a.VoiceId = v ∧ a.Velocity = VelocityNoteOff := by
    intro v
    unfold ProcessNoteActions
    rw [if_neg hlen]
    show v ∈ (ProcessNoteActionsLoop P.PendingNoteActions P.PendingNoteActions 0 ([], [])).2 ↔ _
    rw [l2 v]
    constructor
    · rintro (h | ⟨i, a, _, hg, r⟩)
      · cases h
      · exact ⟨a, List.get?_mem hg, r⟩
    · rintro ⟨a, ha, r⟩
      obtain ⟨i, hi⟩ := List.get?_of_mem ha
      exact Or.inr ⟨i, a, Nat.zero_le _, hi, r⟩
  have hnd2 : (ProcessNoteActions P OutNotesOn OutNotesOff).2.2.Nodup := by
    unfold ProcessNoteActions
    rw [if_neg hlen]
    exact hnd
  refine ⟨fun v => ?_, fun v => ?_, fun v => ?_, ?_⟩
  · unfold ProcessNoteActions
    rw [if_neg hlen]
    show v ∈ TMap.Keys
      (ProcessNoteActionsLoop P.PendingNoteActions P.PendingNoteActions 0 ([], [])).1 ↔ _
    rw [l1 v]
    constructor
    · rintro (h | ⟨i, a, _, r⟩)
      · cases h
      · exact ⟨i, a, r⟩
    · rintro ⟨i, a, r⟩
      exact Or.inr ⟨i, a, Nat.zero_le _, r⟩
  · rw [← hmem v]
    constructor
    · intro h
      exact List.count_pos_iff.mp (by omega)
    · intro h
      exact List.count_eq_one_of_mem hnd2 h
  · rw [← hmem v]
    exact List.count_eq_zero
  · unfold ProcessNoteActions
    rw [if_neg hlen]

theorem C25_processNoteActions_spec_witness :
    Sample.PendingParser.PendingNoteActions ≠ [] ∧
    TMap.Keys (ProcessNoteActions Sample.PendingParser [] []).2.1 = [2] ∧
    (ProcessNoteActions Sample.PendingParser [] []).2.2 = [1, 3] ∧
    (∀ v, (ProcessNoteActions Sample.PendingParser [] []).2.2.count v = 1 ↔
      ∃ a ∈ Sample.PendingParser.PendingNoteActions, a.VoiceId = v ∧
        a.Velocity = VelocityNoteOff) :=
  ⟨by decide!, by decide!, by decide!,
    (C25_processNoteActions_spec Sample.PendingParser [] [] (by decide!)).2.1⟩

end FMidiEventParser

theorem bufGet_swapZero (B : List ℚ) (i s j : Nat) (hi : i < B.length) (hs : s < B.length) :
    BufGet (BufSet (BufSet B (i : Int) (BufGet B (s : Int))) (s : Int) 0) (j : Int) =
      if j = s then 0 else if j = i then BufGet B (s : Int) else BufGet B (j : Int) := by
  by_cases h1 : j = s
  · subst h1
    rw [if_pos rfl, bufGet_bufSet_same _ _ _ (by omega) (by rw [bufSet_length]; omega)]
  · rw [if_neg h1, bufGet_bufSet_ne _ _ _ _ (by omega)]
    by_cases h2 : j = i
    · subst h2
      rw [if_pos rfl, bufGet_bufSet_same _ _ _ (by omega) (by omega)]
    · rw [if_neg h2, bufGet_bufSet_ne _ _ _ _ (by omega)]

theorem bufGet_swapKeep (B : List ℚ) (i s j : Nat) (hi : i < B.length) :
    BufGet (BufSet B (i : Int) (BufGet B (s : Int))) (j : Int) =
      if j = i then BufGet B (s : Int) else BufGet B (j : Int) := by
  by_cases h2 : j = i
  · subst h2
    rw [if_pos rfl, bufGet_bufSet_same _ _ _ (by omega) (by omega)]
  · rw [if_neg h2, bufGet_bufSet_ne _ _ _ _ (by omega)]

theorem sum_singleton_range {T : Type} (f : Nat → T) (n : Nat) :
    (∑ j in Finset.range n, ({f j} : Multiset T)) = Multiset.map f (Multiset.range n) := by
  induction n with
  | zero => simp
  | succ n ih =>
    rw [Finset.sum_range_succ, ih, Multiset.range_succ, Multiset.map_cons, add_comm]
    rfl

theorem sum_singleton_filter_range {T : Type} (f : Nat → T) (p : Nat → Prop) [DecidablePred p]
    (n : Nat) :
    (∑ j in Finset.range n, if p j then ({f j} : Multiset T) else 0) =
      Multiset.map f (Multiset.filter p (Multiset.range n)) := by
  induction n with
  | zero => simp
  | succ n ih =>
    rw [Finset.sum_range_succ, ih, Multiset.range_succ]
    by_cases h : p n
    · rw [if_pos h, Multiset.filter_cons_of_pos _ h, Multiset.map_cons, add_comm]
      rfl
    · rw [if_neg h, Multiset.filter_cons_of_neg _ h, add_zero]

namespace FBurbleSoundGen

theorem shrinkLoop_dead (fuel : Nat) (i SwapIdx : Int) (G : FBurbleSoundGen)
    (h1 : i < G.CurrentNumBurbles) (h2 : BufGet G.DurationBuffer i ≤ 0) :
    ShrinkLoop (fuel + 1) i SwapIdx G = ShrinkLoop fuel i (SwapIdx - 1) (SwapDead G i SwapIdx) := by
  rw [ShrinkLoop, if_pos h1, if_pos h2]
  rfl

theorem shrinkLoop_alive (fuel : Nat) (i SwapIdx : Int) (G : FBurbleSoundGen)
    (h1 : i < G.CurrentNumBurbles) (h2 : ¬ BufGet G.DurationBuffer i ≤ 0) :
    ShrinkLoop (fuel + 1) i SwapIdx G = ShrinkLoop fuel (i + 1) SwapIdx G := by
  rw [ShrinkLoop, if_pos h1, if_neg h2]

theorem shrinkLoop_done (fuel : Nat) (i SwapIdx : Int) (G : FBurbleSoundGen)
    (h1 : ¬ i < G.CurrentNumBurbles) : ShrinkLoop fuel i SwapIdx G = G := by
  cases fuel with
  | zero => rfl
  | succ fuel => rw [ShrinkLoop, if_neg h1]

theorem burbleAt_swapDead (G : FBurbleSoundGen) (i s j : Nat) (hi : i ≤ s)
    (hB : BuffersHold G (s + 1)) (hj : j ≠ s) :
    BurbleAt (SwapDead G (i : Int) (s : Int)) j =
      if j = i then BurbleAt G s else BurbleAt G j := by
  obtain ⟨b1, b2, b3, b4, b5, b6, b7, b8⟩ := hB
  unfold BurbleAt SwapDead
  simp only [bufGet_swapZero G.D1Buffer i s j (by omega) (by omega),
    bufGet_swapZero G.D2Buffer i s j (by omega) (by omega),
    bufGet_swapZero G.TwoRCosBuffer i s j (by omega) (by omega),
    bufGet_swapZero G.TwoRCosD2Buffer i s j (by omega) (by omega),
    bufGet_swapZero G.TwoRCosMaxBuffer i s j (by omega) (by omega),
    bufGet_swapKeep G.R2Buffer i s j (by omega),
    bufGet_swapKeep G.ChirpTwoRCosBuffer i s j (by omega),
    bufGet_swapKeep G.DurationBuffer i s j (by omega), if_neg hj]
  split_ifs <;> rfl

theorem swapDead_d1_d2 (G : FBurbleSoundGen) (i s j : Nat) (hi : i ≤ s)
    (hB : BuffersHold G (s + 1)) (hj : s ≤ j) :
    BufGet (SwapDead G (i : Int) (s : Int)).D1Buffer j =
      (if j = s then 0 else BufGet G.D1Buffer j) ∧
    BufGet (SwapDead G (i : Int) (s : Int)).D2Buffer j =
      (if j = s then 0 else BufGet G.D2Buffer j) := by
  obtain ⟨b1, b2, b3, b4, b5, b6, b7, b8⟩ := hB
  unfold SwapDead
  simp only [bufGet_swapZero G.D1Buffer i s j (by omega) (by omega),
    bufGet_swapZero G.D2Buffer i s j (by omega) (by omega)]
  by_cases h : j = s
  · simp [h]
  · have : j ≠ i := by omega
    simp [h, this]

theorem swapDead_buffersHold (G : FBurbleSoundGen) (i s : Int) (n : Nat)
    (hB : BuffersHold G n) : BuffersHold (SwapDead G i s) n := by
  unfold BuffersHold SwapDead
  simp only [bufSet_length]
  exact hB

theorem buffersHold_mono (G : FBurbleSoundGen) (m n : Nat) (h : m ≤ n)
    (hB : BuffersHold G n) : BuffersHold G m := by
  obtain ⟨b1, b2, b3, b4, b5, b6, b7, b8⟩ := hB
  exact ⟨by omega, by omega, by omega, by omega, by omega, by omega, by omega, by omega⟩

theorem burbleAt_duration (G : FBurbleSoundGen) (j : Nat) :
    (BurbleAt G j).2.2.2.2.2.2.2 = BufGet G.DurationBuffer j := rfl

theorem aliveSingleton_burbleAt_dead (G : FBurbleSoundGen) (j : Nat)
    (h : BufGet G.DurationBuffer j ≤ 0) : AliveSingleton (BurbleAt G j) = 0 := by
  unfold AliveSingleton
  rw [burbleAt_duration, if_neg (not_lt.mpr h)]

theorem aliveSingleton_burbleAt_alive (G : FBurbleSoundGen) (j : Nat)
    (h : 0 < BufGet G.DurationBuffer j) : AliveSingleton (BurbleAt G j) = {BurbleAt G j} := by
  unfold AliveSingleton
  rw [burbleAt_duration, if_pos h]

theorem sum_alive_swapDead (G : FBurbleSoundGen) (i s : Nat) (hi : i ≤ s)
    (hB : BuffersHold G (s + 1)) (hdead : BufGet G.DurationBuffer i ≤ 0) :
    (∑ j in Finset.range s, AliveSingleton (BurbleAt (SwapDead G (i : Int) (s : Int)) j)) =
      ∑ j in Finset.range (s + 1), AliveSingleton (BurbleAt G j) := by
  have hcongr : ∀ j ∈ Finset.range s,
      AliveSingleton (BurbleAt (SwapDead G (i : Int) (s : Int)) j) =
        if j = i then AliveSingleton (BurbleAt G s) else AliveSingleton (BurbleAt G j) := by
    intro j hj
    have hjs : j ≠ s := by
      have := Finset.mem_range.mp hj
      omega
    rw [burbleAt_swapDead G i s j hi hB hjs]
    split_ifs <;> rfl
  rw [Finset.sum_congr rfl hcongr, Finset.sum_range_succ]
  by_cases his : i = s
  · subst his
    rw [aliveSingleton_burbleAt_dead G i hdead, add_zero]
    refine Finset.sum_congr rfl (fun j hj => ?_)
    have := Finset.mem_range.mp hj
    rw [if_neg (by omega)]
  · have hmem : i ∈ Finset.range s := Finset.mem_range.mpr (by omega)
    rw [← Finset.add_sum_erase _ _ hmem, if_pos rfl,
      ← Finset.add_sum_erase (Finset.range s) (fun j => AliveSingleton (BurbleAt G j)) hmem,
      aliveSingleton_burbleAt_dead G i hdead, zero_add, add_comm]
    congr 1
    refine Finset.sum_congr rfl (fun j hj => ?_)
    rw [if_neg (Finset.ne_of_mem_erase hj)]

theorem shrinkLoop_spec : ∀ (fuel i c : Nat) (SwapIdx : Int) (G : FBurbleSoundGen),
    G.CurrentNumBurbles = (c : Int) → SwapIdx = (c : Int) - 1 → i ≤ c → c ≤ fuel + i →
    BuffersHold G c → (∀ j, j < i → 0 < BufGet G.DurationBuffer j) →
    ∃ c2 : Nat, (ShrinkLoop fuel i SwapIdx G).CurrentNumBurbles = (c2 : Int) ∧ c2 ≤ c ∧
      (∀ j, j < c2 → 0 < BufGet (ShrinkLoop fuel i SwapIdx G).DurationBuffer j) ∧
      (∑ j in Finset.range c2, ({BurbleAt (ShrinkLoop fuel i SwapIdx G) j} : Multiset _)) =
        (∑ j in Finset.range c, AliveSingleton (BurbleAt G j)) ∧
      (∀ j, c2 ≤ j → j < c → BufGet (ShrinkLoop fuel i SwapIdx G).D1Buffer j = 0 ∧
        BufGet (ShrinkLoop fuel i SwapIdx G).D2Buffer j = 0) ∧
      (∀ j, c ≤ j → BufGet (ShrinkLoop fuel i SwapIdx G).D1Buffer j = BufGet G.D1Buffer j ∧
        BufGet (ShrinkLoop fuel i SwapIdx G).D2Buffer j = BufGet G.D2Buffer j) := by
  have hdone : ∀ (fuel c : Nat) (i : Nat) (SwapIdx : Int) (G : FBurbleSoundGen),
      G.CurrentNumBurbles = (c : Int) → c ≤ i →
      (∀ j, j < c → 0 < BufGet G.DurationBuffer j) →
      ∃ c2 : Nat, (ShrinkLoop fuel i SwapIdx G).CurrentNumBurbles = (c2 : Int) ∧ c2 ≤ c ∧
        (∀ j, j < c2 → 0 < BufGet (ShrinkLoop fuel i SwapIdx G).DurationBuffer j) ∧
        (∑ j in Finset.range c2, ({BurbleAt (ShrinkLoop fuel i SwapIdx G) j} : Multiset _)) =
          (∑ j in Finset.range c, AliveSingleton (BurbleAt G j)) ∧
        (∀ j, c2 ≤ j → j < c → BufGet (ShrinkLoop fuel i SwapIdx G).D1Buffer j = 0 ∧
          BufGet (ShrinkLoop fuel i SwapIdx G).D2Buffer j = 0) ∧
        (∀ j, c ≤ j → BufGet (ShrinkLoop fuel i SwapIdx G).D1Buffer j = BufGet G.D1Buffer j ∧
          BufGet (ShrinkLoop fuel i SwapIdx G).D2Buffer j = BufGet G.D2Buffer j) := by
    intro fuel c i SwapIdx G hc hi halive
    rw [shrinkLoop_done fuel (i : Int) SwapIdx G (by rw [hc]; omega)]
    refine ⟨c, hc, le_refl _, halive, ?_, fun j h1 h2 => absurd h2 (by omega),
      fun j _ => ⟨rfl, rfl⟩⟩
    refine Finset.sum_congr rfl (fun j hj => ?_)
    rw [aliveSingleton_burbleAt_alive G j (halive j (Finset.mem_range.mp hj))]
  intro fuel
  induction fuel with
  | zero =>
    intro i c SwapIdx G hc _ hic hfuel _ halive
    have : i = c := by omega
    subst this
    exact hdone 0 i i SwapIdx G hc (le_refl _) halive
  | succ fuel ih =>
    intro i c SwapIdx G hc hs hic hfuel hB halive
    by_cases hlt : i < c
    · have h1 : (i : Int) < G.CurrentNumBurbles := by rw [hc]; omega
      by_cases hdead : BufGet G.DurationBuffer (i : Int) ≤ 0
      · rw [shrinkLoop_dead fuel (i : Int) SwapIdx G h1 hdead]
        have hs2 : SwapIdx = ((c - 1 : Nat) : Int) := by omega
        have hc1 : c - 1 + 1 = c := by omega
        have hB1 : BuffersHold G (c - 1 + 1) := by rw [hc1]; exact hB
        rw [hs2]
        have hburble : ∀ j, j ≠ c - 1 →
            BurbleAt (SwapDead G (i : Int) ((c - 1 : Nat) : Int)) j =
              if j = i then BurbleAt G (c - 1) else BurbleAt G j :=
          fun j hj => burbleAt_swapDead G i (c - 1) j (by omega) hB1 hj
        obtain ⟨c2, p1, p2, p3, p4, p5, p6⟩ :=
          ih i (c - 1) (((c - 1 : Nat) : Int) - 1) (SwapDead G (i : Int) ((c - 1 : Nat) : Int))
            (by show G.CurrentNumBurbles - 1 = _; omega) rfl (by omega) (by omega)
            (swapDead_buffersHold G _ _ _ (buffersHold_mono G _ _ (by omega) hB))
            (by
              intro j hj
              have hb := hburble j (by omega)
              rw [if_neg (by omega)] at hb
              rw [← burbleAt_duration, hb, burbleAt_duration]
              exact halive j hj)
        refine ⟨c2, p1, by omega, p3, ?_, ?_, ?_⟩
        · rw [p4, sum_alive_swapDead G i (c - 1) (by omega) hB1 hdead, hc1]
        · intro j hj1 hj2
          by_cases hj : j < c - 1
          · exact p5 j hj1 hj
          · have hjs : j = c - 1 := by omega
            obtain ⟨q1, q2⟩ := p6 j (by omega)
            obtain ⟨r1, r2⟩ := swapDead_d1_d2 G i (c - 1) j (by omega) hB1 (by omega)
            rw [q1, q2, r1, r2]
            exact ⟨if_pos hjs, if_pos hjs⟩
        · intro j hj
          obtain ⟨q1, q2⟩ := p6 j (by omega)
          obtain ⟨r1, r2⟩ := swapDead_d1_d2 G i (c - 1) j (by omega) hB1 (by omega)
          rw [q1, q2, r1, r2]
          exact ⟨if_neg (by omega), if_neg (by omega)⟩
      · rw [shrinkLoop_alive fuel (i : Int) SwapIdx G h1 hdead]
        have hcast : (i : Int) + 1 = ((i + 1 : Nat) : Int) := by push_cast; rfl
        rw [hcast]
        refine ih (i + 1) c SwapIdx G hc hs (by omega) (by omega) hB ?_
        intro j hj
        by_cases hji : j < i
        · exact halive j hji
        · have : j = i := by omega
          subst this
          exact not_le.mp hdead
    · have : i = c := by omega
      subst this
      exact hdone (fuel + 1) i i SwapIdx G hc (le_refl _) halive

/-- C24: `ShrinkCurrentBurbles` removes exactly the dead burbles. For a pool of `n` burbles
inside the buffers, afterwards every burble below the new count has a positive duration, the
count has decreased by the number of burbles with duration `<= 0`, the multiset of state tuples
of the pool is the multiset of state tuples of the burbles that had a positive duration, and
every vacated slot has `D1 = D2 = 0`. -/
theorem C24_shrinkCurrentBurbles_removes_dead (G : FBurbleSoundGen) (n : Nat)
    (hCount : G.CurrentNumBurbles = (n : Int)) (hBuffers : BuffersHold G n) :
    ∃ n2 : Nat, (ShrinkCurrentBurbles G).CurrentNumBurbles = (n2 : Int) ∧
      (∀ j, j < n2 → 0 < BufGet (ShrinkCurrentBurbles G).DurationBuffer j) ∧
      n2 + Multiset.card
        (Multiset.filter (fun j : Nat => BufGet G.DurationBuffer j ≤ 0) (Multiset.range n)) = n ∧
      Multiset.map (BurbleAt (ShrinkCurrentBurbles G)) (Multiset.range n2) =
        Multiset.map (BurbleAt G)
          (Multiset.filter (fun j : Nat => 0 < BufGet G.DurationBuffer j) (Multiset.range n)) ∧
      (∀ j, n2 ≤ j → j < n → BufGet (ShrinkCurrentBurbles G).D1Buffer j = 0 ∧
        BufGet (ShrinkCurrentBurbles G).D2Buffer j = 0) := by
  obtain ⟨c2, p1, p2, p3, p4, p5, _⟩ :=
    shrinkLoop_spec G.CurrentNumBurbles.toNat 0 n (G.CurrentNumBurbles - 1)
      { G with LastShrinkDelaSample := 0 } hCount (by rw [hCount]) (Nat.zero_le _)
      (by rw [hCount]; simp) hBuffers (fun j hj => absurd hj (by omega))
  have hmap : Multiset.map (BurbleAt (ShrinkCurrentBurbles G)) (Multiset.range c2) =
      Multiset.map (BurbleAt G)
        (Multiset.filter (fun j : Nat => 0 < BufGet G.DurationBuffer j) (Multiset.range n)) := by
    rw [← sum_singleton_range, ← sum_singleton_filter_range]
    exact p4
  refine ⟨c2, p1, p3, ?_, hmap, p5⟩
  have hcard := congrArg Multiset.card hmap
  rw [Multiset.card_map, Multiset.card_map, Multiset.card_range] at hcard
  have hsplit := Multiset.filter_add_not (fun j : Nat => 0 < BufGet G.DurationBuffer j)
    (Multiset.range n)
  have hcard2 := congrArg Multiset.card hsplit
  rw [Multiset.card_add, Multiset.card_range] at hcard2
  have hnot : Multiset.filter (fun j : Nat => ¬ 0 < BufGet G.DurationBuffer j)
      (Multiset.range n) =
      Multiset.filter (fun j : Nat => BufGet G.DurationBuffer j ≤ 0) (Multiset.range n) := by
    refine Multiset.filter_congr (fun j _ => ?_)
    exact not_lt
  rw [hnot] at hcard2
  omega

theorem C24_shrinkCurrentBurbles_removes_dead_witness :
    (Sample.PoolWithDead.CurrentNumBurbles = ((4 : Nat) : Int) ∧
      BuffersHold Sample.PoolWithDead 4) ∧
    (ShrinkCurrentBurbles Sample.PoolWithDead).D1Buffer = [10, 30, 0, 0] ∧
    (ShrinkCurrentBurbles Sample.PoolWithDead).DurationBuffer = [1, 2, 2, -1] ∧
    ∃ n2 : Nat, (ShrinkCurrentBurbles Sample.PoolWithDead).CurrentNumBurbles = (n2 : Int) ∧
      (∀ j, j < n2 → 0 < BufGet (ShrinkCurrentBurbles Sample.PoolWithDead).DurationBuffer j) ∧
      n2 + Multiset.card
        (Multiset.filter (fun j : Nat => BufGet Sample.PoolWithDead.DurationBuffer j ≤ 0)
          (Multiset.range 4)) = 4 ∧
      Multiset.map (BurbleAt (ShrinkCurrentBurbles Sample.PoolWithDead)) (Multiset.range n2) =
        Multiset.map (BurbleAt Sample.PoolWithDead)
          (Multiset.filter (fun j : Nat => 0 < BufGet Sample.PoolWithDead.DurationBuffer j)
            (Multiset.range 4)) ∧
      (∀ j, n2 ≤ j → j < 4 → BufGet (ShrinkCurrentBurbles Sample.PoolWithDead).D1Buffer j = 0 ∧
        BufGet (ShrinkCurrentBurbles Sample.PoolWithDead).D2Buffer j = 0) :=
  ⟨⟨by decide, by decide⟩, by decide!, by decide!,
    C24_shrinkCurrentBurbles_removes_dead Sample.PoolWithDead 4 (by decide) (by decide)⟩

end FBurbleSoundGen

theorem removeAtSwap_append {α : Type} (A B : List α) (x : α) :
    ∃ C, RemoveAtSwap (A ++ x :: B) A.length = A ++ C ∧ C.Perm B := by
  rcases List.eq_nil_or_concat B with rfl | ⟨L, b, hB⟩
  · refine ⟨[], ?_, List.Perm.refl _⟩
    unfold RemoveAtSwap
    simp
  · rw [List.concat_eq_append] at hB
    subst hB
    refine ⟨b :: L, ?_, (List.perm_append_singleton b L).symm⟩
    have h1 : (x :: (L ++ [b])).getLast? = some b := by
      rw [← List.cons_append, List.getLast?_append]
      simp
    have h2 : (b :: (L ++ [b])).dropLast = b :: L := by
      rw [← List.cons_append, List.dropLast_concat]
    unfold RemoveAtSwap
    simp [h1, h2]

theorem arrayMultiplyAddInPlace_length (In : List ℚ) (Gain : ℚ) (Out : List ℚ) :
    (ArrayMultiplyAddInPlace In Gain Out).length = Out.length := by
  unfold ArrayMultiplyAddInPlace
  simp
  omega

theorem writeSlice_length (Buffer : List ℚ) (Index : Int) (New : List ℚ) :
    (WriteSlice Buffer Index New).length = Buffer.length := by
  unfold WriteSlice
  simp
  omega

namespace FPianoSynth

theorem synthHammerIfNeeded_eq (Kn : FPianoKernels) (S : FPianoSynth) (OutAudio : List ℚ) :
    SynthHammerIfNeeded Kn S OutAudio =
      ({ RenderHammer Kn S (OutAudio.length : Int) with
          HammerQueue :=
            (SynthHammerQueueLoop (RenderHammer Kn S (OutAudio.length : Int)).HammerBuffer
              (RenderHammer Kn S (OutAudio.length : Int)).HammerQueue.length 0
              (RenderHammer Kn S (OutAudio.length : Int)).HammerQueue OutAudio).1 },
        (SynthHammerQueueLoop (RenderHammer Kn S (OutAudio.length : Int)).HammerBuffer
          (RenderHammer Kn S (OutAudio.length : Int)).HammerQueue.length 0
          (RenderHammer Kn S (OutAudio.length : Int)).HammerQueue OutAudio).2) := rfl

theorem get?_append_cons_length {α : Type} (A B : List α) (x : α) :
    (A ++ x :: B).get? A.length = some x := by
  induction A with
  | nil => rfl
  | cons a A ih => simpa using ih

theorem set_append_cons_length {α : Type} (A B : List α) (x y : α) :
    (A ++ x :: B).set A.length y = A ++ y :: B := by
  simp

theorem loop_done (HB : List ℚ) (fuel : Nat) (A : List FHammerState) (Out : List ℚ) :
    SynthHammerQueueLoop HB fuel A.length (A ++ []) Out = (A, Out) := by
  cases fuel with
  | zero => simp [SynthHammerQueueLoop]
  | succ fuel =>
    rw [SynthHammerQueueLoop]
    simp

theorem loopChecked_done (HB : List ℚ) (R : Int) (fuel : Nat) (A : List FHammerState)
    (Out : List ℚ) :
    SynthHammerQueueLoopChecked HB R fuel A.length (A ++ []) Out = some (A, Out) := by
  cases fuel with
  | zero => simp [SynthHammerQueueLoopChecked]
  | succ fuel =>
    rw [SynthHammerQueueLoopChecked]
    simp

theorem loop_keep (HB : List ℚ) (fuel : Nat) (A B : List FHammerState) (State : FHammerState)
    (Out : List ℚ)
    (h : (AdvanceHammer (HB.length : Int) (Out.length : Int) State).CurrentIndex <
      (HB.length : Int)) :
    SynthHammerQueueLoop HB (fuel + 1) A.length (A ++ State :: B) Out =
      SynthHammerQueueLoop HB fuel
        (A ++ [AdvanceHammer (HB.length : Int) (Out.length : Int) State]).length
        ((A ++ [AdvanceHammer (HB.length : Int) (Out.length : Int) State]) ++ B)
        (ArrayMultiplyAddInPlace
          (Slice HB State.CurrentIndex
            (min (Out.length : Int) ((HB.length : Int) - State.CurrentIndex)))
          State.Strength Out) := by
  rw [SynthHammerQueueLoop, get?_append_cons_length]
  simp only [set_append_cons_length]
  have h2 : State.CurrentIndex + min (Out.length : Int) ((HB.length : Int) - State.CurrentIndex) <
      (HB.length : Int) := h
  rw [if_pos h2]
  simp [AdvanceHammer]

theorem loop_remove (HB : List ℚ) (fuel : Nat) (A B : List FHammerState) (State : FHammerState)
    (Out : List ℚ)
    (h : ¬ (AdvanceHammer (HB.length : Int) (Out.length : Int) State).CurrentIndex <
      (HB.length : Int)) :
    SynthHammerQueueLoop HB (fuel + 1) A.length (A ++ State :: B) Out =
      SynthHammerQueueLoop HB fuel A.length
        (RemoveAtSwap (A ++ AdvanceHammer (HB.length : Int) (Out.length : Int) State :: B)
          A.length)
        (ArrayMultiplyAddInPlace
          (Slice HB State.CurrentIndex
            (min (Out.length : Int) ((HB.length : Int) - State.CurrentIndex)))
          State.Strength Out) := by
  rw [SynthHammerQueueLoop, get?_append_cons_length]
  simp only [set_append_cons_length]
  have h2 : ¬ State.CurrentIndex +
      min (Out.length : Int) ((HB.length : Int) - State.CurrentIndex) < (HB.length : Int) := h
  rw [if_neg h2]
  rfl

theorem loopChecked_keep (HB : List ℚ) (R : Int) (fuel : Nat) (A B : List FHammerState)
    (State : FHammerState) (Out : List ℚ)
    (hc : SliceInRange (HB.length : Int) State.CurrentIndex
        (min (Out.length : Int) ((HB.length : Int) - State.CurrentIndex)) ∧
      SliceInRange (Out.length : Int) 0
        (min (Out.length : Int) ((HB.length : Int) - State.CurrentIndex)) ∧
      State.CurrentIndex + min (Out.length : Int) ((HB.length : Int) - State.CurrentIndex) ≤ R)
    (h : (AdvanceHammer (HB.length : Int) (Out.length : Int) State).CurrentIndex <
      (HB.length : Int)) :
    SynthHammerQueueLoopChecked HB R (fuel + 1) A.length (A ++ State :: B) Out =
      SynthHammerQueueLoopChecked HB R fuel
        (A ++ [AdvanceHammer (HB.length : Int) (Out.length : Int) State]).length
        ((A ++ [AdvanceHammer (HB.length : Int) (Out.length : Int) State]) ++ B)
        (ArrayMultiplyAddInPlace
          (Slice HB State.CurrentIndex
            (min (Out.length : Int) ((HB.length : Int) - State.CurrentIndex)))
          State.Strength Out) := by
  rw [SynthHammerQueueLoopChecked, get?_append_cons_length]
  simp only [set_append_cons_length]
  have h2 : State.CurrentIndex + min (Out.length : Int) ((HB.length : Int) - State.CurrentIndex) <
      (HB.length : Int) := h
  rw [if_pos hc, if_pos h2]
  simp [AdvanceHammer]

theorem loopChecked_remove (HB : List ℚ) (R : Int) (fuel : Nat) (A B : List FHammerState)
    (State : FHammerState) (Out : List ℚ)
    (hc : SliceInRange (HB.length : Int) State.CurrentIndex
        (min (Out.length : Int) ((HB.length : Int) - State.CurrentIndex)) ∧
      SliceInRange (Out.length : Int) 0
        (min (Out.length : Int) ((HB.length : Int) - State.CurrentIndex)) ∧
      State.CurrentIndex + min (Out.length : Int) ((HB.length : Int) - State.CurrentIndex) ≤ R)
    (h : ¬ (AdvanceHammer (HB.length : Int) (Out.length : Int) State).CurrentIndex <
      (HB.length : Int)) :
    SynthHammerQueueLoopChecked HB R (fuel + 1) A.length (A ++ State :: B) Out =
      SynthHammerQueueLoopChecked HB R fuel A.length
        (RemoveAtSwap (A ++ AdvanceHammer (HB.length : Int) (Out.length : Int) State :: B)
          A.length)
        (ArrayMultiplyAddInPlace
          (Slice HB State.CurrentIndex
            (min (Out.length : Int) ((HB.length : Int) - State.CurrentIndex)))
          State.Strength Out) := by
  rw [SynthHammerQueueLoopChecked, get?_append_cons_length]
  simp only [set_append_cons_length]
  have h2 : ¬ State.CurrentIndex +
      min (Out.length : Int) ((HB.length : Int) - State.CurrentIndex) < (HB.length : Int) := h
  rw [if_pos hc, if_neg h2]
  rfl

theorem synthHammerQueueLoop_spec (HB : List ℚ) (R N : Int) :
    ∀ (fuel : Nat) (A B : List FHammerState) (Out : List ℚ),
      (Out.length : Int) = N → B.length ≤ fuel →
      (∀ H ∈ A, 0 ≤ H.CurrentIndex ∧ H.CurrentIndex < (HB.length : Int) ∧ H.CurrentIndex ≤ R) →
      (∀ H ∈ B, 0 ≤ H.CurrentIndex ∧ H.CurrentIndex ≤ (HB.length : Int) ∧
        H.CurrentIndex + min N ((HB.length : Int) - H.CurrentIndex) ≤ R) →
      (∀ H ∈ (SynthHammerQueueLoop HB fuel A.length (A ++ B) Out).1,
        0 ≤ H.CurrentIndex ∧ H.CurrentIndex < (HB.length : Int) ∧ H.CurrentIndex ≤ R) ∧
      SynthHammerQueueLoopChecked HB R fuel A.length (A ++ B) Out =
        some (SynthHammerQueueLoop HB fuel A.length (A ++ B) Out) ∧
      (SynthHammerQueueLoop HB fuel A.length (A ++ B) Out).1.Perm
        (A ++ (B.map (AdvanceHammer (HB.length : Int) N)).filter
          (fun H => decide (H.CurrentIndex < (HB.length : Int)))) ∧
      ((SynthHammerQueueLoop HB fuel A.length (A ++ B) Out).2.length : Int) = N := by
  have hnil : ∀ (fuel : Nat) (A : List FHammerState) (Out : List ℚ),
      (Out.length : Int) = N →
      (∀ H ∈ A, 0 ≤ H.CurrentIndex ∧ H.CurrentIndex < (HB.length : Int) ∧ H.CurrentIndex ≤ R) →
      (∀ H ∈ (SynthHammerQueueLoop HB fuel A.length (A ++ []) Out).1,
        0 ≤ H.CurrentIndex ∧ H.CurrentIndex < (HB.length : Int) ∧ H.CurrentIndex ≤ R) ∧
      SynthHammerQueueLoopChecked HB R fuel A.length (A ++ []) Out =
        some (SynthHammerQueueLoop HB fuel A.length (A ++ []) Out) ∧
      (SynthHammerQueueLoop HB fuel A.length (A ++ []) Out).1.Perm
        (A ++ (([] : List FHammerState).map (AdvanceHammer (HB.length : Int) N)).filter
          (fun H => decide (H.CurrentIndex < (HB.length : Int)))) ∧
      ((SynthHammerQueueLoop HB fuel A.length (A ++ []) Out).2.length : Int) = N := by
    intro fuel A Out hOut hA
    rw [loop_done, loopChecked_done]
    refine ⟨hA, rfl, ?_, hOut⟩
    simp
  intro fuel
  induction fuel with
  | zero =>
    intro A B Out hOut hlen hA _
    have : B = [] := List.length_eq_zero.mp (by omega)
    subst this
    exact hnil 0 A Out hOut hA
  | succ fuel ih =>
    intro A B Out hOut hlen hA hB
    cases B with
    | nil => exact hnil (fuel + 1) A Out hOut hA
    | cons State B =>
      subst hOut
      obtain ⟨s1, s2, s3⟩ := hB State (List.mem_cons_self _ _)
      have hadv : (AdvanceHammer (HB.length : Int) (Out.length : Int) State).CurrentIndex =
          State.CurrentIndex + min (Out.length : Int) ((HB.length : Int) - State.CurrentIndex) :=
        rfl
      have hc : SliceInRange (HB.length : Int) State.CurrentIndex
            (min (Out.length : Int) ((HB.length : Int) - State.CurrentIndex)) ∧
          SliceInRange (Out.length : Int) 0
            (min (Out.length : Int) ((HB.length : Int) - State.CurrentIndex)) ∧
          State.CurrentIndex +
            min (Out.length : Int) ((HB.length : Int) - State.CurrentIndex) ≤ R := by
        unfold SliceInRange
        omega
      have hOut1 : ((ArrayMultiplyAddInPlace
          (Slice HB State.CurrentIndex
            (min (Out.length : Int) ((HB.length : Int) - State.CurrentIndex)))
          State.Strength Out).length : Int) = (Out.length : Int) := by
        rw [arrayMultiplyAddInPlace_length]
      have hB2 : ∀ H ∈ B, 0 ≤ H.CurrentIndex ∧ H.CurrentIndex ≤ (HB.length : Int) ∧
          H.CurrentIndex + min (Out.length : Int) ((HB.length : Int) - H.CurrentIndex) ≤ R :=
        fun H hH => hB H (List.mem_cons_of_mem _ hH)
      by_cases hk : (AdvanceHammer (HB.length : Int) (Out.length : Int) State).CurrentIndex <
          (HB.length : Int)
      · rw [loop_keep HB fuel A B State Out hk, loopChecked_keep HB R fuel A B State Out hc hk]
        have hA2 : ∀ H ∈ A ++ [AdvanceHammer (HB.length : Int) (Out.length : Int) State],
            0 ≤ H.CurrentIndex ∧ H.CurrentIndex < (HB.length : Int) ∧ H.CurrentIndex ≤ R := by
          intro H hH
          rcases List.mem_append.mp hH with h | h
          · exact hA H h
          · rw [List.mem_singleton] at h
            subst h
            omega
        obtain ⟨r1, r2, r3, r4⟩ := ih _ B _ hOut1 (by simpa using hlen) hA2 hB2
        refine ⟨r1, r2, ?_, r4⟩
        have hlist : A ++ ((State :: B).map (AdvanceHammer (HB.length : Int)
            (Out.length : Int))).filter (fun H => decide (H.CurrentIndex < (HB.length : Int))) =
            (A ++ [AdvanceHammer (HB.length : Int) (Out.length : Int) State]) ++
              (B.map (AdvanceHammer (HB.length : Int) (Out.length : Int))).filter
                (fun H => decide (H.CurrentIndex < (HB.length : Int))) := by
          rw [List.map_cons, List.filter_cons_of_pos (by simpa using hk)]
          simp
        rw [hlist]
        exact r3
      · rw [loop_remove HB fuel A B State Out hk,
          loopChecked_remove HB R fuel A B State Out hc hk]
        obtain ⟨C, hC, hperm⟩ :=
          removeAtSwap_append A B (AdvanceHammer (HB.length : Int) (Out.length : Int) State)
        rw [hC]
        have hB3 : ∀ H ∈ C, 0 ≤ H.CurrentIndex ∧ H.CurrentIndex ≤ (HB.length : Int) ∧
            H.CurrentIndex + min (Out.length : Int) ((HB.length : Int) - H.CurrentIndex) ≤ R :=
          fun H hH => hB2 H (hperm.subset hH)
        have hlenC : C.length ≤ fuel := by
          rw [hperm.length_eq]
          simpa using hlen
        obtain ⟨r1, r2, r3, r4⟩ := ih A C _ hOut1 hlenC hA hB3
        refine ⟨r1, r2, ?_, r4⟩
        rw [List.map_cons, List.filter_cons_of_neg (by simpa using hk)]
        exact r3.trans (List.Perm.append_left A ((hperm.map _).filter _))

theorem renderHammer_spec (Kn : FPianoKernels) (S : FPianoSynth) (N : Int) (hN : 0 ≤ N)
    (h : HammerInv S) :
    (RenderHammer Kn S N).HammerQueue = S.HammerQueue ∧
    (RenderHammer Kn S N).HammerBuffer.length = S.HammerBuffer.length ∧
    S.CurrentHammerBufferIndex ≤ (RenderHammer Kn S N).CurrentHammerBufferIndex ∧
    (RenderHammer Kn S N).CurrentHammerBufferIndex ≤ (S.HammerBuffer.length : Int) ∧
    (∀ x : Int, x ≤ S.CurrentHammerBufferIndex →
      x + min N ((S.HammerBuffer.length : Int) - x) ≤
        (RenderHammer Kn S N).CurrentHammerBufferIndex) ∧
    RenderHammerInRange S N := by
  obtain ⟨h0, h1, _⟩ := h
  unfold RenderHammerInRange RenderHammer IsHammerSynthFinished SliceInRange
  by_cases hf : S.CurrentHammerBufferIndex ≥ (S.HammerBuffer.length : Int)
  · simp only [decide_eq_true hf, Bool.not_true, Bool.false_eq_true, if_false]
    refine ⟨trivial, trivial, le_refl _, h1, ?_, ?_⟩
    · intro x hx
      omega
    · intro hc
      cases hc
  · simp only [decide_eq_false hf, Bool.not_false, if_true]
    refine ⟨trivial, ?_, ?_, ?_, ?_, ?_⟩
    · split_ifs <;> simp only [writeSlice_length]
    · omega
    · omega
    · intro x hx
      omega
    · intro _
      refine ⟨by omega, fun hlt => by omega⟩

theorem hammerSame_refl (S : FPianoSynth) : HammerSame S S := ⟨rfl, rfl, rfl⟩

theorem hammerSame_trans {S T U : FPianoSynth} (h1 : HammerSame S T) (h2 : HammerSame T U) :
    HammerSame S U :=
  ⟨h2.1.trans h1.1, h2.2.1.trans h1.2.1, h2.2.2.trans h1.2.2⟩

theorem hammerSame_updateAllMapIfSosPedalChanged (S : FPianoSynth)
    (NotesOn : TMap FMidiNoteAction) (NotesOff : List FMidiVoiceId) (P : FPianoSynthParams) :
    HammerSame S (UpdateAllMapIfSosPedalChanged S NotesOn NotesOff P).1 := by
  unfold UpdateAllMapIfSosPedalChanged
  split
  · exact ⟨rfl, rfl, rfl⟩
  · exact ⟨rfl, rfl, rfl⟩
  · split <;> exact ⟨rfl, rfl, rfl⟩

theorem hammerSame_updateNoteOff (S : FPianoSynth) (k : FMidiVoiceId) :
    HammerSame S (UpdateNoteOff S k) := by
  unfold UpdateNoteOff
  split <;> exact ⟨rfl, rfl, rfl⟩

theorem hammerSame_updateNotesOffMap (NotesOff : List FMidiVoiceId) :
    ∀ S : FPianoSynth, HammerSame S (UpdateNotesOffMap S NotesOff) := by
  induction NotesOff with
  | nil => exact fun S => hammerSame_refl S
  | cons k rest ih =>
    intro S
    exact hammerSame_trans (hammerSame_updateNoteOff S k) (ih (UpdateNoteOff S k))

theorem hammerSame_updateNoteOn (Kn : FPianoKernels) (P : FPianoSynthParams)
    (Acc : FPianoSynth × ℚ) (e : FMidiVoiceId × FMidiNoteAction) :
    HammerSame Acc.1 (UpdateNoteOn Kn P Acc e).1 := by
  unfold UpdateNoteOn
  simp only
  split
  · exact hammerSame_refl _
  · split
    · split <;> exact ⟨rfl, rfl, rfl⟩
    · exact ⟨rfl, rfl, rfl⟩

theorem hammerSame_foldl_updateNoteOn (Kn : FPianoKernels) (P : FPianoSynthParams)
    (NotesOn : TMap FMidiNoteAction) :
    ∀ Acc : FPianoSynth × ℚ,
      HammerSame Acc.1 (NotesOn.foldl (UpdateNoteOn Kn P) Acc).1 := by
  induction NotesOn with
  | nil => exact fun Acc => hammerSame_refl _
  | cons e rest ih =>
    intro Acc
    exact hammerSame_trans (hammerSame_updateNoteOn Kn P Acc e) (ih (UpdateNoteOn Kn P Acc e))

/-- The hammer bookkeeping of `T` extends the one of `S`: same buffer and rendered length, and
every queued impulse of `T` is new (index 0) or has the index of a queued impulse of `S`. -/
theorem hammerExt_updateNotesMaps (Kn : FPianoKernels) (S : FPianoSynth)
    (NotesOn : TMap FMidiNoteAction) (NotesOff : List FMidiVoiceId) (P : FPianoSynthParams) :
    (UpdateNotesMaps Kn S NotesOn NotesOff P).CurrentHammerBufferIndex =
      S.CurrentHammerBufferIndex ∧
    (UpdateNotesMaps Kn S NotesOn NotesOff P).HammerBuffer = S.HammerBuffer ∧
    ∀ H ∈ (UpdateNotesMaps Kn S NotesOn NotesOff P).HammerQueue,
      H.CurrentIndex = 0 ∨ ∃ H0 ∈ S.HammerQueue, H0.CurrentIndex = H.CurrentIndex := by
  have h1 := hammerSame_updateAllMapIfSosPedalChanged S NotesOn NotesOff P
  have h2 := hammerSame_updateNotesOffMap
    (UpdateAllMapIfSosPedalChanged S NotesOn NotesOff P).2
    (UpdateAllMapIfSosPedalChanged S NotesOn NotesOff P).1
  have h3 := hammerSame_foldl_updateNoteOn Kn P NotesOn
    (UpdateNotesOffMap (UpdateAllMapIfSosPedalChanged S NotesOn NotesOff P).1
      (UpdateAllMapIfSosPedalChanged S NotesOn NotesOff P).2, 0)
  have h123 := hammerSame_trans (hammerSame_trans h1 h2) h3
  have hOn : (UpdateNotesOnMap Kn
        (UpdateNotesOffMap (UpdateAllMapIfSosPedalChanged S NotesOn NotesOff P).1
          (UpdateAllMapIfSosPedalChanged S NotesOn NotesOff P).2) NotesOn P).CurrentHammerBufferIndex
        = S.CurrentHammerBufferIndex ∧
      (UpdateNotesOnMap Kn
        (UpdateNotesOffMap (UpdateAllMapIfSosPedalChanged S NotesOn NotesOff P).1
          (UpdateAllMapIfSosPedalChanged S NotesOn NotesOff P).2) NotesOn P).HammerBuffer
        = S.HammerBuffer ∧
      ∀ H ∈ (UpdateNotesOnMap Kn
        (UpdateNotesOffMap (UpdateAllMapIfSosPedalChanged S NotesOn NotesOff P).1
          (UpdateAllMapIfSosPedalChanged S NotesOn NotesOff P).2) NotesOn P).HammerQueue,
        H.CurrentIndex = 0 ∨ H ∈ S.HammerQueue := by
    unfold UpdateNotesOnMap
    simp only
    split
    · refine ⟨h123.2.1, h123.2.2, ?_⟩
      intro H hH
      rcases List.mem_append.mp hH with h | h
      · exact Or.inr (h123.1 ▸ h)
      · rw [List.mem_singleton] at h
        exact Or.inl (by rw [h]; rfl)
    · exact ⟨h123.2.1, h123.2.2, fun H hH => Or.inr (h123.1 ▸ hH)⟩
  obtain ⟨o1, o2, o3⟩ := hOn
  unfold UpdateNotesMaps
  simp only
  unfold AdjustDynamicRangeIfNeeded
  have hkeep : ∀ H ∈ (UpdateNotesOnMap Kn
        (UpdateNotesOffMap (UpdateAllMapIfSosPedalChanged S NotesOn NotesOff P).1
          (UpdateAllMapIfSosPedalChanged S NotesOn NotesOff P).2) NotesOn P).HammerQueue,
      H.CurrentIndex = 0 ∨ ∃ H0 ∈ S.HammerQueue, H0.CurrentIndex = H.CurrentIndex := by
    intro H hH
    rcases o3 H hH with h | h
    · exact Or.inl h
    · exact Or.inr ⟨H, h, rfl⟩
  split
  · exact ⟨o1, o2, hkeep⟩
  · split
    · refine ⟨o1, o2, ?_⟩
      intro H hH
      obtain ⟨H1, hH1, rfl⟩ := List.mem_map.mp hH
      by_cases hz : H1.CurrentIndex = 0
      · left
        rw [if_pos hz]
        exact hz
      · rw [if_neg hz]
        exact hkeep H1 hH1
    · exact ⟨o1, o2, hkeep⟩

theorem hammerSame_synthNotesOff (Kn : FPianoKernels) (S : FPianoSynth) (Out : List ℚ)
    (b : Bool) : HammerSame S (SynthNotesOff Kn S Out b).1 := by
  unfold SynthNotesOff
  split <;> exact ⟨rfl, rfl, rfl⟩

theorem hammerSame_synthNoteOnWithSusPedalOn (Kn : FPianoKernels) (S : FPianoSynth)
    (Out : List ℚ) : HammerSame S (SynthNoteOnWithSusPedalOn Kn S Out).1 := by
  unfold SynthNoteOnWithSusPedalOn
  split <;> exact ⟨rfl, rfl, rfl⟩

theorem hammerSame_synthNoteOnWithSusPedalOff (Kn : FPianoKernels) (S : FPianoSynth)
    (Out : List ℚ) (b : Bool) : HammerSame S (SynthNoteOnWithSusPedalOff Kn S Out b).1 := by
  unfold SynthNoteOnWithSusPedalOff
  split <;> exact ⟨rfl, rfl, rfl⟩

theorem hammerInv_of_hammerSame {S T : FPianoSynth} (h : HammerSame S T) (hS : HammerInv S) :
    HammerInv T := by
  obtain ⟨h1, h2, h3⟩ := h
  unfold HammerInv
  rw [h1, h2, h3]
  exact hS

theorem hammerInv_updateNotesMaps (Kn : FPianoKernels) (S : FPianoSynth)
    (NotesOn : TMap FMidiNoteAction) (NotesOff : List FMidiVoiceId) (P : FPianoSynthParams)
    (hS : HammerInv S) : HammerInv (UpdateNotesMaps Kn S NotesOn NotesOff P) := by
  obtain ⟨e1, e2, e3⟩ := hammerExt_updateNotesMaps Kn S NotesOn NotesOff P
  obtain ⟨s1, s2, s3⟩ := hS
  unfold HammerInv
  rw [e1, e2]
  refine ⟨s1, s2, fun H hH => ?_⟩
  rcases e3 H hH with h | ⟨H0, hH0, h⟩
  · rw [h]
    exact ⟨le_refl _, s1⟩
  · rw [← h]
    exact s3 H0 hH0

/-- The effect of `SynthHammerIfNeeded` on a state with consistent hammer bookkeeping. -/
theorem synthHammerIfNeeded_spec (Kn : FPianoKernels) (S : FPianoSynth) (OutAudio : List ℚ)
    (hS : HammerInv S) :
    (∀ H ∈ (SynthHammerIfNeeded Kn S OutAudio).1.HammerQueue,
      0 ≤ H.CurrentIndex ∧
      H.CurrentIndex < ((SynthHammerIfNeeded Kn S OutAudio).1.HammerBuffer.length : Int) ∧
      H.CurrentIndex ≤ (SynthHammerIfNeeded Kn S OutAudio).1.CurrentHammerBufferIndex) ∧
    SynthHammerIfNeededChecked Kn S OutAudio = some (SynthHammerIfNeeded Kn S OutAudio) ∧
    (SynthHammerIfNeeded Kn S OutAudio).1.HammerQueue.Perm
      ((S.HammerQueue.map
        (AdvanceHammer (S.HammerBuffer.length : Int) (OutAudio.length : Int))).filter
          (fun H => decide (H.CurrentIndex < (S.HammerBuffer.length : Int)))) ∧
    (SynthHammerIfNeeded Kn S OutAudio).1.HammerBuffer.length = S.HammerBuffer.length ∧
    (SynthHammerIfNeeded Kn S OutAudio).2.length = OutAudio.length ∧
    HammerInv (SynthHammerIfNeeded Kn S OutAudio).1 := by
  obtain ⟨q1, q2, q3, q4, q5, q6⟩ :=
    renderHammer_spec Kn S (OutAudio.length : Int) (Int.natCast_nonneg _) hS
  obtain ⟨s1, s2, s3⟩ := hS
  have hlenI : ((RenderHammer Kn S (OutAudio.length : Int)).HammerBuffer.length : Int) =
      (S.HammerBuffer.length : Int) := by rw [q2]
  obtain ⟨r1, r2, r3, r4⟩ :=
    synthHammerQueueLoop_spec (RenderHammer Kn S (OutAudio.length : Int)).HammerBuffer
      (RenderHammer Kn S (OutAudio.length : Int)).CurrentHammerBufferIndex
      (OutAudio.length : Int)
      (RenderHammer Kn S (OutAudio.length : Int)).HammerQueue.length []
      (RenderHammer Kn S (OutAudio.length : Int)).HammerQueue OutAudio rfl (le_refl _)
      (fun H hH => absurd hH (List.not_mem_nil H))
      (by
        intro H hH
        rw [q1] at hH
        obtain ⟨a, b⟩ := s3 H hH
        rw [hlenI]
        exact ⟨a, by omega, q5 H.CurrentIndex b⟩)
  simp only [List.length_nil, List.nil_append] at r1 r2 r3 r4
  refine ⟨?_, ?_, ?_, q2, ?_, ?_⟩
  · rw [synthHammerIfNeeded_eq]
    exact r1
  · unfold SynthHammerIfNeededChecked
    rw [if_pos q6]
    simp only
    rw [r2, synthHammerIfNeeded_eq]
  · rw [synthHammerIfNeeded_eq]
    exact r3.trans (List.Perm.of_eq (by rw [hlenI, q1]))
  · rw [synthHammerIfNeeded_eq]
    exact_mod_cast r4
  · rw [synthHammerIfNeeded_eq]
    refine ⟨by show 0 ≤ (RenderHammer Kn S (OutAudio.length : Int)).CurrentHammerBufferIndex; omega,
      ?_, fun H hH => ?_⟩
    · show (RenderHammer Kn S (OutAudio.length : Int)).CurrentHammerBufferIndex ≤
        ((RenderHammer Kn S (OutAudio.length : Int)).HammerBuffer.length : Int)
      rw [hlenI]
      exact q4
    · obtain ⟨a, _, c⟩ := r1 H hH
      exact ⟨a, c⟩

theorem hammerInv_synthesize (Kn : FPianoKernels) (S : FPianoSynth) (OutAudio : List ℚ)
    (NotesOn : TMap FMidiNoteAction) (NotesOff : List FMidiVoiceId) (P : FPianoSynthParams)
    (T : ℚ) (hS : HammerInv S) :
    HammerInv (Synthesize Kn S OutAudio NotesOn NotesOff P T).1 := by
  unfold Synthesize
  split
  · exact hS
  · have h0 : HammerInv { S with CurrentSecond := T / 1000 } := hS
    have h1 := hammerInv_updateNotesMaps Kn _ NotesOn NotesOff P h0
    have h2 := (synthHammerIfNeeded_spec Kn _ OutAudio h1).2.2.2.2.2
    have h3 : HammerInv (SynthNotesOff Kn (SynthHammerIfNeeded Kn
        (UpdateNotesMaps Kn { S with CurrentSecond := T / 1000 } NotesOn NotesOff P) OutAudio).1
        (SynthHammerIfNeeded Kn
          (UpdateNotesMaps Kn { S with CurrentSecond := T / 1000 } NotesOn NotesOff P)
          OutAudio).2 P.IsSusPedalOn).1 :=
      hammerInv_of_hammerSame (hammerSame_synthNotesOff Kn _ _ _) h2
    simp only
    split
    · exact (hammerInv_of_hammerSame (hammerSame_synthNoteOnWithSusPedalOn Kn _ _) h3 :)
    · exact (hammerInv_of_hammerSame (hammerSame_synthNoteOnWithSusPedalOff Kn _ _ _) h3 :)

theorem reachable_hammerInv (Kn : FPianoKernels) (S : FPianoSynth) (h : Reachable Kn S) :
    HammerInv S := by
  induction h with
  | construct M Rate Sb Delay Dur =>
    refine ⟨le_refl _, ?_, fun H hH => absurd hH (List.not_mem_nil H)⟩
    show (0 : Int) ≤ _
    exact Int.natCast_nonneg _
  | synthesize S Out NotesOn NotesOff P T _ ih => exact hammerInv_synthesize Kn S Out _ _ P T ih
  | updateNotesMaps S NotesOn NotesOff P _ ih => exact hammerInv_updateNotesMaps Kn S _ _ P ih
  | offAllNotes S _ ih =>
    refine hammerInv_of_hammerSame ?_ ih
    unfold OffAllNotes
    simp only
    split <;> exact ⟨rfl, rfl, rfl⟩
  | killAllNotes S _ ih =>
    exact ⟨ih.1, ih.2.1, fun H hH => absurd hH (List.not_mem_nil H)⟩
  | setVelocityRemapCurve S C _ ih => exact ih
  | setNoteGainCurve S C _ ih => exact ih
  | setHammerGainCurve S C _ ih => exact ih

/-- C30: in every reachable state of `FPianoSynth`, a call of `SynthHammerIfNeeded` takes only
slices that are in range and reads only hammer samples that are already rendered (the checked
function returns the result of the call); afterwards every queued impulse has
`0 <= CurrentIndex < HammerBuffer.Num()` and `CurrentIndex <= CurrentHammerBufferIndex`; the
queue is, up to order, the advanced impulses whose index is below `HammerBuffer.Num()`, and an
advanced index never exceeds `HammerBuffer.Num()`, so an impulse is removed exactly when its
index reaches `HammerBuffer.Num()`. -/
theorem C30_hammer_queue_reads_rendered_samples (Kn : FPianoKernels) (S : FPianoSynth)
    (OutAudio : List ℚ) (hS : Reachable Kn S) :
    (∀ H ∈ (SynthHammerIfNeeded Kn S OutAudio).1.HammerQueue,
      0 ≤ H.CurrentIndex ∧
      H.CurrentIndex < ((SynthHammerIfNeeded Kn S OutAudio).1.HammerBuffer.length : Int) ∧
      H.CurrentIndex ≤ (SynthHammerIfNeeded Kn S OutAudio).1.CurrentHammerBufferIndex) ∧
    SynthHammerIfNeededChecked Kn S OutAudio = some (SynthHammerIfNeeded Kn S OutAudio) ∧
    (SynthHammerIfNeeded Kn S OutAudio).1.HammerQueue.Perm
      ((S.HammerQueue.map
        (AdvanceHammer (S.HammerBuffer.length : Int) (OutAudio.length : Int))).filter
          (fun H => decide (H.CurrentIndex < (S.HammerBuffer.length : Int)))) ∧
    (∀ H ∈ S.HammerQueue,
      (AdvanceHammer (S.HammerBuffer.length : Int) (OutAudio.length : Int) H).CurrentIndex ≤
        (S.HammerBuffer.length : Int)) ∧
    (SynthHammerIfNeeded Kn S OutAudio).1.HammerBuffer.length = S.HammerBuffer.length := by
  have hInv := reachable_hammerInv Kn S hS
  obtain ⟨p1, p2, p3, p4, _, _⟩ := synthHammerIfNeeded_spec Kn S OutAudio hInv
  refine ⟨p1, p2, p3, ?_, p4⟩
  intro H hH
  obtain ⟨i1, i2, i3⟩ := hInv
  obtain ⟨a, b⟩ := i3 H hH
  show H.CurrentIndex + min (OutAudio.length : Int) ((S.HammerBuffer.length : Int) -
    H.CurrentIndex) ≤ (S.HammerBuffer.length : Int)
  omega

theorem C30_hammer_queue_reads_rendered_samples_witness :
    Reachable Sample.HammerKernels Sample.Struck ∧
    Sample.Struck.HammerQueue.map (fun H => H.CurrentIndex) = [4] ∧
    (SynthHammerIfNeeded Sample.HammerKernels Sample.Struck Sample.Block).1.HammerQueue.map
      (fun H => H.CurrentIndex) = [8] ∧
    Sample.Struck2.HammerQueue.map (fun H => H.CurrentIndex) = [8] ∧
    (SynthHammerIfNeeded Sample.HammerKernels Sample.Struck2 Sample.Block).1.HammerQueue = [] ∧
    SynthHammerIfNeededChecked Sample.HammerKernels Sample.Struck Sample.Block =
      some (SynthHammerIfNeeded Sample.HammerKernels Sample.Struck Sample.Block) :=
  have h : Reachable Sample.HammerKernels Sample.Struck :=
    Reachable.synthesize _ _ _ _ _ _ (Reachable.construct _ _ _ _ _)
  ⟨h, by decide!, by decide!, by decide!, by decide!,
    (C30_hammer_queue_reads_rendered_samples Sample.HammerKernels Sample.Struck Sample.Block
      h).2.1⟩

end FPianoSynth

namespace FPianoSynth

/-- With a negative threshold the bound on the magnitude is lost even for
`DynAdjustFactorMin ≤ 1`: threshold `-4`, factor minimum `-3` and energy `2` give the factor
`max (-4/2) (-3) = -2`, which doubles the magnitude of the oscillator state. -/
theorem dynCompress_negative_threshold :
    Sample.NegativeThresholdSynth.PianoModel.DynAdjustFactorMin ≤ 1
      ∧ CurrentTotalEnergy Sample.Kernels Sample.NegativeThresholdSynth Sample.DynParams
          > DynAdjustValue Sample.NegativeThresholdSynth Sample.DynParams
      ∧ DynCompress Sample.Kernels Sample.NegativeThresholdSynth Sample.DynParams = -2
      ∧ (TMap.Find (AdjustDynamicRangeIfNeeded Sample.Kernels Sample.NegativeThresholdSynth
            Sample.DynParams).NoteOnMap 1).map (fun K => K.Modal.D1Buffer1)
          = some [-2, -2, -2, -2] := by
  decide!

end FPianoSynth

namespace FBurbleSoundGen

end FBurbleSoundGen

namespace FRCurveExtendAssetProxy

end FRCurveExtendAssetProxy

namespace FRCurveExtendAssetProxy

end FRCurveExtendAssetProxy

namespace FBurbleSoundGen

/-- A generator constructed with a sampling rate of at least 400 Hz (and below `400·2^31` Hz)
has `NumSamplesPerGen > 0`; below 400 Hz (and above 0) it is 0. -/
theorem new_numSamplesPerGen (InSamplingRate : ℚ) (InSeed RandSeed InMax : Int) :
    (400 ≤ InSamplingRate → InSamplingRate < 400 * 2147483648 →
      0 < (New InSamplingRate InSeed RandSeed InMax).NumSamplesPerGen) ∧
    (0 ≤ InSamplingRate → InSamplingRate < 400 →
      (New InSamplingRate InSeed RandSeed InMax).NumSamplesPerGen = 0) := by
  constructor
  · intro h1 h2
    have h0 : (0 : ℚ) ≤ 1 / 400 * InSamplingRate := by linarith
    have hfl1 : (1 : Int) ≤ ⌊1 / 400 * InSamplingRate⌋ := by
      rw [Int.le_floor]
      push_cast
      linarith
    have hfl2 : ⌊1 / 400 * InSamplingRate⌋ < 2147483648 := by
      rw [Int.floor_lt]
      push_cast
      linarith
    show 0 < CastInt32 (1 / 400 * InSamplingRate)
    rw [FRCurveExtendAssetProxy.castInt32_of_nonneg _ h0 (by omega)]
    omega
  · intro h1 h2
    have h0 : (0 : ℚ) ≤ 1 / 400 * InSamplingRate := by linarith
    have hfl : ⌊1 / 400 * InSamplingRate⌋ = 0 := by
      rw [Int.floor_eq_iff]
      push_cast
      constructor <;> linarith
    show CastInt32 (1 / 400 * InSamplingRate) = 0
    rw [FRCurveExtendAssetProxy.castInt32_of_nonneg _ h0 (by omega), hfl]

end FBurbleSoundGen

end ImpactSFX
